import Mathlib

/-!
# Dense feed-forward neural network engine: verification development

Shallow embedding of `src/src/matrix.c`, `src/src/layer.c` and
`src/src/neural_network.c`.

Modelling conventions.

* `double` is an arbitrary field `α` (exact arithmetic); concrete evaluations
  are carried out over `ℚ`, statements about `exp` over `ℝ`.
* A C pointer is an `Option`: `none` is `NULL`.  A function pointer is an
  `Option (FnPtr α)`; the only pointer comparison of the program, the test
  against the library function `softmax`, is the flag `FnPtr.isSoftmax`.
* `size_t` is 64 bits wide; the product `row * col` of `MatrixOps.create` is
  taken modulo `2 ^ 64`.  A count of layers (`hiddenLayerCount + 1`) does not wrap: the
  array it bounds is in storage.
* `malloc` always succeeds, and the byte count `row * col * sizeof(double)` of
  `MatrixOps.create` is taken not to wrap: the fresh storage holds `row * col` cells.  The
  content of fresh storage is indeterminate: it is the parameter `junk`.  A local variable that is read without ever being
  written is likewise a parameter of the function that reads it.
* Storage is the row-major list of cells.  In the value-level embedding (the namespaces
  `MatrixOps`, `LayerOps`, `NeuralNetworkOps`) a function returns what it writes, distinct
  handles denote distinct objects, and `free` is left out: a read of released storage
  yields the value last stored there.
* The namespace `Addressed` embeds the functions of `matrix.c` and `layer.c` that the
  claims about sharing need once more, with the pointer `data` as the address of a block:
  two handles may there have the same cells, and `updateWeights` reports the blocks that
  its call of `destroy` releases.
* The namespace `Tracked` embeds the constructor `create` of `neural_network.c` once more
  with its calls of `free`: its outcome is the value returned or the first step without
  defined behaviour (a read of released storage, a second `free`).
* The dataset traversal tables (`head`, `NodeOps`) and the helper
  `activationDerivativeToWeights`, which no source file defines, are modelled from the
  specification; the entry `jacobian`, absent from the initialiser of `LayerOps`, is taken
  to be the function `jacobian` of `layer.c`.
* An in-place operation returns its status code together with the receiver
  after the call.
* `src/src/list.c` is embedded over a heap of nodes: the address of a node is its index in
  the heap, `malloc` appends a node, `void*` data is a value of an arbitrary type.  The
  field `size` is not wrapped: every counted node is in storage.
-/

set_option autoImplicit false

namespace NeuralNet

/-! ## Loops and storage access -/

/-- The loop `for (i = 0; i < n; i++) s = body i s`. -/
def forLoop {σ : Type} (n : Nat) (body : Nat → σ → σ) (s : σ) : σ :=
  (List.range n).foldl (fun s i => body i s) s

/-- The read `data[i]` of a cell of storage. -/
def rd {α : Type} [Zero α] (data : List α) (i : Nat) : α := data.getD i 0

/-- Two to the sixty-fourth, the number of values of `size_t`. -/
def SIZE_MOD : Nat := 2 ^ 64

/-! ## matrix.c -/

/-- The record `MatrixStruct`. -/
structure MatrixStruct (α : Type) where
  row : Nat
  col : Nat
  data : Option (List α)

/-- The handle `Matrix`, a pointer to a `MatrixStruct`. -/
abbrev Matrix (α : Type) : Type := Option (MatrixStruct α)

namespace MatrixOps

variable {α : Type}

/-- Validity test `isValid` of matrix.c. -/
def isValid (matrix : Matrix α) : Bool :=
  match matrix with
  | none => false
  | some m =>
    if m.row = 0 ∨ m.col = 0 then false
    else if m.data.isNone then false
    else true

/-- Constructor `create` of matrix.c; `junk` is the content of the fresh storage. -/
def create (junk : Nat → α) (row col : Nat) : Matrix α :=
  let n := (row * col) % SIZE_MOD
  if n = 0 then none
  else some { row := row, col := col, data := some ((List.range (row * col)).map junk) }

/-- Accessor `getRow`. -/
def getRow (matrix : Matrix α) : Nat :=
  match matrix with
  | none => 0
  | some m => m.row

/-- Accessor `getCol`. -/
def getCol (matrix : Matrix α) : Nat :=
  match matrix with
  | none => 0
  | some m => m.col

/-- Reader `get`: the status code and the value stored through `value`, if any. -/
def get [Zero α] (matrix : Matrix α) (row col : Nat) : Int × Option α :=
  if isValid matrix = false then (-1, none)
  else
    match matrix with
    | none => (-1, none)
    | some m =>
      if row ≥ m.row ∨ col ≥ m.col then (-1, none)
      else
        match m.data with
        | none => (-1, none)
        | some d => (0, some (rd d (row * m.col + col)))

/-- Writer `set`: the status code and the matrix after the call. -/
def set (matrix : Matrix α) (row col : Nat) (value : α) : Int × Matrix α :=
  if isValid matrix = false then (-1, matrix)
  else
    match matrix with
    | none => (-1, matrix)
    | some m =>
      if row ≥ m.row ∨ col ≥ m.col then (-1, matrix)
      else
        match m.data with
        | none => (-1, matrix)
        | some d => (0, some { m with data := some (d.set (row * m.col + col) value) })

/-- Shape test `isSameShape`. -/
def isSameShape (matrix1 matrix2 : Matrix α) : Bool :=
  if !isValid matrix1 || !isValid matrix2 then false
  else
    match matrix1, matrix2 with
    | some m1, some m2 => if m1.row ≠ m2.row ∨ m1.col ≠ m2.col then false else true
    | _, _ => false

/-- Product `multiply` of matrix.c.  The result has the `row * col` cells of `create`: the
function is the one of the source when `rows(matrix1) * cols(matrix2)` is below `2 ^ 64` or
a multiple of it (for every other product the source writes past the storage it
allocates). -/
def multiply [Zero α] [Add α] [Mul α] (junk : Nat → α) (matrix1 matrix2 : Matrix α) :
    Matrix α :=
  if !isValid matrix1 || !isValid matrix2 then none
  else
    match matrix1, matrix2 with
    | some m1, some m2 =>
      match m1.data, m2.data with
      | some d1, some d2 =>
        let com := m1.col
        if com ≠ m2.row then none
        else
          let row := m1.row
          let col := m2.col
          let resultMatrix := create junk row col
          if !isValid resultMatrix then none
          else
            match resultMatrix with
            | some r =>
              match r.data with
              | some resultData =>
                some { r with data := some (
                  forLoop row (fun i resultData =>
                    forLoop col (fun j resultData =>
                      let acc := forLoop com (fun k acc =>
                        acc + rd d1 (i * com + k) * rd d2 (k * col + j)) 0
                      resultData.set (i * col + j) acc) resultData) resultData) }
              | none => none
            | none => none
      | _, _ => none
    | _, _ => none

/-- In-place sum `add`: the status code and `matrix1` after the call. -/
def add [Zero α] [Add α] (matrix1 matrix2 : Matrix α) : Int × Matrix α :=
  if isValid matrix1 = false ∨ isValid matrix2 = false then (-1, matrix1)
  else
    match matrix1, matrix2 with
    | some m1, some m2 =>
      if m1.row ≠ m2.row ∨ m1.col ≠ m2.col then (-1, matrix1)
      else
        match m1.data, m2.data with
        | some data1, some data2 =>
          let n := (m1.row * m1.col) % SIZE_MOD
          (0, some { m1 with data := some (
            forLoop n (fun i data1 => data1.set i (rd data1 i + rd data2 i)) data1) })
        | _, _ => (-1, matrix1)
    | _, _ => (-1, matrix1)

/-- In-place difference `subtract`: the status code and `matrix1` after the call. -/
def subtract [Zero α] [Sub α] (matrix1 matrix2 : Matrix α) : Int × Matrix α :=
  if isValid matrix1 = false ∨ isValid matrix2 = false then (-1, matrix1)
  else
    match matrix1, matrix2 with
    | some m1, some m2 =>
      if m1.row ≠ m2.row ∨ m1.col ≠ m2.col then (-1, matrix1)
      else
        match m1.data, m2.data with
        | some data1, some data2 =>
          let n := (m1.row * m1.col) % SIZE_MOD
          (0, some { m1 with data := some (
            forLoop n (fun i data1 => data1.set i (rd data1 i - rd data2 i)) data1) })
        | _, _ => (-1, matrix1)
    | _, _ => (-1, matrix1)

/-- In-place scaling `scalarMultiply`: the status code and the matrix after the call. -/
def scalarMultiply [Zero α] [Mul α] (matrix : Matrix α) (scalar : α) : Int × Matrix α :=
  if !isValid matrix then (-1, matrix)
  else
    match matrix with
    | some m =>
      match m.data with
      | some data =>
        let n := (m.row * m.col) % SIZE_MOD
        (0, some { m with data := some (
          forLoop n (fun i data => data.set i (rd data i * scalar)) data) })
      | none => (-1, matrix)
    | none => (-1, matrix)

/-- In-place map `applyToAllUnary`; `func` is a pointer to a unary function. -/
def applyToAllUnary [Zero α] (matrix : Matrix α) (func : Option (α → α)) : Int × Matrix α :=
  if !isValid matrix then (-1, matrix)
  else
    match func with
    | none => (-1, matrix)
    | some f =>
      match matrix with
      | some m =>
        match m.data with
        | some data =>
          let n := (m.row * m.col) % SIZE_MOD
          (0, some { m with data := some (
            forLoop n (fun i data => data.set i (f (rd data i))) data) })
        | none => (-1, matrix)
      | none => (-1, matrix)

/-- In-place map `applyToAllBinary` with the entry as first argument of `func`. -/
def applyToAllBinary [Zero α] (matrix : Matrix α) (func : α → α → α) (value : α) :
    Int × Matrix α :=
  if !isValid matrix then (-1, matrix)
  else
    match matrix with
    | some m =>
      match m.data with
      | some data =>
        let n := (m.row * m.col) % SIZE_MOD
        (0, some { m with data := some (
          forLoop n (fun i data => data.set i (func (rd data i) value)) data) })
      | none => (-1, matrix)
    | none => (-1, matrix)

/-- In-place combination `elementWise` of two matrices of one shape. -/
def elementWise [Zero α] (matrix1 matrix2 : Matrix α) (func : α → α → α) : Int × Matrix α :=
  if !isValid matrix1 || !isValid matrix2 then (-1, matrix1)
  else
    match matrix1, matrix2 with
    | some m1, some m2 =>
      if m1.row ≠ m2.row ∨ m1.col ≠ m2.col then (-1, matrix1)
      else
        match m1.data, m2.data with
        | some data1, some data2 =>
          let n := (m1.row * m1.col) % SIZE_MOD
          (0, some { m1 with data := some (
            forLoop n (fun i data1 => data1.set i (func (rd data1 i) (rd data2 i))) data1) })
        | _, _ => (-1, matrix1)
    | _, _ => (-1, matrix1)

/-- The block copy `memcpy(dst, src, n * sizeof(double))`. -/
def memcpy [Zero α] (dst src : List α) (n : Nat) : List α :=
  forLoop n (fun i dst => dst.set i (rd src i)) dst

/-- Duplicate `copy` of matrix.c. -/
def copy [Zero α] (junk : Nat → α) (matrix : Matrix α) : Matrix α :=
  if !isValid matrix then none
  else
    match matrix with
    | some m =>
      match m.data with
      | some data =>
        let row := m.row
        let col := m.col
        let resultMatrix := create junk row col
        if !isValid resultMatrix then none
        else
          match resultMatrix with
          | some r =>
            match r.data with
            | some resultData =>
              some { r with data := some (memcpy resultData data ((row * col) % SIZE_MOD)) }
            | none => none
          | none => none
      | none => none
    | none => none

/-- Out-of-place map `applyToAllUnaryOutOfPlace`. -/
def applyToAllUnaryOutOfPlace [Zero α] (junk : Nat → α) (matrix : Matrix α)
    (func : Option (α → α)) : Matrix α :=
  if !isValid matrix then none
  else
    let resultMatrix := copy junk matrix
    match resultMatrix with
    | none => none
    | some _ => (applyToAllUnary resultMatrix func).2

/-- Out-of-place combination `elementWiseOutOfPlace`. -/
def elementWiseOutOfPlace [Zero α] (junk : Nat → α) (matrix1 matrix2 : Matrix α)
    (func : α → α → α) : Matrix α :=
  if !isValid matrix1 || !isValid matrix2 then none
  else
    match matrix1, matrix2 with
    | some m1, some m2 =>
      if m1.row ≠ m2.row ∨ m1.col ≠ m2.col then none
      else
        let resultMatrix := copy junk matrix1
        match resultMatrix with
        | none => none
        | some _ => (elementWise resultMatrix matrix2 func).2
    | _, _ => none

/-- The binary function `mulFunc`. -/
def mulFunc [Mul α] (matrixValue value : α) : α := matrixValue * value

/-- Total `sum` of the entries: the status code and the value stored through `result`. -/
def sum [Zero α] [Add α] (matrix : Matrix α) : Int × Option α :=
  if !isValid matrix then (-1, none)
  else
    match matrix with
    | some m =>
      match m.data with
      | some data =>
        let n := (m.row * m.col) % SIZE_MOD
        (0, some (forLoop n (fun i result => result + rd data i) 0))
      | none => (-1, none)
    | none => (-1, none)

/-- Value assignment `assignValues`: the status code and `matrix1` after the call. -/
def assignValues [Zero α] (matrix1 matrix2 : Matrix α) : Int × Matrix α :=
  if !isValid matrix1 || !isValid matrix2 then (-1, matrix1)
  else if !isSameShape matrix1 matrix2 then (-1, matrix1)
  else
    match matrix1, matrix2 with
    | some m1, some m2 =>
      match m1.data, m2.data with
      | some data1, some data2 =>
        (0, some { m1 with data := some (memcpy data1 data2 ((m1.row * m1.col) % SIZE_MOD)) })
      | _, _ => (-1, matrix1)
    | _, _ => (-1, matrix1)

/-- Out-of-place sum `addOutOfPlace`; the status of the in-place call is not looked at. -/
def addOutOfPlace [Zero α] [Add α] (junk : Nat → α) (matrix1 matrix2 : Matrix α) : Matrix α :=
  if !isValid matrix1 || !isValid matrix2 then none
  else
    match matrix1, matrix2 with
    | some m1, some m2 =>
      if m1.row ≠ m2.row ∨ m1.col ≠ m2.col then none
      else
        let resultMatrix := copy junk matrix1
        match resultMatrix with
        | none => none
        | some _ => (add resultMatrix matrix2).2
    | _, _ => none

/-- Out-of-place difference `subtractOutOfPlace`. -/
def subtractOutOfPlace [Zero α] [Sub α] (junk : Nat → α) (matrix1 matrix2 : Matrix α) :
    Matrix α :=
  if !isValid matrix1 || !isValid matrix2 then none
  else
    match matrix1, matrix2 with
    | some m1, some m2 =>
      if m1.row ≠ m2.row ∨ m1.col ≠ m2.col then none
      else
        let resultMatrix := copy junk matrix1
        match resultMatrix with
        | none => none
        | some _ => (subtract resultMatrix matrix2).2
    | _, _ => none

/-- Out-of-place scaling `scalarMultiplyOutOfPlace`. -/
def scalarMultiplyOutOfPlace [Zero α] [Mul α] (junk : Nat → α) (matrix : Matrix α)
    (scalar : α) : Matrix α :=
  if !isValid matrix then none
  else
    let resultMatrix := copy junk matrix
    match resultMatrix with
    | none => none
    | some _ => (scalarMultiply resultMatrix scalar).2

/-- Out-of-place map `applyToAllBinaryOutOfPlace`. -/
def applyToAllBinaryOutOfPlace [Zero α] (junk : Nat → α) (matrix : Matrix α)
    (func : α → α → α) (value : α) : Matrix α :=
  if !isValid matrix then none
  else
    let resultMatrix := copy junk matrix
    match resultMatrix with
    | none => none
    | some _ => (applyToAllBinary resultMatrix func value).2

/-- The block copy `memcpy(dst + dstOff, src + srcOff, n * sizeof(double))`. -/
def memcpyAt [Zero α] (dst : List α) (dstOff : Nat) (src : List α) (srcOff n : Nat) :
    List α :=
  forLoop n (fun k dst => dst.set (dstOff + k) (rd src (srcOff + k))) dst

/-- Function `copySubMatrix` of matrix.c; its loop `for (i = rowStart; i <= rowEnd; i++)`
runs over `i = rowStart + t`, `t < rowEnd + 1 - rowStart`. -/
def copySubMatrix [Zero α] (junk : Nat → α) (matrix : Matrix α)
    (rowStart rowEnd colStart colEnd : Nat) : Matrix α :=
  if !isValid matrix then none
  else
    match matrix with
    | some m =>
      match m.data with
      | some data =>
        let row := m.row
        let col := m.col
        if rowStart ≥ row ∨ rowEnd ≥ row ∨ colStart ≥ col ∨ colEnd ≥ col then none
        else if rowStart > rowEnd ∨ colStart > colEnd then none
        else
          let newRow := rowEnd - rowStart + 1
          let newCol := colEnd - colStart + 1
          let resultMatrix := create junk newRow newCol
          if !isValid resultMatrix then none
          else
            match resultMatrix with
            | some r =>
              match r.data with
              | some toData =>
                some { r with data := some (
                  forLoop (rowEnd + 1 - rowStart) (fun t toData =>
                    let i := rowStart + t
                    memcpyAt toData ((i - rowStart) * newCol) data (i * col + colStart)
                      newCol) toData) }
              | none => none
            | none => none
      | none => none
    | none => none

/-- Function `appendRow` of matrix.c; the sums and products are those of `size_t`. -/
def appendRow [Zero α] (junk : Nat → α) (matrix row : Matrix α) : Matrix α :=
  if !isValid matrix || !isValid row then none
  else
    match matrix, row with
    | some m, some r =>
      match m.data, r.data with
      | some data1, some data2 =>
        let row1 := m.row
        let col1 := m.col
        let row2 := r.row
        let col2 := r.col
        let n := (row1 * col1) % SIZE_MOD
        if col1 ≠ col2 then none
        else
          let resultMatrix := create junk ((row1 + row2) % SIZE_MOD) col1
          if !isValid resultMatrix then none
          else
            match resultMatrix with
            | some res =>
              match res.data with
              | some toData =>
                some { res with data := some (
                  memcpyAt (memcpyAt toData 0 data1 0 n) n data2 0
                    ((row2 * col2) % SIZE_MOD)) }
              | none => none
            | none => none
      | _, _ => none
    | _, _ => none

/-- Function `appendCol` of matrix.c. -/
def appendCol [Zero α] (junk : Nat → α) (matrix col : Matrix α) : Matrix α :=
  if !isValid matrix || !isValid col then none
  else
    match matrix, col with
    | some m, some c =>
      match m.data, c.data with
      | some data1, some data2 =>
        let row1 := m.row
        let col1 := m.col
        let row2 := c.row
        let col2 := c.col
        if row1 ≠ row2 then none
        else
          let resultMatrix := create junk row1 ((col1 + col2) % SIZE_MOD)
          if !isValid resultMatrix then none
          else
            match resultMatrix with
            | some res =>
              match res.data with
              | some toData =>
                some { res with data := some (
                  forLoop row1 (fun i toData =>
                    memcpyAt (memcpyAt toData (i * (col1 + col2)) data1 (i * col1) col1)
                      (i * (col1 + col2) + col1) data2 (i * col2) col2) toData) }
              | none => none
            | none => none
      | _, _ => none
    | _, _ => none

/-- Reader `get` of matrix.c with its destination explicit: `value` is the pointer handed
in (`none` is `NULL`, `some x` a cell that holds `x`); the result is the status code and the
content of that cell after the call. -/
def getInto [Zero α] (matrix : Matrix α) (row col : Nat) (value : Option α) :
    Int × Option α :=
  if isValid matrix = false then (-1, value)
  else
    match matrix with
    | none => (-1, value)
    | some m =>
      if row ≥ m.row ∨ col ≥ m.col then (-1, value)
      else
        match value with
        | none => (-1, none)
        | some _ =>
          match m.data with
          | none => (-1, value)
          | some d => (0, some (rd d (row * m.col + col)))

/-- Function `transpose` of matrix.c. -/
def transpose [Zero α] (junk : Nat → α) (matrix : Matrix α) : Matrix α :=
  if !isValid matrix then none
  else
    match matrix with
    | some m =>
      match m.data with
      | some data =>
        let row := m.row
        let col := m.col
        let resultMatrix := create junk col row
        if !isValid resultMatrix then none
        else
          match resultMatrix with
          | some r =>
            match r.data with
            | some resultData =>
              some { r with data := some (
                forLoop row (fun i resultData =>
                  forLoop col (fun j resultData =>
                    resultData.set (j * row + i) (rd data (i * col + j))) resultData)
                  resultData) }
            | none => none
          | none => none
      | none => none
    | none => none

/-- Function `replace` of matrix.c: the status code and the content of the slot
`*oldMatrixAddr` after the call (`none` when the address itself is null). -/
def replace [Zero α] (junk : Nat → α) (oldMatrixAddr : Option (Matrix α))
    (newMatrix : Matrix α) : Int × Option (Matrix α) :=
  match oldMatrixAddr with
  | none => (-1, none)
  | some old =>
    if !isValid newMatrix then (-1, some old)
    else
      let matrix := copy junk newMatrix
      match matrix with
      | none => (-1, some old)
      | some _ => (0, some matrix)

end MatrixOps

/-! ## layer.c -/

/-- A pointer to a unary function; `isSoftmax` tells whether it is the address of `softmax`. -/
structure FnPtr (α : Type) where
  isSoftmax : Bool
  call : α → α

/-- The record `LayerStruct`. -/
structure LayerStruct (α : Type) where
  inputSize : Nat
  outputSize : Nat
  activationFunction : Option (FnPtr α)
  activationDerivative : Option (FnPtr α)
  weights : Matrix α

/-- The handle `Layer`, a pointer to a `LayerStruct`. -/
abbrev Layer (α : Type) : Type := Option (LayerStruct α)

namespace LayerOps

variable {α : Type}

/-- Constructor `create` of layer.c. -/
def create (junk : Nat → α) (inputSize outputSize : Nat)
    (activationFunction activationDerivative : Option (FnPtr α)) : Layer α :=
  if inputSize = 0 ∨ outputSize = 0 then none
  else if activationFunction.isNone then none
  else
    let weights := MatrixOps.create junk outputSize inputSize
    match weights with
    | none => none
    | some _ =>
      some { inputSize := inputSize, outputSize := outputSize,
             activationFunction := activationFunction,
             activationDerivative := activationDerivative, weights := weights }

/-- Accessor `getWeights`. -/
def getWeights (layer : Layer α) : Matrix α :=
  match layer with
  | none => none
  | some l => l.weights

/-- Accessor `getActivationFunction`. -/
def getActivationFunction (layer : Layer α) : Option (FnPtr α) :=
  match layer with
  | none => none
  | some l => l.activationFunction

/-- Accessor `getInputSize`. -/
def getInputSize (layer : Layer α) : Nat :=
  match layer with
  | none => 0
  | some l => l.inputSize

/-- Accessor `getOutputSize`. -/
def getOutputSize (layer : Layer α) : Nat :=
  match layer with
  | none => 0
  | some l => l.outputSize

/-- Validity test `isValid` of layer.c. -/
def isValid (layer : Layer α) : Bool :=
  match layer with
  | none => false
  | some l =>
    if l.inputSize = 0 ∨ l.outputSize = 0 then false
    else if l.activationFunction.isNone then false
    else if !MatrixOps.isValid l.weights then false
    else if MatrixOps.getCol l.weights ≠ l.inputSize ∨
        MatrixOps.getRow l.weights ≠ l.outputSize then false
    else true

/-- The step `h = 1e-6` of the central differences. -/
def h [Field α] : α := 1 / 1000000

/-- Central difference `numericalDerivative`. -/
def numericalDerivative [Field α] (f : α → α) (x : α) : α :=
  (f (x + h) - f (x - h)) / (2 * h)

/-- Function `calculateActivationDeriv` of layer.c.  Its local `activationFunction` is read
by the numerical branch without ever being written: it is a parameter here. -/
def calculateActivationDeriv [Field α] (activationFunction : α → α) (junk : Nat → α)
    (layer : Layer α) (input : Matrix α) : Matrix α :=
  if !isValid layer || !MatrixOps.isValid input then none
  else
    match layer with
    | none => none
    | some l =>
      let activationDerivative := l.activationDerivative
      let outputSize := l.outputSize
      let weights := l.weights
      let WmulX := MatrixOps.multiply junk weights input
      match WmulX with
      | none => none
      | some _ =>
        match activationDerivative with
        | some d =>
          let r := MatrixOps.applyToAllUnary WmulX (some d.call)
          if r.1 = -1 then none else r.2
        | none =>
          (forLoop outputSize (fun i (st : Option (Matrix α)) =>
            match st with
            | none => none
            | some WmulX =>
              let g := MatrixOps.get WmulX i 0
              let s := MatrixOps.set WmulX i 0
                (numericalDerivative activationFunction (g.2.getD 0))
              if g.1 ≠ 0 ∨ s.1 ≠ 0 then none else some s.2) (some WmulX)).join

/-- Function `updateWeights` of layer.c: the status code, the layer and the gradient after
the call.  The local `deltaWeights` is read without ever being written: it is a parameter,
here a null pointer or a matrix that is an object of its own.  The call
`MatrixOps.destroy(&deltaWeights)` of the path that returns 0 is left out;
`Addressed.updateWeights` has it, and lets `deltaWeights` be the handle of any matrix. -/
def updateWeights [Field α] (deltaWeights : Matrix α) (layer : Layer α) (gradient : Matrix α)
    (learningRate : α) : Int × Layer α × Matrix α :=
  match layer, gradient with
  | some l, some _ =>
    if !isValid layer || !MatrixOps.isValid gradient then (-1, layer, gradient)
    else
      let r := MatrixOps.scalarMultiply gradient learningRate
      if r.1 = -1 then (-1, layer, r.2)
      else
        let s := MatrixOps.subtract l.weights deltaWeights
        if s.1 = -1 then (-1, some { l with weights := s.2 }, r.2)
        else (0, some { l with weights := s.2 }, r.2)
  | _, _ => (-1, layer, gradient)

/-- Function `feedForward` of layer.c: the status code and `output` after the call. -/
def feedForward [Field α] (junk : Nat → α) (layer : Layer α) (input output : Matrix α) :
    Int × Matrix α :=
  match layer, input, output with
  | some l, some _, some _ =>
    if !isValid layer then (-1, output)
    else
      let result := MatrixOps.multiply junk l.weights input
      match result with
      | none => (-1, output)
      | some _ =>
        let r := MatrixOps.applyToAllUnary result (l.activationFunction.map FnPtr.call)
        if r.1 = -1 then (-1, output)
        else
          let a := MatrixOps.assignValues output r.2
          if a.1 = -1 then (-1, a.2) else (0, a.2)
  | _, _, _ => (-1, output)

/-- Modelled from the spec: the local activation derivative `activationDerivativeAt(z)`
of section 4.2, the analytic derivative when one is configured, the central difference
`(f(z+h) - f(z-h)) / (2h)` of the activation function otherwise. -/
def activationDerivativeAt [Field α] (l : LayerStruct α) (z : α) : α :=
  match l.activationDerivative with
  | some d => d.call z
  | none =>
    match l.activationFunction with
    | some f => numericalDerivative f.call z
    | none => 0

/-- Modelled from the spec: the helper `activationDerivativeToWeights`, which `jacobian`
calls and no source file defines.  Section 4.2: the matrix `z = W·input` with the local
activation derivative applied to every entry. -/
def activationDerivativeToWeights [Field α] (junk : Nat → α) (layer : Layer α)
    (input : Matrix α) : Matrix α :=
  match layer with
  | none => none
  | some l =>
    (MatrixOps.applyToAllUnary (MatrixOps.multiply junk l.weights input)
      (some (activationDerivativeAt l))).2

/-- Function `jacobian` of layer.c.  The state of its loops is the flag `err` together with
the matrix under construction. -/
def jacobian [Field α] (junk : Nat → α) (layer : Layer α) (input : Matrix α) : Matrix α :=
  match layer, input with
  | some l, some _ =>
    if !isValid layer then none
    else
      let outputSize := l.outputSize
      let inputSize := l.inputSize
      let weights := l.weights
      let activationDerivMatrix := activationDerivativeToWeights junk layer input
      let jacobian := MatrixOps.create junk outputSize inputSize
      match jacobian with
      | none => none
      | some _ =>
        let st := forLoop outputSize (fun i (st : Bool × Matrix α) =>
          let g := MatrixOps.get activationDerivMatrix i 0
          let err := st.1 || (g.1 != 0)
          let activationDeriv := g.2.getD 0
          forLoop inputSize (fun j (st : Bool × Matrix α) =>
            if st.1 then st
            else
              let gw := MatrixOps.get weights i j
              if gw.1 != 0 then (true, st.2)
              else
                let s := MatrixOps.set st.2 i j (gw.2.getD 0 * activationDeriv)
                (s.1 != 0, s.2)) (err, st.2)) (false, jacobian)
        if st.1 then none else st.2
  | _, _ => none

/-- Function `setWeights` of layer.c: the status code and the layer after the call. -/
def setWeights [Zero α] (junk : Nat → α) (layer : Layer α) (weights : Matrix α) :
    Int × Layer α :=
  match layer, weights with
  | some l, some _ =>
    if MatrixOps.getRow weights ≠ l.outputSize ∨ MatrixOps.getCol weights ≠ l.inputSize then
      (-1, layer)
    else
      let r := MatrixOps.replace junk (some l.weights) weights
      (r.1, some { l with weights := r.2.getD l.weights })
  | _, _ => (-1, layer)

end LayerOps

/-! ## datapoint.c and the dataset -/

/-- The record `DatapointStruct`. -/
structure DatapointStruct (α : Type) where
  input : Matrix α
  output : Matrix α

/-- The handle `Datapoint`, a pointer to a `DatapointStruct`. -/
abbrev Datapoint (α : Type) : Type := Option (DatapointStruct α)

/-- Modelled from the spec: the `Dataset`, whose traversal tables (`head` of the list
interface, `NodeOps`) no source file defines.  Sections 3 and 6: an ordered collection of
datapoints with a stable head/next traversal; the handle may be absent. -/
abbrev Dataset (α : Type) : Type := Option (List (Datapoint α))

namespace DatapointOps

variable {α : Type}

/-- Accessor `getInput`. -/
def getInput (datapoint : Datapoint α) : Matrix α :=
  match datapoint with
  | none => none
  | some d => d.input

/-- Accessor `getOutput`. -/
def getOutput (datapoint : Datapoint α) : Matrix α :=
  match datapoint with
  | none => none
  | some d => d.output

end DatapointOps

/-! ## neural_network.c -/

/-- The record `NeuralNetworkStruct`; `layers` is the array of `hiddenLayerCount + 1` layers. -/
structure NeuralNetworkStruct (α : Type) where
  inputSize : Nat
  outputSize : Nat
  hiddenLayerCount : Nat
  activationFunction : Option (FnPtr α)
  activationDerivative : Option (FnPtr α)
  errorFunction : Option (α → α → α)
  errorDerivative : Option (α → α → α)
  layers : List (Layer α)

/-- The handle `NeuralNetwork`. -/
abbrev NeuralNetwork (α : Type) : Type := Option (NeuralNetworkStruct α)

/-- The record `NeuralNetworkLayerStruct`, the specification of a hidden layer. -/
structure NeuralNetworkLayerStruct (α : Type) where
  inputSize : Nat
  outputSize : Nat
  activationFunction : Option (FnPtr α)
  activationDerivative : Option (FnPtr α)

/-- The handle `NeuralNetworkLayer`. -/
abbrev NeuralNetworkLayer (α : Type) : Type := Option (NeuralNetworkLayerStruct α)

namespace NeuralNetworkOps

variable {α : Type}

/-- The function `softmax`, `exp` being the exponential of the C library. -/
def softmax (exp : α → α) : FnPtr α := { isSoftmax := true, call := exp }

/-- The function `identity`. -/
def identity : FnPtr α := { isSoftmax := false, call := fun x => x }

/-- The function `identityDerivative`. -/
def identityDerivative [One α] : FnPtr α := { isSoftmax := false, call := fun _ => 1 }

/-- The comparison `activationFunction == softmax`. -/
def isSoftmaxPtr (activationFunction : Option (FnPtr α)) : Bool :=
  match activationFunction with
  | none => false
  | some f => f.isSoftmax

/-- The function `defaultErrorFunction`. -/
def defaultErrorFunction [Field α] (predicted target : α) : α :=
  let diff := predicted - target
  diff * diff

/-- The function `defaultErrorDerivative`. -/
def defaultErrorDerivative [Field α] (predicted target : α) : α :=
  2 * (predicted - target)

/-- The function `layerOf`. -/
def layerOf (inputSize outputSize : Nat)
    (activationFunction activationDerivative : Option (FnPtr α)) : NeuralNetworkLayer α :=
  some { inputSize := inputSize, outputSize := outputSize,
         activationFunction := activationFunction,
         activationDerivative := activationDerivative }

/-- The read `hiddenLayers[i]->outputSize`, whether or not the slot has been released;
`none` when the array, the slot or the specification is absent.  `Tracked.specOutputSize` is
the read with the released slots. -/
def specOutputSize (hiddenLayers : Option (List (NeuralNetworkLayer α))) (i : Nat) :
    Option Nat :=
  match hiddenLayers with
  | none => none
  | some specs =>
    match specs.getD i none with
    | none => none
    | some s => some s.outputSize

/-- The body of the loop over the other hidden layers of `create` (lines 161-176) for
`i = k + 1`, on the layers built so far, the calls of `free` left out; `none` once `create`
has returned `NULL`.  `Tracked.createHidden` is the body with the calls of `free`. -/
def createHidden (junk : Nat → α) (hiddenLayers : Option (List (NeuralNetworkLayer α)))
    (activationFunction activationDerivative : Option (FnPtr α))
    (st : Option (List (Layer α))) (k : Nat) : Option (List (Layer α)) :=
  let i := k + 1
  match st with
  | none => none
  | some layers =>
    match specOutputSize hiddenLayers (i - 1), specOutputSize hiddenLayers i with
    | some a, some b =>
      match LayerOps.create junk a b activationFunction activationDerivative with
      | none => none
      | some layer => some (layers ++ [some layer])
    | _, _ => none

/-- Constructor `create` of neural_network.c, its calls of `free` left out: the value that
the call computes when a released specification still reads as stored.  A read of an absent
specification yields no network.  With no hidden layer the function has no call of `free`
on a specification; `Tracked.create` is the constructor with the calls of `free`. -/
def create [Field α] (junk : Nat → α) (inputSize outputSize : Nat)
    (hiddenLayers : Option (List (NeuralNetworkLayer α))) (hiddenLayerCount : Nat)
    (activationFunction activationDerivative : Option (FnPtr α))
    (errorFunction errorDerivative : Option (α → α → α)) : NeuralNetwork α :=
  if inputSize = 0 ∨ outputSize = 0 ∨ (hiddenLayers.isNone ∧ hiddenLayerCount ≠ 0) ∨
      activationFunction.isNone then none
  else
    let errs : Option (α → α → α) × Option (α → α → α) :=
      if errorFunction.isNone then (some defaultErrorFunction, some defaultErrorDerivative)
      else (errorFunction, errorDerivative)
    let nn (layers : List (Layer α)) : NeuralNetworkStruct α :=
      { inputSize := inputSize, outputSize := outputSize,
        hiddenLayerCount := hiddenLayerCount,
        activationFunction := activationFunction,
        activationDerivative := activationDerivative,
        errorFunction := errs.1, errorDerivative := errs.2, layers := layers }
    if hiddenLayerCount = 0 then
      match LayerOps.create junk inputSize outputSize activationFunction
          activationDerivative with
      | none => none
      | some layer => some (nn [some layer])
    else
      match specOutputSize hiddenLayers 0 with
      | none => none
      | some h0 =>
        match LayerOps.create junk inputSize h0 activationFunction activationDerivative with
        | none => none
        | some layer0 =>
          let hidden := (List.range (hiddenLayerCount - 1)).foldl
            (createHidden junk hiddenLayers activationFunction activationDerivative)
            (some [some layer0])
          match hidden with
          | none => none
          | some layers =>
            let act : Option (FnPtr α) × Option (FnPtr α) :=
              if isSoftmaxPtr activationFunction then (some identity, some identityDerivative)
              else (activationFunction, activationDerivative)
            match specOutputSize hiddenLayers (hiddenLayerCount - 1) with
            | none => none
            | some hn =>
              match LayerOps.create junk hn outputSize act.1 act.2 with
              | none => none
              | some layer => some (nn (layers ++ [some layer]))

/-- Validity test `isValid` of neural_network.c; the loop state is `prevOutputSize`, or
`none` once the function has returned 0. -/
def isValid (nn : NeuralNetwork α) : Bool :=
  match nn with
  | none => false
  | some n =>
    let layerCount := n.hiddenLayerCount + 1
    let r := forLoop layerCount (fun i (st : Option Nat) =>
      match st with
      | none => none
      | some prevOutputSize =>
        let layer := n.layers.getD i none
        if layer.isNone || !LayerOps.isValid layer then none
        else if LayerOps.getInputSize layer ≠ prevOutputSize then none
        else some (LayerOps.getOutputSize layer)) (some n.inputSize)
    match r with
    | none => false
    | some prevOutputSize => if prevOutputSize ≠ n.outputSize then false else true

/-- The softmax stage of `feedForward` (lines 296-313): `none` when it returns -1. -/
def softmaxStage [Field α] (exp : α → α) (outputMatrix : Matrix α) : Option (Matrix α) :=
  let r := MatrixOps.applyToAllUnary outputMatrix (some (softmax exp).call)
  if r.1 = -1 then none
  else
    let s := MatrixOps.sum r.2
    if s.1 = -1 then none
    else
      let t := MatrixOps.applyToAllBinary r.2 MatrixOps.mulFunc (1 / s.2.getD 0)
      if t.1 = -1 then none else some t.2

/-- The body of the loop of `feedForward` that copies `input[i]` into the input matrix
(lines 262-267); the state is the matrix, or `none` once the function has returned -1. -/
def fillInput [Zero α] (inp : List α) (i : Nat) (st : Matrix α) : Matrix α :=
  match st with
  | none => none
  | some inputMatrix =>
    let s := MatrixOps.set (some inputMatrix) i 0 (rd inp i)
    if s.1 = -1 then none else s.2

/-- The body of the loop of `feedForward` over the layers (lines 270-292); the state is the
current input matrix, or `none` once the function has returned -1.  `LayerOps.getOutputSize`
takes the layer alone and returns its size, so the call
`getOutputSize(nn->layers[i], &outputSize)` leaves the local `outputSize` unwritten: it is a
parameter here. -/
def feedLayer [Field α] (outputSize : Nat) (junk : Nat → α) (layers : List (Layer α))
    (i : Nat) (st : Matrix α) : Matrix α :=
  match st with
  | none => none
  | some inputMatrix =>
    if LayerOps.getOutputSize (layers.getD i none) = SIZE_MOD - 1 then none
    else
      let outputMatrix := MatrixOps.create junk outputSize 1
      match outputMatrix with
      | none => none
      | some _ =>
        let r := LayerOps.feedForward junk (layers.getD i none) (some inputMatrix) outputMatrix
        if r.1 = -1 then none else r.2

/-- The body of the loop of `feedForward` that copies the result into `output`
(lines 316-321); the state is the flag "has returned -1" and the array. -/
def copyOutput [Zero α] (outputMatrix : Matrix α) (i : Nat) (st : Bool × List α) :
    Bool × List α :=
  if st.1 then st
  else
    let g := MatrixOps.get outputMatrix i 0
    if g.1 = -1 then (true, st.2) else (false, st.2.set i (g.2.getD 0))

/-- Function `feedForward` of neural_network.c (line 244), on arrays: the status code and
the array `output` after the call; `outputSize` is the never-written local of `feedLayer`. -/
def feedForward [Field α] (outputSize : Nat) (exp : α → α) (junk : Nat → α)
    (nn : NeuralNetwork α) (input output : Option (List α)) : Int × Option (List α) :=
  match nn, input, output with
  | some n, some inp, some out =>
    let inputMatrix := MatrixOps.create junk n.inputSize 1
    match inputMatrix with
    | none => (-1, output)
    | some _ =>
      let filled := forLoop n.inputSize (fillInput inp) inputMatrix
      match filled with
      | none => (-1, output)
      | some _ =>
        let fed := forLoop (n.hiddenLayerCount + 1) (feedLayer outputSize junk n.layers) filled
        match fed with
        | none => (-1, output)
        | some _ =>
          let staged := if isSoftmaxPtr n.activationFunction then softmaxStage exp fed
            else some fed
          match staged with
          | none => (-1, output)
          | some outputMatrix =>
            let copied := forLoop n.outputSize (copyOutput outputMatrix) (false, out)
            (if copied.1 then -1 else 0, some copied.2)
  | _, _, _ => (-1, output)

/-- Central difference `numericalErrorDerivative`; `none` when `f` is a null pointer, the
call through which does not return. -/
def numericalErrorDerivative [Field α] (f : Option (α → α → α)) (predicted target : α) :
    Option α :=
  match f with
  | none => none
  | some f => some ((f (predicted + LayerOps.h) target - f (predicted - LayerOps.h) target)
      / (2 * LayerOps.h))

/-- Function `calculateErrorDerivative`: `none` when the call does not return, `some none`
when it returns `NULL`.  The state of the loop is the flag `err` and the result matrix. -/
def calculateErrorDerivative [Field α] (junk : Nat → α) (nn : NeuralNetwork α)
    (predicted target : Matrix α) : Option (Matrix α) :=
  match nn, predicted, target with
  | some n, some _, some _ =>
    if !MatrixOps.isValid predicted || !MatrixOps.isValid target then some none
    else if MatrixOps.isSameShape predicted target = false then some none
    else
      match n.errorDerivative with
      | some errorDerivative =>
        some (MatrixOps.elementWiseOutOfPlace junk predicted target errorDerivative)
      | none =>
        let errorDerivative := MatrixOps.create junk (MatrixOps.getRow predicted) 1
        match errorDerivative with
        | none => some none
        | some _ =>
          let looped := forLoop (MatrixOps.getRow predicted)
            (fun i (st : Option (Bool × Matrix α)) =>
              match st with
              | none => none
              | some (err, errorDerivative) =>
                if err then some (err, errorDerivative)
                else
                  let p := MatrixOps.get predicted i 0
                  if p.1 ≠ 0 then some (true, errorDerivative)
                  else
                    let t := MatrixOps.get target i 0
                    if t.1 ≠ 0 then some (true, errorDerivative)
                    else
                      match numericalErrorDerivative n.errorDerivative
                          (p.2.getD 0) (t.2.getD 0) with
                      | none => none
                      | some v =>
                        let s := MatrixOps.set errorDerivative i 0 v
                        some (s.1 != 0, s.2))
            (some (false, errorDerivative))
          match looped with
          | none => none
          | some (err, errorDerivative) => if err then some none else some errorDerivative
  | _, _, _ => some none

/-- The body of the loop of the second `feedForward` (lines 689-703); the state is the flag
"has returned -1", the current layer input and the array `outputs`. -/
def feedLayerMatrix [Field α] (junk : Nat → α) (layers : List (Layer α)) (i : Nat)
    (st : Bool × Matrix α × List (Matrix α)) : Bool × Matrix α × List (Matrix α) :=
  if st.1 then st
  else
    let layer := layers.getD i none
    match layer with
    | none => (true, st.2)
    | some _ =>
      let r := LayerOps.feedForward junk layer st.2.1 (st.2.2.getD i none)
      if r.1 = -1 then (true, st.2.1, st.2.2.set i r.2)
      else (false, r.2, st.2.2.set i r.2)

/-- The second function named `feedForward` of neural_network.c (line 670), on matrices: the
status code and the array `outputs` after the call.  Its local `layerCount` is read without
ever being written: it is a parameter here. -/
def feedForwardMatrix [Field α] (layerCount : Nat) (exp : α → α) (junk : Nat → α)
    (nn : NeuralNetwork α) (input : Matrix α) (outputs : Option (List (Matrix α))) :
    Int × Option (List (Matrix α)) :=
  match nn, input, outputs with
  | some n, some _, some outs =>
    if !isValid nn then (-1, outputs)
    else
      let st := forLoop layerCount (feedLayerMatrix junk n.layers) (false, input, outs)
      if st.1 then (-1, some st.2.2)
      else if isSoftmaxPtr n.activationFunction then
        let outs := st.2.2
        let o := MatrixOps.applyToAllUnaryOutOfPlace junk
          (outs.getD ((layerCount + SIZE_MOD - 1) % SIZE_MOD) none) (some (softmax exp).call)
        match o with
        | none => (-1, some (outs.set layerCount o))
        | some _ =>
          let s := MatrixOps.sum o
          if s.1 = -1 then (-1, some (outs.set layerCount o))
          else
            let t := MatrixOps.scalarMultiply o (1 / s.2.getD 0)
            (if t.1 = -1 then -1 else 0, some (outs.set layerCount t.2))
      else (0, some st.2.2)
  | _, _, _ => (-1, outputs)

/-- The body of the loop over the layers of `gradientDescentStep` (lines 577-624) for
layer `i`, on the running error derivative and the array `gradients`; `none` when it sets
`err`, after which no matrix operation of the step is evaluated any more.  The entry
`jacobian`, which the initialiser of the table `LayerOps` leaves out, is the function
`jacobian` of layer.c. -/
def backwardLayer [Field α] (activationFunction : α → α) (junk : Nat → α)
    (layers : List (Layer α)) (datapoint_buf : Datapoint α) (outputs : List (Matrix α))
    (i : Nat) (st : Matrix α × List (Matrix α)) : Option (Matrix α × List (Matrix α)) :=
  let errorDerivative := st.1
  let gradients := st.2
  let layer := layers.getD i none
  let weights := LayerOps.getWeights layer
  if !LayerOps.isValid layer || !MatrixOps.isValid weights then none
  else
    let outputSize := LayerOps.getOutputSize layer
    let inputSize := LayerOps.getInputSize layer
    let input := if i = 0 then DatapointOps.getInput datapoint_buf else outputs.getD (i - 1) none
    let tmpMtr := LayerOps.calculateActivationDeriv activationFunction junk layer
      (outputs.getD i none)
    match tmpMtr with
    | none => none
    | some _ =>
      let currentDeriv := MatrixOps.multiply junk errorDerivative tmpMtr
      match currentDeriv with
      | none => none
      | some _ =>
        let gradient := MatrixOps.create junk outputSize inputSize
        match gradient with
        | none => none
        | some _ =>
          let filled := forLoop outputSize (fun j (st : Option (Matrix α)) =>
            forLoop inputSize (fun k (st : Option (Matrix α)) =>
              match st with
              | none => none
              | some gradient =>
                let d := MatrixOps.get currentDeriv j k
                if d.1 ≠ 0 then none
                else
                  let x := MatrixOps.get input k 0
                  if x.1 ≠ 0 then none
                  else
                    let s := MatrixOps.set gradient j k (d.2.getD 0 * x.2.getD 0)
                    if s.1 ≠ 0 then none else some s.2) st) (some gradient)
          match filled with
          | none => none
          | some gradient =>
            let summed : Option (List (Matrix α)) :=
              match gradients.getD i none with
              | none => some (gradients.set i gradient)
              | some g =>
                let a := MatrixOps.add (some g) gradient
                if a.1 ≠ 0 then none else some (gradients.set i a.2)
            match summed with
            | none => none
            | some gradients =>
              let jacobian := LayerOps.jacobian junk layer input
              match jacobian with
              | none => none
              | some _ =>
                let errorDerivative := MatrixOps.multiply junk errorDerivative jacobian
                match errorDerivative with
                | none => none
                | some _ => some (errorDerivative, gradients)

/-- The body of the loop over the datapoints of `gradientDescentStep` (lines 560-625), on
the arrays `outputs` and `gradients`: `none` when the step does not return, `some none`
when `err` is set. -/
def stepDatapoint [Field α] (layerCountFF : Nat) (activationFunction : α → α)
    (exp : α → α) (junk : Nat → α) (nn : NeuralNetwork α) (layerCount : Nat)
    (layers : List (Layer α)) (isSoftmax : Bool) (datapoint_buf : Datapoint α)
    (st : List (Matrix α) × List (Matrix α)) :
    Option (Option (List (Matrix α) × List (Matrix α))) :=
  let f := feedForwardMatrix layerCountFF exp junk nn
    (DatapointOps.getInput datapoint_buf) (some st.1)
  if f.1 ≠ 0 then some none
  else
    let outputs := f.2.getD []
    match calculateErrorDerivative junk nn
        (outputs.getD (if isSoftmax then layerCount else layerCount - 1) none)
        (DatapointOps.getOutput datapoint_buf) with
    | none => none
    | some none => some none
    | some errorDerivative =>
      let swept := (List.range layerCount).reverse.foldl
        (fun (st : Option (Matrix α × List (Matrix α))) i =>
          match st with
          | none => none
          | some st => backwardLayer activationFunction junk layers datapoint_buf outputs i st)
        (some (errorDerivative, st.2))
      match swept with
      | none => some none
      | some r => some (some (outputs, r.2))

/-- One turn of the `do ... while` loop of `gradientDescentStep` over the nodes of the
dataset: the state passes unchanged once the step has stopped returning (`none`) or `err`
is set (`some none`). -/
def stepNode [Field α] (layerCountFF : Nat) (activationFunction : α → α)
    (exp : α → α) (junk : Nat → α) (nn : NeuralNetwork α) (layerCount : Nat)
    (layers : List (Layer α)) (isSoftmax : Bool)
    (st : Option (Option (List (Matrix α) × List (Matrix α)))) (datapoint_buf : Datapoint α) :
    Option (Option (List (Matrix α) × List (Matrix α))) :=
  match st with
  | none => none
  | some none => some none
  | some (some st) =>
    stepDatapoint layerCountFF activationFunction exp junk nn layerCount layers isSoftmax
      datapoint_buf st

/-- The body of the loop that averages the gradients (lines 633-635); `none` when `err` is
set. -/
def averageGradient [Field α] (dataSize : Nat) (i : Nat) (st : Option (List (Matrix α))) :
    Option (List (Matrix α)) :=
  match st with
  | none => none
  | some gradients =>
    let r := MatrixOps.scalarMultiply (gradients.getD i none) (1 / (dataSize : α))
    if r.1 ≠ 0 then none else some (gradients.set i r.2)

/-- The body of the loop that updates the weights (lines 638-640); the state is the flag
`err` and the array of layers.  `deltaWeights i` is the never-written local of the call of
`updateWeights` for layer `i`. -/
def updateLayer [Field α] (deltaWeights : Nat → Matrix α) (gradients : List (Matrix α))
    (learningRate : α) (i : Nat) (st : Bool × List (Layer α)) : Bool × List (Layer α) :=
  if st.1 then st
  else
    let r := LayerOps.updateWeights (deltaWeights i) (st.2.getD i none)
      (gradients.getD i none) learningRate
    (r.1 != 0, st.2.set i r.2.1)

/-- Function `gradientDescentStep`: the status code and the network after the call, or
`none` when the call does not return.  Indeterminate values: `layerCountFF` is the local
`layerCount` of the forward sweep, `deltaWeights i` the local `deltaWeights` of the weight
update of layer `i`, `activationFunction` the local of `calculateActivationDeriv`. -/
def gradientDescentStep [LinearOrderedField α] (layerCountFF : Nat)
    (deltaWeights : Nat → Matrix α) (activationFunction : α → α) (exp : α → α)
    (junk : Nat → α) (nn : NeuralNetwork α) (dataset : Dataset α) (learningRate : α) :
    Option (Int × NeuralNetwork α) :=
  match nn, dataset with
  | some n, some ds =>
    if !isValid nn then some (-1, nn)
    else if learningRate ≤ 0 then some (-1, nn)
    else
      match ds with
      | [] => some (-1, nn)
      | _ :: _ =>
        let isSoftmax := isSoftmaxPtr n.activationFunction
        let layerCount := n.hiddenLayerCount + 1
        let layers := n.layers
        let gradients : List (Matrix α) := List.replicate layerCount none
        let outputs : List (Matrix α) :=
          (List.range layerCount).map (fun i =>
            MatrixOps.create junk (LayerOps.getOutputSize (layers.getD i none)) 1)
          ++ (if isSoftmax then [MatrixOps.create junk n.outputSize 1] else [])
        if outputs.any Option.isNone then some (-1, nn)
        else
          let looped := ds.foldl
            (stepNode layerCountFF activationFunction exp junk nn layerCount layers isSoftmax)
            (some (some (outputs, gradients)))
          match looped with
          | none => none
          | some none => some (-1, nn)
          | some (some st) =>
            let dataSize := ds.length
            let averaged := forLoop layerCount (averageGradient dataSize) (some st.2)
            match averaged with
            | none => some (-1, nn)
            | some gradients =>
              let updated := forLoop layerCount
                (updateLayer deltaWeights gradients learningRate) (false, layers)
              some (if updated.1 then -1 else 0, some { n with layers := updated.2 })
  | _, _ => some (-1, nn)

end NeuralNetworkOps

/-! ## matrix.c over addressed storage

For the claims about sharing, `create`, `copy`, `set` and `scalarMultiply` once more, with the
pointer `data` of a matrix as the address of a block of cells.  The fields `row` and `col` of
a record are written by `create` alone. -/

/-- The record `MatrixStruct`, its pointer `data` being the address of a block. -/
structure MatrixRef where
  row : Nat
  col : Nat
  data : Option Nat

/-- The record `LayerStruct`, its pointer `weights` being a handle whose cells lie in a
block. -/
structure LayerRef (α : Type) where
  inputSize : Nat
  outputSize : Nat
  activationFunction : Option (FnPtr α)
  activationDerivative : Option (FnPtr α)
  weights : Option MatrixRef

/-- The blocks of cells that `malloc` has handed out, by address: a fresh block is appended,
so that its address is the number of blocks before the call. -/
abbrev Blocks (α : Type) : Type := List (List α)

namespace Addressed

variable {α : Type}

/-- Validity test `isValid` of matrix.c. -/
def isValid (matrix : Option MatrixRef) : Bool :=
  match matrix with
  | none => false
  | some m =>
    if m.row = 0 ∨ m.col = 0 then false
    else if m.data.isNone then false
    else true

/-- Constructor `create` of matrix.c: the handle and the blocks after the call. -/
def create (junk : Nat → α) (blocks : Blocks α) (row col : Nat) :
    Option MatrixRef × Blocks α :=
  let n := (row * col) % SIZE_MOD
  if n = 0 then (none, blocks)
  else (some { row := row, col := col, data := some blocks.length },
    blocks ++ [(List.range (row * col)).map junk])

/-- Writer `set` of matrix.c: the status code and the blocks after the call. -/
def set (blocks : Blocks α) (matrix : Option MatrixRef) (row col : Nat) (value : α) :
    Int × Blocks α :=
  if isValid matrix = false then (-1, blocks)
  else
    match matrix with
    | none => (-1, blocks)
    | some m =>
      if row ≥ m.row ∨ col ≥ m.col then (-1, blocks)
      else
        match m.data with
        | none => (-1, blocks)
        | some a => (0, blocks.set a ((blocks.getD a []).set (row * m.col + col) value))

/-- In-place scaling `scalarMultiply`: the status code and the blocks after the call. -/
def scalarMultiply [Zero α] [Mul α] (blocks : Blocks α) (matrix : Option MatrixRef)
    (scalar : α) : Int × Blocks α :=
  if !isValid matrix then (-1, blocks)
  else
    match matrix with
    | some m =>
      match m.data with
      | some a =>
        let n := (m.row * m.col) % SIZE_MOD
        (0, blocks.set a
          (forLoop n (fun i data => data.set i (rd data i * scalar)) (blocks.getD a [])))
      | none => (-1, blocks)
    | none => (-1, blocks)

/-- Duplicate `copy` of matrix.c: the handle of the result and the blocks after the call. -/
def copy [Zero α] (junk : Nat → α) (blocks : Blocks α) (matrix : Option MatrixRef) :
    Option MatrixRef × Blocks α :=
  if !isValid matrix then (none, blocks)
  else
    match matrix with
    | some m =>
      match m.data with
      | some a =>
        let row := m.row
        let col := m.col
        let r := create junk blocks row col
        if !isValid r.1 then (none, r.2)
        else
          match r.1 with
          | some rm =>
            match rm.data with
            | some b =>
              (r.1, r.2.set b
                (MatrixOps.memcpy (r.2.getD b []) (r.2.getD a []) ((row * col) % SIZE_MOD)))
            | none => (none, r.2)
          | none => (none, r.2)
      | none => (none, blocks)
    | none => (none, blocks)

/-- Function `replace` of matrix.c: the status code, the content of the slot
`*oldMatrixAddr` after the call (`none` when the address itself is null) and the blocks
after the call. -/
def replace [Zero α] (junk : Nat → α) (blocks : Blocks α)
    (oldMatrixAddr : Option (Option MatrixRef)) (newMatrix : Option MatrixRef) :
    Int × Option (Option MatrixRef) × Blocks α :=
  match oldMatrixAddr with
  | none => (-1, none, blocks)
  | some old =>
    if !isValid newMatrix then (-1, some old, blocks)
    else
      let r := copy junk blocks newMatrix
      match r.1 with
      | none => (-1, some old, r.2)
      | some _ => (0, some r.1, r.2)

/-- The matrix that a handle denotes in the given blocks. -/
def load (blocks : Blocks α) (matrix : Option MatrixRef) : Matrix α :=
  match matrix with
  | none => none
  | some m => some { row := m.row, col := m.col, data := m.data.bind (fun a => blocks[a]?) }

/-- In-place sum `add` of matrix.c: the status code and the blocks after the call.  Every
turn of the loop reads `data1[i]` and `data2[i]` from the blocks as they are at that turn,
so that the two pointers may be one. -/
def add [Zero α] [Add α] (blocks : Blocks α) (matrix1 matrix2 : Option MatrixRef) :
    Int × Blocks α :=
  if isValid matrix1 = false ∨ isValid matrix2 = false then (-1, blocks)
  else
    match matrix1, matrix2 with
    | some m1, some m2 =>
      if m1.row ≠ m2.row ∨ m1.col ≠ m2.col then (-1, blocks)
      else
        match m1.data, m2.data with
        | some data1, some data2 =>
          let n := (m1.row * m1.col) % SIZE_MOD
          (0, forLoop n (fun i blocks =>
            blocks.set data1 ((blocks.getD data1 []).set i
              (rd (blocks.getD data1 []) i + rd (blocks.getD data2 []) i))) blocks)
        | _, _ => (-1, blocks)
    | _, _ => (-1, blocks)

/-- In-place difference `subtract` of matrix.c: the status code and the blocks after the
call. -/
def subtract [Zero α] [Sub α] (blocks : Blocks α) (matrix1 matrix2 : Option MatrixRef) :
    Int × Blocks α :=
  if isValid matrix1 = false ∨ isValid matrix2 = false then (-1, blocks)
  else
    match matrix1, matrix2 with
    | some m1, some m2 =>
      if m1.row ≠ m2.row ∨ m1.col ≠ m2.col then (-1, blocks)
      else
        match m1.data, m2.data with
        | some data1, some data2 =>
          let n := (m1.row * m1.col) % SIZE_MOD
          (0, forLoop n (fun i blocks =>
            blocks.set data1 ((blocks.getD data1 []).set i
              (rd (blocks.getD data1 []) i - rd (blocks.getD data2 []) i))) blocks)
        | _, _ => (-1, blocks)
    | _, _ => (-1, blocks)

/-- In-place combination `elementWise` of matrix.c: the status code and the blocks after the
call. -/
def elementWise [Zero α] (blocks : Blocks α) (matrix1 matrix2 : Option MatrixRef)
    (func : α → α → α) : Int × Blocks α :=
  if !isValid matrix1 || !isValid matrix2 then (-1, blocks)
  else
    match matrix1, matrix2 with
    | some m1, some m2 =>
      if m1.row ≠ m2.row ∨ m1.col ≠ m2.col then (-1, blocks)
      else
        match m1.data, m2.data with
        | some data1, some data2 =>
          let n := (m1.row * m1.col) % SIZE_MOD
          (0, forLoop n (fun i blocks =>
            blocks.set data1 ((blocks.getD data1 []).set i
              (func (rd (blocks.getD data1 []) i) (rd (blocks.getD data2 []) i)))) blocks)
        | _, _ => (-1, blocks)
    | _, _ => (-1, blocks)

/-- Accessor `getRow` of matrix.c. -/
def getRow (matrix : Option MatrixRef) : Nat :=
  match matrix with
  | none => 0
  | some m => m.row

/-- Accessor `getCol` of matrix.c. -/
def getCol (matrix : Option MatrixRef) : Nat :=
  match matrix with
  | none => 0
  | some m => m.col

/-- Shape test `isSameShape` of matrix.c. -/
def isSameShape (matrix1 matrix2 : Option MatrixRef) : Bool :=
  if !isValid matrix1 || !isValid matrix2 then false
  else
    match matrix1, matrix2 with
    | some m1, some m2 => if m1.row ≠ m2.row ∨ m1.col ≠ m2.col then false else true
    | _, _ => false

/-- Product `multiply` of matrix.c: the handle of the result and the blocks after the call.
Every read of `matrix1->data` and `matrix2->data` is a read of the blocks as they are at that
turn of the loops. -/
def multiply [Zero α] [Add α] [Mul α] (junk : Nat → α) (blocks : Blocks α)
    (matrix1 matrix2 : Option MatrixRef) : Option MatrixRef × Blocks α :=
  if !isValid matrix1 || !isValid matrix2 then (none, blocks)
  else
    match matrix1, matrix2 with
    | some m1, some m2 =>
      match m1.data, m2.data with
      | some data1, some data2 =>
        let com := m1.col
        if com ≠ m2.row then (none, blocks)
        else
          let row := m1.row
          let col := m2.col
          let r := create junk blocks row col
          if !isValid r.1 then (none, r.2)
          else
            match r.1 with
            | some rm =>
              match rm.data with
              | some resultData =>
                (r.1, forLoop row (fun i blocks =>
                  forLoop col (fun j blocks =>
                    let acc := forLoop com (fun k acc =>
                      acc + rd (blocks.getD data1 []) (i * com + k)
                        * rd (blocks.getD data2 []) (k * col + j)) 0
                    blocks.set resultData
                      ((blocks.getD resultData []).set (i * col + j) acc)) blocks) r.2)
              | none => (none, r.2)
            | none => (none, r.2)
      | _, _ => (none, blocks)
    | _, _ => (none, blocks)

/-- In-place map `applyToAllUnary` of matrix.c: the status code and the blocks after the
call. -/
def applyToAllUnary [Zero α] (blocks : Blocks α) (matrix : Option MatrixRef)
    (func : Option (α → α)) : Int × Blocks α :=
  if !isValid matrix then (-1, blocks)
  else
    match func with
    | none => (-1, blocks)
    | some f =>
      match matrix with
      | some m =>
        match m.data with
        | some a =>
          let n := (m.row * m.col) % SIZE_MOD
          (0, blocks.set a
            (forLoop n (fun i data => data.set i (f (rd data i))) (blocks.getD a [])))
        | none => (-1, blocks)
      | none => (-1, blocks)

/-- Function `assignValues` of matrix.c: the status code and the blocks after the call. -/
def assignValues [Zero α] (blocks : Blocks α) (matrix1 matrix2 : Option MatrixRef) :
    Int × Blocks α :=
  if !isValid matrix1 || !isValid matrix2 then (-1, blocks)
  else if !isSameShape matrix1 matrix2 then (-1, blocks)
  else
    match matrix1, matrix2 with
    | some m1, some m2 =>
      match m1.data, m2.data with
      | some data1, some data2 =>
        (0, blocks.set data1 (MatrixOps.memcpy (blocks.getD data1 []) (blocks.getD data2 [])
          ((m1.row * m1.col) % SIZE_MOD)))
      | _, _ => (-1, blocks)
    | _, _ => (-1, blocks)

/-- Validity test `isValid` of layer.c. -/
def layerIsValid (layer : Option (LayerRef α)) : Bool :=
  match layer with
  | none => false
  | some l =>
    if l.inputSize = 0 ∨ l.outputSize = 0 then false
    else if l.activationFunction.isNone then false
    else if !isValid l.weights then false
    else if getCol l.weights ≠ l.inputSize ∨ getRow l.weights ≠ l.outputSize then false
    else true

/-- Function `feedForward` of layer.c: the status code and the blocks after the call.  The
release of `result`, a block of its own, is left out. -/
def feedForward [Field α] (junk : Nat → α) (blocks : Blocks α) (layer : Option (LayerRef α))
    (input output : Option MatrixRef) : Int × Blocks α :=
  match layer, input, output with
  | some l, some _, some _ =>
    if !layerIsValid layer then (-1, blocks)
    else
      let result := multiply junk blocks l.weights input
      match result.1 with
      | none => (-1, result.2)
      | some _ =>
        let r := applyToAllUnary result.2 result.1 (l.activationFunction.map FnPtr.call)
        if r.1 = -1 then (-1, r.2)
        else
          let a := assignValues r.2 output result.1
          if a.1 = -1 then (-1, a.2) else (0, a.2)
  | _, _, _ => (-1, blocks)

/-- The layer that a layer handle denotes in the given blocks. -/
def loadLayer (blocks : Blocks α) (layer : Option (LayerRef α)) : Layer α :=
  match layer with
  | none => none
  | some l =>
    some { inputSize := l.inputSize, outputSize := l.outputSize,
           activationFunction := l.activationFunction,
           activationDerivative := l.activationDerivative,
           weights := load blocks l.weights }

/-- Function `destroy` of matrix.c, called on the address of a handle: the addresses of the
blocks that it releases (the block of cells of the matrix, when the handle and its pointer
`data` are not null). -/
def destroy (matrixAddr : Option (Option MatrixRef)) : List Nat :=
  match matrixAddr with
  | none => []
  | some none => []
  | some (some m) =>
    match m.data with
    | some data => [data]
    | none => []

/-- Function `updateWeights` of layer.c: the status code, the blocks after the call and the
addresses of the blocks that the call has released.  The local `deltaWeights` is read
without ever being written: the handle it holds is a parameter, and it may be the handle of
any matrix, that of the weights included. -/
def updateWeights [Field α] (deltaWeights : Option MatrixRef) (blocks : Blocks α)
    (layer : Option (LayerRef α)) (gradient : Option MatrixRef) (learningRate : α) :
    Int × Blocks α × List Nat :=
  match layer, gradient with
  | some l, some _ =>
    if !layerIsValid layer || !isValid gradient then (-1, blocks, [])
    else
      let r := scalarMultiply blocks gradient learningRate
      if r.1 = -1 then (-1, r.2, [])
      else
        let s := subtract r.2 l.weights deltaWeights
        if s.1 = -1 then (-1, s.2, [])
        else (0, s.2, destroy (some deltaWeights))
  | _, _ => (-1, blocks, [])

end Addressed

/-! ## neural_network.c: `create` with the lifetime of the specifications

Constructor `create` once more, with the calls of `free` on the hidden-layer specifications:
a slot of the array `hiddenLayers` that has been passed to `free` is released, and a read
through it, or a second `free` of it, is a step without defined behaviour.  The slots hold
distinct objects, and a slot outside the array reads as a null pointer. -/

/-- A step that the C language gives no defined behaviour. -/
inductive Fault where
  | useAfterFree (slot : Nat)
  | doubleFree (slot : Nat)
  | nullDereference
  | uninitialisedRead

/-- The outcome of a call: the value it returns, or the first step without defined
behaviour that it takes. -/
inductive Outcome (β : Type) where
  | returned (value : β)
  | fault (step : Fault)

namespace Tracked

variable {α : Type}

/-- The read `hiddenLayers[i]->outputSize` when the slots `freed` have been released. -/
def specOutputSize (hiddenLayers : Option (List (NeuralNetworkLayer α))) (freed : List Nat)
    (i : Nat) : Outcome Nat :=
  match hiddenLayers with
  | none => Outcome.fault Fault.nullDereference
  | some specs =>
    match specs.getD i none with
    | none => Outcome.fault Fault.nullDereference
    | some s =>
      if i ∈ freed then Outcome.fault (Fault.useAfterFree i)
      else Outcome.returned s.outputSize

/-- The call `free(hiddenLayers[i])` when the slots `freed` have been released: the released
slots after the call (`free` of a null pointer does nothing). -/
def free (hiddenLayers : Option (List (NeuralNetworkLayer α))) (freed : List Nat)
    (i : Nat) : Outcome (List Nat) :=
  match hiddenLayers with
  | none => Outcome.fault Fault.nullDereference
  | some specs =>
    match specs.getD i none with
    | none => Outcome.returned freed
    | some _ =>
      if i ∈ freed then Outcome.fault (Fault.doubleFree i)
      else Outcome.returned (i :: freed)

/-- The loop `for (i = 0; i < hiddenLayerCount; i++) free(hiddenLayers[i]);` of the error
paths of `create`. -/
def freeAll (hiddenLayers : Option (List (NeuralNetworkLayer α))) (hiddenLayerCount : Nat)
    (freed : List Nat) : Outcome (List Nat) :=
  (List.range hiddenLayerCount).foldl (fun st i =>
    match st with
    | Outcome.returned freed => free hiddenLayers freed i
    | Outcome.fault step => Outcome.fault step) (Outcome.returned freed)

/-- The body of the loop over the other hidden layers of `create` (lines 161-176) for
`i = k + 1`, on the layers built and the slots released so far; the two arguments
`hiddenLayers[i - 1]->outputSize` and `hiddenLayers[i]->outputSize` are read in this order.
When `LayerOps.create` returns `NULL` the body calls `LayerOps.destroy(&layers[i])` on the
slot `layers[i]`, which has not been assigned. -/
def createHidden (junk : Nat → α) (hiddenLayers : Option (List (NeuralNetworkLayer α)))
    (activationFunction activationDerivative : Option (FnPtr α))
    (st : Outcome (List (Layer α) × List Nat)) (k : Nat) :
    Outcome (List (Layer α) × List Nat) :=
  let i := k + 1
  match st with
  | Outcome.fault step => Outcome.fault step
  | Outcome.returned (layers, freed) =>
    match specOutputSize hiddenLayers freed (i - 1) with
    | Outcome.fault step => Outcome.fault step
    | Outcome.returned a =>
      match specOutputSize hiddenLayers freed i with
      | Outcome.fault step => Outcome.fault step
      | Outcome.returned b =>
        match LayerOps.create junk a b activationFunction activationDerivative with
        | none => Outcome.fault Fault.uninitialisedRead
        | some layer =>
          match free hiddenLayers freed i with
          | Outcome.fault step => Outcome.fault step
          | Outcome.returned freed => Outcome.returned (layers ++ [some layer], freed)

/-- Constructor `create` of neural_network.c with the lifetime of the specifications. -/
def create [Field α] (junk : Nat → α) (inputSize outputSize : Nat)
    (hiddenLayers : Option (List (NeuralNetworkLayer α))) (hiddenLayerCount : Nat)
    (activationFunction activationDerivative : Option (FnPtr α))
    (errorFunction errorDerivative : Option (α → α → α)) : Outcome (NeuralNetwork α) :=
  if inputSize = 0 ∨ outputSize = 0 ∨ (hiddenLayers.isNone ∧ hiddenLayerCount ≠ 0) ∨
      activationFunction.isNone then
    match freeAll hiddenLayers hiddenLayerCount [] with
    | Outcome.fault step => Outcome.fault step
    | Outcome.returned _ => Outcome.returned none
  else
    let errs : Option (α → α → α) × Option (α → α → α) :=
      if errorFunction.isNone then
        (some NeuralNetworkOps.defaultErrorFunction,
          some NeuralNetworkOps.defaultErrorDerivative)
      else (errorFunction, errorDerivative)
    let nn (layers : List (Layer α)) : NeuralNetworkStruct α :=
      { inputSize := inputSize, outputSize := outputSize,
        hiddenLayerCount := hiddenLayerCount,
        activationFunction := activationFunction,
        activationDerivative := activationDerivative,
        errorFunction := errs.1, errorDerivative := errs.2, layers := layers }
    if hiddenLayerCount = 0 then
      match LayerOps.create junk inputSize outputSize activationFunction
          activationDerivative with
      | none => Outcome.returned none
      | some layer => Outcome.returned (some (nn [some layer]))
    else
      match specOutputSize hiddenLayers [] 0 with
      | Outcome.fault step => Outcome.fault step
      | Outcome.returned h0 =>
        match LayerOps.create junk inputSize h0 activationFunction activationDerivative with
        | none =>
          match freeAll hiddenLayers hiddenLayerCount [] with
          | Outcome.fault step => Outcome.fault step
          | Outcome.returned _ => Outcome.returned none
        | some layer0 =>
          match free hiddenLayers [] 0 with
          | Outcome.fault step => Outcome.fault step
          | Outcome.returned freed =>
            let hidden := (List.range (hiddenLayerCount - 1)).foldl
              (createHidden junk hiddenLayers activationFunction activationDerivative)
              (Outcome.returned ([some layer0], freed))
            match hidden with
            | Outcome.fault step => Outcome.fault step
            | Outcome.returned (layers, freed) =>
              let act : Option (FnPtr α) × Option (FnPtr α) :=
                if NeuralNetworkOps.isSoftmaxPtr activationFunction then
                  (some NeuralNetworkOps.identity, some NeuralNetworkOps.identityDerivative)
                else (activationFunction, activationDerivative)
              match specOutputSize hiddenLayers freed (hiddenLayerCount - 1) with
              | Outcome.fault step => Outcome.fault step
              | Outcome.returned hn =>
                let layer := LayerOps.create junk hn outputSize act.1 act.2
                match free hiddenLayers freed (hiddenLayerCount - 1) with
                | Outcome.fault step => Outcome.fault step
                | Outcome.returned _ =>
                  match layer with
                  | none => Outcome.returned none
                  | some layer => Outcome.returned (some (nn (layers ++ [some layer])))

end Tracked

/-! ## list.c -/

/-- The record `Node` of list.c; the pointer `next` is the address of a node. -/
structure Node (δ : Type) where
  data : δ
  next : Option Nat

/-- The record `ListStruct` of list.c; `head` and `tail` are addresses of nodes. -/
structure ListStruct where
  head : Option Nat
  tail : Option Nat
  size : Nat

namespace ListOps

variable {δ : Type}

/-- Constructor `create` of list.c. -/
def create : Option ListStruct := some { head := none, tail := none, size := 0 }

/-- Function `size` of list.c. -/
def size (list : Option ListStruct) : Nat :=
  match list with
  | none => 0
  | some l => l.size

/-- Function `isEmpty` of list.c. -/
def isEmpty (list : Option ListStruct) : Int :=
  match list with
  | none => -1
  | some l => if l.size = 0 then 1 else 0

/-- Function `push` of list.c: the status code, the heap and the list after the call;
`none` when the call does not return (the write `current->next` through a pointer that is
null or dangling). -/
def push (heap : List (Node δ)) (list : Option ListStruct) (data : δ) :
    Option (Int × List (Node δ) × Option ListStruct) :=
  match list with
  | none => some (-1, heap, list)
  | some l =>
    let node := heap.length
    let heap := heap ++ [{ data := data, next := none }]
    if isEmpty list ≠ 0 then
      some (0, heap, some { l with head := some node, tail := some node, size := l.size + 1 })
    else
      match l.tail with
      | none => none
      | some current =>
        match heap[current]? with
        | none => none
        | some c =>
          some (0, heap.set current { c with next := some node },
            some { l with tail := some node, size := l.size + 1 })

/-- The `while` loop of `pop` (lines 143-146), started with `fuel` turns: the pointers
`prev` and `node` when it is left, `none` when a pointer it follows is dangling or the
turns run out.  With as many turns as the heap has nodes, running out of turns means that
the loop has come back to a node and does not end. -/
def popLoop (heap : List (Node δ)) : Nat → Option Nat → Nat → Option (Option Nat × Nat)
  | 0, _, _ => none
  | fuel + 1, prev, node =>
    match heap[node]? with
    | none => none
    | some c =>
      match c.next with
      | none => some (prev, node)
      | some next => popLoop heap fuel (some node) next

/-- Function `pop` of list.c: the status code, the heap and the list after the call and the
value stored to `*data` (`none` when nothing is stored); `none` when the call does not
return. -/
def pop (heap : List (Node δ)) (list : Option ListStruct) :
    Option (Int × List (Node δ) × Option ListStruct × Option δ) :=
  match list with
  | none => some (-1, heap, list, none)
  | some l =>
    if isEmpty list ≠ 0 then some (-1, heap, list, none)
    else
      match l.head with
      | none => none
      | some head =>
        match popLoop heap heap.length none head with
        | none => none
        | some (prev, node) =>
          match prev with
          | none =>
            match heap[node]? with
            | none => none
            | some c =>
              some (0, heap, some { l with head := none, tail := none, size := l.size - 1 },
                some c.data)
          | some p =>
            match heap[p]? with
            | none => none
            | some pc =>
              let heap := heap.set p { pc with next := none }
              match heap[node]? with
              | none => none
              | some c =>
                some (0, heap, some { l with tail := some p, size := l.size - 1 },
                  some c.data)

/-- Function `peek` of list.c: the status code and the value stored to `*data`; `none` when
the call does not return. -/
def peek (heap : List (Node δ)) (list : Option ListStruct) : Option (Int × Option δ) :=
  match list with
  | none => some (-1, none)
  | some l =>
    if isEmpty list ≠ 0 then some (-1, none)
    else
      match l.tail with
      | none => none
      | some node =>
        match heap[node]? with
        | none => none
        | some c => some (0, some c.data)

end ListOps

/-! ## Representation predicates used in the statements -/

/-- The nodes at the addresses `addrs` are linked in this order from the pointer `start`,
hold the data `xs`, and the pointer `next` of the last of them is `stop`. -/
def Seg {δ : Type} (heap : List (Node δ)) :
    Option Nat → List Nat → List δ → Option Nat → Prop
  | start, [], [], stop => start = stop
  | start, a :: addrs, x :: xs, stop =>
    start = some a ∧ ∃ next, heap[a]? = some { data := x, next := next } ∧
      Seg heap next addrs xs stop
  | _, _, _, _ => False

/-- The list record `l` holds the sequence `xs` in the heap: a chain of distinct nodes from
`head` to `tail` that ends with a null pointer `next`, and `size` counts them. -/
def Holds {δ : Type} (heap : List (Node δ)) (l : ListStruct) (xs : List δ) : Prop :=
  ∃ addrs : List Nat, addrs.Nodup ∧ Seg heap l.head addrs xs none ∧
    l.tail = addrs.getLast? ∧ l.size = xs.length


/-- Representation invariant of a matrix in memory: its storage, when present, holds exactly
`row * col` cells, and that many cells fit the 64-bit address space. -/
def Rep {α : Type} (m : Matrix α) : Prop :=
  ∀ s d, m = some s → s.data = some d → d.length = s.row * s.col ∧ s.row * s.col < SIZE_MOD

/-- The value of entry `[i, j]` as `MatrixOps.get` reports it. -/
def entry {α : Type} [Zero α] (m : Matrix α) (i j : Nat) : α := (MatrixOps.get m i j).2.getD 0

/-- The matrix with the given shape and row-major cells. -/
def mk {α : Type} (row col : Nat) (cells : List α) : Matrix α :=
  some { row := row, col := col, data := some cells }

/-- The layer with one input, one output, the weight `w`, the activation `f` and the
analytic derivative `dfn`. -/
def layer1 {α : Type} (w : α) (f dfn : FnPtr α) : Layer α :=
  some { inputSize := 1, outputSize := 1, activationFunction := some f,
         activationDerivative := some dfn, weights := mk 1 1 [w] }

/-- The size at the boundary in front of layer `k` of a network: the network input size
for `k = 0`, the output size of layer `k - 1` otherwise. -/
def boundary {α : Type} (n : NeuralNetworkStruct α) (k : Nat) : Nat :=
  if k = 0 then n.inputSize else LayerOps.getOutputSize (n.layers.getD (k - 1) none)

/-! ## Concrete inputs -/

/-- The left operand of `test_multiply`. -/
def exA : Matrix ℚ := mk 2 3 [1, 2, 3, 4, 5, 6]

/-- A layer from two inputs to one output with weights `[[1, 2]]` and the identity as
activation. -/
def exLayer : Layer ℚ :=
  some { inputSize := 2, outputSize := 1,
         activationFunction := some NeuralNetworkOps.identity,
         activationDerivative := some NeuralNetworkOps.identityDerivative,
         weights := mk 1 2 [1, 2] }

/-- The input column `[3, 4]`. -/
def exInput : Matrix ℚ := mk 2 1 [3, 4]

/-- A `1 x 1` output matrix. -/
def exOutput : Matrix ℚ := mk 1 1 [0]

/-- The layer of the training scenario: one input, one output, weight 2, identity
activation with derivative 1. -/
def exLayer1 : Layer ℚ :=
  some { inputSize := 1, outputSize := 1,
         activationFunction := some NeuralNetworkOps.identity,
         activationDerivative := some NeuralNetworkOps.identityDerivative,
         weights := mk 1 1 [2] }

/-- The layer `exLayer1` with its weight replaced by `w`. -/
def exLayer1With (w : ℚ) : Layer ℚ :=
  some { inputSize := 1, outputSize := 1,
         activationFunction := some NeuralNetworkOps.identity,
         activationDerivative := some NeuralNetworkOps.identityDerivative,
         weights := mk 1 1 [w] }

/-- Two hidden-layer specifications, of widths 3 and 2. -/
def exSpecs : Option (List (NeuralNetworkLayer ℚ)) :=
  some [NeuralNetworkOps.layerOf 2 3 none none, NeuralNetworkOps.layerOf 3 2 none none]

/-- The network of the training scenario: no hidden layer, one input, one output, the
single weight 2, identity activation, squared-error loss. -/
def exNet : NeuralNetwork ℚ :=
  some { inputSize := 1, outputSize := 1, hiddenLayerCount := 0,
         activationFunction := some NeuralNetworkOps.identity,
         activationDerivative := some NeuralNetworkOps.identityDerivative,
         errorFunction := some NeuralNetworkOps.defaultErrorFunction,
         errorDerivative := some NeuralNetworkOps.defaultErrorDerivative,
         layers := [exLayer1] }

/-- The dataset of the training scenario: the single datapoint `(3, 5)`. -/
def exData : Dataset ℚ := some [some { input := mk 1 1 [3], output := mk 1 1 [5] }]

/-- Two layers `1 -> 2` and `2 -> 1`, all weights 1, identity activation. -/
def exLayers2 : List (Layer ℚ) :=
  [some { inputSize := 1, outputSize := 2,
          activationFunction := some NeuralNetworkOps.identity,
          activationDerivative := some NeuralNetworkOps.identityDerivative,
          weights := mk 2 1 [1, 1] },
   some { inputSize := 2, outputSize := 1,
          activationFunction := some NeuralNetworkOps.identity,
          activationDerivative := some NeuralNetworkOps.identityDerivative,
          weights := mk 1 2 [1, 1] }]

/-- A network with one hidden layer of width 2, made of the layers `exLayers2`. -/
def exNet2 : NeuralNetwork ℚ :=
  some { inputSize := 1, outputSize := 1, hiddenLayerCount := 1,
         activationFunction := some NeuralNetworkOps.identity,
         activationDerivative := some NeuralNetworkOps.identityDerivative,
         errorFunction := some NeuralNetworkOps.defaultErrorFunction,
         errorDerivative := some NeuralNetworkOps.defaultErrorDerivative,
         layers := exLayers2 }

/-- The network `exNet` with its single weight replaced by `w`. -/
def exNetWith (w : ℚ) : NeuralNetwork ℚ :=
  some { inputSize := 1, outputSize := 1, hiddenLayerCount := 0,
         activationFunction := some NeuralNetworkOps.identity,
         activationDerivative := some NeuralNetworkOps.identityDerivative,
         errorFunction := some NeuralNetworkOps.defaultErrorFunction,
         errorDerivative := some NeuralNetworkOps.defaultErrorDerivative,
         layers := [exLayer1With w] }

/-- A network without hidden layer from two inputs to one output: the single layer
`exLayer` with the weights `[[1, 2]]`, identity activation, squared-error loss. -/
def exNet21 : NeuralNetwork ℚ :=
  some { inputSize := 2, outputSize := 1, hiddenLayerCount := 0,
         activationFunction := some NeuralNetworkOps.identity,
         activationDerivative := some NeuralNetworkOps.identityDerivative,
         errorFunction := some NeuralNetworkOps.defaultErrorFunction,
         errorDerivative := some NeuralNetworkOps.defaultErrorDerivative,
         layers := [exLayer] }

/-- A dataset for `exNet21`: the single datapoint with the input column `[3, 4]` and the
target `[5]`. -/
def exData21 : Dataset ℚ := some [some { input := mk 2 1 [3, 4], output := mk 1 1 [5] }]

section Loops

variable {α : Type}

theorem forLoop_zero {σ : Type} (body : Nat → σ → σ) (s : σ) : forLoop 0 body s = s := rfl

theorem forLoop_succ {σ : Type} (n : Nat) (body : Nat → σ → σ) (s : σ) :
    forLoop (n + 1) body s = body n (forLoop n body s) := by
  simp [forLoop, List.range_succ, List.foldl_append]

theorem rd_set [Zero α] (l : List α) (i k : Nat) (v : α) :
    rd (l.set i v) k = if i = k ∧ k < l.length then v else rd l k := by
  unfold rd
  by_cases hik : i = k
  · subst hik
    by_cases hl : i < l.length
    · simp [List.getD_eq_getElem?_getD, hl]
    · have h1 : l.length ≤ i := Nat.le_of_not_lt hl
      have h2 : (l.set i v).length ≤ i := by simpa using h1
      simp [List.getD_eq_getElem?_getD, hl, List.getElem?_eq_none h1, List.getElem?_eq_none h2]
  · simp [List.getD_eq_getElem?_getD, hik, List.getElem?_set_ne hik]

theorem rd_of_lt [Zero α] (l : List α) (k : Nat) (hk : k < l.length) :
    rd l k = l.get ⟨k, hk⟩ := by
  simp [rd, List.getD_eq_getElem?_getD, hk]

theorem rd_of_le [Zero α] (l : List α) (k : Nat) (hk : l.length ≤ k) : rd l k = 0 := by
  simp [rd, List.getD_eq_getElem?_getD, List.getElem?_eq_none hk]

theorem ext_rd [Zero α] {l1 l2 : List α} (hlen : l1.length = l2.length)
    (hrd : ∀ k, k < l1.length → rd l1 k = rd l2 k) : l1 = l2 := by
  apply List.ext_get hlen
  intro k h1 h2
  have := hrd k h1
  rw [rd_of_lt l1 k h1, rd_of_lt l2 k h2] at this
  exact this

theorem rd_tab [Zero α] (n : Nat) (f : Nat → α) (k : Nat) :
    rd ((List.range n).map f) k = if k < n then f k else 0 := by
  by_cases hk : k < n
  · simp [rd, List.getD_eq_getElem?_getD, hk]
  · rw [if_neg hk]
    exact rd_of_le _ _ (by simpa using Nat.le_of_not_lt hk)

theorem length_forLoop_set (n : Nat) (idx : Nat → Nat) (val : Nat → List α → α)
    (l : List α) :
    (forLoop n (fun i d => d.set (idx i) (val i d)) l).length = l.length := by
  induction n with
  | zero => rfl
  | succ n ih => rw [forLoop_succ, List.length_set, ih]

theorem rd_forLoop_pointwise [Zero α] (g : Nat → α → α) (n : Nat) (l : List α) (k : Nat) :
    rd (forLoop n (fun i d => d.set i (g i (rd d i))) l) k
      = if k < n ∧ k < l.length then g k (rd l k) else rd l k := by
  induction n generalizing k with
  | zero => simp [forLoop_zero]
  | succ n ih =>
    rw [forLoop_succ, rd_set, length_forLoop_set n (fun i => i) (fun i d => g i (rd d i)) l,
      ih, ih]
    by_cases hnk : n = k
    · subst hnk
      by_cases hl : n < l.length <;> simp [hl]
    · have hlt : k < n + 1 ↔ k < n := by omega
      simp [hnk, hlt]

/-- A pointwise loop over the whole storage is the tabulation of its body. -/
theorem forLoop_pointwise_eq [Zero α] (g : Nat → α → α) (l : List α) :
    forLoop l.length (fun i d => d.set i (g i (rd d i))) l
      = (List.range l.length).map (fun k => g k (rd l k)) := by
  apply ext_rd
  · rw [length_forLoop_set l.length (fun i => i) (fun i d => g i (rd d i)) l]; simp
  · intro k hk
    rw [length_forLoop_set l.length (fun i => i) (fun i d => g i (rd d i)) l] at hk
    rw [rd_forLoop_pointwise, rd_tab]
    simp [hk]

theorem rd_forLoop_offset [Zero α] (base : Nat) (g : Nat → α) (c : Nat) (l : List α)
    (k : Nat) :
    rd (forLoop c (fun j d => d.set (base + j) (g j)) l) k
      = if base ≤ k ∧ k < base + c ∧ k < l.length then g (k - base) else rd l k := by
  induction c generalizing k with
  | zero =>
    have : ¬ (base ≤ k ∧ k < base + 0 ∧ k < l.length) := by omega
    rw [forLoop_zero, if_neg this]
  | succ c ih =>
    rw [forLoop_succ, rd_set,
      length_forLoop_set c (fun j => base + j) (fun j _ => g j) l, ih]
    by_cases hk : base + c = k
    · subst hk
      by_cases hl : base + c < l.length
      · have h1 : base ≤ base + c ∧ base + c < base + (c + 1) ∧ base + c < l.length := by
          omega
        simp [hl, h1]
      · have h1 : ¬ (base ≤ base + c ∧ base + c < base + (c + 1) ∧ base + c < l.length) := by
          omega
        have h2 : ¬ (base ≤ base + c ∧ base + c < base + c ∧ base + c < l.length) := by
          omega
        simp [hl, h1, h2]
    · have hiff : (base ≤ k ∧ k < base + (c + 1) ∧ k < l.length)
          ↔ (base ≤ k ∧ k < base + c ∧ k < l.length) := by omega
      simp [hk, hiff]

theorem length_forLoop_rows (col : Nat) (f : Nat → Nat → α) (r : Nat) (l : List α) :
    (forLoop r (fun i d => forLoop col (fun j d => d.set (i * col + j) (f i j)) d) l).length
      = l.length := by
  induction r with
  | zero => rfl
  | succ r ih =>
    rw [forLoop_succ, length_forLoop_set col (fun j => r * col + j) (fun j _ => f r j), ih]

theorem rd_forLoop_rows [Zero α] (col : Nat) (f : Nat → Nat → α) (r : Nat) (l : List α)
    (k : Nat) :
    rd (forLoop r (fun i d => forLoop col (fun j d => d.set (i * col + j) (f i j)) d) l) k
      = if k < r * col ∧ k < l.length then f (k / col) (k % col) else rd l k := by
  induction r generalizing k with
  | zero =>
    have : ¬ (k < 0 * col ∧ k < l.length) := by omega
    rw [forLoop_zero, if_neg this]
  | succ r ih =>
    rw [forLoop_succ, rd_forLoop_offset (r * col) (fun j => f r j), ih, length_forLoop_rows]
    have hmul : (r + 1) * col = r * col + col := by ring
    by_cases hl : k < l.length
    · by_cases h1 : r * col ≤ k
      · by_cases h2 : k < r * col + col
        · have hcol : 0 < col := by omega
          have hk : k = (k - r * col) + r * col := by omega
          have hdiv : k / col = r := by
            rw [hk, Nat.add_mul_div_right _ _ hcol, Nat.div_eq_of_lt (by omega)]; simp
          have hmod : k % col = k - r * col := by
            rw [hk, Nat.add_mul_mod_self_right, Nat.mod_eq_of_lt (by omega)]; simp
          have h3 : k < (r + 1) * col := by omega
          simp only [h1, h2, hl, h3, and_self, if_true, hdiv, hmod]
        · have h3 : ¬ k < (r + 1) * col := by omega
          have h4 : ¬ k < r * col := by omega
          simp only [h1, h2, hl, h3, h4, and_true, and_false, false_and, if_false]
      · have h3 : k < (r + 1) * col := by omega
        have h4 : k < r * col := by omega
        simp only [h1, hl, h3, h4, false_and, and_self, if_false, if_true]
    · simp only [hl, and_false, if_false]

/-- The nested loops that write `f i j` to cell `i * col + j` tabulate `f` row-major. -/
theorem forLoop_rows_eq [Zero α] (row col : Nat) (f : Nat → Nat → α) (l : List α)
    (hl : l.length = row * col) :
    forLoop row (fun i d => forLoop col (fun j d => d.set (i * col + j) (f i j)) d) l
      = (List.range (row * col)).map (fun k => f (k / col) (k % col)) := by
  apply ext_rd
  · rw [length_forLoop_rows]; simp [hl]
  · intro k hk
    rw [length_forLoop_rows] at hk
    rw [rd_forLoop_rows, rd_tab]
    have hk2 : k < row * col := by omega
    simp [hk, hk2]

theorem forLoop_sum_eq [AddCommMonoid α] (n : Nat) (t : Nat → α) :
    forLoop n (fun k acc => acc + t k) 0 = ∑ k ∈ Finset.range n, t k := by
  induction n with
  | zero => simp [forLoop_zero]
  | succ n ih => rw [forLoop_succ, ih, Finset.sum_range_succ]

end Loops

/-! ## Normal forms of the matrix kernel -/

section Kernel

variable {α : Type}

theorem isValid_mk (row col : Nat) (cells : List α) (hr : 0 < row) (hc : 0 < col) :
    MatrixOps.isValid (mk row col cells) = true := by
  have h1 : row ≠ 0 := by omega
  have h2 : col ≠ 0 := by omega
  simp [MatrixOps.isValid, mk, h1, h2]

/-- A valid matrix that meets the representation invariant is `mk row col cells`. -/
theorem valid_cases {m : Matrix α} (hv : MatrixOps.isValid m = true) (hr : Rep m) :
    ∃ row col cells, m = mk row col cells ∧ 0 < row ∧ 0 < col ∧
      cells.length = row * col ∧ row * col < SIZE_MOD := by
  match m, hv, hr with
  | none, hv, _ => simp [MatrixOps.isValid] at hv
  | some ⟨row, col, none⟩, hv, _ => simp [MatrixOps.isValid] at hv
  | some ⟨row, col, some cells⟩, hv, hr =>
    have h := hr ⟨row, col, some cells⟩ cells rfl rfl
    refine ⟨row, col, cells, rfl, ?_, ?_, h.1, h.2⟩
    · by_contra h0
      have : row = 0 := by omega
      simp [MatrixOps.isValid, this] at hv
    · by_contra h0
      have : col = 0 := by omega
      simp [MatrixOps.isValid, this] at hv

theorem rep_mk (row col : Nat) (cells : List α) (hl : cells.length = row * col)
    (hfit : row * col < SIZE_MOD) : Rep (mk row col cells) := by
  intro s d hs hd
  simp only [mk, Option.some.injEq] at hs
  subst hs
  simp only [Option.some.injEq] at hd
  subst hd
  exact ⟨hl, hfit⟩

theorem create_eq (junk : Nat → α) (row col : Nat) (hr : 0 < row) (hc : 0 < col)
    (hfit : row * col < SIZE_MOD) :
    MatrixOps.create junk row col = mk row col ((List.range (row * col)).map junk) := by
  have hpos : 0 < row * col := Nat.mul_pos hr hc
  have hmod : row * col % SIZE_MOD ≠ 0 := by
    rw [Nat.mod_eq_of_lt hfit]; omega
  simp [MatrixOps.create, mk, hmod]

theorem get_mk [Zero α] (row col : Nat) (cells : List α) (i j : Nat) (hi : i < row)
    (hj : j < col) :
    MatrixOps.get (mk row col cells) i j = (0, some (rd cells (i * col + j))) := by
  have hv := isValid_mk row col cells (by omega) (by omega)
  have h1 : ¬ (row ≤ i ∨ col ≤ j) := by omega
  simp [MatrixOps.get, hv, mk, h1] at *

theorem multiply_mk [Field α] (junk : Nat → α) (r1 c1 c2 : Nat) (d1 d2 : List α)
    (hr1 : 0 < r1) (hc1 : 0 < c1) (hc2 : 0 < c2) (hfit : r1 * c2 < SIZE_MOD) :
    MatrixOps.multiply junk (mk r1 c1 d1) (mk c1 c2 d2)
      = mk r1 c2 ((List.range (r1 * c2)).map (fun k =>
          ∑ x ∈ Finset.range c1, rd d1 (k / c2 * c1 + x) * rd d2 (x * c2 + k % c2))) := by
  have hv1 := isValid_mk r1 c1 d1 hr1 hc1
  have hv2 := isValid_mk c1 c2 d2 hc1 hc2
  have hcr := create_eq junk r1 c2 hr1 hc2 hfit
  have hv3 := isValid_mk r1 c2 ((List.range (r1 * c2)).map junk) hr1 hc2
  unfold MatrixOps.multiply
  rw [hv1, hv2]
  simp only [mk] at hcr hv3 ⊢
  simp only [hcr, hv3, forLoop_sum_eq]
  simp only [Bool.not_true, Bool.or_self, Bool.false_eq_true, if_false, ne_eq,
    not_true_eq_false]
  rw [forLoop_rows_eq r1 c2 _ _ (by simp)]

end Kernel

/-! ## C1: the matrix product -/

section Multiply

variable {α : Type}

theorem entry_mk [Zero α] (row col : Nat) (cells : List α) (i j : Nat) (hi : i < row)
    (hj : j < col) : entry (mk row col cells) i j = rd cells (i * col + j) := by
  simp [entry, get_mk row col cells i j hi hj]

theorem multiply_mismatch [Field α] (junk : Nat → α) (r1 c1 r2 c2 : Nat) (d1 d2 : List α)
    (h : c1 ≠ r2) : MatrixOps.multiply junk (mk r1 c1 d1) (mk r2 c2 d2) = none := by
  unfold MatrixOps.multiply
  simp [mk, h]

theorem multiply_wrap [Field α] (junk : Nat → α) (r1 c1 r2 c2 : Nat) (d1 d2 : List α)
    (h : (r1 * c2) % SIZE_MOD = 0) :
    MatrixOps.multiply junk (mk r1 c1 d1) (mk r2 c2 d2) = none := by
  have hc : MatrixOps.create junk r1 c2 = none := by simp [MatrixOps.create, h]
  unfold MatrixOps.multiply
  simp only [mk, hc]
  simp [MatrixOps.isValid]

theorem div_mod_index (i j col : Nat) (hj : j < col) :
    (i * col + j) / col = i ∧ (i * col + j) % col = j := by
  have hcol : 0 < col := by omega
  constructor
  · rw [Nat.add_comm, Nat.add_mul_div_right _ _ hcol, Nat.div_eq_of_lt hj]; simp
  · rw [Nat.add_comm, Nat.add_mul_mod_self_right, Nat.mod_eq_of_lt hj]

theorem index_lt (i j row col : Nat) (hi : i < row) (hj : j < col) :
    i * col + j < row * col := by
  have h1 : (i + 1) * col ≤ row * col := Nat.mul_le_mul_right col hi
  have h2 : (i + 1) * col = i * col + col := by ring
  omega

end Multiply

/-! ## Normal forms of the pointwise operations -/

section Pointwise

variable {α : Type}

theorem pointwise_mod [Zero α] (row col : Nat) (d : List α) (g : Nat → α → α)
    (hl : d.length = row * col) (hfit : row * col < SIZE_MOD) :
    forLoop ((row * col) % SIZE_MOD) (fun i d => d.set i (g i (rd d i))) d
      = (List.range (row * col)).map (fun k => g k (rd d k)) := by
  rw [Nat.mod_eq_of_lt hfit, ← hl]
  exact forLoop_pointwise_eq g d

theorem tab_rd [Zero α] (d : List α) (n : Nat) (hl : d.length = n) :
    (List.range n).map (fun k => rd d k) = d := by
  apply ext_rd
  · simp [hl]
  · intro k hk
    have hk2 : k < n := by simpa using hk
    rw [rd_tab, if_pos hk2]

theorem applyToAllUnary_mk [Zero α] (row col : Nat) (d : List α) (f : α → α)
    (hr : 0 < row) (hc : 0 < col) (hl : d.length = row * col) (hfit : row * col < SIZE_MOD) :
    MatrixOps.applyToAllUnary (mk row col d) (some f)
      = (0, mk row col ((List.range (row * col)).map (fun k => f (rd d k)))) := by
  have hv := isValid_mk row col d hr hc
  unfold MatrixOps.applyToAllUnary
  rw [hv]
  simp only [mk, Bool.not_true, Bool.false_eq_true, if_false]
  rw [pointwise_mod row col d (fun _ x => f x) hl hfit]

theorem applyToAllBinary_mk [Zero α] (row col : Nat) (d : List α) (f : α → α → α) (v : α)
    (hr : 0 < row) (hc : 0 < col) (hl : d.length = row * col) (hfit : row * col < SIZE_MOD) :
    MatrixOps.applyToAllBinary (mk row col d) f v
      = (0, mk row col ((List.range (row * col)).map (fun k => f (rd d k) v))) := by
  have hv := isValid_mk row col d hr hc
  unfold MatrixOps.applyToAllBinary
  rw [hv]
  simp only [mk, Bool.not_true, Bool.false_eq_true, if_false]
  rw [pointwise_mod row col d (fun _ x => f x v) hl hfit]

theorem scalarMultiply_mk [Zero α] [Mul α] (row col : Nat) (d : List α) (v : α)
    (hr : 0 < row) (hc : 0 < col) (hl : d.length = row * col) (hfit : row * col < SIZE_MOD) :
    MatrixOps.scalarMultiply (mk row col d) v
      = (0, mk row col ((List.range (row * col)).map (fun k => rd d k * v))) := by
  have hv := isValid_mk row col d hr hc
  unfold MatrixOps.scalarMultiply
  rw [hv]
  simp only [mk, Bool.not_true, Bool.false_eq_true, if_false]
  rw [pointwise_mod row col d (fun _ x => x * v) hl hfit]

theorem isSameShape_mk (r1 c1 r2 c2 : Nat) (d1 d2 : List α) (hr1 : 0 < r1) (hc1 : 0 < c1)
    (hr2 : 0 < r2) (hc2 : 0 < c2) :
    MatrixOps.isSameShape (mk r1 c1 d1) (mk r2 c2 d2) = decide (r1 = r2 ∧ c1 = c2) := by
  have hv1 := isValid_mk r1 c1 d1 hr1 hc1
  have hv2 := isValid_mk r2 c2 d2 hr2 hc2
  unfold MatrixOps.isSameShape
  rw [hv1, hv2]
  by_cases h : r1 = r2 ∧ c1 = c2
  · simp [mk, h]
  · have h2 : r1 ≠ r2 ∨ c1 ≠ c2 := by
      by_contra hn
      exact h ⟨by_contra fun h1 => hn (Or.inl h1), by_contra fun h1 => hn (Or.inr h1)⟩
    simp [mk, h, h2]

theorem assignValues_mk [Zero α] (row col : Nat) (d1 d2 : List α) (hr : 0 < row)
    (hc : 0 < col) (hl1 : d1.length = row * col) (hl2 : d2.length = row * col)
    (hfit : row * col < SIZE_MOD) :
    MatrixOps.assignValues (mk row col d1) (mk row col d2) = (0, mk row col d2) := by
  have hv1 := isValid_mk row col d1 hr hc
  have hv2 := isValid_mk row col d2 hr hc
  have hs := isSameShape_mk row col row col d1 d2 hr hc hr hc
  unfold MatrixOps.assignValues
  rw [hv1, hv2, hs]
  simp only [mk, MatrixOps.memcpy, and_self, decide_True, Bool.not_true, Bool.or_self,
    Bool.false_eq_true, if_false]
  rw [pointwise_mod row col d1 (fun i _ => rd d2 i) hl1 hfit, tab_rd d2 _ hl2]

theorem assignValues_shape [Zero α] (r1 c1 r2 c2 : Nat) (d1 d2 : List α)
    (h : r1 ≠ r2 ∨ c1 ≠ c2) :
    MatrixOps.assignValues (mk r1 c1 d1) (mk r2 c2 d2) = (-1, mk r1 c1 d1) := by
  have hs : MatrixOps.isSameShape (mk r1 c1 d1) (mk r2 c2 d2) = false := by
    unfold MatrixOps.isSameShape
    by_cases hv : (!MatrixOps.isValid (mk r1 c1 d1) || !MatrixOps.isValid (mk r2 c2 d2)) = true
    · rw [if_pos hv]
    · rw [if_neg hv]; simp [mk, h]
  unfold MatrixOps.assignValues
  by_cases hv : (!MatrixOps.isValid (mk r1 c1 d1) || !MatrixOps.isValid (mk r2 c2 d2)) = true
  · rw [if_pos hv]
  · rw [if_neg hv, hs]; simp

theorem subtract_mk [Zero α] [Sub α] (row col : Nat) (d1 d2 : List α) (hr : 0 < row)
    (hc : 0 < col) (hl : d1.length = row * col) (hfit : row * col < SIZE_MOD) :
    MatrixOps.subtract (mk row col d1) (mk row col d2)
      = (0, mk row col ((List.range (row * col)).map (fun k => rd d1 k - rd d2 k))) := by
  have hv1 := isValid_mk row col d1 hr hc
  have hv2 := isValid_mk row col d2 hr hc
  unfold MatrixOps.subtract
  rw [hv1, hv2]
  simp only [mk, ne_eq, not_true_eq_false, or_self, if_false, Bool.true_eq_false]
  rw [pointwise_mod row col d1 (fun i x => x - rd d2 i) hl hfit]

theorem add_mk [Zero α] [Add α] (row col : Nat) (d1 d2 : List α) (hr : 0 < row)
    (hc : 0 < col) (hl : d1.length = row * col) (hfit : row * col < SIZE_MOD) :
    MatrixOps.add (mk row col d1) (mk row col d2)
      = (0, mk row col ((List.range (row * col)).map (fun k => rd d1 k + rd d2 k))) := by
  have hv1 := isValid_mk row col d1 hr hc
  have hv2 := isValid_mk row col d2 hr hc
  unfold MatrixOps.add
  rw [hv1, hv2]
  simp only [mk, ne_eq, not_true_eq_false, or_self, if_false, Bool.true_eq_false]
  rw [pointwise_mod row col d1 (fun i x => x + rd d2 i) hl hfit]

theorem subtract_null [Zero α] [Sub α] (m : Matrix α) :
    MatrixOps.subtract m none = (-1, m) := by
  unfold MatrixOps.subtract
  simp [MatrixOps.isValid]

theorem elementWise_mk [Zero α] (row col : Nat) (d1 d2 : List α) (f : α → α → α)
    (hr : 0 < row) (hc : 0 < col) (hl : d1.length = row * col) (hfit : row * col < SIZE_MOD) :
    MatrixOps.elementWise (mk row col d1) (mk row col d2) f
      = (0, mk row col ((List.range (row * col)).map (fun k => f (rd d1 k) (rd d2 k)))) := by
  have hv1 := isValid_mk row col d1 hr hc
  have hv2 := isValid_mk row col d2 hr hc
  unfold MatrixOps.elementWise
  rw [hv1, hv2]
  simp only [mk, ne_eq, not_true_eq_false, or_self, if_false, Bool.not_true, Bool.or_self,
    Bool.false_eq_true]
  rw [pointwise_mod row col d1 (fun i x => f x (rd d2 i)) hl hfit]

theorem copy_mk [Zero α] (junk : Nat → α) (row col : Nat) (d : List α) (hr : 0 < row)
    (hc : 0 < col) (hl : d.length = row * col) (hfit : row * col < SIZE_MOD) :
    MatrixOps.copy junk (mk row col d) = mk row col d := by
  have hv := isValid_mk row col d hr hc
  have hcr := create_eq junk row col hr hc hfit
  have hv2 := isValid_mk row col ((List.range (row * col)).map junk) hr hc
  unfold MatrixOps.copy
  rw [hv]
  simp only [mk] at hcr hv2 ⊢
  simp only [hcr, hv2, MatrixOps.memcpy, Bool.not_true, Bool.false_eq_true, if_false]
  rw [pointwise_mod row col _ (fun i _ => rd d i) (by simp) hfit, tab_rd d _ hl]

theorem elementWiseOutOfPlace_mk [Zero α] (junk : Nat → α) (row col : Nat) (d1 d2 : List α)
    (f : α → α → α) (hr : 0 < row) (hc : 0 < col) (hl : d1.length = row * col)
    (hfit : row * col < SIZE_MOD) :
    MatrixOps.elementWiseOutOfPlace junk (mk row col d1) (mk row col d2) f
      = mk row col ((List.range (row * col)).map (fun k => f (rd d1 k) (rd d2 k))) := by
  have hv1 := isValid_mk row col d1 hr hc
  have hv2 := isValid_mk row col d2 hr hc
  have hcp := copy_mk junk row col d1 hr hc hl hfit
  have hew := elementWise_mk row col d1 d2 f hr hc hl hfit
  unfold MatrixOps.elementWiseOutOfPlace
  rw [hv1, hv2]
  simp only [mk] at hcp hew ⊢
  simp only [hcp, hew]
  simp

end Pointwise

/-! ## Normal forms of the layer operations -/

section LayerForms

variable {α : Type}

theorem tab_tab [Zero α] (n : Nat) (T : Nat → α) (g : Nat → α → α) :
    (List.range n).map (fun k => g k (rd ((List.range n).map T) k))
      = (List.range n).map (fun k => g k (T k)) := by
  apply List.map_congr_left
  intro k hk
  have hk2 : k < n := List.mem_range.mp hk
  rw [rd_tab, if_pos hk2]

theorem layer_isValid_mk (inS outS : Nat) (f : FnPtr α) (dv : Option (FnPtr α))
    (dW : List α) (hi : 0 < inS) (ho : 0 < outS) :
    LayerOps.isValid (some ⟨inS, outS, some f, dv, mk outS inS dW⟩) = true := by
  have hv := isValid_mk outS inS dW ho hi
  have h1 : inS ≠ 0 := by omega
  have h2 : outS ≠ 0 := by omega
  simp only [mk] at hv
  simp [LayerOps.isValid, hv, h1, h2, MatrixOps.getCol, MatrixOps.getRow, mk]

theorem layer_valid_cases {layer : Layer α} (hv : LayerOps.isValid layer = true)
    (hr : Rep (LayerOps.getWeights layer)) :
    ∃ inS outS f dv dW, layer = some ⟨inS, outS, some f, dv, mk outS inS dW⟩ ∧
      0 < inS ∧ 0 < outS ∧ dW.length = outS * inS ∧ outS * inS < SIZE_MOD := by
  match layer, hv, hr with
  | none, hv, _ => simp [LayerOps.isValid] at hv
  | some ⟨inS, outS, none, dv, W⟩, hv, _ => simp [LayerOps.isValid] at hv
  | some ⟨inS, outS, some f, dv, W⟩, hv, hr =>
    simp only [LayerOps.isValid, Option.isNone_some, Bool.false_eq_true, if_false] at hv
    by_cases h0 : inS = 0 ∨ outS = 0
    · simp [h0] at hv
    · by_cases hW : MatrixOps.isValid W = true
      · obtain ⟨row, col, cells, rfl, hrow, hcol, hlen, hfit⟩ := valid_cases hW hr
        by_cases hshape : MatrixOps.getCol (mk row col cells) ≠ inS ∨
            MatrixOps.getRow (mk row col cells) ≠ outS
        · simp [h0, hW, hshape] at hv
        · have hc : col = inS := by
            by_contra hne; exact hshape (Or.inl hne)
          have hro : row = outS := by
            by_contra hne; exact hshape (Or.inr hne)
          subst hc; subst hro
          exact ⟨col, row, f, dv, cells, rfl, hcol, hrow, hlen, hfit⟩
      · simp [h0, hW] at hv

theorem layer_feedForward_mk [Field α] (junk : Nat → α) (inS outS c : Nat) (f : FnPtr α)
    (dv : Option (FnPtr α)) (dW dX dO : List α) (hi : 0 < inS) (ho : 0 < outS) (hc : 0 < c)
    (hlO : dO.length = outS * c) (hfit : outS * c < SIZE_MOD) :
    LayerOps.feedForward junk (some ⟨inS, outS, some f, dv, mk outS inS dW⟩)
        (mk inS c dX) (mk outS c dO)
      = (0, mk outS c ((List.range (outS * c)).map (fun k =>
          f.call (∑ x ∈ Finset.range inS, rd dW (k / c * inS + x) * rd dX (x * c + k % c))))) := by
  have hlv := layer_isValid_mk inS outS f dv dW hi ho
  unfold LayerOps.feedForward
  simp only [mk] at hlv ⊢
  rw [hlv]
  have hm := multiply_mk junk outS inS c dW dX ho hi hc hfit
  simp only [mk] at hm
  simp only [hm, Option.map_some']
  have ha := applyToAllUnary_mk outS c ((List.range (outS * c)).map (fun k =>
    ∑ x ∈ Finset.range inS, rd dW (k / c * inS + x) * rd dX (x * c + k % c))) f.call ho hc
    (by simp) hfit
  simp only [mk] at ha
  rw [ha]
  have hs := assignValues_mk outS c dO ((List.range (outS * c)).map (fun k =>
    f.call (rd ((List.range (outS * c)).map (fun k =>
      ∑ x ∈ Finset.range inS, rd dW (k / c * inS + x) * rd dX (x * c + k % c))) k)))
    ho hc hlO (by simp) hfit
  simp only [mk] at hs
  simp only [hs]
  rw [tab_tab (outS * c) _ (fun _ v => f.call v)]
  simp

theorem multiply_shape [Field α] (junk : Nat → α) (r1 c1 c2 : Nat) (d1 d2 : List α)
    (hr1 : 0 < r1) (hc1 : 0 < c1) (hc2 : 0 < c2) :
    MatrixOps.multiply junk (mk r1 c1 d1) (mk c1 c2 d2) = none ∨
      ∃ d, MatrixOps.multiply junk (mk r1 c1 d1) (mk c1 c2 d2) = mk r1 c2 d := by
  by_cases hw : (r1 * c2) % SIZE_MOD = 0
  · exact Or.inl (multiply_wrap junk _ _ _ _ _ _ hw)
  · right
    have hv1 := isValid_mk r1 c1 d1 hr1 hc1
    have hv2 := isValid_mk c1 c2 d2 hc1 hc2
    have hcr : MatrixOps.create junk r1 c2 = mk r1 c2 ((List.range (r1 * c2)).map junk) := by
      simp [MatrixOps.create, mk, hw]
    have hv3 := isValid_mk r1 c2 ((List.range (r1 * c2)).map junk) hr1 hc2
    unfold MatrixOps.multiply
    rw [hv1, hv2]
    simp only [mk] at hcr hv3 ⊢
    simp only [hcr, hv3]
    simp

theorem applyToAllUnary_shape [Zero α] (row col : Nat) (d : List α) (f : α → α)
    (hr : 0 < row) (hc : 0 < col) :
    ∃ d2, MatrixOps.applyToAllUnary (mk row col d) (some f) = (0, mk row col d2) := by
  have hv := isValid_mk row col d hr hc
  unfold MatrixOps.applyToAllUnary
  rw [hv]
  simp [mk]

theorem layer_feedForward_shape [Field α] (junk : Nat → α) (inS outS c rO cO : Nat)
    (f : FnPtr α) (dv : Option (FnPtr α)) (dW dX dO : List α) (hi : 0 < inS) (ho : 0 < outS)
    (hc : 0 < c) (h : rO ≠ outS ∨ cO ≠ c) :
    LayerOps.feedForward junk (some ⟨inS, outS, some f, dv, mk outS inS dW⟩)
        (mk inS c dX) (mk rO cO dO) = (-1, mk rO cO dO) := by
  have hlv := layer_isValid_mk inS outS f dv dW hi ho
  unfold LayerOps.feedForward
  simp only [mk] at hlv ⊢
  rw [hlv]
  rcases multiply_shape junk outS inS c dW dX ho hi hc with hm | ⟨d, hm⟩
  · simp only [mk] at hm
    simp only [hm]
    simp
  · obtain ⟨d2, ha⟩ := applyToAllUnary_shape outS c d f.call ho hc
    have hs := assignValues_shape rO cO outS c dO d2 h
    simp only [mk] at hm ha hs
    simp only [hm, Option.map_some', ha, hs]
    simp

theorem forLoop_map {σ τ : Type} (φ : τ → σ) (body : Nat → σ → σ) (body2 : Nat → τ → τ)
    (n : Nat) (h : ∀ i, i < n → ∀ t, body i (φ t) = φ (body2 i t)) (t : τ) :
    forLoop n body (φ t) = φ (forLoop n body2 t) := by
  induction n with
  | zero => rfl
  | succ n ih =>
    rw [forLoop_succ, forLoop_succ, ih (fun i hi => h i (Nat.lt_succ_of_lt hi)),
      h n (Nat.lt_succ_self n)]

theorem set_mk (row col : Nat) (cells : List α) (i j : Nat) (v : α) (hi : i < row)
    (hj : j < col) :
    MatrixOps.set (mk row col cells) i j v = (0, mk row col (cells.set (i * col + j) v)) := by
  have hv := isValid_mk row col cells (by omega) (by omega)
  have h1 : ¬ (row ≤ i ∨ col ≤ j) := by omega
  simp [MatrixOps.set, hv, mk, h1] at *

theorem helper_mk [Field α] (junk : Nat → α) (inS outS : Nat) (f : FnPtr α)
    (dv : Option (FnPtr α)) (dW dX : List α) (hi : 0 < inS) (ho : 0 < outS)
    (hfit : outS * inS < SIZE_MOD) :
    LayerOps.activationDerivativeToWeights junk
        (some ⟨inS, outS, some f, dv, mk outS inS dW⟩) (mk inS 1 dX)
      = mk outS 1 ((List.range (outS * 1)).map (fun k =>
          LayerOps.activationDerivativeAt ⟨inS, outS, some f, dv, mk outS inS dW⟩
            (∑ x ∈ Finset.range inS, rd dW (k / 1 * inS + x) * rd dX (x * 1 + k % 1)))) := by
  have hfit1 : outS * 1 < SIZE_MOD := by
    have : outS * 1 ≤ outS * inS := Nat.mul_le_mul_left outS hi
    omega
  unfold LayerOps.activationDerivativeToWeights
  simp only []
  rw [multiply_mk junk outS inS 1 dW dX ho hi (by decide) hfit1]
  rw [applyToAllUnary_mk outS 1 _ _ ho (by decide) (by simp) hfit1]
  simp only []
  rw [tab_tab (outS * 1) _ (fun _ v =>
    LayerOps.activationDerivativeAt ⟨inS, outS, some f, dv, mk outS inS dW⟩ v)]

theorem jacobian_loops [Field α] (inS outS : Nat) (dW dA dJ : List α) :
    forLoop outS (fun i (st : Bool × Matrix α) =>
        forLoop inS (fun j (st : Bool × Matrix α) =>
          if st.1 then st
          else
            if ((MatrixOps.get (mk outS inS dW) i j).1 != 0) = true then (true, st.2)
            else
              ((MatrixOps.set st.2 i j ((MatrixOps.get (mk outS inS dW) i j).2.getD 0 *
                  (MatrixOps.get (mk outS 1 dA) i 0).2.getD 0)).1 != 0,
               (MatrixOps.set st.2 i j ((MatrixOps.get (mk outS inS dW) i j).2.getD 0 *
                  (MatrixOps.get (mk outS 1 dA) i 0).2.getD 0)).2))
          (st.1 || ((MatrixOps.get (mk outS 1 dA) i 0).1 != 0), st.2))
        (false, mk outS inS dJ)
      = (false, mk outS inS (forLoop outS (fun i d =>
          forLoop inS (fun j d =>
            d.set (i * inS + j) (rd dW (i * inS + j) * rd dA (i * 1 + 0))) d) dJ)) := by
  apply forLoop_map (fun d => ((false, mk outS inS d) : Bool × Matrix α))
  intro i hi d
  have hg : MatrixOps.get (mk outS 1 dA) i 0 = (0, some (rd dA (i * 1 + 0))) :=
    get_mk outS 1 dA i 0 hi (by decide)
  simp only [hg]
  have hfalse : (false || ((0 : Int) != 0)) = false := by decide
  rw [hfalse]
  apply forLoop_map (fun d => ((false, mk outS inS d) : Bool × Matrix α))
  intro j hj d
  have hgw := get_mk outS inS dW i j hi hj
  have hs := set_mk outS inS d i j (rd dW (i * inS + j) * rd dA (i * 1 + 0)) hi hj
  simp only [hgw, Option.getD_some, hs]
  simp

theorem jacobian_mk [Field α] (junk : Nat → α) (inS outS : Nat) (f : FnPtr α)
    (dv : Option (FnPtr α)) (dW dX : List α) (hi : 0 < inS) (ho : 0 < outS)
    (hfit : outS * inS < SIZE_MOD) :
    LayerOps.jacobian junk (some ⟨inS, outS, some f, dv, mk outS inS dW⟩) (mk inS 1 dX)
      = mk outS inS ((List.range (outS * inS)).map (fun k =>
          rd dW (k / inS * inS + k % inS) *
            rd ((List.range (outS * 1)).map (fun k =>
              LayerOps.activationDerivativeAt ⟨inS, outS, some f, dv, mk outS inS dW⟩
                (∑ x ∈ Finset.range inS, rd dW (k / 1 * inS + x) * rd dX (x * 1 + k % 1))))
              (k / inS * 1 + 0))) := by
  have hlv := layer_isValid_mk inS outS f dv dW hi ho
  have hh := helper_mk junk inS outS f dv dW dX hi ho hfit
  have hcr := create_eq junk outS inS ho hi hfit
  unfold LayerOps.jacobian
  simp only [mk] at hlv hh hcr ⊢
  rw [hlv]
  simp only [hh, hcr]
  have hl := jacobian_loops inS outS dW
    ((List.range (outS * 1)).map (fun k =>
      LayerOps.activationDerivativeAt ⟨inS, outS, some f, dv, mk outS inS dW⟩
        (∑ x ∈ Finset.range inS, rd dW (k / 1 * inS + x) * rd dX (x * 1 + k % 1))))
    ((List.range (outS * inS)).map junk)
  simp only [mk] at hl
  simp only [Bool.not_true, Bool.false_eq_true, if_false]
  rw [hl]
  simp only [Bool.false_eq_true, if_false]
  rw [forLoop_rows_eq outS inS _ _ (by simp)]

theorem updateWeights_mk [Field α] (inS outS rG cG : Nat) (f : FnPtr α)
    (dv : Option (FnPtr α)) (dW dD dG : List α) (lr : α) (hi : 0 < inS) (ho : 0 < outS)
    (hlW : dW.length = outS * inS) (hfit : outS * inS < SIZE_MOD) (hrG : 0 < rG)
    (hcG : 0 < cG) (hlG : dG.length = rG * cG) (hfitG : rG * cG < SIZE_MOD) :
    LayerOps.updateWeights (mk outS inS dD) (some ⟨inS, outS, some f, dv, mk outS inS dW⟩)
        (mk rG cG dG) lr
      = (0, some ⟨inS, outS, some f, dv,
              mk outS inS ((List.range (outS * inS)).map (fun k => rd dW k - rd dD k))⟩,
            mk rG cG ((List.range (rG * cG)).map (fun k => rd dG k * lr))) := by
  have hlv := layer_isValid_mk inS outS f dv dW hi ho
  have hvG := isValid_mk rG cG dG hrG hcG
  have hs := scalarMultiply_mk rG cG dG lr hrG hcG hlG hfitG
  have hsub := subtract_mk outS inS dW dD ho hi hlW hfit
  unfold LayerOps.updateWeights
  simp only [mk] at hlv hvG hs hsub ⊢
  simp only [hlv, hvG, hs, hsub]
  simp

theorem updateWeights_null [Field α] (inS outS rG cG : Nat) (f : FnPtr α)
    (dv : Option (FnPtr α)) (dW dG : List α) (lr : α) (hi : 0 < inS) (ho : 0 < outS)
    (hrG : 0 < rG) (hcG : 0 < cG) (hlG : dG.length = rG * cG) (hfitG : rG * cG < SIZE_MOD) :
    LayerOps.updateWeights none (some ⟨inS, outS, some f, dv, mk outS inS dW⟩)
        (mk rG cG dG) lr
      = (-1, some ⟨inS, outS, some f, dv, mk outS inS dW⟩,
            mk rG cG ((List.range (rG * cG)).map (fun k => rd dG k * lr))) := by
  have hlv := layer_isValid_mk inS outS f dv dW hi ho
  have hvG := isValid_mk rG cG dG hrG hcG
  have hs := scalarMultiply_mk rG cG dG lr hrG hcG hlG hfitG
  have hsub := subtract_null (mk outS inS dW)
  unfold LayerOps.updateWeights
  simp only [mk] at hlv hvG hs hsub ⊢
  simp only [hlv, hvG, hs, hsub]
  simp

theorem calculateActivationDeriv_mk [Field α] (activationFunction : α → α)
    (junk : Nat → α) (inS outS c : Nat) (f dfn : FnPtr α) (dW dX : List α) (hi : 0 < inS)
    (ho : 0 < outS) (hc : 0 < c) (hfit : outS * c < SIZE_MOD) :
    LayerOps.calculateActivationDeriv activationFunction junk
        (some ⟨inS, outS, some f, some dfn, mk outS inS dW⟩) (mk inS c dX)
      = mk outS c ((List.range (outS * c)).map (fun k =>
          dfn.call (∑ x ∈ Finset.range inS, rd dW (k / c * inS + x) * rd dX (x * c + k % c)))) := by
  have hlv := layer_isValid_mk inS outS f (some dfn) dW hi ho
  have hvX := isValid_mk inS c dX hi hc
  have hm := multiply_mk junk outS inS c dW dX ho hi hc hfit
  have ha := applyToAllUnary_mk outS c ((List.range (outS * c)).map (fun k =>
    ∑ x ∈ Finset.range inS, rd dW (k / c * inS + x) * rd dX (x * c + k % c))) dfn.call ho hc
    (by simp) hfit
  unfold LayerOps.calculateActivationDeriv
  simp only [mk] at hlv hvX hm ha ⊢
  simp only [hlv, hvX, hm, ha]
  simp only [Bool.not_true, Bool.or_self, Bool.false_eq_true, if_false]
  have htt := tab_tab (outS * c) (fun k =>
    ∑ x ∈ Finset.range inS, rd dW (k / c * inS + x) * rd dX (x * c + k % c))
    (fun _ v => dfn.call v)
  simp only [] at htt
  rw [htt]
  simp

end LayerForms

/-! ## Normal forms of the network operations -/

section NetworkForms

variable {α : Type}

theorem create_some (junk : Nat → α) (row col : Nat) (m : MatrixStruct α)
    (h : MatrixOps.create junk row col = some m) :
    m.row = row ∧ m.col = col ∧ m.data.isSome = true ∧ row * col ≠ 0 := by
  unfold MatrixOps.create at h
  by_cases h0 : row * col % SIZE_MOD = 0
  · simp [h0] at h
  · simp only [h0, if_false, Option.some.injEq] at h
    subst h
    refine ⟨rfl, rfl, rfl, ?_⟩
    intro hz
    rw [hz] at h0
    exact h0 (Nat.zero_mod _)

theorem layer_create_spec (junk : Nat → α) (a b : Nat) (act dv : Option (FnPtr α))
    (l : LayerStruct α) (h : LayerOps.create junk a b act dv = some l) :
    l.inputSize = a ∧ l.outputSize = b ∧ l.activationFunction = act ∧
      l.activationDerivative = dv ∧ LayerOps.isValid (some l) = true ∧
      MatrixOps.isValid l.weights = true ∧ MatrixOps.getRow l.weights = b ∧
      MatrixOps.getCol l.weights = a := by
  unfold LayerOps.create at h
  by_cases h0 : a = 0 ∨ b = 0
  · simp [h0] at h
  · by_cases h1 : act.isNone = true
    · simp [h0, h1] at h
    · simp only [h0, h1, if_false, Bool.false_eq_true] at h
      cases hc : MatrixOps.create junk b a with
      | none => simp [hc] at h
      | some m =>
        obtain ⟨hrow, hcol, hdata, -⟩ := create_some junk b a m hc
        simp only [hc, Option.some.injEq] at h
        subst h
        have ha : a ≠ 0 := fun e => h0 (Or.inl e)
        have hb : b ≠ 0 := fun e => h0 (Or.inr e)
        have hvm : MatrixOps.isValid (some m) = true := by
          cases hd : m.data with
          | none => simp [hd] at hdata
          | some d => simp [MatrixOps.isValid, hrow, hcol, ha, hb, hd]
        refine ⟨rfl, rfl, rfl, rfl, ?_, hvm, hrow, hcol⟩
        simp [LayerOps.isValid, ha, hb, h1, hvm, MatrixOps.getCol, MatrixOps.getRow, hrow, hcol]

theorem network_isValid_of_chain (n : NeuralNetworkStruct α) (sz : Nat → Nat)
    (h0 : sz 0 = n.inputSize) (hlast : sz (n.hiddenLayerCount + 1) = n.outputSize)
    (hch : ∀ i, i ≤ n.hiddenLayerCount → ∃ l, n.layers.getD i none = some l ∧
      l.inputSize = sz i ∧ l.outputSize = sz (i + 1) ∧ LayerOps.isValid (some l) = true) :
    NeuralNetworkOps.isValid (some n) = true := by
  have hloop : ∀ k, k ≤ n.hiddenLayerCount + 1 →
      forLoop k (fun i (st : Option Nat) =>
        match st with
        | none => none
        | some prevOutputSize =>
          let layer := n.layers.getD i none
          if layer.isNone || !LayerOps.isValid layer then none
          else if LayerOps.getInputSize layer ≠ prevOutputSize then none
          else some (LayerOps.getOutputSize layer)) (some n.inputSize) = some (sz k) := by
    intro k
    induction k with
    | zero => intro _; rw [forLoop_zero, h0]
    | succ k ih =>
      intro hk
      rw [forLoop_succ, ih (by omega)]
      obtain ⟨l, hl, hin, hout, hv⟩ := hch k (by omega)
      simp only [hl, hv, Option.isNone_some, Bool.not_true, Bool.or_self, Bool.false_eq_true,
        if_false, LayerOps.getInputSize, LayerOps.getOutputSize, hin, hout, ne_eq,
        not_true_eq_false]
  unfold NeuralNetworkOps.isValid
  simp only []
  rw [hloop _ (Nat.le_refl _), hlast]
  simp

theorem hidden_fold_spec (junk : Nat → α) (inputSize : Nat)
    (hiddenLayers : Option (List (NeuralNetworkLayer α))) (act dv : Option (FnPtr α))
    (layer0 : LayerStruct α) (hin0 : layer0.inputSize = inputSize)
    (hout0 : layer0.outputSize = (NeuralNetworkOps.specOutputSize hiddenLayers 0).getD 0)
    (hv0 : LayerOps.isValid (some layer0) = true) (m : Nat) (layers : List (Layer α))
    (h : (List.range m).foldl
        (NeuralNetworkOps.createHidden junk hiddenLayers act dv)
        (some [some layer0]) = some layers) :
    layers.length = m + 1 ∧ ∀ i, i ≤ m → ∃ l, layers.getD i none = some l ∧
      l.inputSize = (if i = 0 then inputSize
        else (NeuralNetworkOps.specOutputSize hiddenLayers (i - 1)).getD 0) ∧
      l.outputSize = (NeuralNetworkOps.specOutputSize hiddenLayers i).getD 0 ∧
      LayerOps.isValid (some l) = true := by
  induction m generalizing layers with
  | zero =>
    simp only [List.range_zero, List.foldl_nil, Option.some.injEq] at h
    subst h
    refine ⟨rfl, ?_⟩
    intro i hi
    have hi0 : i = 0 := by omega
    subst hi0
    exact ⟨layer0, rfl, by simp [hin0], hout0, hv0⟩
  | succ m ih =>
    rw [List.range_succ, List.foldl_append] at h
    simp only [List.foldl_cons, List.foldl_nil] at h
    cases hprev : (List.range m).foldl
        (NeuralNetworkOps.createHidden junk hiddenLayers act dv)
        (some [some layer0]) with
    | none =>
      rw [hprev] at h
      simp [NeuralNetworkOps.createHidden] at h
    | some prev =>
      obtain ⟨hlen, hprop⟩ := ih prev hprev
      rw [hprev] at h
      simp only [NeuralNetworkOps.createHidden, Nat.add_sub_cancel] at h
      cases ha : NeuralNetworkOps.specOutputSize hiddenLayers m with
      | none => simp [ha] at h
      | some a =>
        cases hb : NeuralNetworkOps.specOutputSize hiddenLayers (m + 1) with
        | none => simp [ha, hb] at h
        | some b =>
          cases hc : LayerOps.create junk a b act dv with
          | none => simp [ha, hb, hc] at h
          | some layer =>
            simp only [ha, hb, hc, Option.some.injEq] at h
            subst h
            obtain ⟨hin, hout, -, -, hv, -, -, -⟩ := layer_create_spec junk a b act dv layer hc
            refine ⟨by simp [hlen], ?_⟩
            intro i hi
            by_cases him : i ≤ m
            · obtain ⟨l, hl, h1, h2, h3⟩ := hprop i him
              refine ⟨l, ?_, h1, h2, h3⟩
              rw [List.getD_eq_getElem?_getD, List.getElem?_append_left (by omega),
                ← List.getD_eq_getElem?_getD]
              exact hl
            · have hi2 : i = m + 1 := by omega
              subst hi2
              refine ⟨layer, ?_, ?_, ?_, hv⟩
              · rw [List.getD_eq_getElem?_getD, List.getElem?_append_right (by omega)]
                simp [hlen]
              · simp [hin, ha]
              · simp [hout, hb]

theorem create_none_iff (junk : Nat → α) (row col : Nat) :
    MatrixOps.create junk row col = none ↔ (row * col) % SIZE_MOD = 0 := by
  constructor
  · intro h
    by_contra hne
    simp [MatrixOps.create, hne] at h
  · intro h
    simp [MatrixOps.create, h]

theorem create_cases (junk : Nat → α) (row col : Nat) :
    MatrixOps.create junk row col = none ∨
      (0 < row ∧ 0 < col ∧ ∃ d, MatrixOps.create junk row col = mk row col d) := by
  by_cases hw : (row * col) % SIZE_MOD = 0
  · left; simp [MatrixOps.create, hw]
  · right
    refine ⟨?_, ?_, (List.range (row * col)).map junk, by simp [MatrixOps.create, hw, mk]⟩
    · by_contra h0
      have : row = 0 := by omega
      simp [this] at hw
    · by_contra h0
      have : col = 0 := by omega
      simp [this] at hw

theorem layer_create_none_iff (junk : Nat → α) (a b : Nat) (act dv : Option (FnPtr α)) :
    LayerOps.create junk a b act dv = none ↔
      (a = 0 ∨ b = 0 ∨ act = none ∨ (b * a) % SIZE_MOD = 0) := by
  unfold LayerOps.create
  by_cases h0 : a = 0 ∨ b = 0
  · rw [if_pos h0]
    rcases h0 with h | h
    · exact ⟨fun _ => Or.inl h, fun _ => rfl⟩
    · exact ⟨fun _ => Or.inr (Or.inl h), fun _ => rfl⟩
  · rw [if_neg h0]
    have ha : a ≠ 0 := fun h => h0 (Or.inl h)
    have hb : b ≠ 0 := fun h => h0 (Or.inr h)
    cases act with
    | none => simp
    | some f =>
      cases hc : MatrixOps.create junk b a with
      | none =>
        have := (create_none_iff junk b a).1 hc
        simp [this]
      | some m =>
        have hne : ¬ (b * a) % SIZE_MOD = 0 := by
          intro h
          rw [(create_none_iff junk b a).2 h] at hc
          exact Option.noConfusion hc
        simp [ha, hb, hne]

theorem feedLayer_mismatch (junk : Nat → ℚ) (os : Nat) :
    forLoop 2 (NeuralNetworkOps.feedLayer os junk exLayers2) (mk 1 1 [3]) = none := by
  have hnone : ∀ i, NeuralNetworkOps.feedLayer os junk exLayers2 i none = none := by
    intro i; rfl
  rw [forLoop_succ, forLoop_succ, forLoop_zero]
  rcases create_cases junk os 1 with hc | ⟨hos, -, d, hc⟩
  · have h0 : NeuralNetworkOps.feedLayer os junk exLayers2 0 (mk 1 1 [3]) = none := by
      simp only [NeuralNetworkOps.feedLayer, mk, hc]
      simp
    rw [h0, hnone]
  · by_cases h2 : os = 2
    · subst h2
      have hff := layer_feedForward_mk junk 1 2 1 NeuralNetworkOps.identity
        (some NeuralNetworkOps.identityDerivative) [1, 1] [3]
        ((List.range (2 * 1)).map junk) (by decide) (by decide) (by decide) (by simp)
        (by decide)
      have hc2 := create_eq junk 2 1 (by decide) (by decide) (by decide)
      have h0 : ∃ d0, NeuralNetworkOps.feedLayer 2 junk exLayers2 0 (mk 1 1 [3])
          = mk 2 1 d0 := by
        refine ⟨(List.range (2 * 1)).map (fun k => NeuralNetworkOps.identity.call
          (∑ x ∈ Finset.range 1, rd [1, 1] (k / 1 * 1 + x) * rd [3] (x * 1 + k % 1))), ?_⟩
        simp only [NeuralNetworkOps.feedLayer, mk, exLayers2, List.getD_cons_zero,
          LayerOps.getOutputSize] at hff hc2 ⊢
        rw [hc2]
        simp only [hff]
        simp [SIZE_MOD]
      obtain ⟨d0, h0⟩ := h0
      rw [h0]
      have hsh := layer_feedForward_shape junk 2 1 1 2 1 NeuralNetworkOps.identity
        (some NeuralNetworkOps.identityDerivative) [1, 1] d0
        ((List.range (2 * 1)).map junk) (by decide) (by decide) (by decide)
        (Or.inl (by decide))
      simp only [NeuralNetworkOps.feedLayer, mk, exLayers2, List.getD_cons_succ,
        List.getD_cons_zero, LayerOps.getOutputSize] at hsh hc2 ⊢
      rw [hc2]
      simp only [hsh]
      simp
    · have hsh := layer_feedForward_shape junk 1 2 1 os 1 NeuralNetworkOps.identity
        (some NeuralNetworkOps.identityDerivative) [1, 1] [3] d (by decide) (by decide)
        (by decide) (Or.inl h2)
      have h0 : NeuralNetworkOps.feedLayer os junk exLayers2 0 (mk 1 1 [3]) = none := by
        simp only [NeuralNetworkOps.feedLayer, mk, exLayers2, List.getD_cons_zero,
          LayerOps.getOutputSize] at hsh hc ⊢
        rw [hc]
        simp only [hsh]
        simp
      rw [h0, hnone]

/-- A datapoint on which the forward sweep, the loss derivative and the backward sweep all
succeed leaves the forward outputs and the accumulated gradients. -/
theorem stepDatapoint_run [Field α] (layerCountFF : Nat) (activationFunction exp : α → α)
    (junk : Nat → α) (nn : NeuralNetwork α) (layerCount : Nat) (layers : List (Layer α))
    (isSoftmax : Bool) (datapoint_buf : Datapoint α) (st : List (Matrix α) × List (Matrix α))
    (outputs : List (Matrix α)) (errorDerivative : MatrixStruct α)
    (r : Matrix α × List (Matrix α))
    (hff : NeuralNetworkOps.feedForwardMatrix layerCountFF exp junk nn
      (DatapointOps.getInput datapoint_buf) (some st.1) = (0, some outputs))
    (hed : NeuralNetworkOps.calculateErrorDerivative junk nn
      (outputs.getD (if isSoftmax then layerCount else layerCount - 1) none)
      (DatapointOps.getOutput datapoint_buf) = some (some errorDerivative))
    (hsw : (List.range layerCount).reverse.foldl
      (fun (st : Option (Matrix α × List (Matrix α))) i =>
        match st with
        | none => none
        | some st => NeuralNetworkOps.backwardLayer activationFunction junk layers
            datapoint_buf outputs i st)
      (some (some errorDerivative, st.2)) = some r) :
    NeuralNetworkOps.stepDatapoint layerCountFF activationFunction exp junk nn layerCount
      layers isSoftmax datapoint_buf st = some (some (outputs, r.2)) := by
  unfold NeuralNetworkOps.stepDatapoint
  rw [hff]
  simp only [Option.getD_some, ne_eq, not_true_eq_false, if_false]
  rw [hed]
  simp only []
  rw [hsw]

/-- A step whose arguments pass validation, whose output matrices are allocated, whose
sweep over the datapoints succeeds and whose gradients are averaged returns the status and
the layers left by the weight-update loop. -/
theorem gradientDescentStep_run [LinearOrderedField α] (layerCountFF : Nat)
    (deltaWeights : Nat → Matrix α) (activationFunction exp : α → α) (junk : Nat → α)
    (n : NeuralNetworkStruct α) (dp : Datapoint α) (rest : List (Datapoint α))
    (learningRate : α) (hv : NeuralNetworkOps.isValid (some n) = true)
    (hlr : ¬ learningRate ≤ 0)
    (hany : ((List.range (n.hiddenLayerCount + 1)).map (fun i =>
        MatrixOps.create junk (LayerOps.getOutputSize (n.layers.getD i none)) 1)
      ++ (if NeuralNetworkOps.isSoftmaxPtr n.activationFunction
          then [MatrixOps.create junk n.outputSize 1] else [])).any Option.isNone = false)
    (st : List (Matrix α) × List (Matrix α))
    (hloop : (dp :: rest).foldl
      (NeuralNetworkOps.stepNode layerCountFF activationFunction exp junk (some n)
        (n.hiddenLayerCount + 1) n.layers (NeuralNetworkOps.isSoftmaxPtr n.activationFunction))
      (some (some ((List.range (n.hiddenLayerCount + 1)).map (fun i =>
          MatrixOps.create junk (LayerOps.getOutputSize (n.layers.getD i none)) 1)
        ++ (if NeuralNetworkOps.isSoftmaxPtr n.activationFunction
            then [MatrixOps.create junk n.outputSize 1] else []),
        List.replicate (n.hiddenLayerCount + 1) none))) = some (some st))
    (g : List (Matrix α))
    (havg : forLoop (n.hiddenLayerCount + 1)
      (NeuralNetworkOps.averageGradient (dp :: rest).length) (some st.2) = some g) :
    NeuralNetworkOps.gradientDescentStep layerCountFF deltaWeights activationFunction exp
        junk (some n) (some (dp :: rest)) learningRate
      = some (if (forLoop (n.hiddenLayerCount + 1)
            (NeuralNetworkOps.updateLayer deltaWeights g learningRate) (false, n.layers)).1
          then -1 else 0,
          some { n with layers := (forLoop (n.hiddenLayerCount + 1)
            (NeuralNetworkOps.updateLayer deltaWeights g learningRate) (false, n.layers)).2 }) := by
  unfold NeuralNetworkOps.gradientDescentStep
  simp only [hv, hlr, Bool.not_true, Bool.false_eq_true, if_false]
  rw [hany]
  simp only [Bool.false_eq_true, if_false]
  rw [hloop]
  simp only []
  rw [havg]

end NetworkForms

/-! ## Layers with a single weight -/

section Scalar

variable {α : Type}

theorem create_one (junk : Nat → α) : MatrixOps.create junk 1 1 = mk 1 1 [junk 0] := by
  rw [create_eq junk 1 1 (by decide) (by decide) (by decide)]
  simp [List.range_succ]

theorem multiply_one [Field α] (junk : Nat → α) (a b : α) :
    MatrixOps.multiply junk (mk 1 1 [a]) (mk 1 1 [b]) = mk 1 1 [a * b] := by
  rw [multiply_mk junk 1 1 1 [a] [b] (by decide) (by decide) (by decide) (by decide)]
  simp [List.range_succ, Finset.sum_range_succ, rd]

theorem layer1_feedForward [Field α] (junk : Nat → α) (w x o : α) (f dfn : FnPtr α) :
    LayerOps.feedForward junk (layer1 w f dfn) (mk 1 1 [x]) (mk 1 1 [o])
      = (0, mk 1 1 [f.call (w * x)]) := by
  unfold layer1
  rw [layer_feedForward_mk junk 1 1 1 f (some dfn) [w] [x] [o] (by decide) (by decide)
    (by decide) rfl (by decide)]
  simp [List.range_succ, Finset.sum_range_succ, rd]

theorem layer1_activationDeriv [Field α] (activationFunction : α → α) (junk : Nat → α)
    (w y : α) (f dfn : FnPtr α) :
    LayerOps.calculateActivationDeriv activationFunction junk (layer1 w f dfn) (mk 1 1 [y])
      = mk 1 1 [dfn.call (w * y)] := by
  unfold layer1
  rw [calculateActivationDeriv_mk activationFunction junk 1 1 1 f dfn [w] [y] (by decide)
    (by decide) (by decide) (by decide)]
  simp [List.range_succ, Finset.sum_range_succ, rd]

theorem layer1_jacobian [Field α] (junk : Nat → α) (w x : α) (f dfn : FnPtr α) :
    LayerOps.jacobian junk (layer1 w f dfn) (mk 1 1 [x])
      = mk 1 1 [w * dfn.call (w * x)] := by
  unfold layer1
  rw [jacobian_mk junk 1 1 f (some dfn) [w] [x] (by decide) (by decide) (by decide)]
  simp [List.range_succ, Finset.sum_range_succ, rd, LayerOps.activationDerivativeAt]

theorem layer1_isValid (w : α) (f dfn : FnPtr α) :
    LayerOps.isValid (layer1 w f dfn) = true :=
  layer_isValid_mk 1 1 f (some dfn) [w] (by decide) (by decide)

theorem layer1_updateWeights [Field α] (w d g lr : α) (f dfn : FnPtr α) :
    LayerOps.updateWeights (mk 1 1 [d]) (layer1 w f dfn) (mk 1 1 [g]) lr
      = (0, layer1 (w - d) f dfn, mk 1 1 [g * lr]) := by
  unfold layer1
  rw [updateWeights_mk 1 1 1 1 f (some dfn) [w] [d] [g] lr (by decide) (by decide) rfl
    (by decide) (by decide) (by decide) rfl (by decide)]
  simp [List.range_succ, rd]

theorem layer1_updateWeights_null [Field α] (w g lr : α) (f dfn : FnPtr α) :
    LayerOps.updateWeights none (layer1 w f dfn) (mk 1 1 [g]) lr
      = (-1, layer1 w f dfn, mk 1 1 [g * lr]) := by
  unfold layer1
  rw [updateWeights_null 1 1 1 1 f (some dfn) [w] [g] lr (by decide) (by decide)
    (by decide) (by decide) rfl (by decide)]
  simp [List.range_succ, rd]

/-- The backward step of a single-weight layer `i` whose gradient slot is still empty: the
gradient `e * dfn(w * y) * x` is stored and the running derivative becomes
`e * (w * dfn(w * x))`, where `y` is the layer output and `x` the layer input. -/
theorem backwardLayer_one [Field α] (activationFunction : α → α) (junk : Nat → α)
    (layers : List (Layer α)) (datapoint_buf : Datapoint α) (outputs gradients : List (Matrix α))
    (i : Nat) (w x y e : α) (f dfn : FnPtr α)
    (hlayer : layers.getD i none = layer1 w f dfn)
    (hout : outputs.getD i none = mk 1 1 [y])
    (hinp : (if i = 0 then DatapointOps.getInput datapoint_buf
      else outputs.getD (i - 1) none) = mk 1 1 [x])
    (hgrad : gradients.getD i none = none) :
    NeuralNetworkOps.backwardLayer activationFunction junk layers datapoint_buf outputs i
        (mk 1 1 [e], gradients)
      = some (mk 1 1 [e * (w * dfn.call (w * x))],
          gradients.set i (mk 1 1 [e * dfn.call (w * y) * x])) := by
  have hv := layer1_isValid w f dfn
  have hvw : MatrixOps.isValid (LayerOps.getWeights (layer1 w f dfn)) = true :=
    isValid_mk 1 1 [w] (by decide) (by decide)
  have hcad := layer1_activationDeriv activationFunction junk w y f dfn
  have hmul := multiply_one junk e (dfn.call (w * y))
  have hcr := create_one junk
  have hg1 := get_mk 1 1 [e * dfn.call (w * y)] 0 0 (by decide) (by decide)
  have hg2 := get_mk 1 1 [x] 0 0 (by decide) (by decide)
  have hs := set_mk 1 1 [junk 0] 0 0 (e * dfn.call (w * y) * x) (by decide) (by decide)
  have hjac := layer1_jacobian junk w x f dfn
  have hmul2 := multiply_one junk e (w * dfn.call (w * x))
  unfold NeuralNetworkOps.backwardLayer
  simp only [hlayer, hout, hinp, hgrad, hv, hvw, hcad, hmul, hcr, hjac, hmul2]
  have hos : LayerOps.getOutputSize (layer1 w f dfn) = 1 := rfl
  have his : LayerOps.getInputSize (layer1 w f dfn) = 1 := rfl
  simp only [hos, his, forLoop_succ, forLoop_zero]
  simp only [mk] at hg1 hg2 hs hcr ⊢
  simp only [hg1, hg2, hcr]
  simp only [Option.getD_some, ne_eq, not_true_eq_false, if_false, rd, Nat.zero_mul,
    Nat.add_zero, List.getD_cons_zero] at hs ⊢
  simp only [hs]
  simp

end Scalar

/-! ## The training scenario, step by step -/

section Scenario

theorem exNet_isValid : NeuralNetworkOps.isValid exNet = true := by decide

theorem exNet_forward (exp : ℚ → ℚ) (junk : Nat → ℚ) (o : ℚ) :
    NeuralNetworkOps.feedForwardMatrix 1 exp junk exNet (mk 1 1 [3]) (some [mk 1 1 [o]])
      = (0, some [mk 1 1 [6]]) := by
  have hv := exNet_isValid
  have hff := layer1_feedForward junk 2 3 o NeuralNetworkOps.identity
    NeuralNetworkOps.identityDerivative
  unfold NeuralNetworkOps.feedForwardMatrix
  simp only [exNet, exLayer1, layer1, mk] at hv hff ⊢
  simp only [hv, forLoop_succ, forLoop_zero, NeuralNetworkOps.feedLayerMatrix,
    List.getD_cons_zero, hff]
  simp [NeuralNetworkOps.isSoftmaxPtr, NeuralNetworkOps.identity]
  norm_num

theorem exNet_errorDerivative (junk : Nat → ℚ) :
    NeuralNetworkOps.calculateErrorDerivative junk exNet (mk 1 1 [6]) (mk 1 1 [5])
      = some (mk 1 1 [2]) := by
  have hv1 := isValid_mk 1 1 [(6 : ℚ)] (by decide) (by decide)
  have hv2 := isValid_mk 1 1 [(5 : ℚ)] (by decide) (by decide)
  have hs := isSameShape_mk 1 1 1 1 [(6 : ℚ)] [(5 : ℚ)] (by decide) (by decide) (by decide)
    (by decide)
  have he := elementWiseOutOfPlace_mk junk 1 1 [(6 : ℚ)] [5]
    NeuralNetworkOps.defaultErrorDerivative (by decide) (by decide) rfl (by decide)
  unfold NeuralNetworkOps.calculateErrorDerivative
  simp only [exNet, mk] at hv1 hv2 hs he ⊢
  simp only [hv1, hv2, hs, he]
  simp [List.range_succ, rd, NeuralNetworkOps.defaultErrorDerivative]
  norm_num

theorem exNet_datapoint (activationFunction exp : ℚ → ℚ) (junk : Nat → ℚ) (o : ℚ) :
    NeuralNetworkOps.stepDatapoint 1 activationFunction exp junk exNet 1 [exLayer1] false
        (some { input := mk 1 1 [3], output := mk 1 1 [5] }) ([mk 1 1 [o]], [none])
      = some (some ([mk 1 1 [6]], [mk 1 1 [6]])) := by
  have hbw := backwardLayer_one activationFunction junk [exLayer1]
    (some { input := mk 1 1 [3], output := mk 1 1 [5] }) [mk 1 1 [6]] [none] 0 2 3 6 2
    NeuralNetworkOps.identity NeuralNetworkOps.identityDerivative rfl rfl rfl rfl
  have hbw2 : NeuralNetworkOps.backwardLayer activationFunction junk [exLayer1]
      (some { input := mk 1 1 [3], output := mk 1 1 [5] }) [mk 1 1 [6]] 0
      (mk 1 1 [2], [none]) = some (mk 1 1 [4], [mk 1 1 [6]]) := by
    rw [hbw]
    simp [NeuralNetworkOps.identityDerivative]
    norm_num
  exact stepDatapoint_run 1 activationFunction exp junk exNet 1 [exLayer1] false
    (some { input := mk 1 1 [3], output := mk 1 1 [5] }) ([mk 1 1 [o]], [none])
    [mk 1 1 [6]] ⟨1, 1, some [2]⟩ (mk 1 1 [4], [mk 1 1 [6]])
    (exNet_forward exp junk o) (exNet_errorDerivative junk) hbw2

/-- The training scenario run with the forward loop bound 1: the status and the layers are
those left by the one call of `updateWeights` on the averaged gradient `[6]`. -/
theorem exNet_step (deltaWeights : Nat → Matrix ℚ) (activationFunction exp : ℚ → ℚ)
    (junk : Nat → ℚ) :
    NeuralNetworkOps.gradientDescentStep 1 deltaWeights activationFunction exp junk exNet
        exData (1 / 100)
      = some (if (NeuralNetworkOps.updateLayer deltaWeights [mk 1 1 [6]] (1 / 100) 0
            (false, [exLayer1])).1 then -1 else 0,
          some { inputSize := 1, outputSize := 1, hiddenLayerCount := 0,
                 activationFunction := some NeuralNetworkOps.identity,
                 activationDerivative := some NeuralNetworkOps.identityDerivative,
                 errorFunction := some NeuralNetworkOps.defaultErrorFunction,
                 errorDerivative := some NeuralNetworkOps.defaultErrorDerivative,
                 layers := (NeuralNetworkOps.updateLayer deltaWeights [mk 1 1 [6]] (1 / 100) 0
                   (false, [exLayer1])).2 }) := by
  have hlr : ¬ ((1 : ℚ) / 100 ≤ 0) := by norm_num
  have houts : ((List.range (0 + 1)).map (fun i =>
        MatrixOps.create junk (LayerOps.getOutputSize ([exLayer1].getD i none)) 1)
      ++ (if NeuralNetworkOps.isSoftmaxPtr (some (NeuralNetworkOps.identity : FnPtr ℚ))
          then [MatrixOps.create junk 1 1] else [])) = [mk 1 1 [junk 0]] := by
    have h1 : LayerOps.getOutputSize ([exLayer1].getD 0 none) = 1 := rfl
    have h2 : NeuralNetworkOps.isSoftmaxPtr (some (NeuralNetworkOps.identity : FnPtr ℚ))
        = false := rfl
    rw [h2]
    simp only [List.range_succ, List.range_zero, List.nil_append, List.map_cons,
      List.map_nil, h1, create_one, Bool.false_eq_true, if_false, List.append_nil]
  have hany : ((List.range (0 + 1)).map (fun i =>
        MatrixOps.create junk (LayerOps.getOutputSize ([exLayer1].getD i none)) 1)
      ++ (if NeuralNetworkOps.isSoftmaxPtr (some (NeuralNetworkOps.identity : FnPtr ℚ))
          then [MatrixOps.create junk 1 1] else [])).any Option.isNone = false := by
    rw [houts]; rfl
  have hloop : [some { input := mk 1 1 [(3 : ℚ)], output := mk 1 1 [5] }].foldl
      (NeuralNetworkOps.stepNode 1 activationFunction exp junk exNet (0 + 1) [exLayer1]
        (NeuralNetworkOps.isSoftmaxPtr (some (NeuralNetworkOps.identity : FnPtr ℚ))))
      (some (some ((List.range (0 + 1)).map (fun i =>
          MatrixOps.create junk (LayerOps.getOutputSize ([exLayer1].getD i none)) 1)
        ++ (if NeuralNetworkOps.isSoftmaxPtr (some (NeuralNetworkOps.identity : FnPtr ℚ))
            then [MatrixOps.create junk 1 1] else []),
        List.replicate (0 + 1) none))) = some (some ([mk 1 1 [6]], [mk 1 1 [6]])) := by
    rw [houts]
    have h2 : NeuralNetworkOps.isSoftmaxPtr (some (NeuralNetworkOps.identity : FnPtr ℚ))
        = false := rfl
    rw [h2, List.foldl_cons, List.foldl_nil]
    have hrep : List.replicate (0 + 1) (none : Matrix ℚ) = [none] := rfl
    rw [hrep, Nat.zero_add]
    unfold NeuralNetworkOps.stepNode
    exact exNet_datapoint activationFunction exp junk (junk 0)
  have havg : forLoop (0 + 1)
      (NeuralNetworkOps.averageGradient
        ([some { input := mk 1 1 [(3 : ℚ)], output := mk 1 1 [5] }] :
          List (Datapoint ℚ)).length)
      (some ([mk 1 1 [6]], [mk 1 1 [(6 : ℚ)]]).2) = some [mk 1 1 [6]] := by
    rw [forLoop_succ, forLoop_zero]
    have hsm := scalarMultiply_mk 1 1 [(6 : ℚ)] (1 / ((1 : Nat) : ℚ)) (by decide) (by decide)
      rfl (by decide)
    simp only [NeuralNetworkOps.averageGradient, List.getD_cons_zero, List.length_singleton,
      hsm]
    simp [List.range_succ, rd]
  have hrun := gradientDescentStep_run 1 deltaWeights activationFunction exp junk
    { inputSize := 1, outputSize := 1, hiddenLayerCount := 0,
      activationFunction := some NeuralNetworkOps.identity,
      activationDerivative := some NeuralNetworkOps.identityDerivative,
      errorFunction := some NeuralNetworkOps.defaultErrorFunction,
      errorDerivative := some NeuralNetworkOps.defaultErrorDerivative,
      layers := [exLayer1] }
    (some { input := mk 1 1 [3], output := mk 1 1 [5] }) [] (1 / 100) exNet_isValid hlr
    hany ([mk 1 1 [6]], [mk 1 1 [6]]) hloop [mk 1 1 [6]] havg
  rw [forLoop_succ, forLoop_zero] at hrun
  unfold exNet exData
  rw [hrun]

end Scenario

/-! ## Construction of layers and networks -/

section Construction

variable {α : Type}

theorem create_fields [Field α] (junk : Nat → α) (inputSize outputSize : Nat)
    (hiddenLayers : Option (List (NeuralNetworkLayer α))) (hiddenLayerCount : Nat)
    (act dv : Option (FnPtr α)) (eF eD : Option (α → α → α)) (nn : NeuralNetworkStruct α)
    (h : NeuralNetworkOps.create junk inputSize outputSize hiddenLayers hiddenLayerCount
      act dv eF eD = some nn) :
    nn.activationFunction = act ∧ nn.activationDerivative = dv ∧
    nn.errorFunction
      = (if eF.isNone then some NeuralNetworkOps.defaultErrorFunction else eF) ∧
    nn.errorDerivative
      = (if eF.isNone then some NeuralNetworkOps.defaultErrorDerivative else eD) ∧
    ∃ last, nn.layers.getD hiddenLayerCount none = some last ∧
      last.activationFunction
        = (if hiddenLayerCount ≠ 0 ∧ NeuralNetworkOps.isSoftmaxPtr act = true
            then some NeuralNetworkOps.identity else act) ∧
      last.activationDerivative
        = (if hiddenLayerCount ≠ 0 ∧ NeuralNetworkOps.isSoftmaxPtr act = true
            then some NeuralNetworkOps.identityDerivative else dv) := by
  have e1 : ((if eF.isNone = true
      then ((some NeuralNetworkOps.defaultErrorFunction : Option (α → α → α)),
        (some NeuralNetworkOps.defaultErrorDerivative : Option (α → α → α)))
      else (eF, eD)).1)
      = (if eF.isNone then some NeuralNetworkOps.defaultErrorFunction else eF) := by
    cases eF <;> rfl
  have e2 : ((if eF.isNone = true
      then ((some NeuralNetworkOps.defaultErrorFunction : Option (α → α → α)),
        (some NeuralNetworkOps.defaultErrorDerivative : Option (α → α → α)))
      else (eF, eD)).2)
      = (if eF.isNone then some NeuralNetworkOps.defaultErrorDerivative else eD) := by
    cases eF <;> rfl
  unfold NeuralNetworkOps.create at h
  by_cases hbad : inputSize = 0 ∨ outputSize = 0 ∨
      (hiddenLayers.isNone = true ∧ hiddenLayerCount ≠ 0) ∨ act.isNone = true
  · rw [if_pos hbad] at h; cases h
  · rw [if_neg hbad] at h
    simp only [] at h
    by_cases hz : hiddenLayerCount = 0
    · subst hz
      rw [if_pos rfl] at h
      cases hc : LayerOps.create junk inputSize outputSize act dv with
      | none => simp [hc] at h
      | some layer =>
        simp only [hc, Option.some.injEq] at h
        subst h
        obtain ⟨-, -, ha, hd, -⟩ :=
          layer_create_spec junk inputSize outputSize act dv layer hc
        refine ⟨rfl, rfl, e1, e2, layer, rfl, ?_, ?_⟩
        · simp [ha]
        · simp [hd]
    · rw [if_neg hz] at h
      cases h0 : NeuralNetworkOps.specOutputSize hiddenLayers 0 with
      | none => simp [h0] at h
      | some w0 =>
        simp only [h0] at h
        cases hc0 : LayerOps.create junk inputSize w0 act dv with
        | none => simp [hc0] at h
        | some layer0 =>
          simp only [hc0] at h
          obtain ⟨hin0, hout0, -, -, hv0, -⟩ :=
            layer_create_spec junk inputSize w0 act dv layer0 hc0
          cases hf : (List.range (hiddenLayerCount - 1)).foldl
              (NeuralNetworkOps.createHidden junk hiddenLayers act dv)
              (some [some layer0]) with
          | none => simp [hf] at h
          | some layers =>
            simp only [hf] at h
            obtain ⟨hlen, -⟩ := hidden_fold_spec junk inputSize hiddenLayers act dv layer0
              hin0 (by rw [hout0, h0]; rfl) hv0 (hiddenLayerCount - 1) layers hf
            cases hn : NeuralNetworkOps.specOutputSize hiddenLayers (hiddenLayerCount - 1) with
            | none => simp [hn] at h
            | some wn =>
              simp only [hn] at h
              by_cases hs : NeuralNetworkOps.isSoftmaxPtr act = true
              · simp only [hs, if_true] at h
                cases hcl : LayerOps.create junk wn outputSize
                    (some NeuralNetworkOps.identity)
                    (some NeuralNetworkOps.identityDerivative) with
                | none => simp [hcl] at h
                | some last =>
                  simp only [hcl, Option.some.injEq] at h
                  subst h
                  obtain ⟨-, -, ha, hd, -⟩ := layer_create_spec junk wn outputSize _ _ last hcl
                  refine ⟨rfl, rfl, e1, e2, last, ?_, ?_, ?_⟩
                  · show (layers ++ [some last]).getD hiddenLayerCount none = some last
                    rw [List.getD_eq_getElem?_getD, List.getElem?_append_right (by omega)]
                    have : hiddenLayerCount - layers.length = 0 := by omega
                    simp [this]
                  · simp [hz, hs, ha]
                  · simp [hz, hs, hd]
              · simp only [hs, if_false, Bool.false_eq_true] at h
                cases hcl : LayerOps.create junk wn outputSize act dv with
                | none => simp [hcl] at h
                | some last =>
                  simp only [hcl, Option.some.injEq] at h
                  subst h
                  obtain ⟨-, -, ha, hd, -⟩ := layer_create_spec junk wn outputSize _ _ last hcl
                  refine ⟨rfl, rfl, e1, e2, last, ?_, ?_, ?_⟩
                  · show (layers ++ [some last]).getD hiddenLayerCount none = some last
                    rw [List.getD_eq_getElem?_getD, List.getElem?_append_right (by omega)]
                    have : hiddenLayerCount - layers.length = 0 := by omega
                    simp [this]
                  · simp [hs, ha]
                  · simp [hs, hd]

theorem isValid_loop_iff (n : NeuralNetworkStruct α) (k p : Nat) :
    forLoop k (fun i (st : Option Nat) =>
        match st with
        | none => none
        | some prevOutputSize =>
          let layer := n.layers.getD i none
          if layer.isNone || !LayerOps.isValid layer then none
          else if LayerOps.getInputSize layer ≠ prevOutputSize then none
          else some (LayerOps.getOutputSize layer)) (some n.inputSize) = some p ↔
      (∀ i, i < k → ∃ l, n.layers.getD i none = some l ∧
        LayerOps.isValid (some l) = true ∧ l.inputSize = boundary n i) ∧
      p = boundary n k := by
  induction k generalizing p with
  | zero =>
    rw [forLoop_zero]
    simp only [Option.some.injEq, Nat.not_lt_zero, false_implies, implies_true, true_and,
      boundary, if_true]
    exact eq_comm
  | succ k ih =>
    rw [forLoop_succ]
    have hb : boundary n (k + 1) = LayerOps.getOutputSize (n.layers.getD k none) := by
      simp [boundary]
    cases hst : forLoop k (fun i (st : Option Nat) =>
        match st with
        | none => none
        | some prevOutputSize =>
          let layer := n.layers.getD i none
          if layer.isNone || !LayerOps.isValid layer then none
          else if LayerOps.getInputSize layer ≠ prevOutputSize then none
          else some (LayerOps.getOutputSize layer)) (some n.inputSize) with
    | none =>
      constructor
      · intro h; cases h
      · rintro ⟨hall, -⟩
        have := (ih (boundary n k)).2 ⟨fun i hi => hall i (by omega), rfl⟩
        rw [hst] at this
        cases this
    | some q =>
      obtain ⟨hprev, hq⟩ := (ih q).1 hst
      subst hq
      simp only []
      cases hl : n.layers.getD k none with
      | none =>
        constructor
        · intro h
          simp at h
        · rintro ⟨hall, -⟩
          obtain ⟨l, hl2, -⟩ := hall k (by omega)
          rw [hl] at hl2
          cases hl2
      | some l =>
        by_cases hv : LayerOps.isValid (some l) = true
        · by_cases hin : l.inputSize = boundary n k
          · simp only [hv, Option.isNone_some, Bool.not_true, Bool.or_self,
              Bool.false_eq_true, if_false, LayerOps.getInputSize, hin, ne_eq,
              not_true_eq_false, Option.some.injEq, hb, hl]
            constructor
            · intro h
              refine ⟨?_, h.symm⟩
              intro i hi
              by_cases hik : i = k
              · subst hik
                exact ⟨l, hl, hv, hin⟩
              · exact hprev i (by omega)
            · rintro ⟨-, h⟩
              exact h.symm
          · constructor
            · intro h
              simp [hv, LayerOps.getInputSize, hin] at h
            · rintro ⟨hall, -⟩
              obtain ⟨l2, hl2, -, hin2⟩ := hall k (by omega)
              rw [hl] at hl2
              cases hl2
              exact absurd hin2 hin
        · constructor
          · intro h
            simp [hv] at h
          · rintro ⟨hall, -⟩
            obtain ⟨l2, hl2, hv2, -⟩ := hall k (by omega)
            rw [hl] at hl2
            cases hl2
            exact absurd hv2 hv

theorem network_isValid_some_iff (n : NeuralNetworkStruct α) :
    NeuralNetworkOps.isValid (some n) = true ↔
      ((∀ i, i ≤ n.hiddenLayerCount →
        ∃ l, n.layers.getD i none = some l ∧ LayerOps.isValid (some l) = true) ∧
      LayerOps.getInputSize (n.layers.getD 0 none) = n.inputSize ∧
      (∀ i, i < n.hiddenLayerCount →
        LayerOps.getInputSize (n.layers.getD (i + 1) none)
          = LayerOps.getOutputSize (n.layers.getD i none)) ∧
      LayerOps.getOutputSize (n.layers.getD n.hiddenLayerCount none) = n.outputSize) := by
  have hb0 : boundary n 0 = n.inputSize := by simp [boundary]
  have hbs : ∀ k, boundary n (k + 1) = LayerOps.getOutputSize (n.layers.getD k none) := by
    intro k; simp [boundary]
  unfold NeuralNetworkOps.isValid
  simp only []
  constructor
  · intro h
    cases hr : forLoop (n.hiddenLayerCount + 1) (fun i (st : Option Nat) =>
        match st with
        | none => none
        | some prevOutputSize =>
          let layer := n.layers.getD i none
          if layer.isNone || !LayerOps.isValid layer then none
          else if LayerOps.getInputSize layer ≠ prevOutputSize then none
          else some (LayerOps.getOutputSize layer)) (some n.inputSize) with
    | none => rw [hr] at h; cases h
    | some p =>
      rw [hr] at h
      obtain ⟨hall, hp⟩ := (isValid_loop_iff n (n.hiddenLayerCount + 1) p).1 hr
      have hpo : p = n.outputSize := by
        by_contra hne
        simp [hne] at h
      refine ⟨?_, ?_, ?_, ?_⟩
      · intro i hi
        obtain ⟨l, hl, hv, -⟩ := hall i (by omega)
        exact ⟨l, hl, hv⟩
      · obtain ⟨l, hl, -, hin⟩ := hall 0 (by omega)
        rw [hl, ← hb0, ← hin]
        rfl
      · intro i hi
        obtain ⟨l, hl, -, hin⟩ := hall (i + 1) (by omega)
        rw [hl, ← hbs i, ← hin]
        rfl
      · rw [← hbs, ← hp, hpo]
  · rintro ⟨h1, h2, h3, h4⟩
    have hr := (isValid_loop_iff n (n.hiddenLayerCount + 1) n.outputSize).2 ⟨by
      intro i hi
      obtain ⟨l, hl, hv⟩ := h1 i (by omega)
      refine ⟨l, hl, hv, ?_⟩
      cases i with
      | zero =>
        rw [hb0, ← h2, hl]
        rfl
      | succ j =>
        have := h3 j (by omega)
        rw [hl] at this
        rw [hbs j, ← this]
        rfl, by rw [hbs, h4]⟩
    rw [hr]
    simp

theorem forLoop_absorb {σ : Type} (body : Nat → Option σ → Option σ)
    (hn : ∀ i, body i none = none) (s : Option σ) (h0 : body 0 s = none) (k : Nat)
    (hk : 0 < k) : forLoop k body s = none := by
  induction k with
  | zero => omega
  | succ k ih =>
    rw [forLoop_succ]
    by_cases hk0 : k = 0
    · subst hk0
      rw [forLoop_zero, h0]
    · rw [ih (by omega), hn]

theorem calculateErrorDerivative_numeric [Field α] (junk : Nat → α)
    (n : NeuralNetworkStruct α) (r c : Nat) (p t : List α) (hr : 0 < r) (hc : 0 < c)
    (hfit : r < SIZE_MOD) (hE : n.errorDerivative = none) :
    NeuralNetworkOps.calculateErrorDerivative junk (some n) (mk r c p) (mk r c t) = none := by
  have hv1 := isValid_mk r c p hr hc
  have hv2 := isValid_mk r c t hr hc
  have hs := isSameShape_mk r c r c p t hr hc hr hc
  have hcr := create_eq junk r 1 hr (by decide) (by omega)
  have hg1 := get_mk r c p 0 0 hr hc
  have hg2 := get_mk r c t 0 0 hr hc
  unfold NeuralNetworkOps.calculateErrorDerivative
  simp only [mk] at hv1 hv2 hs hcr hg1 hg2 ⊢
  simp only [hv1, hv2, hs, hE, MatrixOps.getRow, hcr]
  simp only [and_self, decide_True, Bool.not_true, Bool.or_self, Bool.false_eq_true, if_false]
  rw [forLoop_absorb _ (fun _ => rfl) _ ?h0 r hr]
  case h0 =>
    simp only [hg1, hg2]
    simp [NeuralNetworkOps.numericalErrorDerivative]
  simp

theorem calculateErrorDerivative_analytic [Field α] (junk : Nat → α)
    (n : NeuralNetworkStruct α) (r c : Nat) (p t : List α) (d : α → α → α) (hr : 0 < r)
    (hc : 0 < c) (hl : p.length = r * c) (hfit : r * c < SIZE_MOD)
    (hE : n.errorDerivative = some d) :
    NeuralNetworkOps.calculateErrorDerivative junk (some n) (mk r c p) (mk r c t)
      = some (mk r c ((List.range (r * c)).map (fun k => d (rd p k) (rd t k)))) := by
  have hv1 := isValid_mk r c p hr hc
  have hv2 := isValid_mk r c t hr hc
  have hs := isSameShape_mk r c r c p t hr hc hr hc
  have he := elementWiseOutOfPlace_mk junk r c p t d hr hc hl hfit
  unfold NeuralNetworkOps.calculateErrorDerivative
  simp only [mk] at hv1 hv2 hs he ⊢
  simp only [hv1, hv2, hs, he, hE]
  simp

theorem calculateErrorDerivative_shape [Field α] (junk : Nat → α)
    (n : NeuralNetworkStruct α) (r c r2 c2 : Nat) (p t : List α) (hr : 0 < r)
    (hc : 0 < c) (hr2 : 0 < r2) (hc2 : 0 < c2) (hne : r ≠ r2 ∨ c ≠ c2) :
    NeuralNetworkOps.calculateErrorDerivative junk (some n) (mk r c p) (mk r2 c2 t)
      = some none := by
  have hv1 := isValid_mk r c p hr hc
  have hv2 := isValid_mk r2 c2 t hr2 hc2
  have hs := isSameShape_mk r c r2 c2 p t hr hc hr2 hc2
  have hd : decide (r = r2 ∧ c = c2) = false := by
    rw [decide_eq_false_iff_not]
    rintro ⟨h1, h2⟩
    rcases hne with h | h
    · exact h h1
    · exact h h2
  rw [hd] at hs
  unfold NeuralNetworkOps.calculateErrorDerivative
  simp only [mk] at hv1 hv2 hs ⊢
  simp only [hv1, hv2, hs]
  simp

theorem calculateActivationDeriv_numeric [Field α] (g : α → α) (junk : Nat → α)
    (inS outS : Nat) (f : FnPtr α) (dW dX : List α) (hi : 0 < inS) (ho : 0 < outS)
    (hfit : outS * 1 < SIZE_MOD) :
    LayerOps.calculateActivationDeriv g junk
        (some ⟨inS, outS, some f, none, mk outS inS dW⟩) (mk inS 1 dX)
      = mk outS 1 ((List.range (outS * 1)).map (fun k =>
          LayerOps.numericalDerivative g
            (∑ x ∈ Finset.range inS, rd dW (k / 1 * inS + x) * rd dX (x * 1 + k % 1)))) := by
  have hlv := layer_isValid_mk inS outS f none dW hi ho
  have hvX := isValid_mk inS 1 dX hi (by decide)
  have hm := multiply_mk junk outS inS 1 dW dX ho hi (by decide) hfit
  have hloop : ∀ d : List α,
      forLoop outS (fun i (st : Option (Matrix α)) =>
        match st with
        | none => none
        | some WmulX =>
          let g0 := MatrixOps.get WmulX i 0
          let s := MatrixOps.set WmulX i 0
            (LayerOps.numericalDerivative g (g0.2.getD 0))
          if g0.1 ≠ 0 ∨ s.1 ≠ 0 then none else some s.2) (some (mk outS 1 d))
      = some (mk outS 1 (forLoop outS
          (fun i d => d.set i (LayerOps.numericalDerivative g (rd d i))) d)) := by
    intro d
    apply forLoop_map (fun d => (some (mk outS 1 d) : Option (Matrix α)))
    intro i hi2 t
    have hg := get_mk outS 1 t i 0 hi2 (by decide)
    have hs := set_mk outS 1 t i 0 (LayerOps.numericalDerivative g (rd t i)) hi2 (by decide)
    simp only [Nat.mul_one, Nat.add_zero] at hg hs
    simp only [hg, hs, Option.getD_some]
    simp
  have h1 : outS * 1 = outS := Nat.mul_one _
  rw [h1] at hm ⊢
  have hlen : ((List.range outS).map (fun k =>
      ∑ x ∈ Finset.range inS, rd dW (k / 1 * inS + x) * rd dX (x * 1 + k % 1))).length
      = outS := by simp
  have hpw := forLoop_pointwise_eq (fun _ z => LayerOps.numericalDerivative g z)
    ((List.range outS).map (fun k =>
      ∑ x ∈ Finset.range inS, rd dW (k / 1 * inS + x) * rd dX (x * 1 + k % 1)))
  rw [hlen] at hpw
  have htt := tab_tab outS (fun k =>
      ∑ x ∈ Finset.range inS, rd dW (k / 1 * inS + x) * rd dX (x * 1 + k % 1))
    (fun _ z => LayerOps.numericalDerivative g z)
  rw [htt] at hpw
  unfold LayerOps.calculateActivationDeriv
  simp only [mk] at hlv hvX hm hloop ⊢
  simp only [hlv, hvX, hm, hloop, hpw]
  rfl

theorem matrix_isValid_some (m : MatrixStruct α) :
    MatrixOps.isValid (some m) = true ↔ m.row ≠ 0 ∧ m.col ≠ 0 ∧ m.data.isSome = true := by
  unfold MatrixOps.isValid
  by_cases h0 : m.row = 0 ∨ m.col = 0
  · simp only [h0, if_true, Bool.false_eq_true, false_iff]
    rintro ⟨h1, h2, -⟩
    rcases h0 with h | h
    · exact h1 h
    · exact h2 h
  · have h1 : m.row ≠ 0 := fun h => h0 (Or.inl h)
    have h2 : m.col ≠ 0 := fun h => h0 (Or.inr h)
    cases hd : m.data with
    | none => simp [h0, hd]
    | some d => simp [h0, hd, h1, h2]

theorem copy_some [Zero α] (junk : Nat → α) (m : Matrix α) (r : MatrixStruct α)
    (h : MatrixOps.copy junk m = some r) :
    MatrixOps.isValid (some r) = true ∧ r.row = MatrixOps.getRow m ∧
      r.col = MatrixOps.getCol m := by
  unfold MatrixOps.copy at h
  by_cases hv : MatrixOps.isValid m = true
  · match m, hv, h with
    | some ms, hv, h =>
      obtain ⟨hr0, hc0, hd0⟩ := (matrix_isValid_some ms).1 hv
      simp only [hv, Bool.not_true, Bool.false_eq_true, if_false] at h
      cases hd : ms.data with
      | none => simp [hd] at h
      | some data =>
        simp only [hd] at h
        cases hc : MatrixOps.create junk ms.row ms.col with
        | none => simp [hc, MatrixOps.isValid] at h
        | some r0 =>
          obtain ⟨e1, e2, e3, -⟩ := create_some junk ms.row ms.col r0 hc
          simp only [hc] at h
          by_cases hv0 : MatrixOps.isValid (some r0) = true
          · simp only [hv0, Bool.not_true, Bool.false_eq_true, if_false] at h
            cases hd0 : r0.data with
            | none => simp [hd0] at h
            | some rd0 =>
              simp only [hd0, Option.some.injEq] at h
              subst h
              refine ⟨?_, e1, e2⟩
              rw [matrix_isValid_some]
              exact ⟨by rw [e1]; exact hr0, by rw [e2]; exact hc0, rfl⟩
          · simp [hv0] at h
  · simp [hv] at h

theorem subtract_keeps [Zero α] [Sub α] (m1 m2 : Matrix α)
    (hv : MatrixOps.isValid m1 = true) :
    MatrixOps.isValid (MatrixOps.subtract m1 m2).2 = true ∧
      MatrixOps.getRow (MatrixOps.subtract m1 m2).2 = MatrixOps.getRow m1 ∧
      MatrixOps.getCol (MatrixOps.subtract m1 m2).2 = MatrixOps.getCol m1 := by
  unfold MatrixOps.subtract
  by_cases h0 : MatrixOps.isValid m1 = false ∨ MatrixOps.isValid m2 = false
  · rw [if_pos h0]
    exact ⟨hv, rfl, rfl⟩
  · rw [if_neg h0]
    match m1, m2, hv with
    | some a, none, hv => exact ⟨hv, rfl, rfl⟩
    | some a, some b, hv =>
      simp only []
      by_cases hs : a.row ≠ b.row ∨ a.col ≠ b.col
      · rw [if_pos hs]
        exact ⟨hv, rfl, rfl⟩
      · rw [if_neg hs]
        cases hda : a.data with
        | none => exact ⟨hv, rfl, rfl⟩
        | some d1 =>
          cases hdb : b.data with
          | none => exact ⟨hv, rfl, rfl⟩
          | some d2 =>
            obtain ⟨hr0, hc0, -⟩ := (matrix_isValid_some a).1 hv
            refine ⟨?_, rfl, rfl⟩
            rw [matrix_isValid_some]
            exact ⟨hr0, hc0, rfl⟩

theorem layer_isValid_some (l : LayerStruct α) :
    LayerOps.isValid (some l) = true ↔
      l.inputSize ≠ 0 ∧ l.outputSize ≠ 0 ∧ l.activationFunction.isSome = true ∧
      MatrixOps.isValid l.weights = true ∧ MatrixOps.getCol l.weights = l.inputSize ∧
      MatrixOps.getRow l.weights = l.outputSize := by
  unfold LayerOps.isValid
  by_cases h0 : l.inputSize = 0 ∨ l.outputSize = 0
  · simp only [h0, if_true, Bool.false_eq_true, false_iff]
    rintro ⟨h1, h2, -⟩
    rcases h0 with h | h
    · exact h1 h
    · exact h2 h
  · have h1 : l.inputSize ≠ 0 := fun h => h0 (Or.inl h)
    have h2 : l.outputSize ≠ 0 := fun h => h0 (Or.inr h)
    cases ha : l.activationFunction with
    | none => simp [h0, ha]
    | some f =>
      by_cases hw : MatrixOps.isValid l.weights = true
      · by_cases hs : MatrixOps.getCol l.weights ≠ l.inputSize ∨
            MatrixOps.getRow l.weights ≠ l.outputSize
        · simp only [h0, ha, hw, hs, if_true, if_false, Option.isNone_some, Bool.not_true,
            Bool.false_eq_true, false_iff]
          rintro ⟨-, -, -, -, h5, h6⟩
          rcases hs with h | h
          · exact h h5
          · exact h h6
        · have h5 : MatrixOps.getCol l.weights = l.inputSize :=
            by_contra fun e => hs (Or.inl e)
          have h6 : MatrixOps.getRow l.weights = l.outputSize :=
            by_contra fun e => hs (Or.inr e)
          simp [h0, ha, hw, h1, h2, h5, h6]
      · simp [h0, ha, hw]

theorem setWeights_keeps [Zero α] (junk : Nat → α) (layer : Layer α) (w : Matrix α)
    (hv : LayerOps.isValid layer = true) :
    LayerOps.isValid (LayerOps.setWeights junk layer w).2 = true := by
  match layer, hv with
  | some l, hv =>
    match w with
    | none => exact hv
    | some ws =>
      obtain ⟨h1, h2, h3, h4, h5, h6⟩ := (layer_isValid_some l).1 hv
      unfold LayerOps.setWeights
      simp only []
      by_cases hs : MatrixOps.getRow (some ws) ≠ l.outputSize ∨
          MatrixOps.getCol (some ws) ≠ l.inputSize
      · rw [if_pos hs]
        exact hv
      · rw [if_neg hs]
        have e1 : MatrixOps.getRow (some ws) = l.outputSize := by_contra fun e => hs (Or.inl e)
        have e2 : MatrixOps.getCol (some ws) = l.inputSize := by_contra fun e => hs (Or.inr e)
        unfold MatrixOps.replace
        simp only []
        by_cases hw : MatrixOps.isValid (some ws) = true
        · simp only [hw, Bool.not_true, Bool.false_eq_true, if_false]
          cases hc : MatrixOps.copy junk (some ws) with
          | none => exact hv
          | some m =>
            obtain ⟨c1, c2, c3⟩ := copy_some junk (some ws) m hc
            simp only [Option.getD_some]
            rw [layer_isValid_some]
            exact ⟨h1, h2, h3, c1, by show m.col = l.inputSize; rw [c3, e2],
              by show m.row = l.outputSize; rw [c2, e1]⟩
        · simp only [hw, Bool.not_false, if_true]
          exact hv

theorem setWeights_rejects [Zero α] (junk : Nat → α) (layer : Layer α) (w : Matrix α)
    (h : MatrixOps.getRow w ≠ LayerOps.getOutputSize layer ∨
      MatrixOps.getCol w ≠ LayerOps.getInputSize layer) :
    LayerOps.setWeights junk layer w = (-1, layer) := by
  match layer, w, h with
  | none, _, _ => rfl
  | some l, none, _ => rfl
  | some l, some ws, h =>
    have h2 : MatrixOps.getRow (some ws) ≠ l.outputSize ∨
        MatrixOps.getCol (some ws) ≠ l.inputSize := h
    unfold LayerOps.setWeights
    simp only []
    rw [if_pos h2]

end Construction

/-! ## Access, transposition and the in-place operations -/

section Access

variable {α : Type}

theorem isValid_false_iff (m : Matrix α) :
    MatrixOps.isValid m = false ↔
      (m = none ∨ ∃ s, m = some s ∧ (s.row = 0 ∨ s.col = 0 ∨ s.data = none)) := by
  match m with
  | none => simp [MatrixOps.isValid]
  | some s =>
    have h := matrix_isValid_some s
    constructor
    · intro hf
      right
      refine ⟨s, rfl, ?_⟩
      by_contra hn
      have h1 : s.row ≠ 0 := fun e => hn (Or.inl e)
      have h2 : s.col ≠ 0 := fun e => hn (Or.inr (Or.inl e))
      have h3 : s.data.isSome = true := by
        cases hd : s.data with
        | none => exact absurd hd (fun e => hn (Or.inr (Or.inr e)))
        | some d => rfl
      rw [h.2 ⟨h1, h2, h3⟩] at hf
      cases hf
    · rintro (hn | ⟨t, ht, hbad⟩)
      · cases hn
      · cases ht
        cases hv : MatrixOps.isValid (some s) with
        | false => rfl
        | true =>
          obtain ⟨h1, h2, h3⟩ := h.1 hv
          rcases hbad with e | e | e
          · exact absurd e h1
          · exact absurd e h2
          · rw [e] at h3
            cases h3

theorem getInto_status [Zero α] (m : Matrix α) (i j : Nat) (value : Option α) :
    (MatrixOps.getInto m i j value).1
      = if MatrixOps.isValid m = false ∨ MatrixOps.getRow m ≤ i ∨ MatrixOps.getCol m ≤ j ∨
          value.isNone = true then -1 else 0 := by
  unfold MatrixOps.getInto
  by_cases hv : MatrixOps.isValid m = false
  · simp [hv]
  · have hv2 : MatrixOps.isValid m = true := by
      cases h : MatrixOps.isValid m with
      | false => exact absurd h hv
      | true => rfl
    match m, hv2 with
    | some s, hv2 =>
      obtain ⟨-, -, h3⟩ := (matrix_isValid_some s).1 hv2
      obtain ⟨d, hd⟩ := Option.isSome_iff_exists.mp h3
      simp only [hv2, Bool.true_eq_false, if_false, false_or, MatrixOps.getRow,
        MatrixOps.getCol, ge_iff_le, hd]
      by_cases hidx : s.row ≤ i ∨ s.col ≤ j
      · rw [if_pos hidx]
        rcases hidx with h | h <;> simp [h]
      · rw [if_neg hidx]
        have h1 : ¬ s.row ≤ i := fun e => hidx (Or.inl e)
        have h2 : ¬ s.col ≤ j := fun e => hidx (Or.inr e)
        cases value with
        | none => simp
        | some x => simp [h1, h2]

theorem set_status (m : Matrix α) (i j : Nat) (v : α) :
    (MatrixOps.set m i j v).1
      = if MatrixOps.isValid m = false ∨ MatrixOps.getRow m ≤ i ∨ MatrixOps.getCol m ≤ j
          then -1 else 0 := by
  unfold MatrixOps.set
  by_cases hv : MatrixOps.isValid m = false
  · simp [hv]
  · have hv2 : MatrixOps.isValid m = true := by
      cases h : MatrixOps.isValid m with
      | false => exact absurd h hv
      | true => rfl
    match m, hv2 with
    | some s, hv2 =>
      obtain ⟨-, -, h3⟩ := (matrix_isValid_some s).1 hv2
      obtain ⟨d, hd⟩ := Option.isSome_iff_exists.mp h3
      simp only [hv2, Bool.true_eq_false, if_false, false_or, MatrixOps.getRow,
        MatrixOps.getCol, ge_iff_le, hd]
      by_cases hidx : s.row ≤ i ∨ s.col ≤ j
      · rw [if_pos hidx, if_pos hidx]
      · rw [if_neg hidx, if_neg hidx]

theorem set_failed (m : Matrix α) (i j : Nat) (v : α)
    (h : (MatrixOps.set m i j v).1 = -1) : (MatrixOps.set m i j v).2 = m := by
  unfold MatrixOps.set at h ⊢
  by_cases hv : MatrixOps.isValid m = false
  · simp [hv]
  · match m with
    | none => simp
    | some s =>
      simp only [hv, if_false] at h ⊢
      by_cases hidx : i ≥ s.row ∨ j ≥ s.col
      · simp [hidx]
      · simp only [hidx, if_false] at h ⊢
        cases hd : s.data with
        | none => rfl
        | some d =>
          rw [hd] at h
          simp at h

theorem get_set_getInto [Zero α] (m : Matrix α) (i j : Nat) (x : α)
    (h : (MatrixOps.get m i j).1 = 0) :
    MatrixOps.get m i j = MatrixOps.getInto m i j (some x) := by
  unfold MatrixOps.get MatrixOps.getInto at *
  by_cases hv : MatrixOps.isValid m = false
  · simp [hv] at h
  · match m with
    | none => simp at h
    | some s =>
      simp only [hv, if_false] at h ⊢
      by_cases hidx : i ≥ s.row ∨ j ≥ s.col
      · simp [hidx] at h
      · simp only [hidx, if_false] at h ⊢
        cases hd : s.data with
        | none => rw [hd] at h; simp at h
        | some d => rfl

theorem rd_forLoop_other [Zero α] (idx : Nat → Nat) (g : Nat → α) (c : Nat) (l : List α)
    (k : Nat) (h : ∀ j, j < c → idx j ≠ k) :
    rd (forLoop c (fun j d => d.set (idx j) (g j)) l) k = rd l k := by
  induction c with
  | zero => rw [forLoop_zero]
  | succ c ih =>
    rw [forLoop_succ, rd_set, if_neg (fun q => h c (Nat.lt_succ_self c) q.1),
      ih (fun j hj => h j (Nat.lt_succ_of_lt hj))]

theorem rd_forLoop_hit [Zero α] (idx : Nat → Nat) (g : Nat → α) (c : Nat) (l : List α)
    (j0 : Nat) (hj : j0 < c) (hlen : idx j0 < l.length)
    (hinj : ∀ j, j < c → idx j = idx j0 → j = j0) :
    rd (forLoop c (fun j d => d.set (idx j) (g j)) l) (idx j0) = g j0 := by
  induction c with
  | zero => omega
  | succ c ih =>
    rw [forLoop_succ, rd_set, length_forLoop_set c idx (fun j _ => g j) l]
    by_cases hc : j0 = c
    · subst hc
      rw [if_pos ⟨rfl, hlen⟩]
    · have hne : idx c ≠ idx j0 := by
        intro e
        have := hinj c (Nat.lt_succ_self c) e
        exact hc this.symm
      rw [if_neg (fun q => hne q.1)]
      exact ih (by omega) (fun j hj2 e => hinj j (Nat.lt_succ_of_lt hj2) e)

theorem length_forLoop_nested (idx : Nat → Nat → Nat) (f : Nat → Nat → α) (col r : Nat)
    (l : List α) :
    (forLoop r (fun i d => forLoop col (fun j d => d.set (idx i j) (f i j)) d) l).length
      = l.length := by
  induction r with
  | zero => rfl
  | succ r ih =>
    rw [forLoop_succ, length_forLoop_set col (fun j => idx r j) (fun j _ => f r j), ih]

theorem rd_forLoop_nested_hit [Zero α] (idx : Nat → Nat → Nat) (f : Nat → Nat → α)
    (col r : Nat) (l : List α) (i0 j0 : Nat) (hi : i0 < r) (hj : j0 < col)
    (hlen : idx i0 j0 < l.length)
    (hinj : ∀ i j, i < r → j < col → idx i j = idx i0 j0 → i = i0 ∧ j = j0) :
    rd (forLoop r (fun i d => forLoop col (fun j d => d.set (idx i j) (f i j)) d) l)
      (idx i0 j0) = f i0 j0 := by
  induction r with
  | zero => omega
  | succ r ih =>
    rw [forLoop_succ]
    by_cases hr : i0 = r
    · subst hr
      apply rd_forLoop_hit (fun j => idx i0 j) (fun j => f i0 j) col _ j0 hj
      · rw [length_forLoop_nested]
        exact hlen
      · intro j hj2 e
        exact (hinj i0 j (Nat.lt_succ_self i0) hj2 e).2
    · rw [rd_forLoop_other (fun j => idx r j) (fun j => f r j) col _ (idx i0 j0)]
      · exact ih (by omega) (fun i j hi2 hj2 e => hinj i j (Nat.lt_succ_of_lt hi2) hj2 e)
      · intro j hj2 e
        have := (hinj r j (Nat.lt_succ_self r) hj2 e).1
        exact hr this.symm

theorem transpose_mk [Zero α] (junk : Nat → α) (row col : Nat) (d : List α)
    (hr : 0 < row) (hc : 0 < col) (hfit : row * col < SIZE_MOD) :
    MatrixOps.transpose junk (mk row col d)
      = mk col row ((List.range (col * row)).map (fun k =>
          rd d (k % row * col + k / row))) := by
  have hv := isValid_mk row col d hr hc
  have hfit2 : col * row < SIZE_MOD := by rw [Nat.mul_comm]; exact hfit
  have hcr := create_eq junk col row hc hr hfit2
  have hv2 := isValid_mk col row ((List.range (col * row)).map junk) hc hr
  have hloop : forLoop row (fun i resultData =>
        forLoop col (fun j resultData =>
          resultData.set (j * row + i) (rd d (i * col + j))) resultData)
        ((List.range (col * row)).map junk)
      = (List.range (col * row)).map (fun k => rd d (k % row * col + k / row)) := by
    apply ext_rd
    · rw [length_forLoop_nested (fun i j => j * row + i) (fun i j => rd d (i * col + j))]
      simp
    · intro k hk
      rw [length_forLoop_nested (fun i j => j * row + i) (fun i j => rd d (i * col + j))] at hk
      have hk2 : k < col * row := by simpa using hk
      have hkr : k % row < row := Nat.mod_lt k hr
      have hkc : k / row < col := by
        rw [Nat.div_lt_iff_lt_mul hr]
        exact hk2
      have hsplit : k / row * row + k % row = k := by
        rw [Nat.mul_comm]
        exact Nat.div_add_mod k row
      have hhit := rd_forLoop_nested_hit (fun i j => j * row + i)
        (fun i j => rd d (i * col + j)) col row ((List.range (col * row)).map junk)
        (k % row) (k / row) hkr hkc (by simp only [hsplit]; simpa using hk2)
        (by
          intro i j hi2 _ e
          simp only [hsplit] at e
          have h1 := div_mod_index j i row hi2
          rw [e] at h1
          exact ⟨h1.2.symm, h1.1.symm⟩)
      simp only [hsplit] at hhit
      rw [hhit, rd_tab, if_pos hk2]
  unfold MatrixOps.transpose
  rw [hv]
  simp only [mk] at hcr hv2 ⊢
  simp only [hcr, hv2, hloop]
  simp

theorem transpose_twice_mk [Zero α] (junk junk2 : Nat → α) (row col : Nat)
    (cells : List α) (hr : 0 < row) (hc : 0 < col) (hlen : cells.length = row * col)
    (hfit : row * col < SIZE_MOD) :
    MatrixOps.transpose junk2 (MatrixOps.transpose junk (mk row col cells))
      = mk row col cells := by
  rw [transpose_mk junk row col cells hr hc hfit,
    transpose_mk junk2 col row _ hc hr (by rw [Nat.mul_comm]; exact hfit)]
  congr 3
  apply ext_rd
  · simp [hlen]
  · intro k hk
    have hk2 : k < row * col := by simpa using hk
    have hkc : k % col < col := Nat.mod_lt k hc
    have hkr : k / col < row := by
      rw [Nat.div_lt_iff_lt_mul hc]
      exact hk2
    have hsplit : k / col * col + k % col = k := by
      rw [Nat.mul_comm]
      exact Nat.div_add_mod k col
    have hidx : k % col * row + k / col < col * row := index_lt _ _ col row hkc hkr
    have hdm := div_mod_index (k % col) (k / col) row hkr
    rw [rd_tab, if_pos hk2, rd_tab, if_pos hidx, hdm.1, hdm.2, hsplit]

theorem same_shape_cases {A B : Matrix α} (hvA : MatrixOps.isValid A = true) (hrA : Rep A)
    (hvB : MatrixOps.isValid B = true) (hrB : Rep B)
    (hrow : MatrixOps.getRow A = MatrixOps.getRow B)
    (hcol : MatrixOps.getCol A = MatrixOps.getCol B) :
    ∃ row col d1 d2, A = mk row col d1 ∧ B = mk row col d2 ∧ 0 < row ∧ 0 < col ∧
      d1.length = row * col ∧ d2.length = row * col ∧ row * col < SIZE_MOD := by
  obtain ⟨row, col, d1, rfl, h1, h2, h3, h4⟩ := valid_cases hvA hrA
  obtain ⟨row2, col2, d2, rfl, -, -, k3, -⟩ := valid_cases hvB hrB
  have er : row = row2 := hrow
  have ec : col = col2 := hcol
  subst er
  subst ec
  exact ⟨row, col, d1, d2, rfl, rfl, h1, h2, h3, k3, h4⟩

theorem entry_tab [Zero α] (row col : Nat) (T : Nat → α) (i j : Nat) (hi : i < row)
    (hj : j < col) :
    entry (mk row col ((List.range (row * col)).map T)) i j = T (i * col + j) := by
  rw [entry_mk row col _ i j hi hj, rd_tab, if_pos (index_lt i j row col hi hj)]

theorem mismatch_forms {A B : Matrix α} (hvA : MatrixOps.isValid A = true)
    (hvB : MatrixOps.isValid B = true)
    (hne : MatrixOps.getRow A ≠ MatrixOps.getRow B ∨ MatrixOps.getCol A ≠ MatrixOps.getCol B) :
    ∃ a b, A = some a ∧ B = some b ∧ (a.row ≠ b.row ∨ a.col ≠ b.col) := by
  match A, B, hvA, hvB, hne with
  | some a, some b, _, _, hne => exact ⟨a, b, rfl, rfl, hne⟩

theorem add_mismatch [Zero α] [Add α] (A B : Matrix α) (hvA : MatrixOps.isValid A = true)
    (hvB : MatrixOps.isValid B = true)
    (hne : MatrixOps.getRow A ≠ MatrixOps.getRow B ∨ MatrixOps.getCol A ≠ MatrixOps.getCol B) :
    MatrixOps.add A B = (-1, A) := by
  obtain ⟨a, b, rfl, rfl, h⟩ := mismatch_forms hvA hvB hne
  unfold MatrixOps.add
  simp only [hvA, hvB, Bool.true_eq_false, or_self, if_false]
  rw [if_pos h]

theorem subtract_mismatch [Zero α] [Sub α] (A B : Matrix α)
    (hvA : MatrixOps.isValid A = true) (hvB : MatrixOps.isValid B = true)
    (hne : MatrixOps.getRow A ≠ MatrixOps.getRow B ∨ MatrixOps.getCol A ≠ MatrixOps.getCol B) :
    MatrixOps.subtract A B = (-1, A) := by
  obtain ⟨a, b, rfl, rfl, h⟩ := mismatch_forms hvA hvB hne
  unfold MatrixOps.subtract
  simp only [hvA, hvB, Bool.true_eq_false, or_self, if_false]
  rw [if_pos h]

theorem elementWise_mismatch [Zero α] (A B : Matrix α) (f : α → α → α)
    (hvA : MatrixOps.isValid A = true) (hvB : MatrixOps.isValid B = true)
    (hne : MatrixOps.getRow A ≠ MatrixOps.getRow B ∨ MatrixOps.getCol A ≠ MatrixOps.getCol B) :
    MatrixOps.elementWise A B f = (-1, A) := by
  obtain ⟨a, b, rfl, rfl, h⟩ := mismatch_forms hvA hvB hne
  unfold MatrixOps.elementWise
  simp only [hvA, hvB, Bool.not_true, Bool.or_self, Bool.false_eq_true, if_false]
  rw [if_pos h]

theorem assignValues_mismatch [Zero α] (A B : Matrix α)
    (hvA : MatrixOps.isValid A = true) (hvB : MatrixOps.isValid B = true)
    (hne : MatrixOps.getRow A ≠ MatrixOps.getRow B ∨ MatrixOps.getCol A ≠ MatrixOps.getCol B) :
    MatrixOps.assignValues A B = (-1, A) := by
  obtain ⟨a, b, rfl, rfl, h⟩ := mismatch_forms hvA hvB hne
  have hs : MatrixOps.isSameShape (some a) (some b) = false := by
    unfold MatrixOps.isSameShape
    simp only [hvA, hvB, Bool.not_true, Bool.or_self, Bool.false_eq_true, if_false]
    rw [if_pos h]
  unfold MatrixOps.assignValues
  simp only [hvA, hvB, hs, Bool.not_true, Bool.not_false, Bool.or_self, Bool.false_eq_true,
    if_false, if_true]

end Access

/-! ## Sharing of storage -/

section Sharing

variable {α : Type}

theorem addressed_load_mk (blocks : Blocks α) (row col a : Nat) (d : List α)
    (hd : blocks[a]? = some d) :
    Addressed.load blocks (some ⟨row, col, some a⟩) = mk row col d := by
  simp [Addressed.load, mk, hd]

theorem addressed_isValid_mk (row col a : Nat) (hr : 0 < row) (hc : 0 < col) :
    Addressed.isValid (some ⟨row, col, some a⟩) = true := by
  have h1 : row ≠ 0 := by omega
  have h2 : col ≠ 0 := by omega
  simp [Addressed.isValid, h1, h2]

theorem addressed_getD (blocks : Blocks α) (a : Nat) (d : List α)
    (hd : blocks[a]? = some d) : blocks.getD a [] = d := by
  simp [List.getD_eq_getElem?_getD, hd]

theorem addressed_scalarMultiply_mk [Zero α] [Mul α] (blocks : Blocks α) (row col a : Nat)
    (d : List α) (s : α) (hd : blocks[a]? = some d) (hr : 0 < row) (hc : 0 < col)
    (hl : d.length = row * col) (hfit : row * col < SIZE_MOD) :
    Addressed.scalarMultiply blocks (some ⟨row, col, some a⟩) s
      = (0, blocks.set a ((List.range (row * col)).map (fun k => rd d k * s))) := by
  have hv := addressed_isValid_mk row col a hr hc
  unfold Addressed.scalarMultiply
  simp only [hv, Bool.not_true, Bool.false_eq_true, if_false, addressed_getD blocks a d hd]
  rw [pointwise_mod row col d (fun _ x => x * s) hl hfit]

theorem addressed_cases (blocks : Blocks α) (M : MatrixRef)
    (hv : MatrixOps.isValid (Addressed.load blocks (some M)) = true)
    (hrep : Rep (Addressed.load blocks (some M))) :
    ∃ row col a d, M = ⟨row, col, some a⟩ ∧ blocks[a]? = some d ∧ a < blocks.length ∧
      0 < row ∧ 0 < col ∧ d.length = row * col ∧ row * col < SIZE_MOD := by
  obtain ⟨row, col, d, hM, hr, hc, hl, hfit⟩ := valid_cases hv hrep
  obtain ⟨mrow, mcol, mdata⟩ := M
  simp only [Addressed.load, mk, Option.some.injEq, MatrixStruct.mk.injEq] at hM
  obtain ⟨e1, e2, e3⟩ := hM
  subst e1
  subst e2
  cases mdata with
  | none => simp at e3
  | some a =>
    simp only [Option.some_bind] at e3
    have ha : a < blocks.length := by
      by_contra hn
      rw [List.getElem?_eq_none (by omega)] at e3
      cases e3
    exact ⟨mrow, mcol, a, d, rfl, e3, ha, hr, hc, hl, hfit⟩

end Sharing

/-! ## Frames, sub-matrices and concatenation -/

section Frames

variable {α : Type}

theorem updateWeights_gradient [Field α] (deltaWeights : Matrix α) (layer : Layer α)
    (G : Matrix α) (lr : α) (hvL : LayerOps.isValid layer = true)
    (hvG : MatrixOps.isValid G = true) :
    (LayerOps.updateWeights deltaWeights layer G lr).2.2 = (MatrixOps.scalarMultiply G lr).2 := by
  match layer, G, hvL, hvG with
  | some l, some g, hvL, hvG =>
    unfold LayerOps.updateWeights
    simp only [hvL, hvG, Bool.not_true, Bool.or_self, Bool.false_eq_true, if_false]
    split
    · rfl
    · split <;> rfl

theorem index_ne (i j i2 j2 col : Nat) (hj : j < col) (hj2 : j2 < col)
    (hne : i2 ≠ i ∨ j2 ≠ j) : i * col + j ≠ i2 * col + j2 := by
  intro e
  have h1 := div_mod_index i j col hj
  have h2 := div_mod_index i2 j2 col hj2
  rw [e] at h1
  rcases hne with h | h
  · exact h (h2.1.symm.trans h1.1)
  · exact h (h2.2.symm.trans h1.2)

theorem copySubMatrix_mk [Zero α] (junk : Nat → α) (row col : Nat) (d : List α)
    (rs re cs ce : Nat) (h1 : rs ≤ re) (h2 : re < row) (h3 : cs ≤ ce) (h4 : ce < col)
    (hfit : row * col < SIZE_MOD) :
    MatrixOps.copySubMatrix junk (mk row col d) rs re cs ce
      = mk (re - rs + 1) (ce - cs + 1)
          ((List.range ((re - rs + 1) * (ce - cs + 1))).map (fun k =>
            rd d ((rs + k / (ce - cs + 1)) * col + cs + k % (ce - cs + 1)))) := by
  have hv := isValid_mk row col d (by omega) (by omega)
  have hle : (re - rs + 1) * (ce - cs + 1) ≤ row * col :=
    Nat.mul_le_mul (by omega) (by omega)
  have hcr := create_eq junk (re - rs + 1) (ce - cs + 1) (by omega) (by omega) (by omega)
  have hv2 := isValid_mk (re - rs + 1) (ce - cs + 1)
    ((List.range ((re - rs + 1) * (ce - cs + 1))).map junk) (by omega) (by omega)
  have hb1 : ¬ (rs ≥ row ∨ re ≥ row ∨ cs ≥ col ∨ ce ≥ col) := by omega
  have hb2 : ¬ (rs > re ∨ cs > ce) := by omega
  have hcount : re + 1 - rs = re - rs + 1 := by omega
  have hloop : forLoop (re - rs + 1) (fun t toData =>
        MatrixOps.memcpyAt toData ((rs + t - rs) * (ce - cs + 1)) d ((rs + t) * col + cs)
          (ce - cs + 1)) ((List.range ((re - rs + 1) * (ce - cs + 1))).map junk)
      = (List.range ((re - rs + 1) * (ce - cs + 1))).map (fun k =>
          rd d ((rs + k / (ce - cs + 1)) * col + cs + k % (ce - cs + 1))) := by
    simp only [MatrixOps.memcpyAt, Nat.add_sub_cancel_left]
    exact forLoop_rows_eq (re - rs + 1) (ce - cs + 1)
      (fun t k => rd d ((rs + t) * col + cs + k)) _ (by simp)
  unfold MatrixOps.copySubMatrix
  rw [hv]
  simp only [mk] at hcr hv2 ⊢
  simp only [hb1, hb2, hcr, hv2, hcount, hloop]
  simp

theorem copySubMatrix_bad [Zero α] (junk : Nat → α) (row col : Nat) (d : List α)
    (rs re cs ce : Nat) (h : ¬ (rs ≤ re ∧ re < row ∧ cs ≤ ce ∧ ce < col)) :
    MatrixOps.copySubMatrix junk (mk row col d) rs re cs ce = none := by
  unfold MatrixOps.copySubMatrix
  by_cases hv : MatrixOps.isValid (mk row col d) = true
  · rw [hv]
    simp only [mk, Bool.not_true, Bool.false_eq_true, if_false]
    by_cases hb1 : rs ≥ row ∨ re ≥ row ∨ cs ≥ col ∨ ce ≥ col
    · rw [if_pos hb1]
    · rw [if_neg hb1]
      have hb2 : rs > re ∨ cs > ce := by omega
      rw [if_pos hb2]
  · simp [hv]

theorem forLoop_congr {σ : Type} (n : Nat) (body body2 : Nat → σ → σ) (s : σ)
    (h : ∀ k, k < n → ∀ t, body k t = body2 k t) : forLoop n body s = forLoop n body2 s := by
  induction n with
  | zero => rfl
  | succ n ih =>
    rw [forLoop_succ, forLoop_succ, ih (fun k hk => h k (Nat.lt_succ_of_lt hk)),
      h n (Nat.lt_succ_self n)]

theorem forLoop_add {σ : Type} (a b : Nat) (body : Nat → σ → σ) (s : σ) :
    forLoop (a + b) body s = forLoop b (fun k => body (a + k)) (forLoop a body s) := by
  induction b with
  | zero => rfl
  | succ b ih =>
    rw [← Nat.add_assoc, forLoop_succ, forLoop_succ, ih]

theorem rd_append [Zero α] (l1 l2 : List α) (k : Nat) :
    rd (l1 ++ l2) k = if k < l1.length then rd l1 k else rd l2 (k - l1.length) := by
  unfold rd
  by_cases hk : k < l1.length
  · rw [if_pos hk, List.getD_eq_getElem?_getD, List.getD_eq_getElem?_getD,
      List.getElem?_append_left hk]
  · rw [if_neg hk, List.getD_eq_getElem?_getD, List.getD_eq_getElem?_getD,
      List.getElem?_append_right (by omega)]

theorem length_memcpyAt [Zero α] (dst : List α) (dstOff : Nat) (src : List α)
    (srcOff n : Nat) : (MatrixOps.memcpyAt dst dstOff src srcOff n).length = dst.length := by
  unfold MatrixOps.memcpyAt
  exact length_forLoop_set n (fun k => dstOff + k) (fun k _ => rd src (srcOff + k)) dst

theorem rd_memcpyAt [Zero α] (dst : List α) (dstOff : Nat) (src : List α) (srcOff n k : Nat) :
    rd (MatrixOps.memcpyAt dst dstOff src srcOff n) k
      = if dstOff ≤ k ∧ k < dstOff + n ∧ k < dst.length then rd src (srcOff + (k - dstOff))
        else rd dst k := by
  unfold MatrixOps.memcpyAt
  exact rd_forLoop_offset dstOff (fun j => rd src (srcOff + j)) n dst k

theorem appendRow_mk [Zero α] (junk : Nat → α) (r1 r2 c : Nat) (d1 d2 : List α)
    (h1 : 0 < r1) (h2 : 0 < r2) (hc : 0 < c) (hl1 : d1.length = r1 * c)
    (hl2 : d2.length = r2 * c) (hfit : (r1 + r2) * c < SIZE_MOD) :
    MatrixOps.appendRow junk (mk r1 c d1) (mk r2 c d2) = mk (r1 + r2) c (d1 ++ d2) := by
  have hv1 := isValid_mk r1 c d1 h1 hc
  have hv2 := isValid_mk r2 c d2 h2 hc
  have hsum : (r1 + r2) * c = r1 * c + r2 * c := by ring
  have hle : r1 + r2 ≤ (r1 + r2) * c := Nat.le_mul_of_pos_right _ hc
  have hm : (r1 + r2) % SIZE_MOD = r1 + r2 := Nat.mod_eq_of_lt (by omega)
  have hm1 : r1 * c % SIZE_MOD = r1 * c := Nat.mod_eq_of_lt (by omega)
  have hm2 : r2 * c % SIZE_MOD = r2 * c := Nat.mod_eq_of_lt (by omega)
  have hcr := create_eq junk (r1 + r2) c (by omega) hc hfit
  have hv3 := isValid_mk (r1 + r2) c ((List.range ((r1 + r2) * c)).map junk) (by omega) hc
  have hcells : MatrixOps.memcpyAt
        (MatrixOps.memcpyAt ((List.range ((r1 + r2) * c)).map junk) 0 d1 0 (r1 * c))
        (r1 * c) d2 0 (r2 * c) = d1 ++ d2 := by
    apply ext_rd
    · rw [length_memcpyAt, length_memcpyAt]
      simp [hl1, hl2, hsum]
    · intro k hk
      rw [length_memcpyAt, length_memcpyAt] at hk
      have hk2 : k < (r1 + r2) * c := by simpa using hk
      rw [rd_memcpyAt, rd_memcpyAt, length_memcpyAt, rd_append, hl1]
      simp only [List.length_map, List.length_range, Nat.zero_add, Nat.zero_le, true_and,
        Nat.sub_zero]
      by_cases hlow : k < r1 * c
      · have hn : ¬ (r1 * c ≤ k ∧ k < r1 * c + r2 * c ∧ k < (r1 + r2) * c) := by omega
        rw [if_neg hn, if_pos ⟨hlow, hk2⟩, if_pos hlow]
      · rw [if_pos ⟨by omega, by omega, hk2⟩, if_neg hlow]
  unfold MatrixOps.appendRow
  rw [hv1, hv2]
  simp only [mk] at hcr hv3 ⊢
  simp only [hm, hm1, hm2, hcr, hv3, hcells]
  simp

theorem appendCol_row [Zero α] (c1 c2 i : Nat) (d1 d2 t : List α) :
    MatrixOps.memcpyAt (MatrixOps.memcpyAt t (i * (c1 + c2)) d1 (i * c1) c1)
        (i * (c1 + c2) + c1) d2 (i * c2) c2
      = forLoop (c1 + c2) (fun k d => d.set (i * (c1 + c2) + k)
          (if k < c1 then rd d1 (i * c1 + k) else rd d2 (i * c2 + (k - c1)))) t := by
  unfold MatrixOps.memcpyAt
  rw [forLoop_add c1 c2]
  have hfirst : forLoop c1 (fun k d => d.set (i * (c1 + c2) + k) (rd d1 (i * c1 + k))) t
      = forLoop c1 (fun k d => d.set (i * (c1 + c2) + k)
          (if k < c1 then rd d1 (i * c1 + k) else rd d2 (i * c2 + (k - c1)))) t := by
    apply forLoop_congr
    intro k hk u
    rw [if_pos hk]
  rw [hfirst]
  apply forLoop_congr
  intro k _ u
  have hn : ¬ c1 + k < c1 := by omega
  simp only [if_neg hn, Nat.add_sub_cancel_left, Nat.add_assoc]

theorem appendCol_mk [Zero α] (junk : Nat → α) (r c1 c2 : Nat) (d1 d2 : List α)
    (hr : 0 < r) (h1 : 0 < c1) (h2 : 0 < c2) (hfit : r * (c1 + c2) < SIZE_MOD) :
    MatrixOps.appendCol junk (mk r c1 d1) (mk r c2 d2)
      = mk r (c1 + c2) ((List.range (r * (c1 + c2))).map (fun k =>
          if k % (c1 + c2) < c1 then rd d1 (k / (c1 + c2) * c1 + k % (c1 + c2))
          else rd d2 (k / (c1 + c2) * c2 + (k % (c1 + c2) - c1)))) := by
  have hv1 := isValid_mk r c1 d1 hr h1
  have hv2 := isValid_mk r c2 d2 hr h2
  have hle : c1 + c2 ≤ r * (c1 + c2) := Nat.le_mul_of_pos_left _ hr
  have hm : (c1 + c2) % SIZE_MOD = c1 + c2 := Nat.mod_eq_of_lt (by omega)
  have hcr := create_eq junk r (c1 + c2) hr (by omega) hfit
  have hv3 := isValid_mk r (c1 + c2) ((List.range (r * (c1 + c2))).map junk) hr (by omega)
  have hloop : forLoop r (fun i toData =>
        MatrixOps.memcpyAt (MatrixOps.memcpyAt toData (i * (c1 + c2)) d1 (i * c1) c1)
          (i * (c1 + c2) + c1) d2 (i * c2) c2) ((List.range (r * (c1 + c2))).map junk)
      = (List.range (r * (c1 + c2))).map (fun k =>
          if k % (c1 + c2) < c1 then rd d1 (k / (c1 + c2) * c1 + k % (c1 + c2))
          else rd d2 (k / (c1 + c2) * c2 + (k % (c1 + c2) - c1))) := by
    rw [forLoop_congr r _ (fun i toData => forLoop (c1 + c2) (fun k d =>
        d.set (i * (c1 + c2) + k)
          (if k < c1 then rd d1 (i * c1 + k) else rd d2 (i * c2 + (k - c1)))) toData) _
        (fun i _ t => appendCol_row c1 c2 i d1 d2 t)]
    exact forLoop_rows_eq r (c1 + c2)
      (fun i k => if k < c1 then rd d1 (i * c1 + k) else rd d2 (i * c2 + (k - c1))) _
      (by simp)
  unfold MatrixOps.appendCol
  rw [hv1, hv2]
  simp only [mk] at hcr hv3 ⊢
  simp only [hm, hcr, hv3, hloop]
  simp

theorem appendRow_mismatch [Zero α] (junk : Nat → α) (r1 r2 c1 c2 : Nat) (d1 d2 : List α)
    (h : c1 ≠ c2) : MatrixOps.appendRow junk (mk r1 c1 d1) (mk r2 c2 d2) = none := by
  unfold MatrixOps.appendRow
  by_cases hv : (!MatrixOps.isValid (mk r1 c1 d1) || !MatrixOps.isValid (mk r2 c2 d2)) = true
  · rw [if_pos hv]
  · rw [if_neg hv]
    simp [mk, h]

theorem appendCol_mismatch [Zero α] (junk : Nat → α) (r1 r2 c1 c2 : Nat) (d1 d2 : List α)
    (h : r1 ≠ r2) : MatrixOps.appendCol junk (mk r1 c1 d1) (mk r2 c2 d2) = none := by
  unfold MatrixOps.appendCol
  by_cases hv : (!MatrixOps.isValid (mk r1 c1 d1) || !MatrixOps.isValid (mk r2 c2 d2)) = true
  · rw [if_pos hv]
  · rw [if_neg hv]
    simp [mk, h]

end Frames

/-! ## Out-of-place operations -/

section OutOfPlace

variable {α : Type}

theorem copy_invalid [Zero α] (junk : Nat → α) (M : Matrix α)
    (h : MatrixOps.isValid M = false) : MatrixOps.copy junk M = none := by
  unfold MatrixOps.copy
  simp [h]

theorem valid_data {m : MatrixStruct α} (h : MatrixOps.isValid (some m) = true) :
    ∃ d, m.data = some d := by
  obtain ⟨-, -, h3⟩ := (matrix_isValid_some m).1 h
  exact Option.isSome_iff_exists.mp h3

theorem scalarMultiply_ok [Zero α] [Mul α] (m : Matrix α) (s : α)
    (h : MatrixOps.isValid m = true) :
    (MatrixOps.scalarMultiply m s).1 = 0 ∧ (MatrixOps.scalarMultiply m s).2.isSome = true := by
  match m, h with
  | some a, h =>
    obtain ⟨d, hd⟩ := valid_data h
    unfold MatrixOps.scalarMultiply
    simp [h, hd]

theorem applyToAllUnary_ok [Zero α] (m : Matrix α) (f : α → α)
    (h : MatrixOps.isValid m = true) :
    (MatrixOps.applyToAllUnary m (some f)).1 = 0 ∧
      (MatrixOps.applyToAllUnary m (some f)).2.isSome = true := by
  match m, h with
  | some a, h =>
    obtain ⟨d, hd⟩ := valid_data h
    unfold MatrixOps.applyToAllUnary
    simp [h, hd]

theorem applyToAllUnary_absent [Zero α] (m : Matrix α) :
    MatrixOps.applyToAllUnary m none = (-1, m) := by
  unfold MatrixOps.applyToAllUnary
  by_cases h : MatrixOps.isValid m = true <;> simp [h]

theorem applyToAllBinary_ok [Zero α] (m : Matrix α) (g : α → α → α) (v : α)
    (h : MatrixOps.isValid m = true) :
    (MatrixOps.applyToAllBinary m g v).1 = 0 ∧
      (MatrixOps.applyToAllBinary m g v).2.isSome = true := by
  match m, h with
  | some a, h =>
    obtain ⟨d, hd⟩ := valid_data h
    unfold MatrixOps.applyToAllBinary
    simp [h, hd]

theorem add_ok [Zero α] [Add α] (a b : MatrixStruct α)
    (ha : MatrixOps.isValid (some a) = true) (hb : MatrixOps.isValid (some b) = true)
    (hr : a.row = b.row) (hc : a.col = b.col) :
    (MatrixOps.add (some a) (some b)).1 = 0 ∧
      (MatrixOps.add (some a) (some b)).2.isSome = true := by
  obtain ⟨d1, hd1⟩ := valid_data ha
  obtain ⟨d2, hd2⟩ := valid_data hb
  unfold MatrixOps.add
  simp [ha, hb, hr, hc, hd1, hd2]

theorem subtract_ok [Zero α] [Sub α] (a b : MatrixStruct α)
    (ha : MatrixOps.isValid (some a) = true) (hb : MatrixOps.isValid (some b) = true)
    (hr : a.row = b.row) (hc : a.col = b.col) :
    (MatrixOps.subtract (some a) (some b)).1 = 0 ∧
      (MatrixOps.subtract (some a) (some b)).2.isSome = true := by
  obtain ⟨d1, hd1⟩ := valid_data ha
  obtain ⟨d2, hd2⟩ := valid_data hb
  unfold MatrixOps.subtract
  simp [ha, hb, hr, hc, hd1, hd2]

theorem elementWise_ok [Zero α] (a b : MatrixStruct α) (g : α → α → α)
    (ha : MatrixOps.isValid (some a) = true) (hb : MatrixOps.isValid (some b) = true)
    (hr : a.row = b.row) (hc : a.col = b.col) :
    (MatrixOps.elementWise (some a) (some b) g).1 = 0 ∧
      (MatrixOps.elementWise (some a) (some b) g).2.isSome = true := by
  obtain ⟨d1, hd1⟩ := valid_data ha
  obtain ⟨d2, hd2⟩ := valid_data hb
  unfold MatrixOps.elementWise
  simp [ha, hb, hr, hc, hd1, hd2]

/-- The shape of the agreement between an out-of-place result `out` and the in-place
operation `inp` applied to the copy `cp` of a one-operand operation. -/
theorem agree_unary [Zero α] (junk : Nat → α) (M out : Matrix α)
    (inp : Matrix α → Int × Matrix α)
    (hdef : out = if !MatrixOps.isValid M then none
      else match MatrixOps.copy junk M with
        | none => none
        | some _ => (inp (MatrixOps.copy junk M)).2)
    (hok : ∀ m, MatrixOps.isValid m = true → (inp m).1 = 0 ∧ (inp m).2.isSome = true) :
    (out.isSome = true ↔
      ((MatrixOps.copy junk M).isSome = true ∧ (inp (MatrixOps.copy junk M)).1 = 0)) ∧
    (out.isSome = true → out = (inp (MatrixOps.copy junk M)).2) := by
  by_cases hv : MatrixOps.isValid M = true
  · cases hc : MatrixOps.copy junk M with
    | none =>
      rw [hdef, hc]
      simp [hv]
    | some c =>
      have hvc := (copy_some junk M c hc).1
      have h := hok (some c) hvc
      rw [hdef, hc]
      simp only [hv, Bool.not_true, Bool.false_eq_true, if_false]
      exact ⟨⟨fun _ => ⟨rfl, h.1⟩, fun _ => h.2⟩, fun _ => trivial⟩
  · have hv2 : MatrixOps.isValid M = false := by
      cases h : MatrixOps.isValid M with
      | false => rfl
      | true => exact absurd h hv
    rw [hdef, copy_invalid junk M hv2]
    simp [hv2]

theorem add_bad [Zero α] [Add α] (m B : Matrix α)
    (h : MatrixOps.isValid m = false ∨ MatrixOps.isValid B = false ∨
      MatrixOps.getRow m ≠ MatrixOps.getRow B ∨ MatrixOps.getCol m ≠ MatrixOps.getCol B) :
    (MatrixOps.add m B).1 ≠ 0 := by
  by_cases hv : MatrixOps.isValid m = true ∧ MatrixOps.isValid B = true
  · rcases h with h | h | h | h
    · rw [hv.1] at h; cases h
    · rw [hv.2] at h; cases h
    · rw [add_mismatch m B hv.1 hv.2 (Or.inl h)]; exact (by decide : (-1 : Int) ≠ 0)
    · rw [add_mismatch m B hv.1 hv.2 (Or.inr h)]; exact (by decide : (-1 : Int) ≠ 0)
  · have h2 : MatrixOps.isValid m = false ∨ MatrixOps.isValid B = false := by
      by_contra hn
      apply hv
      constructor
      · cases e : MatrixOps.isValid m with
        | false => exact absurd (Or.inl e) hn
        | true => rfl
      · cases e : MatrixOps.isValid B with
        | false => exact absurd (Or.inr e) hn
        | true => rfl
    unfold MatrixOps.add
    rw [if_pos h2]
    exact (by decide : (-1 : Int) ≠ 0)

theorem subtract_bad [Zero α] [Sub α] (m B : Matrix α)
    (h : MatrixOps.isValid m = false ∨ MatrixOps.isValid B = false ∨
      MatrixOps.getRow m ≠ MatrixOps.getRow B ∨ MatrixOps.getCol m ≠ MatrixOps.getCol B) :
    (MatrixOps.subtract m B).1 ≠ 0 := by
  by_cases hv : MatrixOps.isValid m = true ∧ MatrixOps.isValid B = true
  · rcases h with h | h | h | h
    · rw [hv.1] at h; cases h
    · rw [hv.2] at h; cases h
    · rw [subtract_mismatch m B hv.1 hv.2 (Or.inl h)]; exact (by decide : (-1 : Int) ≠ 0)
    · rw [subtract_mismatch m B hv.1 hv.2 (Or.inr h)]; exact (by decide : (-1 : Int) ≠ 0)
  · have h2 : MatrixOps.isValid m = false ∨ MatrixOps.isValid B = false := by
      by_contra hn
      apply hv
      constructor
      · cases e : MatrixOps.isValid m with
        | false => exact absurd (Or.inl e) hn
        | true => rfl
      · cases e : MatrixOps.isValid B with
        | false => exact absurd (Or.inr e) hn
        | true => rfl
    unfold MatrixOps.subtract
    rw [if_pos h2]
    exact (by decide : (-1 : Int) ≠ 0)

theorem elementWise_bad [Zero α] (m B : Matrix α) (g : α → α → α)
    (h : MatrixOps.isValid m = false ∨ MatrixOps.isValid B = false ∨
      MatrixOps.getRow m ≠ MatrixOps.getRow B ∨ MatrixOps.getCol m ≠ MatrixOps.getCol B) :
    (MatrixOps.elementWise m B g).1 ≠ 0 := by
  by_cases hv : MatrixOps.isValid m = true ∧ MatrixOps.isValid B = true
  · rcases h with h | h | h | h
    · rw [hv.1] at h; cases h
    · rw [hv.2] at h; cases h
    · rw [elementWise_mismatch m B g hv.1 hv.2 (Or.inl h)]; exact (by decide : (-1 : Int) ≠ 0)
    · rw [elementWise_mismatch m B g hv.1 hv.2 (Or.inr h)]; exact (by decide : (-1 : Int) ≠ 0)
  · have h2 : (!MatrixOps.isValid m || !MatrixOps.isValid B) = true := by
      cases e1 : MatrixOps.isValid m with
      | false => rfl
      | true =>
        cases e2 : MatrixOps.isValid B with
        | false => rfl
        | true => exact absurd ⟨e1, e2⟩ hv
    unfold MatrixOps.elementWise
    rw [if_pos h2]
    exact (by decide : (-1 : Int) ≠ 0)

/-- The shape of the agreement for an operation with a second operand `B`. -/
theorem agree_binary [Zero α] (junk : Nat → α) (A B out : Matrix α)
    (inp : Matrix α → Int × Matrix α)
    (hdef : out = if !MatrixOps.isValid A || !MatrixOps.isValid B then none
      else match A, B with
        | some m1, some m2 =>
          if m1.row ≠ m2.row ∨ m1.col ≠ m2.col then none
          else match MatrixOps.copy junk A with
            | none => none
            | some _ => (inp (MatrixOps.copy junk A)).2
        | _, _ => none)
    (hok : ∀ a b, B = some b → MatrixOps.isValid (some a) = true →
      MatrixOps.isValid (some b) = true → a.row = b.row → a.col = b.col →
      (inp (some a)).1 = 0 ∧ (inp (some a)).2.isSome = true)
    (hbad : ∀ m, (MatrixOps.isValid m = false ∨ MatrixOps.isValid B = false ∨
      MatrixOps.getRow m ≠ MatrixOps.getRow B ∨ MatrixOps.getCol m ≠ MatrixOps.getCol B) →
      (inp m).1 ≠ 0) :
    (out.isSome = true ↔
      ((MatrixOps.copy junk A).isSome = true ∧ (inp (MatrixOps.copy junk A)).1 = 0)) ∧
    (out.isSome = true → out = (inp (MatrixOps.copy junk A)).2) := by
  have hfail : out = none →
      ¬ ((MatrixOps.copy junk A).isSome = true ∧ (inp (MatrixOps.copy junk A)).1 = 0) →
      (out.isSome = true ↔
        ((MatrixOps.copy junk A).isSome = true ∧ (inp (MatrixOps.copy junk A)).1 = 0)) ∧
      (out.isSome = true → out = (inp (MatrixOps.copy junk A)).2) := by
    intro ho hn
    rw [ho]
    exact ⟨⟨fun h => (by cases h), fun h => absurd h hn⟩, fun h => (by cases h)⟩
  by_cases hvA : MatrixOps.isValid A = true
  · by_cases hvB : MatrixOps.isValid B = true
    · match A, B, hvA, hvB, hdef with
      | some a, some b, hvA, hvB, hdef =>
        simp only [hvA, hvB, Bool.not_true, Bool.or_self, Bool.false_eq_true, if_false] at hdef
        by_cases hs : a.row ≠ b.row ∨ a.col ≠ b.col
        · rw [if_pos hs] at hdef
          apply hfail hdef
          rintro ⟨h1, h2⟩
          obtain ⟨c, hc⟩ := Option.isSome_iff_exists.mp h1
          obtain ⟨-, c2, c3⟩ := copy_some junk (some a) c hc
          rw [hc] at h2
          refine hbad (some c) ?_ h2
          rcases hs with h | h
          · exact Or.inr (Or.inr (Or.inl (by
              show c.row ≠ b.row
              rw [c2]; exact h)))
          · exact Or.inr (Or.inr (Or.inr (by
              show c.col ≠ b.col
              rw [c3]; exact h)))
        · rw [if_neg hs] at hdef
          have er : a.row = b.row := by_contra fun e => hs (Or.inl e)
          have ec : a.col = b.col := by_contra fun e => hs (Or.inr e)
          cases hc : MatrixOps.copy junk (some a) with
          | none =>
            rw [hc] at hdef
            rw [hdef]
            exact ⟨⟨fun h => (by cases h), fun h => (by cases h.1)⟩, fun h => (by cases h)⟩
          | some c =>
            rw [hc] at hdef
            obtain ⟨c1, c2, c3⟩ := copy_some junk (some a) c hc
            have h := hok c b rfl c1 hvB (c2.trans er) (c3.trans ec)
            rw [hdef]
            exact ⟨⟨fun _ => ⟨rfl, h.1⟩, fun _ => h.2⟩, fun _ => rfl⟩
    · have hvB2 : MatrixOps.isValid B = false := by
        cases e : MatrixOps.isValid B with
        | false => rfl
        | true => exact absurd e hvB
      have ho : out = none := by
        rw [hdef]
        simp [hvB2]
      apply hfail ho
      rintro ⟨-, h2⟩
      exact hbad _ (Or.inr (Or.inl hvB2)) h2
  · have hvA2 : MatrixOps.isValid A = false := by
      cases e : MatrixOps.isValid A with
      | false => rfl
      | true => exact absurd e hvA
    have ho : out = none := by
      rw [hdef]
      simp [hvA2]
    apply hfail ho
    rintro ⟨h1, -⟩
    rw [copy_invalid junk A hvA2] at h1
    cases h1

end OutOfPlace

/-! ## Settled claims -/

section Sweep

variable {α : Type}

theorem assignValues_keeps_shape [Zero α] (r c : Nat) (d : List α) (X : Matrix α) :
    ∃ e, (MatrixOps.assignValues (mk r c d) X).2 = mk r c e := by
  unfold MatrixOps.assignValues
  by_cases h1 : (!MatrixOps.isValid (mk r c d) || !MatrixOps.isValid X) = true
  · rw [if_pos h1]
    exact ⟨d, rfl⟩
  · rw [if_neg h1]
    by_cases h2 : (!MatrixOps.isSameShape (mk r c d) X) = true
    · rw [if_pos h2]
      exact ⟨d, rfl⟩
    · rw [if_neg h2]
      cases X with
      | none => exact ⟨d, rfl⟩
      | some m2 =>
        cases hd : m2.data with
        | none =>
          simp only [mk, hd]
          exact ⟨d, rfl⟩
        | some d2 =>
          simp only [mk, hd]
          exact ⟨_, rfl⟩

theorem layer_feedForward_keeps_shape [Field α] (junk : Nat → α) (layer : Layer α)
    (inp : Matrix α) (r c : Nat) (d : List α) :
    ∃ e, (LayerOps.feedForward junk layer inp (mk r c d)).2 = mk r c e := by
  cases layer with
  | none => exact ⟨d, rfl⟩
  | some l =>
    cases inp with
    | none => exact ⟨d, rfl⟩
    | some x =>
      unfold LayerOps.feedForward
      simp only [mk]
      by_cases hv : (!LayerOps.isValid (some l)) = true
      · rw [if_pos hv]
        exact ⟨d, rfl⟩
      · rw [if_neg hv]
        cases hm : MatrixOps.multiply junk l.weights (some x) with
        | none => exact ⟨d, rfl⟩
        | some res =>
          simp only []
          by_cases hr : (MatrixOps.applyToAllUnary (some res)
              (l.activationFunction.map FnPtr.call)).1 = -1
          · rw [if_pos hr]
            exact ⟨d, rfl⟩
          · rw [if_neg hr]
            obtain ⟨e, he⟩ := assignValues_keeps_shape r c d
              (MatrixOps.applyToAllUnary (some res) (l.activationFunction.map FnPtr.call)).2
            simp only [mk] at he
            by_cases ha : (MatrixOps.assignValues (some ⟨r, c, some d⟩)
                (MatrixOps.applyToAllUnary (some res)
                  (l.activationFunction.map FnPtr.call)).2).1 = -1
            · rw [if_pos ha]
              exact ⟨e, he⟩
            · rw [if_neg ha]
              exact ⟨e, he⟩

theorem getD_set_shape (outs : List (Matrix α)) (i k r c : Nat) (v : Matrix α)
    (hk : ∃ d, outs.getD k none = mk r c d) (hv : i = k → ∃ d, v = mk r c d) :
    ∃ d, (outs.set i v).getD k none = mk r c d := by
  obtain ⟨d, hd⟩ := hk
  have hlt : k < outs.length := by
    by_contra hn
    rw [List.getD_eq_default _ _ (by omega)] at hd
    cases hd
  by_cases hik : i = k
  · subst hik
    obtain ⟨e, he⟩ := hv rfl
    refine ⟨e, ?_⟩
    simp [List.getD_eq_getElem?_getD, hlt, he]
  · refine ⟨d, ?_⟩
    rw [List.getD_eq_getElem?_getD, List.getElem?_set_ne hik, ← List.getD_eq_getElem?_getD]
    exact hd

theorem feedLayerMatrix_keeps_shape [Field α] (junk : Nat → α) (layers : List (Layer α))
    (i k r c : Nat) (st : Bool × Matrix α × List (Matrix α))
    (hk : ∃ d, st.2.2.getD k none = mk r c d) :
    ∃ d, (NeuralNetworkOps.feedLayerMatrix junk layers i st).2.2.getD k none = mk r c d := by
  unfold NeuralNetworkOps.feedLayerMatrix
  by_cases hf : st.1 = true
  · rw [if_pos hf]
    exact hk
  · rw [if_neg hf]
    cases hl : layers.getD i none with
    | none => exact hk
    | some l =>
      simp only []
      have hset : ∃ d, (st.2.2.set i (LayerOps.feedForward junk (some l) st.2.1
          (st.2.2.getD i none)).2).getD k none = mk r c d := by
        apply getD_set_shape _ _ _ _ _ _ hk
        intro hik
        subst hik
        obtain ⟨d, hd⟩ := hk
        rw [hd]
        exact layer_feedForward_keeps_shape junk (some l) st.2.1 r c d
      by_cases hr : (LayerOps.feedForward junk (some l) st.2.1 (st.2.2.getD i none)).1 = -1
      · rw [if_pos hr]
        exact hset
      · rw [if_neg hr]
        exact hset

theorem forLoop_feedLayerMatrix_keeps_shape [Field α] (junk : Nat → α)
    (layers : List (Layer α)) (k r c : Nat) (n : Nat)
    (st : Bool × Matrix α × List (Matrix α)) (hk : ∃ d, st.2.2.getD k none = mk r c d) :
    ∃ d, (forLoop n (NeuralNetworkOps.feedLayerMatrix junk layers) st).2.2.getD k none
      = mk r c d := by
  induction n with
  | zero => exact hk
  | succ n ih =>
    rw [forLoop_succ]
    exact feedLayerMatrix_keeps_shape junk layers n k r c _ ih

theorem feedForwardMatrix_keeps_shape [Field α] (layerCount : Nat) (exp : α → α)
    (junk : Nat → α) (n : NeuralNetworkStruct α) (input : Matrix α) (outs : List (Matrix α))
    (k r c : Nat) (hsm : NeuralNetworkOps.isSoftmaxPtr n.activationFunction = false)
    (hk : ∃ d, outs.getD k none = mk r c d) :
    ∃ d, ((NeuralNetworkOps.feedForwardMatrix layerCount exp junk (some n) input
      (some outs)).2.getD []).getD k none = mk r c d := by
  cases input with
  | none => exact hk
  | some x =>
    unfold NeuralNetworkOps.feedForwardMatrix
    simp only []
    by_cases hv : (!NeuralNetworkOps.isValid (some n)) = true
    · rw [if_pos hv]
      exact hk
    · rw [if_neg hv]
      have hloop := forLoop_feedLayerMatrix_keeps_shape junk n.layers k r c layerCount
        (false, some x, outs) hk
      by_cases hf : (forLoop layerCount (NeuralNetworkOps.feedLayerMatrix junk n.layers)
          (false, some x, outs)).1 = true
      · rw [if_pos hf]
        exact hloop
      · rw [if_neg hf, hsm]
        exact hloop

theorem backwardLayer_mismatch [Field α] (activationFunction : α → α) (junk : Nat → α)
    (layers : List (Layer α)) (datapoint_buf : Datapoint α) (outputs : List (Matrix α))
    (i inS outS rO cO : Nat) (f : FnPtr α) (dv : Option (FnPtr α)) (dW dO : List α)
    (st : Matrix α × List (Matrix α)) (hne : inS ≠ rO)
    (hlayer : layers.getD i none = some ⟨inS, outS, some f, dv, mk outS inS dW⟩)
    (hout : outputs.getD i none = mk rO cO dO) :
    NeuralNetworkOps.backwardLayer activationFunction junk layers datapoint_buf outputs i st
      = none := by
  have hm := multiply_mismatch junk outS inS rO cO dW dO hne
  have hcad : LayerOps.calculateActivationDeriv activationFunction junk
      (some ⟨inS, outS, some f, dv, mk outS inS dW⟩) (mk rO cO dO) = none := by
    unfold LayerOps.calculateActivationDeriv
    by_cases hv : (!LayerOps.isValid (some ⟨inS, outS, some f, dv, mk outS inS dW⟩)
        || !MatrixOps.isValid (mk rO cO dO)) = true
    · rw [if_pos hv]
    · rw [if_neg hv]
      simp only [hm]
  unfold NeuralNetworkOps.backwardLayer
  simp only [hlayer, hout, hcad]
  by_cases hv : (!LayerOps.isValid (some ⟨inS, outS, some f, dv, mk outS inS dW⟩)
      || !MatrixOps.isValid (LayerOps.getWeights
        (some ⟨inS, outS, some f, dv, mk outS inS dW⟩))) = true
  · rw [if_pos hv]
  · rw [if_neg hv]

theorem calculateErrorDerivative_returns [Field α] (junk : Nat → α)
    (n : NeuralNetworkStruct α) (f : α → α → α) (hf : n.errorDerivative = some f)
    (p t : Matrix α) :
    NeuralNetworkOps.calculateErrorDerivative junk (some n) p t ≠ none := by
  unfold NeuralNetworkOps.calculateErrorDerivative
  cases p with
  | none => simp
  | some pm =>
    cases t with
    | none => simp
    | some tm =>
      simp only [hf]
      split_ifs <;> simp

theorem stepDatapoint_fails [Field α] (layerCountFF : Nat) (activationFunction exp : α → α)
    (junk : Nat → α) (nn : NeuralNetwork α) (layers : List (Layer α)) (isSoftmax : Bool)
    (datapoint_buf : Datapoint α) (st : List (Matrix α) × List (Matrix α))
    (hed : ∀ p t, NeuralNetworkOps.calculateErrorDerivative junk nn p t ≠ none)
    (hbw : ∀ s, NeuralNetworkOps.backwardLayer activationFunction junk layers datapoint_buf
      ((NeuralNetworkOps.feedForwardMatrix layerCountFF exp junk nn
        (DatapointOps.getInput datapoint_buf) (some st.1)).2.getD []) 0 s = none) :
    NeuralNetworkOps.stepDatapoint layerCountFF activationFunction exp junk nn 1 layers
      isSoftmax datapoint_buf st = some none := by
  unfold NeuralNetworkOps.stepDatapoint
  simp only []
  by_cases hf : (NeuralNetworkOps.feedForwardMatrix layerCountFF exp junk nn
      (DatapointOps.getInput datapoint_buf) (some st.1)).1 ≠ 0
  · rw [if_pos hf]
  · rw [if_neg hf]
    cases hc : NeuralNetworkOps.calculateErrorDerivative junk nn
        (((NeuralNetworkOps.feedForwardMatrix layerCountFF exp junk nn
          (DatapointOps.getInput datapoint_buf) (some st.1)).2.getD []).getD
          (if isSoftmax then 1 else 1 - 1) none)
        (DatapointOps.getOutput datapoint_buf) with
    | none => exact absurd hc (hed _ _)
    | some ed =>
      cases ed with
      | none => rfl
      | some e =>
        simp only [List.range_succ, List.range_zero, List.nil_append, List.reverse_cons,
          List.reverse_nil, List.foldl_cons, List.foldl_nil, hbw]

theorem gradientDescentStep_fails [LinearOrderedField α] (layerCountFF : Nat)
    (deltaWeights : Nat → Matrix α) (activationFunction exp : α → α) (junk : Nat → α)
    (n : NeuralNetworkStruct α) (dp : Datapoint α) (rest : List (Datapoint α))
    (learningRate : α) (hv : NeuralNetworkOps.isValid (some n) = true)
    (hlr : ¬ learningRate ≤ 0)
    (hany : ((List.range (n.hiddenLayerCount + 1)).map (fun i =>
        MatrixOps.create junk (LayerOps.getOutputSize (n.layers.getD i none)) 1)
      ++ (if NeuralNetworkOps.isSoftmaxPtr n.activationFunction
          then [MatrixOps.create junk n.outputSize 1] else [])).any Option.isNone = false)
    (hloop : (dp :: rest).foldl
      (NeuralNetworkOps.stepNode layerCountFF activationFunction exp junk (some n)
        (n.hiddenLayerCount + 1) n.layers (NeuralNetworkOps.isSoftmaxPtr n.activationFunction))
      (some (some ((List.range (n.hiddenLayerCount + 1)).map (fun i =>
          MatrixOps.create junk (LayerOps.getOutputSize (n.layers.getD i none)) 1)
        ++ (if NeuralNetworkOps.isSoftmaxPtr n.activationFunction
            then [MatrixOps.create junk n.outputSize 1] else []),
        List.replicate (n.hiddenLayerCount + 1) none))) = some none) :
    NeuralNetworkOps.gradientDescentStep layerCountFF deltaWeights activationFunction exp
        junk (some n) (some (dp :: rest)) learningRate = some (-1, some n) := by
  unfold NeuralNetworkOps.gradientDescentStep
  simp only [hv, hlr, Bool.not_true, Bool.false_eq_true, if_false]
  rw [hany]
  simp only [Bool.false_eq_true, if_false]
  rw [hloop]

end Sweep

section Chain

variable {δ : Type}

theorem seg_length (heap : List (Node δ)) (addrs : List Nat) :
    ∀ (start : Option Nat) (xs : List δ) (stop : Option Nat),
      Seg heap start addrs xs stop → addrs.length = xs.length := by
  induction addrs with
  | nil =>
    intro start xs stop h
    cases xs with
    | nil => rfl
    | cons x xs => exact False.elim h
  | cons a addrs ih =>
    intro start xs stop h
    cases xs with
    | nil => exact False.elim h
    | cons x xs =>
      obtain ⟨_, next, _, h2⟩ := h
      simp only [List.length_cons]
      rw [ih next xs stop h2]

theorem seg_frame (heap heap2 : List (Node δ)) (addrs : List Nat) :
    ∀ (start : Option Nat) (xs : List δ) (stop : Option Nat),
      (∀ a ∈ addrs, heap2[a]? = heap[a]?) →
      Seg heap start addrs xs stop → Seg heap2 start addrs xs stop := by
  induction addrs with
  | nil =>
    intro start xs stop _ h
    cases xs with
    | nil => exact h
    | cons x xs => exact False.elim h
  | cons a addrs ih =>
    intro start xs stop hf h
    cases xs with
    | nil => exact False.elim h
    | cons x xs =>
      obtain ⟨h1, next, hc, h2⟩ := h
      refine ⟨h1, next, ?_, ih next xs stop (fun b hb => hf b (List.mem_cons_of_mem a hb)) h2⟩
      rw [hf a (List.mem_cons_self a addrs)]
      exact hc

theorem seg_bound (heap : List (Node δ)) (addrs : List Nat) :
    ∀ (start : Option Nat) (xs : List δ) (stop : Option Nat),
      Seg heap start addrs xs stop → ∀ a ∈ addrs, a < heap.length := by
  induction addrs with
  | nil =>
    intro start xs stop _ a ha
    cases ha
  | cons a addrs ih =>
    intro start xs stop h b hb
    cases xs with
    | nil => exact False.elim h
    | cons x xs =>
      obtain ⟨_, next, hc, h2⟩ := h
      rcases List.mem_cons.mp hb with e | hmem
      · subst e
        by_contra hn
        rw [List.getElem?_eq_none (by omega)] at hc
        cases hc
      · exact ih next xs stop h2 b hmem

theorem seg_snoc (heap : List (Node δ)) (t : Nat) (x : δ) (stop : Option Nat)
    (addrs : List Nat) :
    ∀ (start : Option Nat) (xs : List δ),
      Seg heap start (addrs ++ [t]) (xs ++ [x]) stop ↔
        (Seg heap start addrs xs (some t) ∧ heap[t]? = some { data := x, next := stop }) := by
  induction addrs with
  | nil =>
    intro start xs
    cases xs with
    | nil =>
      constructor
      · rintro ⟨h1, next, hc, h2⟩
        have h3 : next = stop := h2
        subst h3
        exact ⟨h1, hc⟩
      · rintro ⟨h1, hc⟩
        exact ⟨h1, stop, hc, rfl⟩
    | cons y ys =>
      constructor
      · rintro ⟨_, next, _, h2⟩
        cases ys with
        | nil => exact False.elim h2
        | cons z zs => exact False.elim h2
      · rintro ⟨h1, _⟩
        exact False.elim h1
  | cons a addrs ih =>
    intro start xs
    cases xs with
    | nil =>
      constructor
      · rintro ⟨_, next, _, h2⟩
        have hl := seg_length heap _ _ _ _ h2
        simp at hl
      · rintro ⟨h1, _⟩
        exact False.elim h1
    | cons y ys =>
      constructor
      · rintro ⟨h1, next, hc, h2⟩
        obtain ⟨h3, h4⟩ := (ih next ys).mp h2
        exact ⟨⟨h1, next, hc, h3⟩, h4⟩
      · rintro ⟨⟨h1, next, hc, h3⟩, h4⟩
        exact ⟨h1, next, hc, (ih next ys).mpr ⟨h3, h4⟩⟩

theorem seg_start (heap : List (Node δ)) (start : Option Nat) (a : Nat) (addrs : List Nat)
    (xs : List δ) (stop : Option Nat) (h : Seg heap start (a :: addrs) xs stop) :
    start = some a := by
  cases xs with
  | nil => exact False.elim h
  | cons x xs => exact h.1

theorem popLoop_seg (heap : List (Node δ)) (t : Nat) (init : List Nat) :
    ∀ (a : Nat) (prev : Option Nat) (xs : List δ) (fuel : Nat),
      Seg heap (some a) (init ++ [t]) xs none → init.length < fuel →
      ListOps.popLoop heap fuel prev a
        = some (match init.getLast? with
          | none => prev
          | some p => some p, t) := by
  induction init with
  | nil =>
    intro a prev xs fuel h hf
    cases xs with
    | nil => exact False.elim h
    | cons x xs =>
      obtain ⟨h1, next, hc, h2⟩ := h
      cases xs with
      | cons y ys => exact False.elim h2
      | nil =>
        have h3 : next = none := h2
        subst h3
        cases h1
        obtain ⟨f, rfl⟩ : ∃ f, fuel = f + 1 := ⟨fuel - 1, by simp at hf; omega⟩
        simp only [ListOps.popLoop, hc, List.getLast?_nil]
  | cons i init ih =>
    intro a prev xs fuel h hf
    cases xs with
    | nil => exact False.elim h
    | cons x xs =>
      obtain ⟨h1, next, hc, h2⟩ := h
      cases h1
      obtain ⟨f, rfl⟩ : ∃ f, fuel = f + 1 := ⟨fuel - 1, by simp at hf; omega⟩
      have hf2 : init.length < f := by simp at hf; omega
      cases init with
      | nil =>
        have hs := seg_start heap next t [] xs none h2
        subst hs
        have h4 := ih t (some i) xs f h2 hf2
        simp only [ListOps.popLoop, hc]
        rw [h4]
        rfl
      | cons j js =>
        have hs := seg_start heap next j (js ++ [t]) xs none h2
        subst hs
        have h4 := ih j (some i) xs f h2 hf2
        simp only [ListOps.popLoop, hc]
        rw [h4, List.getLast?_cons_cons]
        cases hl : (j :: js).getLast? with
        | none => simp at hl
        | some p => rfl

theorem nodup_length_le (addrs : List Nat) (n : Nat) (hnd : addrs.Nodup)
    (hb : ∀ a ∈ addrs, a < n) : addrs.length ≤ n := by
  have h : addrs.toFinset.card ≤ (Finset.range n).card :=
    Finset.card_le_card (fun a ha => Finset.mem_range.mpr (hb a (List.mem_toFinset.mp ha)))
  rw [List.toFinset_card_of_nodup hnd, Finset.card_range] at h
  exact h

theorem holds_nil (heap : List (Node δ)) (l : ListStruct) (h : Holds heap l []) :
    l.head = none ∧ l.tail = none ∧ l.size = 0 := by
  obtain ⟨addrs, _, hseg, htail, hsize⟩ := h
  have hl := seg_length heap addrs _ _ _ hseg
  have ha : addrs = [] := List.length_eq_zero.mp (by simpa using hl)
  subst ha
  exact ⟨hseg, htail, hsize⟩

theorem holds_snoc (heap : List (Node δ)) (l : ListStruct) (xs : List δ) (x : δ)
    (h : Holds heap l (xs ++ [x])) :
    ∃ init t, (init ++ [t]).Nodup ∧ Seg heap l.head init xs (some t) ∧
      heap[t]? = some { data := x, next := none } ∧ l.tail = some t ∧
      l.size = xs.length + 1 ∧ (∀ a ∈ init ++ [t], a < heap.length) := by
  obtain ⟨addrs, hnd, hseg, htail, hsize⟩ := h
  have hl := seg_length heap addrs _ _ _ hseg
  rcases List.eq_nil_or_concat addrs with ha | ⟨init, t, ha⟩
  · subst ha
    simp at hl
  · rw [List.concat_eq_append] at ha
    subst ha
    have hb := seg_bound heap _ _ _ _ hseg
    obtain ⟨h1, h2⟩ := (seg_snoc heap t x none init l.head xs).mp hseg
    refine ⟨init, t, hnd, h1, h2, ?_, ?_, hb⟩
    · rw [htail]
      simp
    · rw [hsize]
      simp

theorem push_holds (heap : List (Node δ)) (l : ListStruct) (xs : List δ) (x : δ)
    (h : Holds heap l xs) :
    ∃ heap1 l1, ListOps.push heap (some l) x = some (0, heap1, some l1) ∧
      Holds heap1 l1 (xs ++ [x]) ∧ l1.size = l.size + 1 := by
  have hnew : (heap ++ [({ data := x, next := none } : Node δ)])[heap.length]?
      = some { data := x, next := none } := by simp
  rcases List.eq_nil_or_concat xs with hx | ⟨ys, y, hx⟩
  · subst hx
    obtain ⟨_, _, hs⟩ := holds_nil heap l h
    refine ⟨heap ++ [{ data := x, next := none }],
      { l with head := some heap.length, tail := some heap.length, size := l.size + 1 },
      ?_, ?_, ?_⟩
    · unfold ListOps.push
      simp only [ListOps.isEmpty, hs, if_true]
      rfl
    · exact ⟨[heap.length], List.nodup_singleton _, ⟨rfl, none, hnew, rfl⟩, rfl,
        by simp [hs]⟩
    · rfl
  · rw [List.concat_eq_append] at hx
    subst hx
    obtain ⟨init, t, hnd, hseg, hc, htail, hsize, hb⟩ := holds_snoc heap l ys y h
    have ht : t < heap.length := hb t (by simp)
    have hne : l.size ≠ 0 := by omega
    have hct : (heap ++ [({ data := x, next := none } : Node δ)])[t]?
        = some { data := y, next := none } := by
      rw [List.getElem?_append_left ht]
      exact hc
    refine ⟨(heap ++ [({ data := x, next := none } : Node δ)]).set t
        ({ data := y, next := some heap.length } : Node δ),
      { l with tail := some heap.length, size := l.size + 1 }, ?_, ?_, ?_⟩
    · unfold ListOps.push
      simp only [ListOps.isEmpty, hne, if_false, htail, hct]
      rfl
    · refine ⟨init ++ [t] ++ [heap.length], ?_, ?_, by simp, by simp [hsize]⟩
      · rw [List.nodup_append]
        refine ⟨hnd, List.nodup_singleton _, ?_⟩
        intro a ha hb2
        have h1 := hb a ha
        have h2 : a = heap.length := by simpa using hb2
        omega
      · rw [seg_snoc, seg_snoc]
        refine ⟨⟨?_, ?_⟩, ?_⟩
        · apply seg_frame heap _ init _ _ _ _ hseg
          intro a ha
          have hat : t ≠ a := by
            intro e
            subst e
            have := List.nodup_append.mp hnd
            exact this.2.2 ha (by simp)
          have hal : a < heap.length := hb a (by simp [ha])
          rw [List.getElem?_set_ne hat, List.getElem?_append_left hal]
        · rw [List.getElem?_set_self (by simp; omega)]
        · have hat : t ≠ heap.length := by omega
          rw [List.getElem?_set_ne hat]
          exact hnew
    · rfl

theorem pop_holds (heap : List (Node δ)) (l : ListStruct) (xs : List δ) (x : δ)
    (h : Holds heap l (xs ++ [x])) :
    ∃ heap1 l1, ListOps.pop heap (some l) = some (0, heap1, some l1, some x) ∧
      Holds heap1 l1 xs ∧ l1.size + 1 = l.size := by
  obtain ⟨init, t, hnd, hseg, hc, htail, hsize, hb⟩ := holds_snoc heap l xs x h
  have hne : l.size ≠ 0 := by omega
  have hlen := nodup_length_le _ _ hnd hb
  have hfuel : init.length < heap.length := by simpa using hlen
  have hfull : Seg heap l.head (init ++ [t]) (xs ++ [x]) none :=
    (seg_snoc heap t x none init l.head xs).mpr ⟨hseg, hc⟩
  rcases List.eq_nil_or_concat init with hi | ⟨init2, p, hi⟩
  · subst hi
    have hl := seg_length heap _ _ _ _ hseg
    have hx : xs = [] := List.length_eq_zero.mp (by simpa using hl.symm)
    subst hx
    have hhead : l.head = some t := hseg
    have hloop := popLoop_seg heap t [] t none ([] ++ [x]) heap.length
      (by rw [← hhead]; exact hfull) hfuel
    refine ⟨heap, { l with head := none, tail := none, size := l.size - 1 }, ?_, ?_, ?_⟩
    · unfold ListOps.pop
      simp only [ListOps.isEmpty, hne, if_false, hhead, hloop, List.getLast?_nil, hc]
      rfl
    · refine ⟨[], List.nodup_nil, rfl, rfl, ?_⟩
      simp only [List.length_nil] at hsize ⊢
      omega
    · simp only []
      omega
  · rw [List.concat_eq_append] at hi
    subst hi
    have hl := seg_length heap _ _ _ _ hseg
    rcases List.eq_nil_or_concat xs with hx | ⟨xs2, xp, hx⟩
    · subst hx
      simp at hl
    · rw [List.concat_eq_append] at hx
      subst hx
      obtain ⟨hseg2, hcp⟩ := (seg_snoc heap p xp (some t) init2 l.head xs2).mp hseg
      have hpt : p ≠ t := by
        intro e
        subst e
        have := List.nodup_append.mp hnd
        exact this.2.2 (List.mem_append_right _ (List.mem_singleton_self p))
          (List.mem_singleton_self p)
      have hp : p < heap.length := hb p (by simp)
      obtain ⟨a, ha⟩ : ∃ a, l.head = some a := by
        cases init2 with
        | nil => exact ⟨p, seg_start heap _ _ _ _ _ hfull⟩
        | cons j js => exact ⟨j, seg_start heap _ _ _ _ _ hfull⟩
      have hloop := popLoop_seg heap t (init2 ++ [p]) a none (xs2 ++ [xp] ++ [x])
        heap.length (by rw [← ha]; exact hfull) hfuel
      have hlast : (init2 ++ [p]).getLast? = some p := by simp
      rw [hlast] at hloop
      have hct : (heap.set p { data := xp, next := none })[t]?
          = some { data := x, next := none } := by
        rw [List.getElem?_set_ne hpt]
        exact hc
      refine ⟨heap.set p { data := xp, next := none },
        { l with tail := some p, size := l.size - 1 }, ?_, ?_, ?_⟩
      · unfold ListOps.pop
        simp only [ListOps.isEmpty, hne, if_false, ha, hloop, hcp, hct]
        rfl
      · refine ⟨init2 ++ [p], ?_, ?_, by simp, ?_⟩
        · exact (List.nodup_append.mp hnd).1
        · rw [seg_snoc]
          refine ⟨?_, ?_⟩
          · apply seg_frame heap _ init2 _ _ _ _ hseg2
            intro b hb2
            have hbp : p ≠ b := by
              intro e
              subst e
              have := List.nodup_append.mp (List.nodup_append.mp hnd).1
              exact this.2.2 hb2 (by simp)
            rw [List.getElem?_set_ne hbp]
          · rw [List.getElem?_set_self hp]
        · simp only []
          rw [hsize]
          simp
      · simp only []
        omega

theorem peek_holds (heap : List (Node δ)) (l : ListStruct) (xs : List δ) (x : δ)
    (h : Holds heap l (xs ++ [x])) :
    ListOps.peek heap (some l) = some (0, some x) := by
  obtain ⟨init, t, _, _, hc, htail, hsize, _⟩ := holds_snoc heap l xs x h
  have hne : l.size ≠ 0 := by omega
  unfold ListOps.peek
  simp only [ListOps.isEmpty, hne, if_false, htail, hc]
  rfl

theorem empty_holds (heap : List (Node δ)) (l : ListStruct) (h : Holds heap l []) :
    ListOps.pop heap (some l) = some (-1, heap, some l, none) ∧
    ListOps.peek heap (some l) = some (-1, none) := by
  obtain ⟨_, _, hs⟩ := holds_nil heap l h
  unfold ListOps.pop ListOps.peek
  simp only [ListOps.isEmpty, hs, if_true]
  exact ⟨rfl, rfl⟩

theorem seg_unique (heap : List (Node δ)) (addrs : List Nat) :
    ∀ (start : Option Nat) (xs : List δ) (addrs2 : List Nat) (ys : List δ),
      Seg heap start addrs xs none → Seg heap start addrs2 ys none →
      addrs2 = addrs ∧ ys = xs := by
  induction addrs with
  | nil =>
    intro start xs addrs2 ys h1 h2
    cases xs with
    | cons x xs => exact False.elim h1
    | nil =>
      have hs : start = none := h1
      subst hs
      cases addrs2 with
      | nil =>
        cases ys with
        | nil => exact ⟨rfl, rfl⟩
        | cons y ys => exact False.elim h2
      | cons b bs =>
        have := seg_start heap _ _ _ _ _ h2
        cases this
  | cons a addrs ih =>
    intro start xs addrs2 ys h1 h2
    cases xs with
    | nil => exact False.elim h1
    | cons x xs =>
      obtain ⟨hs, next, hc, h3⟩ := h1
      subst hs
      cases addrs2 with
      | nil =>
        cases ys with
        | nil => cases h2
        | cons y ys => exact False.elim h2
      | cons b bs =>
        cases ys with
        | nil => exact False.elim h2
        | cons y ys =>
          obtain ⟨hs2, next2, hc2, h4⟩ := h2
          cases hs2
          rw [hc] at hc2
          cases hc2
          obtain ⟨e1, e2⟩ := ih next xs bs ys h3 h4
          subst e1
          subst e2
          exact ⟨rfl, rfl⟩

end Chain

section Aliasing

variable {α : Type}

theorem addressed_getD_set_self (blocks : Blocks α) (a : Nat) (d : List α)
    (ha : a < blocks.length) : (blocks.set a d).getD a [] = d := by
  simp [List.getD_eq_getElem?_getD, ha]

theorem addressed_getD_set_ne (blocks : Blocks α) (a b : Nat) (d : List α) (hne : a ≠ b) :
    (blocks.set a d).getD b [] = blocks.getD b [] := by
  rw [List.getD_eq_getElem?_getD, List.getElem?_set_ne hne, ← List.getD_eq_getElem?_getD]

theorem addressed_zip_loop [Zero α] (f : α → α → α) (blocks : Blocks α) (a1 a2 : Nat)
    (d1 d2 : List α) (h1 : blocks[a1]? = some d1) (h2 : blocks[a2]? = some d2) (n : Nat) :
    forLoop n (fun i (b : Blocks α) => b.set a1 ((b.getD a1 []).set i
        (f (rd (b.getD a1 []) i) (rd (b.getD a2 []) i)))) blocks
      = blocks.set a1 (forLoop n (fun i d =>
          d.set i (f (rd d i) (rd (if a2 = a1 then d else d2) i))) d1) := by
  have ha : a1 < blocks.length := by
    by_contra hn
    rw [List.getElem?_eq_none (by omega)] at h1
    cases h1
  induction n with
  | zero =>
    rw [forLoop_zero, forLoop_zero]
    apply List.ext_getElem?
    intro k
    by_cases hk : a1 = k
    · subst hk
      rw [List.getElem?_set_self ha, h1]
    · rw [List.getElem?_set_ne hk]
  | succ n ih =>
    rw [forLoop_succ, forLoop_succ, ih, addressed_getD_set_self blocks a1 _ ha,
      List.set_set]
    by_cases he : a2 = a1
    · subst he
      rw [addressed_getD_set_self blocks a2 _ ha]
      simp only [if_true]
    · rw [addressed_getD_set_ne blocks a1 a2 _ (fun e => he e.symm),
        addressed_getD blocks a2 d2 h2]
      simp only [he, if_false]

theorem addressed_zip_closed [Zero α] (f : α → α → α) (blocks : Blocks α) (a1 a2 : Nat)
    (d1 d2 : List α) (row col : Nat) (h1 : blocks[a1]? = some d1)
    (h2 : blocks[a2]? = some d2) (hl : d1.length = row * col) (hfit : row * col < SIZE_MOD) :
    forLoop ((row * col) % SIZE_MOD) (fun i (b : Blocks α) =>
        b.set a1 ((b.getD a1 []).set i (f (rd (b.getD a1 []) i) (rd (b.getD a2 []) i))))
        blocks
      = blocks.set a1 ((List.range (row * col)).map (fun k =>
          f (rd d1 k) (rd (if a2 = a1 then d1 else d2) k))) := by
  rw [addressed_zip_loop f blocks a1 a2 d1 d2 h1 h2]
  by_cases he : a2 = a1
  · simp only [he, if_true]
    rw [pointwise_mod row col d1 (fun _ x => f x x) hl hfit]
  · simp only [he, if_false]
    rw [pointwise_mod row col d1 (fun i x => f x (rd d2 i)) hl hfit]

theorem addressed_add_mk [Zero α] [Add α] (blocks : Blocks α) (row col a1 a2 : Nat)
    (d1 d2 : List α) (h1 : blocks[a1]? = some d1) (h2 : blocks[a2]? = some d2)
    (hr : 0 < row) (hc : 0 < col) (hl : d1.length = row * col)
    (hfit : row * col < SIZE_MOD) :
    Addressed.add blocks (some ⟨row, col, some a1⟩) (some ⟨row, col, some a2⟩)
      = (0, blocks.set a1 ((List.range (row * col)).map (fun k =>
          rd d1 k + rd (if a2 = a1 then d1 else d2) k))) := by
  have hv1 := addressed_isValid_mk row col a1 hr hc
  have hv2 := addressed_isValid_mk row col a2 hr hc
  unfold Addressed.add
  simp only [hv1, hv2, Bool.true_eq_false, or_self, if_false, ne_eq, not_true_eq_false]
  rw [addressed_zip_closed (fun x y => x + y) blocks a1 a2 d1 d2 row col h1 h2 hl hfit]

theorem addressed_subtract_mk [Zero α] [Sub α] (blocks : Blocks α) (row col a1 a2 : Nat)
    (d1 d2 : List α) (h1 : blocks[a1]? = some d1) (h2 : blocks[a2]? = some d2)
    (hr : 0 < row) (hc : 0 < col) (hl : d1.length = row * col)
    (hfit : row * col < SIZE_MOD) :
    Addressed.subtract blocks (some ⟨row, col, some a1⟩) (some ⟨row, col, some a2⟩)
      = (0, blocks.set a1 ((List.range (row * col)).map (fun k =>
          rd d1 k - rd (if a2 = a1 then d1 else d2) k))) := by
  have hv1 := addressed_isValid_mk row col a1 hr hc
  have hv2 := addressed_isValid_mk row col a2 hr hc
  unfold Addressed.subtract
  simp only [hv1, hv2, Bool.true_eq_false, or_self, if_false, ne_eq, not_true_eq_false]
  rw [addressed_zip_closed (fun x y => x - y) blocks a1 a2 d1 d2 row col h1 h2 hl hfit]

theorem addressed_elementWise_mk [Zero α] (blocks : Blocks α) (row col a1 a2 : Nat)
    (d1 d2 : List α) (f : α → α → α) (h1 : blocks[a1]? = some d1)
    (h2 : blocks[a2]? = some d2) (hr : 0 < row) (hc : 0 < col)
    (hl : d1.length = row * col) (hfit : row * col < SIZE_MOD) :
    Addressed.elementWise blocks (some ⟨row, col, some a1⟩) (some ⟨row, col, some a2⟩) f
      = (0, blocks.set a1 ((List.range (row * col)).map (fun k =>
          f (rd d1 k) (rd (if a2 = a1 then d1 else d2) k)))) := by
  have hv1 := addressed_isValid_mk row col a1 hr hc
  have hv2 := addressed_isValid_mk row col a2 hr hc
  unfold Addressed.elementWise
  simp only [hv1, hv2, Bool.not_true, Bool.or_self, Bool.false_eq_true, if_false, ne_eq,
    not_true_eq_false, or_self]
  rw [addressed_zip_closed f blocks a1 a2 d1 d2 row col h1 h2 hl hfit]

end Aliasing

section AddressedLayer

variable {α : Type}

theorem addressed_layer_cases (blocks : Blocks α) (layer : LayerRef α)
    (hv : LayerOps.isValid (Addressed.loadLayer blocks (some layer)) = true)
    (hr : Rep (LayerOps.getWeights (Addressed.loadLayer blocks (some layer)))) :
    ∃ inS outS f dv aW dW, layer = ⟨inS, outS, some f, dv, some ⟨outS, inS, some aW⟩⟩ ∧
      blocks[aW]? = some dW ∧ aW < blocks.length ∧ 0 < inS ∧ 0 < outS ∧
      dW.length = outS * inS ∧ outS * inS < SIZE_MOD := by
  obtain ⟨inS, outS, f, dv, dW, hform, hi, ho, hl, hfit⟩ := layer_valid_cases hv hr
  obtain ⟨lin, lout, lf, ldv, lw⟩ := layer
  simp only [Addressed.loadLayer, Option.some.injEq, LayerStruct.mk.injEq] at hform
  obtain ⟨e1, e2, e3, e4, e5⟩ := hform
  subst e1
  subst e2
  subst e3
  subst e4
  cases lw with
  | none => simp [Addressed.load, mk] at e5
  | some W =>
    have hvW : MatrixOps.isValid (Addressed.load blocks (some W)) = true := by
      rw [e5]
      exact isValid_mk lout lin dW ho hi
    have hrW : Rep (Addressed.load blocks (some W)) := by
      rw [e5]
      exact rep_mk lout lin dW hl hfit
    obtain ⟨row, col, a, d, rfl, hd, ha, -, -, -, -⟩ := addressed_cases blocks W hvW hrW
    rw [addressed_load_mk blocks row col a d hd] at e5
    simp only [mk, Option.some.injEq, MatrixStruct.mk.injEq] at e5
    obtain ⟨e6, e7, e8⟩ := e5
    subst e6
    subst e7
    subst e8
    exact ⟨_, _, _, _, a, d, rfl, hd, ha, hi, ho, hl, hfit⟩

theorem addressed_layerIsValid_mk (inS outS aW : Nat) (f : FnPtr α) (dv : Option (FnPtr α))
    (hi : 0 < inS) (ho : 0 < outS) :
    Addressed.layerIsValid (some (⟨inS, outS, some f, dv, some ⟨outS, inS, some aW⟩⟩ :
      LayerRef α)) = true := by
  have hv := addressed_isValid_mk outS inS aW ho hi
  have h1 : inS ≠ 0 := by omega
  have h2 : outS ≠ 0 := by omega
  simp [Addressed.layerIsValid, hv, h1, h2, Addressed.getCol, Addressed.getRow]

end AddressedLayer

section AddressedUpdate

variable {α : Type}

theorem addressed_updateWeights_own [Field α] (blocks : Blocks α) (inS outS aW r c g : Nat)
    (f : FnPtr α) (dv : Option (FnPtr α)) (dW dG : List α) (lr : α)
    (hW : blocks[aW]? = some dW) (hG : blocks[g]? = some dG) (hi : 0 < inS) (ho : 0 < outS)
    (hr : 0 < r) (hc : 0 < c) (hlW : dW.length = outS * inS)
    (hfitW : outS * inS < SIZE_MOD) (hlG : dG.length = r * c) (hfitG : r * c < SIZE_MOD) :
    (Addressed.updateWeights (some ⟨outS, inS, some aW⟩) blocks
      (some ⟨inS, outS, some f, dv, some ⟨outS, inS, some aW⟩⟩) (some ⟨r, c, some g⟩) lr).1
      = 0 ∧
    (Addressed.updateWeights (some ⟨outS, inS, some aW⟩) blocks
      (some ⟨inS, outS, some f, dv, some ⟨outS, inS, some aW⟩⟩) (some ⟨r, c, some g⟩) lr).2.2
      = [aW] := by
  have haW : aW < blocks.length := by
    by_contra hn
    rw [List.getElem?_eq_none (by omega)] at hW
    cases hW
  have hg : g < blocks.length := by
    by_contra hn
    rw [List.getElem?_eq_none (by omega)] at hG
    cases hG
  have hlv := addressed_layerIsValid_mk inS outS aW f dv hi ho
  have hvG := addressed_isValid_mk r c g hr hc
  have hsm := addressed_scalarMultiply_mk blocks r c g dG lr hG hr hc hlG hfitG
  have hcell : ∃ d, (blocks.set g ((List.range (r * c)).map (fun k => rd dG k * lr)))[aW]?
      = some d ∧ d.length = outS * inS := by
    by_cases hga : g = aW
    · subst hga
      refine ⟨_, List.getElem?_set_self hg, ?_⟩
      rw [hW] at hG
      cases hG
      simp [← hlG, hlW]
    · refine ⟨dW, ?_, hlW⟩
      rw [List.getElem?_set_ne hga]
      exact hW
  obtain ⟨d, hd, hld⟩ := hcell
  have hsub := addressed_subtract_mk _ outS inS aW aW d d hd hd ho hi hld hfitW
  unfold Addressed.updateWeights
  simp only [hlv, hvG, hsm, hsub, Bool.not_true, Bool.or_self, Bool.false_eq_true, if_false]
  simp [Addressed.destroy]

theorem addressed_updateWeights_null [Field α] (blocks : Blocks α) (layer : LayerRef α)
    (G : MatrixRef) (lr : α) :
    (Addressed.updateWeights none blocks (some layer) (some G) lr).1 = -1 ∧
    (Addressed.updateWeights none blocks (some layer) (some G) lr).2.2 = [] := by
  have hsub : ∀ (b : Blocks α) (m : Option MatrixRef), Addressed.subtract b m none
      = (-1, b) := by
    intro b m
    unfold Addressed.subtract
    simp [Addressed.isValid]
  unfold Addressed.updateWeights
  simp only [hsub]
  split_ifs <;> exact ⟨rfl, rfl⟩

end AddressedUpdate

section Lifetime

variable {α : Type}

theorem tracked_fold_fault (junk : Nat → α)
    (hiddenLayers : Option (List (NeuralNetworkLayer α))) (act dv : Option (FnPtr α))
    (step : Fault) (l : List Nat) :
    l.foldl (Tracked.createHidden junk hiddenLayers act dv) (Outcome.fault step)
      = Outcome.fault step := by
  induction l with
  | nil => rfl
  | cons k l ih =>
    rw [List.foldl_cons]
    exact ih

theorem tracked_read_released (specs : List (NeuralNetworkLayer α)) (freed : List Nat)
    (i : Nat) (s : NeuralNetworkLayerStruct α) (hs : specs.getD i none = some s)
    (hi : i ∈ freed) :
    Tracked.specOutputSize (some specs) freed i = Outcome.fault (Fault.useAfterFree i) := by
  simp only [Tracked.specOutputSize, hs, hi, if_true]

theorem tracked_hidden_first (junk : Nat → α) (specs : List (NeuralNetworkLayer α))
    (act dv : Option (FnPtr α)) (layers : List (Layer α)) (freed : List Nat)
    (s : NeuralNetworkLayerStruct α) (hs : specs.getD 0 none = some s)
    (h0 : 0 ∈ freed) (m : Nat) :
    (List.range (m + 1)).foldl (Tracked.createHidden junk (some specs) act dv)
      (Outcome.returned (layers, freed)) = Outcome.fault (Fault.useAfterFree 0) := by
  have hstep := tracked_read_released specs freed 0 s hs h0
  rw [List.range_succ_eq_map, List.foldl_cons]
  have h1 : Tracked.createHidden junk (some specs) act dv (Outcome.returned (layers, freed)) 0
      = Outcome.fault (Fault.useAfterFree 0) := by
    simp only [Tracked.createHidden, Nat.zero_add, Nat.sub_self, hstep]
  rw [h1, tracked_fold_fault]

theorem tracked_freeAll_cases (hiddenLayers : Option (List (NeuralNetworkLayer α)))
    (n : Nat) (freed : List Nat) :
    (∃ fr, Tracked.freeAll hiddenLayers n freed = Outcome.returned fr) ∨
      ∃ step, Tracked.freeAll hiddenLayers n freed = Outcome.fault step := by
  cases h : Tracked.freeAll hiddenLayers n freed with
  | returned fr => exact Or.inl ⟨fr, rfl⟩
  | fault step => exact Or.inr ⟨step, rfl⟩

theorem tracked_create_zero [Field α] (junk : Nat → α) (inputSize outputSize : Nat)
    (hiddenLayers : Option (List (NeuralNetworkLayer α)))
    (act dv : Option (FnPtr α)) (eF eD : Option (α → α → α)) :
    Tracked.create junk inputSize outputSize hiddenLayers 0 act dv eF eD
      = Outcome.returned
          (NeuralNetworkOps.create junk inputSize outputSize hiddenLayers 0 act dv eF eD) := by
  have hfree : Tracked.freeAll hiddenLayers 0 [] = Outcome.returned [] := rfl
  unfold Tracked.create NeuralNetworkOps.create
  by_cases hc : inputSize = 0 ∨ outputSize = 0 ∨ (hiddenLayers.isNone = true ∧ 0 ≠ 0) ∨
      act.isNone = true
  · rw [if_pos hc, if_pos hc, hfree]
  · rw [if_neg hc, if_neg hc]
    simp only [if_true]
    cases LayerOps.create junk inputSize outputSize act dv with
    | none => rfl
    | some layer => rfl

theorem tracked_create_released [Field α] (junk : Nat → α) (inputSize outputSize : Nat)
    (specs : List (NeuralNetworkLayer α)) (n : Nat) (act dv : Option (FnPtr α))
    (eF eD : Option (α → α → α)) (s : NeuralNetworkLayerStruct α) (layer0 : LayerStruct α)
    (hn : n ≠ 0) (hi : inputSize ≠ 0) (ho : outputSize ≠ 0) (ha : act.isSome = true)
    (hs : specs.getD 0 none = some s)
    (hl : LayerOps.create junk inputSize s.outputSize act dv = some layer0) :
    Tracked.create junk inputSize outputSize (some specs) n act dv eF eD
      = Outcome.fault (Fault.useAfterFree 0) := by
  have hc : ¬ (inputSize = 0 ∨ outputSize = 0 ∨
      ((some specs : Option (List (NeuralNetworkLayer α))).isNone = true ∧ n ≠ 0) ∨
      act.isNone = true) := by
    intro h
    rcases h with h | h | h | h
    · exact hi h
    · exact ho h
    · cases h.1
    · cases act with
      | none => cases ha
      | some f => cases h
  have hread : Tracked.specOutputSize (some specs) [] 0 = Outcome.returned s.outputSize := by
    simp only [Tracked.specOutputSize, hs, List.not_mem_nil, if_false]
  have hfree : Tracked.free (some specs) [] 0 = Outcome.returned [0] := by
    simp only [Tracked.free, hs, List.not_mem_nil, if_false]
  unfold Tracked.create
  rw [if_neg hc, if_neg hn]
  simp only [hread, hl, hfree]
  obtain ⟨m, rfl⟩ : ∃ m, n = m + 1 := ⟨n - 1, by omega⟩
  cases m with
  | zero =>
    simp only [Nat.zero_add, Nat.sub_self, List.range_zero, List.foldl_nil,
      tracked_read_released specs [0] 0 s hs (List.mem_singleton_self 0)]
  | succ m =>
    simp only [Nat.add_sub_cancel,
      tracked_hidden_first junk specs act dv [some layer0] [0] s hs
        (List.mem_singleton_self 0) m]

theorem tracked_create_cases [Field α] (junk : Nat → α) (inputSize outputSize : Nat)
    (hiddenLayers : Option (List (NeuralNetworkLayer α))) (n : Nat)
    (act dv : Option (FnPtr α)) (eF eD : Option (α → α → α)) (hn : n ≠ 0) :
    Tracked.create junk inputSize outputSize hiddenLayers n act dv eF eD
        = Outcome.returned none ∨
      ∃ step, Tracked.create junk inputSize outputSize hiddenLayers n act dv eF eD
        = Outcome.fault step := by
  have hfa : ∀ r : Outcome (List Nat),
      (match r with
        | Outcome.fault step => (Outcome.fault step : Outcome (NeuralNetwork α))
        | Outcome.returned _ => Outcome.returned none) = Outcome.returned none ∨
      ∃ step, (match r with
        | Outcome.fault step => (Outcome.fault step : Outcome (NeuralNetwork α))
        | Outcome.returned _ => Outcome.returned none) = Outcome.fault step := by
    intro r
    cases r with
    | returned fr => exact Or.inl rfl
    | fault step => exact Or.inr ⟨step, rfl⟩
  by_cases hc : inputSize = 0 ∨ outputSize = 0 ∨ (hiddenLayers.isNone = true ∧ n ≠ 0) ∨
      act.isNone = true
  · unfold Tracked.create
    rw [if_pos hc]
    exact hfa _
  · cases hiddenLayers with
    | none =>
      exact absurd (Or.inr (Or.inr (Or.inl ⟨rfl, hn⟩))) hc
    | some specs =>
      cases hs : specs.getD 0 none with
      | none =>
        right
        refine ⟨Fault.nullDereference, ?_⟩
        unfold Tracked.create
        rw [if_neg hc, if_neg hn]
        simp only [Tracked.specOutputSize, hs]
      | some s =>
        cases hl : LayerOps.create junk inputSize s.outputSize act dv with
        | none =>
          have hread : Tracked.specOutputSize (some specs) [] 0
              = Outcome.returned s.outputSize := by
            simp only [Tracked.specOutputSize, hs, List.not_mem_nil, if_false]
          unfold Tracked.create
          rw [if_neg hc, if_neg hn]
          simp only [hread, hl]
          exact hfa _
        | some layer0 =>
          right
          refine ⟨Fault.useAfterFree 0, ?_⟩
          have hi : inputSize ≠ 0 := fun h => hc (Or.inl h)
          have ho : outputSize ≠ 0 := fun h => hc (Or.inr (Or.inl h))
          have ha : act.isSome = true := by
            cases act with
            | none => exact absurd (Or.inr (Or.inr (Or.inr rfl))) hc
            | some f => rfl
          exact tracked_create_released junk inputSize outputSize specs n act dv eF eD s
            layer0 hn hi ho ha hs hl

theorem tracked_create_agree [Field α] (junk : Nat → α) (inputSize outputSize : Nat)
    (specs specs2 : List (NeuralNetworkLayer α)) (n : Nat) (act dv : Option (FnPtr α))
    (eF eD : Option (α → α → α))
    (h : ∀ k, (specs.getD k none).map (fun s => s.outputSize)
      = (specs2.getD k none).map (fun s => s.outputSize)) :
    Tracked.create junk inputSize outputSize (some specs) n act dv eF eD
      = Tracked.create junk inputSize outputSize (some specs2) n act dv eF eD := by
  have hread : Tracked.specOutputSize (some specs)
      = Tracked.specOutputSize (some specs2) := by
    funext freed i
    have hi := h i
    simp only [Tracked.specOutputSize]
    cases h1 : specs.getD i none with
    | none =>
      cases h2 : specs2.getD i none with
      | none => rfl
      | some s2 => rw [h1, h2] at hi; cases hi
    | some s1 =>
      cases h2 : specs2.getD i none with
      | none => rw [h1, h2] at hi; cases hi
      | some s2 =>
        rw [h1, h2] at hi
        have e : s1.outputSize = s2.outputSize := by simpa using hi
        simp only [e]
  have hfree : Tracked.free (some specs) = Tracked.free (some specs2) := by
    funext freed i
    have hi := h i
    simp only [Tracked.free]
    cases h1 : specs.getD i none with
    | none =>
      cases h2 : specs2.getD i none with
      | none => rfl
      | some s2 => rw [h1, h2] at hi; cases hi
    | some s1 =>
      cases h2 : specs2.getD i none with
      | none => rw [h1, h2] at hi; cases hi
      | some s2 => rfl
  have hall : Tracked.freeAll (some specs) = Tracked.freeAll (some specs2) := by
    funext m freed
    simp only [Tracked.freeAll, hfree]
  have hhid : Tracked.createHidden junk (some specs) act dv
      = Tracked.createHidden junk (some specs2) act dv := by
    funext st k
    simp only [Tracked.createHidden, hread, hfree]
  unfold Tracked.create
  simp only [hread, hfree, hall, hhid, Option.isNone_some]

theorem specOutputSize_agree (specs specs2 : List (NeuralNetworkLayer α))
    (h : ∀ k, (specs.getD k none).map (fun s => s.outputSize)
      = (specs2.getD k none).map (fun s => s.outputSize)) (k : Nat) :
    NeuralNetworkOps.specOutputSize (some specs) k
      = NeuralNetworkOps.specOutputSize (some specs2) k := by
  have hk := h k
  simp only [NeuralNetworkOps.specOutputSize]
  cases h1 : specs.getD k none with
  | none =>
    cases h2 : specs2.getD k none with
    | none => rfl
    | some s2 => rw [h1, h2] at hk; cases hk
  | some s1 =>
    cases h2 : specs2.getD k none with
    | none => rw [h1, h2] at hk; cases hk
    | some s2 =>
      rw [h1, h2] at hk
      have e : s1.outputSize = s2.outputSize := by simpa using hk
      simp only [e]

end Lifetime

section Claims

variable {α : Type}

/-- C3: for a valid layer with weights `W` and an `inputSize x 1` input `x`, `jacobian`
returns a valid `outputSize x inputSize` matrix `J` with `J[i,j] = W[i,j] * a_i`, where `a_i`
is the layer's activation derivative at `z_i` and `z = W * x`; when that derivative is
constantly 1 (identity activation), `J` is the weight matrix itself. -/
theorem layer_jacobian_contract [Field α] (junk : Nat → α) (layer : Layer α)
    (input : Matrix α) (hl : LayerOps.isValid layer = true)
    (hW : Rep (LayerOps.getWeights layer))
    (hin : MatrixOps.isValid input = true) (hRin : Rep input)
    (hrow : MatrixOps.getRow input = LayerOps.getInputSize layer)
    (hcol : MatrixOps.getCol input = 1) :
    MatrixOps.isValid (LayerOps.jacobian junk layer input) = true ∧
    MatrixOps.getRow (LayerOps.jacobian junk layer input) = LayerOps.getOutputSize layer ∧
    MatrixOps.getCol (LayerOps.jacobian junk layer input) = LayerOps.getInputSize layer ∧
    (∀ l, layer = some l →
      ∀ i j, i < LayerOps.getOutputSize layer → j < LayerOps.getInputSize layer →
        MatrixOps.get (LayerOps.jacobian junk layer input) i j
          = (0, some (entry (LayerOps.getWeights layer) i j *
              LayerOps.activationDerivativeAt l
                (∑ k ∈ Finset.range (LayerOps.getInputSize layer),
                  entry (LayerOps.getWeights layer) i k * entry input k 0)))) ∧
    (∀ l, layer = some l → (∀ z, LayerOps.activationDerivativeAt l z = 1) →
      LayerOps.jacobian junk layer input = LayerOps.getWeights layer) := by
  obtain ⟨inS, outS, f, dv, dW, rfl, hi, ho, hlW, hfit⟩ := layer_valid_cases hl hW
  obtain ⟨rX, cX, dX, rfl, hrX, hcX, -, -⟩ := valid_cases hin hRin
  have h1 : rX = inS := hrow
  have h2 : cX = 1 := hcol
  subst h1; subst h2
  rw [jacobian_mk junk rX outS f dv dW dX hi ho hfit]
  refine ⟨isValid_mk _ _ _ ho hi, rfl, rfl, ?_, ?_⟩
  · intro l hl2 i j hi2 hj2
    have hi3 : i < outS := hi2
    have hj3 : j < rX := hj2
    have hl3 : l = ⟨rX, outS, some f, dv, mk outS rX dW⟩ := by
      simp only [Option.some.injEq] at hl2
      exact hl2.symm
    subst hl3
    rw [get_mk _ _ _ i j hi3 hj3, rd_tab, if_pos (index_lt i j outS rX hi3 hj3)]
    rw [(div_mod_index i j rX hj3).1, (div_mod_index i j rX hj3).2, rd_tab]
    have hi4 : i * 1 + 0 < outS * 1 := by omega
    rw [if_pos hi4]
    have e1 : (i * 1 + 0) / 1 = i := by simp
    have e2 : (i * 1 + 0) % 1 = 0 := by simp [Nat.mod_one]
    rw [e1, e2]
    show _ = (0, some (entry (mk outS rX dW) i j * _))
    rw [entry_mk _ _ _ i j hi3 hj3]
    congr 4
    apply Finset.sum_congr rfl
    intro k hk
    have hk2 : k < rX := Finset.mem_range.mp hk
    show _ = entry (mk outS rX dW) i k * entry (mk rX 1 dX) k 0
    rw [entry_mk _ _ _ i k hi3 hk2, entry_mk _ _ _ k 0 hk2 (by decide)]
  · intro l hl2 hone
    have hl3 : l = ⟨rX, outS, some f, dv, mk outS rX dW⟩ := by
      simp only [Option.some.injEq] at hl2
      exact hl2.symm
    subst hl3
    show mk outS rX _ = mk outS rX dW
    congr 1
    apply ext_rd
    · simp [hlW]
    · intro k hk
      have hk2 : k < outS * rX := by simpa using hk
      rw [rd_tab, if_pos hk2, Nat.div_add_mod' k rX, rd_tab]
      have hdiv : k / rX < outS := Nat.div_lt_of_lt_mul (by rw [Nat.mul_comm]; exact hk2)
      have hk3 : k / rX * 1 + 0 < outS * 1 := by omega
      rw [if_pos hk3, hone, mul_one]

/-- Witness of C3 at the layer `[[1, 2]]` with identity activation and the input `[3, 4]`:
the Jacobian is the weight matrix. -/
theorem layer_jacobian_contract_witness :
    LayerOps.isValid exLayer = true ∧ Rep (LayerOps.getWeights exLayer) ∧
    MatrixOps.isValid exInput = true ∧ Rep exInput ∧
    MatrixOps.getRow exInput = LayerOps.getInputSize exLayer ∧
    MatrixOps.getCol exInput = 1 ∧
    LayerOps.jacobian (fun _ => 0) exLayer exInput = mk 1 2 [1, 2] := by
  have hl : LayerOps.isValid exLayer = true := layer_isValid_mk _ _ _ _ _ (by decide) (by decide)
  have hW : Rep (LayerOps.getWeights exLayer) := rep_mk _ _ _ rfl (by decide)
  have hin : MatrixOps.isValid exInput = true := isValid_mk _ _ _ (by decide) (by decide)
  have hRin : Rep exInput := rep_mk _ _ _ rfl (by decide)
  exact ⟨hl, hW, hin, hRin, rfl, rfl,
    (layer_jacobian_contract (fun _ => 0) exLayer exInput hl hW hin hRin rfl rfl).2.2.2.2
      _ rfl (fun _ => rfl)⟩

/-- C4, the code at the failing input (weight 2, gradient 6, learning rate 0.01): the
weights are decreased by the local `deltaWeights`, which is never written.  When it holds a
null pointer the call returns -1 and the weight stays 2; when it holds a `1 x 1` matrix
`[d]` the call returns 0 and the weight becomes `2 - d` whatever the gradient, also for a
gradient of another shape; in each case the caller's gradient has been scaled in place. -/
theorem updateWeights_subtracts_deltaWeights (d : ℚ) :
    LayerOps.updateWeights none exLayer1 (mk 1 1 [6]) (1 / 100)
      = (-1, exLayer1, mk 1 1 [6 / 100]) ∧
    LayerOps.updateWeights (mk 1 1 [d]) exLayer1 (mk 1 1 [6]) (1 / 100)
      = (0, exLayer1With (2 - d), mk 1 1 [6 / 100]) ∧
    LayerOps.updateWeights (mk 1 1 [d]) exLayer1 (mk 2 1 [6, 6]) (1 / 100)
      = (0, exLayer1With (2 - d), mk 2 1 [6 / 100, 6 / 100]) := by
  refine ⟨?_, ?_, ?_⟩
  · have h := updateWeights_null 1 1 1 1 NeuralNetworkOps.identity
      (some NeuralNetworkOps.identityDerivative) [(2 : ℚ)] [6] (1 / 100) (by decide)
      (by decide) (by decide) (by decide) rfl (by decide)
    simp only [exLayer1]
    rw [h]
    simp [List.range_succ, rd, div_eq_mul_inv]
  · have h := updateWeights_mk 1 1 1 1 NeuralNetworkOps.identity
      (some NeuralNetworkOps.identityDerivative) [(2 : ℚ)] [d] [6] (1 / 100) (by decide)
      (by decide) rfl (by decide) (by decide) (by decide) rfl (by decide)
    simp only [exLayer1, exLayer1With]
    rw [h]
    simp [List.range_succ, rd, div_eq_mul_inv]
  · have h := updateWeights_mk 1 1 2 1 NeuralNetworkOps.identity
      (some NeuralNetworkOps.identityDerivative) [(2 : ℚ)] [d] [6, 6] (1 / 100) (by decide)
      (by decide) rfl (by decide) (by decide) (by decide) rfl (by decide)
    simp only [exLayer1, exLayer1With]
    rw [h]
    simp [List.range_succ, rd, div_eq_mul_inv]

/-- The value-level `create`, which leaves the release of the specifications out: a network
that it returns records the given sizes and has `hiddenLayerCount + 1` layers whose sizes
chain, with weights of the shape of each layer, so that Network `isValid` holds. -/
theorem create_size_chain [Field α] (junk : Nat → α) (inputSize outputSize : Nat)
    (hiddenLayers : Option (List (NeuralNetworkLayer α))) (hiddenLayerCount : Nat)
    (act dv : Option (FnPtr α)) (eF eD : Option (α → α → α)) (nn : NeuralNetworkStruct α)
    (h : NeuralNetworkOps.create junk inputSize outputSize hiddenLayers hiddenLayerCount
      act dv eF eD = some nn) :
    nn.inputSize = inputSize ∧ nn.outputSize = outputSize ∧
    nn.hiddenLayerCount = hiddenLayerCount ∧
    nn.layers.length = hiddenLayerCount + 1 ∧
    (∀ i, i ≤ hiddenLayerCount → ∃ l, nn.layers.getD i none = some l ∧
      l.inputSize = (if i = 0 then inputSize
        else (NeuralNetworkOps.specOutputSize hiddenLayers (i - 1)).getD 0) ∧
      l.outputSize = (if i = hiddenLayerCount then outputSize
        else (NeuralNetworkOps.specOutputSize hiddenLayers i).getD 0) ∧
      MatrixOps.isValid l.weights = true ∧
      MatrixOps.getRow l.weights = l.outputSize ∧
      MatrixOps.getCol l.weights = l.inputSize ∧
      LayerOps.isValid (some l) = true) ∧
    NeuralNetworkOps.isValid (some nn) = true := by
  have key : nn.inputSize = inputSize ∧ nn.outputSize = outputSize ∧
      nn.hiddenLayerCount = hiddenLayerCount ∧
      nn.layers.length = hiddenLayerCount + 1 ∧
      (∀ i, i ≤ hiddenLayerCount → ∃ l, nn.layers.getD i none = some l ∧
        l.inputSize = (if i = 0 then inputSize
          else (NeuralNetworkOps.specOutputSize hiddenLayers (i - 1)).getD 0) ∧
        l.outputSize = (if i = hiddenLayerCount then outputSize
          else (NeuralNetworkOps.specOutputSize hiddenLayers i).getD 0) ∧
        MatrixOps.isValid l.weights = true ∧
        MatrixOps.getRow l.weights = l.outputSize ∧
        MatrixOps.getCol l.weights = l.inputSize ∧
        LayerOps.isValid (some l) = true) := by
    unfold NeuralNetworkOps.create at h
    by_cases hbad : inputSize = 0 ∨ outputSize = 0 ∨
        (hiddenLayers.isNone = true ∧ hiddenLayerCount ≠ 0) ∨ act.isNone = true
    · rw [if_pos hbad] at h; cases h
    · rw [if_neg hbad] at h
      simp only [] at h
      by_cases hz : hiddenLayerCount = 0
      · subst hz
        rw [if_pos rfl] at h
        cases hc : LayerOps.create junk inputSize outputSize act dv with
        | none => simp [hc] at h
        | some layer =>
          simp only [hc, Option.some.injEq] at h
          subst h
          obtain ⟨hin, hout, -, -, hv, hvw, hrow, hcol⟩ :=
            layer_create_spec junk inputSize outputSize act dv layer hc
          refine ⟨rfl, rfl, rfl, rfl, ?_⟩
          intro i hi
          have hi0 : i = 0 := by omega
          subst hi0
          exact ⟨layer, rfl, by simp [hin], by simp [hout], hvw, by rw [hrow, hout],
            by rw [hcol, hin], hv⟩
      · rw [if_neg hz] at h
        cases h0 : NeuralNetworkOps.specOutputSize hiddenLayers 0 with
        | none => simp [h0] at h
        | some w0 =>
          simp only [h0] at h
          cases hc0 : LayerOps.create junk inputSize w0 act dv with
          | none => simp [hc0] at h
          | some layer0 =>
            simp only [hc0] at h
            obtain ⟨hin0, hout0, -, -, hv0, -, -, -⟩ :=
              layer_create_spec junk inputSize w0 act dv layer0 hc0
            cases hf : (List.range (hiddenLayerCount - 1)).foldl
                (NeuralNetworkOps.createHidden junk hiddenLayers act dv)
                (some [some layer0]) with
            | none => simp [hf] at h
            | some layers =>
              simp only [hf] at h
              obtain ⟨hlen, hprop⟩ := hidden_fold_spec junk inputSize hiddenLayers act dv
                layer0 hin0 (by simp [hout0, h0]) hv0 (hiddenLayerCount - 1) layers hf
              cases hn : NeuralNetworkOps.specOutputSize hiddenLayers (hiddenLayerCount - 1) with
              | none => simp [hn] at h
              | some wn =>
                simp only [hn] at h
                cases hcl : LayerOps.create junk wn outputSize
                    (if NeuralNetworkOps.isSoftmaxPtr act = true
                      then (some NeuralNetworkOps.identity,
                        some NeuralNetworkOps.identityDerivative)
                      else (act, dv)).1
                    (if NeuralNetworkOps.isSoftmaxPtr act = true
                      then (some NeuralNetworkOps.identity,
                        some NeuralNetworkOps.identityDerivative)
                      else (act, dv)).2 with
                | none => simp [hcl] at h
                | some last =>
                  simp only [hcl, Option.some.injEq] at h
                  subst h
                  obtain ⟨hinl, houtl, -, -, hvl, -, -, -⟩ := layer_create_spec junk wn
                    outputSize _ _ last hcl
                  refine ⟨rfl, rfl, rfl, by simp [hlen]; omega, ?_⟩
                  intro i hi
                  have hvalid : ∀ l : LayerStruct α, LayerOps.isValid (some l) = true →
                      MatrixOps.isValid l.weights = true ∧
                      MatrixOps.getRow l.weights = l.outputSize ∧
                      MatrixOps.getCol l.weights = l.inputSize := by
                    intro l hl
                    simp only [LayerOps.isValid] at hl
                    by_cases q1 : l.inputSize = 0 ∨ l.outputSize = 0
                    · simp [q1] at hl
                    · by_cases q2 : l.activationFunction.isNone = true
                      · simp [q1, q2] at hl
                      · by_cases q3 : MatrixOps.isValid l.weights = true
                        · by_cases q4 : MatrixOps.getCol l.weights ≠ l.inputSize ∨
                              MatrixOps.getRow l.weights ≠ l.outputSize
                          · simp [q1, q2, q3, q4] at hl
                          · exact ⟨q3, by_contra fun e => q4 (Or.inr e),
                              by_contra fun e => q4 (Or.inl e)⟩
                        · simp [q1, q2, q3] at hl
                  by_cases him : i ≤ hiddenLayerCount - 1
                  · obtain ⟨l, hl, h1, h2, h3⟩ := hprop i him
                    have hne : i ≠ hiddenLayerCount := by omega
                    obtain ⟨v1, v2, v3⟩ := hvalid l h3
                    refine ⟨l, ?_, h1, by rw [if_neg hne]; exact h2, v1, v2, v3, h3⟩
                    show (layers ++ [some last]).getD i none = some l
                    rw [List.getD_eq_getElem?_getD, List.getElem?_append_left (by omega),
                      ← List.getD_eq_getElem?_getD]
                    exact hl
                  · have hi2 : i = hiddenLayerCount := by omega
                    subst hi2
                    obtain ⟨v1, v2, v3⟩ := hvalid last hvl
                    refine ⟨last, ?_, ?_, ?_, v1, v2, v3, hvl⟩
                    · show (layers ++ [some last]).getD i none = some last
                      rw [List.getD_eq_getElem?_getD,
                        List.getElem?_append_right (by omega)]
                      have : i - layers.length = 0 := by omega
                      simp [this]
                    · simp [hz, hinl, hn]
                    · simp [houtl]
  refine ⟨key.1, key.2.1, key.2.2.1, key.2.2.2.1, key.2.2.2.2, ?_⟩
  obtain ⟨k1, k2, k3, -, k5⟩ := key
  apply network_isValid_of_chain nn (fun k => if k = 0 then inputSize
    else if k = hiddenLayerCount + 1 then outputSize
    else (NeuralNetworkOps.specOutputSize hiddenLayers (k - 1)).getD 0)
  · simp [k1]
  · simp [k2, k3]
  · intro i hi
    rw [k3] at hi
    obtain ⟨l, hl, h1, h2, -, -, -, h6⟩ := k5 i hi
    refine ⟨l, hl, ?_, ?_, h6⟩
    · rw [h1]
      by_cases hi0 : i = 0
      · simp [hi0]
      · have : i ≠ hiddenLayerCount + 1 := by omega
        simp [hi0, this]
    · rw [h2]
      by_cases hic : i = hiddenLayerCount
      · simp [hic]
      · simp [hic]

/-- C7: whatever the indeterminate locals hold, `gradientDescentStep` returns -1 and leaves
the network, hence every weight, as it was whenever the network fails `isValid` (an absent
network included), or `learningRate <= 0`, or the dataset is absent or has no datapoint. -/
theorem gradientDescentStep_rejects [LinearOrderedField α] (layerCountFF : Nat)
    (deltaWeights : Nat → Matrix α) (activationFunction exp : α → α) (junk : Nat → α)
    (nn : NeuralNetwork α) (dataset : Dataset α) (learningRate : α)
    (h : NeuralNetworkOps.isValid nn = false ∨ learningRate ≤ 0 ∨ dataset = none ∨
      dataset = some []) :
    NeuralNetworkOps.gradientDescentStep layerCountFF deltaWeights activationFunction exp
      junk nn dataset learningRate = some (-1, nn) := by
  unfold NeuralNetworkOps.gradientDescentStep
  cases nn with
  | none => rfl
  | some n =>
    cases dataset with
    | none => rfl
    | some ds =>
      simp only []
      by_cases hv : NeuralNetworkOps.isValid (some n) = true
      · by_cases hlr : learningRate ≤ 0
        · simp [hv, hlr]
        · rcases h with h | h | h | h
          · rw [hv] at h; cases h
          · exact absurd h hlr
          · cases h
          · simp only [Option.some.injEq] at h
            subst h
            simp [hv, hlr]
      · simp [hv]

/-- Witness of C7: the training scenario with learning rate 0 is rejected. -/
theorem gradientDescentStep_rejects_witness :
    (NeuralNetworkOps.isValid exNet = false ∨ (0 : ℚ) ≤ 0 ∨ exData = none ∨
      exData = some []) ∧
    NeuralNetworkOps.gradientDescentStep 1 (fun _ => none) (fun x => x) (fun x => x)
      (fun _ => 0) exNet exData 0 = some (-1, exNet) :=
  ⟨Or.inr (Or.inl (le_refl 0)),
    gradientDescentStep_rejects 1 (fun _ => none) (fun x => x) (fun x => x) (fun _ => 0)
      exNet exData 0 (Or.inr (Or.inl (le_refl 0)))⟩

/-- C8, the code at failing inputs.  On the network `exNet2` (layers `1 -> 2 -> 1`) and
the input `[3]`, the array `feedForward` returns -1 whatever value its never-written local
`outputSize` holds, since every layer output is allocated with that one size; the claim
has it succeed with `[6]`.  On the one-layer network `exNet` (weight 2) the matrix
`feedForward`, whose loop bound `layerCount` is never written, returns 0 with the output
matrix untouched when that local holds 0; the claim has the output `[6]`. -/
theorem network_feedForward_defects (junk : Nat → ℚ) (exp : ℚ → ℚ) (j : ℚ) :
    (∀ outputSize : Nat,
      (NeuralNetworkOps.feedForward outputSize exp junk exNet2 (some [3]) (some [0])).1 = -1) ∧
    NeuralNetworkOps.feedForwardMatrix 0 exp junk exNet (mk 1 1 [3]) (some [mk 1 1 [j]])
      = (0, some [mk 1 1 [j]]) := by
  constructor
  · intro os
    have hfill : forLoop 1 (NeuralNetworkOps.fillInput [(3 : ℚ)])
        (mk 1 1 ((List.range (1 * 1)).map junk)) = mk 1 1 [3] := by
      rw [forLoop_succ, forLoop_zero]
      simp only [NeuralNetworkOps.fillInput, mk]
      have hs := set_mk 1 1 ((List.range (1 * 1)).map junk) 0 0 (rd [(3 : ℚ)] 0) (by decide)
        (by decide)
      simp only [mk] at hs
      rw [hs]
      simp [rd, List.range_succ]
    have hfed : forLoop 2 (NeuralNetworkOps.feedLayer os junk exLayers2) (mk 1 1 [3])
        = none := feedLayer_mismatch junk os
    unfold NeuralNetworkOps.feedForward
    simp only [exNet2]
    rw [create_eq junk 1 1 (by decide) (by decide) (by decide)]
    simp only [mk] at hfill hfed ⊢
    simp only [hfill, hfed]
  · have hv : NeuralNetworkOps.isValid exNet = true := by decide
    unfold NeuralNetworkOps.feedForwardMatrix
    simp only [exNet, mk] at hv ⊢
    simp only [hv, forLoop_zero]
    simp [NeuralNetworkOps.isSoftmaxPtr, NeuralNetworkOps.identity]

/-- C5, the code at the scenario (weight 2, datapoint `(3, 5)`, learning rate 0.01), with
the never-written loop bound of the forward sweep holding 1.  The sweep accumulates the
gradient 6, but the update subtracts the never-written local `deltaWeights` of
`updateWeights`: when it holds a null pointer the step returns -1 and the weight stays 2;
when it holds a `1 x 1` matrix `[d]` the step returns 0 and the weight becomes `2 - d`.
The claim has the step succeed with the weight 1.94. -/
theorem training_step_subtracts_deltaWeights (activationFunction exp : ℚ → ℚ)
    (junk : Nat → ℚ) (d : ℚ) :
    NeuralNetworkOps.gradientDescentStep 1 (fun _ => none) activationFunction exp junk exNet
        exData (1 / 100) = some (-1, exNet) ∧
    NeuralNetworkOps.gradientDescentStep 1 (fun _ => mk 1 1 [d]) activationFunction exp junk
        exNet exData (1 / 100) = some (0, exNetWith (2 - d)) := by
  have hl : exLayer1 = layer1 2 NeuralNetworkOps.identity NeuralNetworkOps.identityDerivative :=
    rfl
  constructor
  · rw [exNet_step]
    have hu : NeuralNetworkOps.updateLayer (fun _ => (none : Matrix ℚ)) [mk 1 1 [6]] (1 / 100) 0
        (false, [exLayer1]) = (true, [exLayer1]) := by
      unfold NeuralNetworkOps.updateLayer
      simp only [Bool.false_eq_true, if_false, List.getD_cons_zero]
      rw [hl, layer1_updateWeights_null]
      rfl
    rw [hu]
    rfl
  · rw [exNet_step]
    have hu : NeuralNetworkOps.updateLayer (fun _ => mk 1 1 [d]) [mk 1 1 [6]] (1 / 100) 0
        (false, [exLayer1]) = (false, [exLayer1With (2 - d)]) := by
      unfold NeuralNetworkOps.updateLayer
      simp only [Bool.false_eq_true, if_false, List.getD_cons_zero]
      rw [hl, layer1_updateWeights]
      rfl
    rw [hu]
    rfl

/-- C20, as stated, fails: `2 ^ 32 > 0`, yet `create(2 ^ 32, 2 ^ 32)` returns no matrix,
before any allocation, because the `size_t` product wraps to 0. -/
theorem matrix_create_wraps_counterexample :
    0 < 2 ^ 32 ∧ MatrixOps.create (fun _ => (0 : ℚ)) (2 ^ 32) (2 ^ 32) = none := by
  exact ⟨by decide, (create_none_iff _ _ _).2 (by decide)⟩

/-- C20 (amended): `create(r, c)` returns no matrix exactly when the `size_t` product
`r * c` is 0 modulo `2 ^ 64`, in particular for `create(0, c)` and `create(r, 0)`; for every
other `r` and `c`, hence for all `r, c > 0` with `r * c < 2 ^ 64`, it returns a valid matrix
for which `getRow` returns `r` and `getCol` returns `c`, as `create(3, 3)` of the test. -/
theorem matrix_create_contract (junk : Nat → α) (r c : Nat) :
    (MatrixOps.create junk r c = none ↔ (r * c) % SIZE_MOD = 0) ∧
    MatrixOps.create junk 0 c = none ∧ MatrixOps.create junk r 0 = none ∧
    ((r * c) % SIZE_MOD ≠ 0 →
      MatrixOps.isValid (MatrixOps.create junk r c) = true ∧
      MatrixOps.getRow (MatrixOps.create junk r c) = r ∧
      MatrixOps.getCol (MatrixOps.create junk r c) = c) ∧
    (0 < r → 0 < c → r * c < SIZE_MOD →
      MatrixOps.isValid (MatrixOps.create junk r c) = true ∧
      MatrixOps.getRow (MatrixOps.create junk r c) = r ∧
      MatrixOps.getCol (MatrixOps.create junk r c) = c) ∧
    (MatrixOps.isValid (MatrixOps.create junk 3 3) = true ∧
      MatrixOps.getRow (MatrixOps.create junk 3 3) = 3 ∧
      MatrixOps.getCol (MatrixOps.create junk 3 3) = 3) := by
  have hgood : ∀ r c : Nat, 0 < r → 0 < c → r * c < SIZE_MOD →
      MatrixOps.isValid (MatrixOps.create junk r c) = true ∧
      MatrixOps.getRow (MatrixOps.create junk r c) = r ∧
      MatrixOps.getCol (MatrixOps.create junk r c) = c := by
    intro r c hr hc hfit
    rw [create_eq junk r c hr hc hfit]
    exact ⟨isValid_mk _ _ _ hr hc, rfl, rfl⟩
  refine ⟨?_, ?_, ?_, ?_, hgood r c, hgood 3 3 (by decide) (by decide) (by decide)⟩
  · exact create_none_iff junk r c
  · simp [MatrixOps.create]
  · simp [MatrixOps.create]
  · intro hne
    rcases create_cases junk r c with h | ⟨hr, hc, d, h⟩
    · simp [MatrixOps.create, hne] at h
    · rw [h]
      exact ⟨isValid_mk _ _ _ hr hc, rfl, rfl⟩

/-- C17, as stated, fails: with both sizes `2 ^ 32` (nonzero) and the identity activation set,
Layer `create` returns no layer, before any allocation, because the `size_t` product of the
weight shape wraps to 0. -/
theorem layer_create_wraps_counterexample :
    (2 ^ 32 ≠ 0) ∧ (some (NeuralNetworkOps.identity : FnPtr ℚ)).isSome = true ∧
      LayerOps.create (fun _ => (0 : ℚ)) (2 ^ 32) (2 ^ 32)
        (some NeuralNetworkOps.identity) none = none := by
  refine ⟨by decide, rfl, ?_⟩
  exact (layer_create_none_iff _ _ _ _ _).2 (Or.inr (Or.inr (Or.inr (by decide))))

/-- C17 (amended): Layer `create(inputSize, outputSize, activation, derivative)` returns no
layer exactly when `inputSize = 0`, `outputSize = 0`, the activation is unset, or the `size_t`
product `outputSize * inputSize` is 0 modulo `2 ^ 64` (the derivative may be unset); whenever it
returns a layer, the layer reports the given inputSize, outputSize, activation and derivative,
and its weight matrix is valid with shape `(outputSize, inputSize)`. -/
theorem layer_create_contract (junk : Nat → α) (inputSize outputSize : Nat)
    (activation derivative : Option (FnPtr α)) :
    (LayerOps.create junk inputSize outputSize activation derivative = none ↔
      (inputSize = 0 ∨ outputSize = 0 ∨ activation = none ∨
        (outputSize * inputSize) % SIZE_MOD = 0)) ∧
    (∀ l, LayerOps.create junk inputSize outputSize activation derivative = some l →
      LayerOps.getInputSize (some l) = inputSize ∧
      LayerOps.getOutputSize (some l) = outputSize ∧
      LayerOps.getActivationFunction (some l) = activation ∧
      l.activationDerivative = derivative ∧
      MatrixOps.isValid (LayerOps.getWeights (some l)) = true ∧
      MatrixOps.getRow (LayerOps.getWeights (some l)) = outputSize ∧
      MatrixOps.getCol (LayerOps.getWeights (some l)) = inputSize) := by
  refine ⟨layer_create_none_iff junk inputSize outputSize activation derivative, ?_⟩
  intro l hl
  obtain ⟨h1, h2, h3, h4, _, h6, h7, h8⟩ :=
    layer_create_spec junk inputSize outputSize activation derivative l hl
  exact ⟨h1, h2, h3, h4, h6, h7, h8⟩

/-- C11 fails for `n = 0`: whenever `create` is given the softmax marker and returns a
network with `n` hidden layers, the final layer of the network holds the softmax marker
exactly when `n = 0`; for `n = 0` it is built with the softmax marker and the given
derivative, and only for `n >= 1` with `identity` and `identityDerivative`. -/
theorem create_softmax_final_layer [Field α] (junk : Nat → α) (exp : α → α)
    (inputSize outputSize : Nat) (hiddenLayers : Option (List (NeuralNetworkLayer α)))
    (n : Nat) (dv : Option (FnPtr α)) (eF eD : Option (α → α → α))
    (nn : NeuralNetworkStruct α)
    (h : NeuralNetworkOps.create junk inputSize outputSize hiddenLayers n
      (some (NeuralNetworkOps.softmax exp)) dv eF eD = some nn) :
    ∃ last, nn.layers.getD n none = some last ∧
      NeuralNetworkOps.isSoftmaxPtr last.activationFunction = decide (n = 0) ∧
      (n = 0 → last.activationFunction = some (NeuralNetworkOps.softmax exp) ∧
        last.activationDerivative = dv) ∧
      (n ≠ 0 → last.activationFunction = some NeuralNetworkOps.identity ∧
        last.activationDerivative = some NeuralNetworkOps.identityDerivative) := by
  obtain ⟨-, -, -, -, last, hl, ha, hd⟩ := create_fields junk inputSize outputSize
    hiddenLayers n (some (NeuralNetworkOps.softmax exp)) dv eF eD nn h
  have hs : NeuralNetworkOps.isSoftmaxPtr (some (NeuralNetworkOps.softmax exp)) = true := rfl
  refine ⟨last, hl, ?_, ?_, ?_⟩
  · by_cases hn : n = 0
    · rw [ha, if_neg (fun q => q.1 hn)]
      simp [hn, hs]
    · rw [ha, if_pos ⟨hn, hs⟩]
      simp [hn, NeuralNetworkOps.isSoftmaxPtr, NeuralNetworkOps.identity]
  · intro hn
    rw [ha, hd, if_neg (fun q => q.1 hn), if_neg (fun q => q.1 hn)]
    exact ⟨rfl, rfl⟩
  · intro hn
    rw [ha, hd, if_pos ⟨hn, hs⟩, if_pos ⟨hn, hs⟩]
    exact ⟨rfl, rfl⟩

/-- Witness of C11: `create(1, 1, NULL, 0, softmax, NULL, NULL, NULL)` returns a network
whose only layer, the final one, is built with the softmax marker and no derivative. -/
theorem create_softmax_final_layer_witness :
    ∃ nn, NeuralNetworkOps.create (fun _ => (0 : ℚ)) 1 1 none 0
        (some (NeuralNetworkOps.softmax (fun x => x))) none none none = some nn ∧
      ∃ last, nn.layers.getD 0 none = some last ∧
        NeuralNetworkOps.isSoftmaxPtr last.activationFunction = decide (0 = 0) ∧
        (0 = 0 → last.activationFunction = some (NeuralNetworkOps.softmax (fun x => x)) ∧
          last.activationDerivative = none) ∧
        (0 ≠ 0 → last.activationFunction = some NeuralNetworkOps.identity ∧
          last.activationDerivative = some NeuralNetworkOps.identityDerivative) := by
  have hs : (NeuralNetworkOps.create (fun _ => (0 : ℚ)) 1 1 none 0
      (some (NeuralNetworkOps.softmax (fun x => x))) none none none).isSome = true := by
    decide
  obtain ⟨nn, hnn⟩ := Option.isSome_iff_exists.mp hs
  exact ⟨nn, hnn, create_softmax_final_layer (fun _ => (0 : ℚ)) (fun x => x) 1 1 none 0
    none none none nn hnn⟩

/-- C13: Network `isValid` returns true exactly when the network is present, every one of
its `hiddenLayerCount + 1` layers is present and satisfies Layer `isValid`, the first layer's
input size equals the network input size, every later layer's input size equals its
predecessor's output size, and the last layer's output size equals the network output size;
hence it returns false whenever an adjacent pair of layers fails to chain or the final
layer's output size differs from the declared output size. -/
theorem network_isValid_contract (nn : NeuralNetwork α) :
    (NeuralNetworkOps.isValid nn = true ↔ ∃ n, nn = some n ∧
      (∀ i, i ≤ n.hiddenLayerCount →
        ∃ l, n.layers.getD i none = some l ∧ LayerOps.isValid (some l) = true) ∧
      LayerOps.getInputSize (n.layers.getD 0 none) = n.inputSize ∧
      (∀ i, i < n.hiddenLayerCount →
        LayerOps.getInputSize (n.layers.getD (i + 1) none)
          = LayerOps.getOutputSize (n.layers.getD i none)) ∧
      LayerOps.getOutputSize (n.layers.getD n.hiddenLayerCount none) = n.outputSize) ∧
    (∀ n, nn = some n →
      ((∃ i, i < n.hiddenLayerCount ∧
          LayerOps.getInputSize (n.layers.getD (i + 1) none)
            ≠ LayerOps.getOutputSize (n.layers.getD i none)) ∨
        LayerOps.getInputSize (n.layers.getD 0 none) ≠ n.inputSize ∨
        LayerOps.getOutputSize (n.layers.getD n.hiddenLayerCount none) ≠ n.outputSize) →
      NeuralNetworkOps.isValid nn = false) := by
  cases nn with
  | none =>
    refine ⟨⟨?_, ?_⟩, ?_⟩
    · intro h
      cases h
    · rintro ⟨n, hn, -⟩
      cases hn
    · intro n hn
      cases hn
  | some m =>
    refine ⟨?_, ?_⟩
    · rw [network_isValid_some_iff m]
      constructor
      · intro h
        exact ⟨m, rfl, h⟩
      · rintro ⟨n, hn, h⟩
        cases hn
        exact h
    · intro n hn hbad
      cases hn
      cases hv : NeuralNetworkOps.isValid (some m) with
      | false => rfl
      | true =>
        obtain ⟨-, h2, h3, h4⟩ := (network_isValid_some_iff m).1 hv
        rcases hbad with ⟨i, hi, hne⟩ | hne | hne
        · exact absurd (h3 i hi) hne
        · exact absurd h2 hne
        · exact absurd h4 hne

/-- C15 holds with an analytic error derivative and fails without one: for predicted and
target matrices of the same shape `(r, c)`, `calculateErrorDerivative` returns the matrix of
that shape whose cell `k` is `errorDerivative(p_k, t_k)` when the network has an error
derivative; when it has none, the call does not return for any error function `E`, because
the numerical branch hands the null `nn->errorDerivative`, not `nn->errorFunction`, to
`numericalErrorDerivative`; it returns no matrix when the shapes differ. -/
theorem calculateErrorDerivative_contract [Field α] (junk : Nat → α)
    (n : NeuralNetworkStruct α) (r c : Nat) (p t : List α) (hr : 0 < r) (hc : 0 < c)
    (hl : p.length = r * c) (hfit : r * c < SIZE_MOD) :
    (∀ d, n.errorDerivative = some d →
      NeuralNetworkOps.calculateErrorDerivative junk (some n) (mk r c p) (mk r c t)
        = some (mk r c ((List.range (r * c)).map (fun k => d (rd p k) (rd t k))))) ∧
    (n.errorDerivative = none →
      NeuralNetworkOps.calculateErrorDerivative junk (some n) (mk r c p) (mk r c t) = none) ∧
    (∀ r2 c2 t2, 0 < r2 → 0 < c2 → (r ≠ r2 ∨ c ≠ c2) →
      NeuralNetworkOps.calculateErrorDerivative junk (some n) (mk r c p) (mk r2 c2 t2)
        = some none) := by
  refine ⟨?_, ?_, ?_⟩
  · intro d hE
    exact calculateErrorDerivative_analytic junk n r c p t d hr hc hl hfit hE
  · intro hE
    have hrc : r ≤ r * c := Nat.le_mul_of_pos_right r hc
    exact calculateErrorDerivative_numeric junk n r c p t hr hc (by omega) hE
  · intro r2 c2 t2 hr2 hc2 hne
    exact calculateErrorDerivative_shape junk n r c r2 c2 p t2 hr hc hr2 hc2 hne

/-- Witness of C15: for a network with the squared error as error function and no error
derivative, predicted `[1, 2]` and target `[0, 0]`, the call does not return. -/
theorem calculateErrorDerivative_contract_witness :
    (0 < 2 ∧ 0 < 1 ∧ ([1, 2] : List ℚ).length = 2 * 1 ∧ 2 * 1 < SIZE_MOD) ∧
    NeuralNetworkOps.calculateErrorDerivative (fun _ => (0 : ℚ))
      (some ⟨1, 1, 0, some NeuralNetworkOps.identity, none,
        some NeuralNetworkOps.defaultErrorFunction, none, []⟩)
      (mk 2 1 [1, 2]) (mk 2 1 [0, 0]) = none :=
  ⟨⟨by decide, by decide, rfl, by decide⟩,
    (calculateErrorDerivative_contract (fun _ => (0 : ℚ))
      ⟨1, 1, 0, some NeuralNetworkOps.identity, none,
        some NeuralNetworkOps.defaultErrorFunction, none, []⟩
      2 1 [1, 2] [0, 0] (by decide) (by decide) rfl (by decide)).2.1 rfl⟩

/-- C14 holds with an analytic derivative and fails without one: for a valid layer with
weights `W` and activation `f` and an input `X` with `inputSize` rows, `calculateActivationDeriv`
returns `W * X` with every entry `z` replaced by `d(z)` when the layer has an analytic
derivative `d`; when it has none and `X` is a column, entry `i` is the central difference,
with `h = 1e-6`, of the function `g` held by the local `activationFunction`, which is read
without ever being assigned: the result is the same for every activation `f` of the layer. -/
theorem calculateActivationDeriv_contract [Field α] (g : α → α) (junk : Nat → α)
    (inS outS c : Nat) (f : FnPtr α) (dW dX dX1 : List α) (hi : 0 < inS) (ho : 0 < outS)
    (hc : 0 < c) (hfit : outS * c < SIZE_MOD) :
    (∀ d : FnPtr α, LayerOps.calculateActivationDeriv g junk
        (some ⟨inS, outS, some f, some d, mk outS inS dW⟩) (mk inS c dX)
      = mk outS c ((List.range (outS * c)).map (fun k =>
          d.call (∑ x ∈ Finset.range inS,
            rd dW (k / c * inS + x) * rd dX (x * c + k % c))))) ∧
    LayerOps.calculateActivationDeriv g junk
        (some ⟨inS, outS, some f, none, mk outS inS dW⟩) (mk inS 1 dX1)
      = mk outS 1 ((List.range (outS * 1)).map (fun k =>
          (g ((∑ x ∈ Finset.range inS, rd dW (k / 1 * inS + x) * rd dX1 (x * 1 + k % 1))
              + 1 / 1000000)
            - g ((∑ x ∈ Finset.range inS, rd dW (k / 1 * inS + x) * rd dX1 (x * 1 + k % 1))
              - 1 / 1000000)) / (2 * (1 / 1000000)))) := by
  refine ⟨?_, ?_⟩
  · intro d
    exact calculateActivationDeriv_mk g junk inS outS c f d dW dX hi ho hc hfit
  · have h1 : outS * 1 ≤ outS * c := Nat.mul_le_mul_left outS hc
    exact calculateActivationDeriv_numeric g junk inS outS f dW dX1 hi ho (by omega)

/-- Witness of C14: the layer with one weight 2, the identity activation and no derivative,
at the input 3, with the constant 0 in the unassigned local: the result is `[0]`, and the
central difference of the identity, which the claim states, is 1. -/
theorem calculateActivationDeriv_contract_witness :
    (0 < 1 ∧ 1 * 1 < SIZE_MOD) ∧
    LayerOps.calculateActivationDeriv (fun _ => (0 : ℚ)) (fun _ => 0)
        (some ⟨1, 1, some NeuralNetworkOps.identity, none, mk 1 1 [2]⟩) (mk 1 1 [3])
      = mk 1 1 [0] ∧
    LayerOps.numericalDerivative (NeuralNetworkOps.identity : FnPtr ℚ).call (2 * 3) = 1 := by
  refine ⟨⟨by decide, by decide⟩, ?_, ?_⟩
  · rw [(calculateActivationDeriv_contract (fun _ => (0 : ℚ)) (fun _ => 0) 1 1 1
      NeuralNetworkOps.identity [2] [3] [3] (by decide) (by decide) (by decide)
      (by decide)).2]
    simp [List.range_succ]
  · simp only [LayerOps.numericalDerivative, LayerOps.h, NeuralNetworkOps.identity]
    norm_num

/-- C21: `get(m, i, j, value)` returns -1 exactly when `m` is invalid or `i >= rows(m)` or
`j >= cols(m)` or the destination `value` is null, and 0 otherwise; `set(m, i, j, v)` returns
-1 exactly when `m` is invalid or `i >= rows(m)` or `j >= cols(m)`, and 0 otherwise; a failed
`set` leaves `m` as it was; `m` is invalid exactly when it is absent, has a zero dimension or
has no storage; and `get` with a destination that is present has the status of `getInto`. -/
theorem get_set_fail_exactly [Zero α] (m : Matrix α) (i j : Nat) (value : Option α)
    (v : α) :
    ((MatrixOps.getInto m i j value).1 = -1 ↔
      (MatrixOps.isValid m = false ∨ MatrixOps.getRow m ≤ i ∨ MatrixOps.getCol m ≤ j ∨
        value = none)) ∧
    ((MatrixOps.getInto m i j value).1 ≠ -1 → (MatrixOps.getInto m i j value).1 = 0) ∧
    ((MatrixOps.set m i j v).1 = -1 ↔
      (MatrixOps.isValid m = false ∨ MatrixOps.getRow m ≤ i ∨ MatrixOps.getCol m ≤ j)) ∧
    ((MatrixOps.set m i j v).1 ≠ -1 → (MatrixOps.set m i j v).1 = 0) ∧
    ((MatrixOps.set m i j v).1 = -1 → (MatrixOps.set m i j v).2 = m) ∧
    (MatrixOps.isValid m = false ↔
      (m = none ∨ ∃ s, m = some s ∧ (s.row = 0 ∨ s.col = 0 ∨ s.data = none))) ∧
    (∀ x : α, MatrixOps.get m i j = MatrixOps.getInto m i j (some x) ∨
      ((MatrixOps.get m i j).1 = -1 ∧ MatrixOps.getInto m i j (some x) = (-1, some x))) := by
  have hn : value.isNone = true ↔ value = none := by
    cases value <;> simp
  refine ⟨?_, ?_, ?_, ?_, set_failed m i j v, isValid_false_iff m, ?_⟩
  · rw [getInto_status, ← hn]
    by_cases hc : MatrixOps.isValid m = false ∨ MatrixOps.getRow m ≤ i ∨
        MatrixOps.getCol m ≤ j ∨ value.isNone = true
    · simp only [if_pos hc, true_iff]
      exact hc
    · simp only [if_neg hc, hc, iff_false]
      decide
  · rw [getInto_status]
    intro h
    by_cases hc : MatrixOps.isValid m = false ∨ MatrixOps.getRow m ≤ i ∨
        MatrixOps.getCol m ≤ j ∨ value.isNone = true
    · rw [if_pos hc] at h
      exact absurd rfl h
    · rw [if_neg hc]
  · rw [set_status]
    by_cases hc : MatrixOps.isValid m = false ∨ MatrixOps.getRow m ≤ i ∨
        MatrixOps.getCol m ≤ j
    · simp only [if_pos hc, true_iff]
      exact hc
    · simp only [if_neg hc, hc, iff_false]
      decide
  · rw [set_status]
    intro h
    by_cases hc : MatrixOps.isValid m = false ∨ MatrixOps.getRow m ≤ i ∨
        MatrixOps.getCol m ≤ j
    · rw [if_pos hc] at h
      exact absurd rfl h
    · rw [if_neg hc]
  · intro x
    unfold MatrixOps.get MatrixOps.getInto
    by_cases hv : MatrixOps.isValid m = false
    · right
      simp [hv]
    · match m with
      | none => right; simp
      | some s =>
        simp only [hv, if_false]
        by_cases hidx : i ≥ s.row ∨ j ≥ s.col
        · right
          simp [hidx]
        · simp only [hidx, if_false]
          cases hd : s.data with
          | none => right; simp
          | some d => left; rfl

/-- C22: for every valid matrix `m` whose storage holds `rows * cols` cells, every
`i < rows(m)`, `j < cols(m)` and every value `v`, `set(m, i, j, v)` returns 0 and then
`get(m, i, j)` returns 0 and yields exactly `v`. -/
theorem set_get_roundtrip [Zero α] (m : Matrix α) (i j : Nat) (v : α)
    (hv : MatrixOps.isValid m = true) (hr : Rep m) (hi : i < MatrixOps.getRow m)
    (hj : j < MatrixOps.getCol m) :
    (MatrixOps.set m i j v).1 = 0 ∧
    MatrixOps.get (MatrixOps.set m i j v).2 i j = (0, some v) ∧
    (∀ x : α, MatrixOps.getInto (MatrixOps.set m i j v).2 i j (some x) = (0, some v)) := by
  obtain ⟨row, col, cells, rfl, hrow, hcol, hlen, hfit⟩ := valid_cases hv hr
  have hi2 : i < row := hi
  have hj2 : j < col := hj
  have hidx : i * col + j < cells.length := by
    rw [hlen]
    exact index_lt i j row col hi2 hj2
  have hs := set_mk row col cells i j v hi2 hj2
  have hg := get_mk row col (cells.set (i * col + j) v) i j hi2 hj2
  have hrd : rd (cells.set (i * col + j) v) (i * col + j) = v := by
    rw [rd_set, if_pos ⟨rfl, hidx⟩]
  rw [hs]
  refine ⟨rfl, ?_, ?_⟩
  · show MatrixOps.get (mk row col (cells.set (i * col + j) v)) i j = (0, some v)
    rw [hg, hrd]
  · intro x
    have h2 := (get_set_getInto (mk row col (cells.set (i * col + j) v)) i j x)
    rw [hg, hrd] at h2
    exact (h2 rfl).symm

/-- Witness of C22 (the test `test_set_get`): on the matrix that `create(2, 2)` returns,
`set(m, 0, 1, 2.0)` succeeds and `get(m, 0, 1)` then yields 2. -/
theorem set_get_roundtrip_witness :
    (MatrixOps.isValid (MatrixOps.create (fun _ => (0 : ℚ)) 2 2) = true ∧
      Rep (MatrixOps.create (fun _ => (0 : ℚ)) 2 2) ∧
      0 < MatrixOps.getRow (MatrixOps.create (fun _ => (0 : ℚ)) 2 2) ∧
      1 < MatrixOps.getCol (MatrixOps.create (fun _ => (0 : ℚ)) 2 2)) ∧
    (MatrixOps.set (MatrixOps.create (fun _ => (0 : ℚ)) 2 2) 0 1 2).1 = 0 ∧
    MatrixOps.get (MatrixOps.set (MatrixOps.create (fun _ => (0 : ℚ)) 2 2) 0 1 2).2 0 1
      = (0, some 2) :=
  have hrep : Rep (MatrixOps.create (fun _ => (0 : ℚ)) 2 2) := by
    rw [create_eq (fun _ => (0 : ℚ)) 2 2 (by decide) (by decide) (by decide)]
    exact rep_mk 2 2 _ (by simp) (by decide)
  have h := set_get_roundtrip (MatrixOps.create (fun _ => (0 : ℚ)) 2 2) 0 1 2
    (by decide) hrep (by decide) (by decide)
  ⟨⟨by decide, hrep, by decide, by decide⟩, h.1, h.2.1⟩

/-- C23: for every valid `R x C` matrix `M` whose storage holds `R * C` cells,
`transpose(M)` returns a valid `C x R` matrix `T`, whose storage holds `C * R` cells, with
`T[j, i] = M[i, j]` for all `i < R` and `j < C`; the function has no write to `M`. -/
theorem transpose_contract [Zero α] (junk : Nat → α) (M : Matrix α)
    (hv : MatrixOps.isValid M = true) (hr : Rep M) :
    MatrixOps.isValid (MatrixOps.transpose junk M) = true ∧
    MatrixOps.getRow (MatrixOps.transpose junk M) = MatrixOps.getCol M ∧
    MatrixOps.getCol (MatrixOps.transpose junk M) = MatrixOps.getRow M ∧
    Rep (MatrixOps.transpose junk M) ∧
    ∀ i j, i < MatrixOps.getRow M → j < MatrixOps.getCol M →
      entry (MatrixOps.transpose junk M) j i = entry M i j := by
  obtain ⟨row, col, cells, rfl, hrow, hcol, hlen, hfit⟩ := valid_cases hv hr
  rw [transpose_mk junk row col cells hrow hcol hfit]
  refine ⟨isValid_mk _ _ _ hcol hrow, rfl, rfl,
    rep_mk _ _ _ (by simp) (by rw [Nat.mul_comm]; exact hfit), ?_⟩
  intro i j hi hj
  have hi2 : i < row := hi
  have hj2 : j < col := hj
  have hidx : j * row + i < col * row := index_lt j i col row hj2 hi2
  have hdm := div_mod_index j i row hi2
  rw [entry_mk col row _ j i hj2 hi2, entry_mk row col cells i j hi2 hj2, rd_tab,
    if_pos hidx, hdm.1, hdm.2]

/-- Witness of C23 (the test `test_transpose`): the transpose of `[[1,2,3],[4,5,6]]` is a
valid `3 x 2` matrix whose entry `[2, 1]` is 6. -/
theorem transpose_contract_witness :
    (MatrixOps.isValid (mk 2 3 [(1 : ℚ), 2, 3, 4, 5, 6]) = true ∧
      Rep (mk 2 3 [(1 : ℚ), 2, 3, 4, 5, 6])) ∧
    MatrixOps.isValid (MatrixOps.transpose (fun _ => 0) (mk 2 3 [(1 : ℚ), 2, 3, 4, 5, 6]))
      = true ∧
    MatrixOps.getRow (MatrixOps.transpose (fun _ => 0) (mk 2 3 [(1 : ℚ), 2, 3, 4, 5, 6])) = 3 ∧
    MatrixOps.getCol (MatrixOps.transpose (fun _ => 0) (mk 2 3 [(1 : ℚ), 2, 3, 4, 5, 6])) = 2 ∧
    entry (MatrixOps.transpose (fun _ => 0) (mk 2 3 [(1 : ℚ), 2, 3, 4, 5, 6])) 2 1 = 6 := by
  have hv := isValid_mk 2 3 [(1 : ℚ), 2, 3, 4, 5, 6] (by decide) (by decide)
  have hr := rep_mk 2 3 [(1 : ℚ), 2, 3, 4, 5, 6] rfl (by decide)
  have h := transpose_contract (fun _ => (0 : ℚ)) (mk 2 3 [(1 : ℚ), 2, 3, 4, 5, 6]) hv hr
  refine ⟨⟨hv, hr⟩, h.1, h.2.1, h.2.2.1, ?_⟩
  rw [h.2.2.2.2 1 2 (by decide) (by decide),
    entry_mk 2 3 _ 1 2 (by decide) (by decide)]
  simp [rd]

/-- C24: for every valid matrix `M` whose storage holds `rows * cols` cells,
`transpose(transpose(M))` is a valid matrix with the shape of `M` and the value of `M` at
every entry: it has the very rows, columns and cells of `M`. -/
theorem transpose_involution [Zero α] (junk junk2 : Nat → α) (M : Matrix α)
    (hv : MatrixOps.isValid M = true) (hr : Rep M) :
    MatrixOps.isValid (MatrixOps.transpose junk2 (MatrixOps.transpose junk M)) = true ∧
    MatrixOps.getRow (MatrixOps.transpose junk2 (MatrixOps.transpose junk M))
      = MatrixOps.getRow M ∧
    MatrixOps.getCol (MatrixOps.transpose junk2 (MatrixOps.transpose junk M))
      = MatrixOps.getCol M ∧
    (∀ i j, i < MatrixOps.getRow M → j < MatrixOps.getCol M →
      entry (MatrixOps.transpose junk2 (MatrixOps.transpose junk M)) i j = entry M i j) ∧
    MatrixOps.transpose junk2 (MatrixOps.transpose junk M) = M := by
  obtain ⟨row, col, cells, rfl, hrow, hcol, hlen, hfit⟩ := valid_cases hv hr
  rw [transpose_twice_mk junk junk2 row col cells hrow hcol hlen hfit]
  exact ⟨hv, rfl, rfl, fun _ _ _ _ => rfl, rfl⟩

/-- Witness of C24: the double transpose of `[[1,2,3],[4,5,6]]` is that matrix. -/
theorem transpose_involution_witness :
    (MatrixOps.isValid (mk 2 3 [(1 : ℚ), 2, 3, 4, 5, 6]) = true ∧
      Rep (mk 2 3 [(1 : ℚ), 2, 3, 4, 5, 6])) ∧
    MatrixOps.transpose (fun _ => 7) (MatrixOps.transpose (fun _ => 0)
      (mk 2 3 [(1 : ℚ), 2, 3, 4, 5, 6])) = mk 2 3 [(1 : ℚ), 2, 3, 4, 5, 6] :=
  ⟨⟨isValid_mk 2 3 _ (by decide) (by decide), rep_mk 2 3 _ rfl (by decide)⟩,
    (transpose_involution (fun _ => (0 : ℚ)) (fun _ => 7) (mk 2 3 [(1 : ℚ), 2, 3, 4, 5, 6])
      (isValid_mk 2 3 _ (by decide) (by decide)) (rep_mk 2 3 _ rfl (by decide))).2.2.2.2⟩

/-- C28: for every valid matrix `M` whose storage holds `rows * cols` cells, every scalar
`s`, unary function `f`, binary function `g` and value `v`, the in-place operations
`scalarMultiply(M, s)`, `applyToAllUnary(M, f)` and `applyToAllBinary(M, g, v)` return 0, keep
the shape of `M` and replace every entry `x` by `s * x`, `f x` and `g x v` respectively. -/
theorem entrywise_maps [Field α] (M : Matrix α) (s : α) (f : α → α) (g : α → α → α) (v : α)
    (hv : MatrixOps.isValid M = true) (hr : Rep M) :
    ((MatrixOps.scalarMultiply M s).1 = 0 ∧
      MatrixOps.getRow (MatrixOps.scalarMultiply M s).2 = MatrixOps.getRow M ∧
      MatrixOps.getCol (MatrixOps.scalarMultiply M s).2 = MatrixOps.getCol M ∧
      ∀ i j, i < MatrixOps.getRow M → j < MatrixOps.getCol M →
        entry (MatrixOps.scalarMultiply M s).2 i j = s * entry M i j) ∧
    ((MatrixOps.applyToAllUnary M (some f)).1 = 0 ∧
      MatrixOps.getRow (MatrixOps.applyToAllUnary M (some f)).2 = MatrixOps.getRow M ∧
      MatrixOps.getCol (MatrixOps.applyToAllUnary M (some f)).2 = MatrixOps.getCol M ∧
      ∀ i j, i < MatrixOps.getRow M → j < MatrixOps.getCol M →
        entry (MatrixOps.applyToAllUnary M (some f)).2 i j = f (entry M i j)) ∧
    ((MatrixOps.applyToAllBinary M g v).1 = 0 ∧
      MatrixOps.getRow (MatrixOps.applyToAllBinary M g v).2 = MatrixOps.getRow M ∧
      MatrixOps.getCol (MatrixOps.applyToAllBinary M g v).2 = MatrixOps.getCol M ∧
      ∀ i j, i < MatrixOps.getRow M → j < MatrixOps.getCol M →
        entry (MatrixOps.applyToAllBinary M g v).2 i j = g (entry M i j) v) := by
  obtain ⟨row, col, d, rfl, h1, h2, hl, hfit⟩ := valid_cases hv hr
  rw [scalarMultiply_mk row col d s h1 h2 hl hfit, applyToAllUnary_mk row col d f h1 h2 hl hfit,
    applyToAllBinary_mk row col d g v h1 h2 hl hfit]
  refine ⟨⟨rfl, rfl, rfl, ?_⟩, ⟨rfl, rfl, rfl, ?_⟩, ⟨rfl, rfl, rfl, ?_⟩⟩
  · intro i j hi hj
    have hi2 : i < row := hi
    have hj2 : j < col := hj
    show entry (mk row col _) i j = _
    rw [entry_tab row col _ i j hi2 hj2, entry_mk row col d i j hi2 hj2, mul_comm]
  · intro i j hi hj
    have hi2 : i < row := hi
    have hj2 : j < col := hj
    show entry (mk row col _) i j = _
    rw [entry_tab row col _ i j hi2 hj2, entry_mk row col d i j hi2 hj2]
  · intro i j hi hj
    have hi2 : i < row := hi
    have hj2 : j < col := hj
    show entry (mk row col _) i j = _
    rw [entry_tab row col _ i j hi2 hj2, entry_mk row col d i j hi2 hj2]

/-- Witness of C28 (the tests `test_scalar_multiply` and `test_applyToAllBinary`):
`[[1,2],[3,4]]` scaled by 2 has the entry `[1, 1]` equal to 8, and with 1 added to every
entry through `applyToAllBinary` it has the entry `[1, 0]` equal to 4. -/
theorem entrywise_maps_witness :
    (MatrixOps.isValid (mk 2 2 [(1 : ℚ), 2, 3, 4]) = true ∧
      Rep (mk 2 2 [(1 : ℚ), 2, 3, 4])) ∧
    (MatrixOps.scalarMultiply (mk 2 2 [(1 : ℚ), 2, 3, 4]) 2).1 = 0 ∧
    entry (MatrixOps.scalarMultiply (mk 2 2 [(1 : ℚ), 2, 3, 4]) 2).2 1 1 = 8 ∧
    entry (MatrixOps.applyToAllBinary (mk 2 2 [(1 : ℚ), 2, 3, 4]) (fun x y => x + y) 1).2 1 0
      = 4 := by
  have hv := isValid_mk 2 2 [(1 : ℚ), 2, 3, 4] (by decide) (by decide)
  have hr := rep_mk 2 2 [(1 : ℚ), 2, 3, 4] rfl (by decide)
  have h := entrywise_maps (mk 2 2 [(1 : ℚ), 2, 3, 4]) 2 (fun x => |x|) (fun x y => x + y) 1
    hv hr
  refine ⟨⟨hv, hr⟩, h.1.1, ?_, ?_⟩
  · rw [h.1.2.2.2 1 1 (by decide) (by decide), entry_mk 2 2 _ 1 1 (by decide) (by decide)]
    simp [rd]
    norm_num
  · rw [h.2.2.2.2.2 1 0 (by decide) (by decide), entry_mk 2 2 _ 1 0 (by decide) (by decide)]
    simp [rd]
    norm_num

/-- C30: for all valid matrices `A` and `B` whose shapes differ, in rows or in columns, each
of `add(A, B)`, `subtract(A, B)`, `elementWise(A, B, f)` and `assignValues(A, B)` returns -1
and leaves `A`, its shape and every cell, as it was; none of them has a write to `B`. -/
theorem shape_mismatch_atomic [Zero α] [Add α] [Sub α] (A B : Matrix α) (f : α → α → α)
    (hvA : MatrixOps.isValid A = true) (hvB : MatrixOps.isValid B = true)
    (hne : MatrixOps.getRow A ≠ MatrixOps.getRow B ∨
      MatrixOps.getCol A ≠ MatrixOps.getCol B) :
    MatrixOps.add A B = (-1, A) ∧ MatrixOps.subtract A B = (-1, A) ∧
    MatrixOps.elementWise A B f = (-1, A) ∧ MatrixOps.assignValues A B = (-1, A) :=
  ⟨add_mismatch A B hvA hvB hne, subtract_mismatch A B hvA hvB hne,
    elementWise_mismatch A B f hvA hvB hne, assignValues_mismatch A B hvA hvB hne⟩

/-- Witness of C30: a `2 x 2` receiver and a `2 x 3` operand. -/
theorem shape_mismatch_atomic_witness :
    (MatrixOps.isValid (mk 2 2 [(1 : ℚ), 2, 3, 4]) = true ∧
      MatrixOps.isValid (mk 2 3 [(1 : ℚ), 1, 1, 1, 1, 1]) = true ∧
      (MatrixOps.getRow (mk 2 2 [(1 : ℚ), 2, 3, 4])
          ≠ MatrixOps.getRow (mk 2 3 [(1 : ℚ), 1, 1, 1, 1, 1]) ∨
        MatrixOps.getCol (mk 2 2 [(1 : ℚ), 2, 3, 4])
          ≠ MatrixOps.getCol (mk 2 3 [(1 : ℚ), 1, 1, 1, 1, 1]))) ∧
    MatrixOps.add (mk 2 2 [(1 : ℚ), 2, 3, 4]) (mk 2 3 [1, 1, 1, 1, 1, 1])
      = (-1, mk 2 2 [(1 : ℚ), 2, 3, 4]) ∧
    MatrixOps.assignValues (mk 2 2 [(1 : ℚ), 2, 3, 4]) (mk 2 3 [1, 1, 1, 1, 1, 1])
      = (-1, mk 2 2 [(1 : ℚ), 2, 3, 4]) := by
  have hv1 := isValid_mk 2 2 [(1 : ℚ), 2, 3, 4] (by decide) (by decide)
  have hv2 := isValid_mk 2 3 [(1 : ℚ), 1, 1, 1, 1, 1] (by decide) (by decide)
  have hne : MatrixOps.getRow (mk 2 2 [(1 : ℚ), 2, 3, 4])
        ≠ MatrixOps.getRow (mk 2 3 [(1 : ℚ), 1, 1, 1, 1, 1]) ∨
      MatrixOps.getCol (mk 2 2 [(1 : ℚ), 2, 3, 4])
        ≠ MatrixOps.getCol (mk 2 3 [(1 : ℚ), 1, 1, 1, 1, 1]) := Or.inr (by decide)
  have h := shape_mismatch_atomic (mk 2 2 [(1 : ℚ), 2, 3, 4]) (mk 2 3 [1, 1, 1, 1, 1, 1])
    (fun x y => x + y) hv1 hv2 hne
  exact ⟨⟨hv1, hv2, hne⟩, h.1, h.2.2.2⟩

/-- C38: for every valid matrix `m` whose storage holds `rows * cols` cells, in-range
`(i, j)` and value `v`, `set(m, i, j, v)` returns 0, leaves `rows(m)` and `cols(m)` as they
were, and leaves the result of `get(m, i2, j2)` as it was for every in-range `(i2, j2)` other
than `(i, j)`: the two offsets `i * cols + j` and `i2 * cols + j2` differ. -/
theorem set_touches_one_entry [Zero α] (m : Matrix α) (i j i2 j2 : Nat) (v : α)
    (hv : MatrixOps.isValid m = true) (hr : Rep m) (hi : i < MatrixOps.getRow m)
    (hj : j < MatrixOps.getCol m) (hi2 : i2 < MatrixOps.getRow m)
    (hj2 : j2 < MatrixOps.getCol m) (hne : i2 ≠ i ∨ j2 ≠ j) :
    (MatrixOps.set m i j v).1 = 0 ∧
    MatrixOps.getRow (MatrixOps.set m i j v).2 = MatrixOps.getRow m ∧
    MatrixOps.getCol (MatrixOps.set m i j v).2 = MatrixOps.getCol m ∧
    MatrixOps.get (MatrixOps.set m i j v).2 i2 j2 = MatrixOps.get m i2 j2 ∧
    i * MatrixOps.getCol m + j ≠ i2 * MatrixOps.getCol m + j2 := by
  obtain ⟨row, col, cells, rfl, hrow, hcol, hlen, hfit⟩ := valid_cases hv hr
  have hi' : i < row := hi
  have hj' : j < col := hj
  have hi2' : i2 < row := hi2
  have hj2' : j2 < col := hj2
  have hidx := index_ne i j i2 j2 col hj' hj2' hne
  rw [set_mk row col cells i j v hi' hj']
  refine ⟨rfl, rfl, rfl, ?_, hidx⟩
  show MatrixOps.get (mk row col (cells.set (i * col + j) v)) i2 j2 = _
  rw [get_mk row col _ i2 j2 hi2' hj2', get_mk row col cells i2 j2 hi2' hj2', rd_set,
    if_neg (fun q => hidx q.1)]

/-- Witness of C38: on `[[1,2],[3,4]]`, `set(m, 0, 1, 9)` leaves `get(m, 1, 0)` at 3. -/
theorem set_touches_one_entry_witness :
    (MatrixOps.isValid (mk 2 2 [(1 : ℚ), 2, 3, 4]) = true ∧
      Rep (mk 2 2 [(1 : ℚ), 2, 3, 4])) ∧
    MatrixOps.get (MatrixOps.set (mk 2 2 [(1 : ℚ), 2, 3, 4]) 0 1 9).2 1 0 = (0, some 3) := by
  have hv := isValid_mk 2 2 [(1 : ℚ), 2, 3, 4] (by decide) (by decide)
  have hr := rep_mk 2 2 [(1 : ℚ), 2, 3, 4] rfl (by decide)
  have h := set_touches_one_entry (mk 2 2 [(1 : ℚ), 2, 3, 4]) 0 1 1 0 9 hv hr (by decide)
    (by decide) (by decide) (by decide) (Or.inl (by decide))
  refine ⟨⟨hv, hr⟩, ?_⟩
  rw [h.2.2.2.1, get_mk 2 2 _ 1 0 (by decide) (by decide)]
  simp [rd]

/-- C37 fails: for every valid layer, every valid gradient `G` whose storage holds
`rows * cols` cells and every learning rate, whatever the unassigned local `deltaWeights`
holds and whether the call succeeds or not, the matrix `G` of the caller after
`updateWeights` is `G` scaled in place: it keeps its shape and its entry `[i, j]` is
`G[i, j] * learningRate`. -/
theorem updateWeights_scales_gradient [Field α] (deltaWeights : Matrix α) (layer : Layer α)
    (G : Matrix α) (lr : α) (hvL : LayerOps.isValid layer = true)
    (hvG : MatrixOps.isValid G = true) (hrG : Rep G) :
    MatrixOps.getRow (LayerOps.updateWeights deltaWeights layer G lr).2.2
      = MatrixOps.getRow G ∧
    MatrixOps.getCol (LayerOps.updateWeights deltaWeights layer G lr).2.2
      = MatrixOps.getCol G ∧
    ∀ i j, i < MatrixOps.getRow G → j < MatrixOps.getCol G →
      entry (LayerOps.updateWeights deltaWeights layer G lr).2.2 i j = entry G i j * lr := by
  rw [updateWeights_gradient deltaWeights layer G lr hvL hvG]
  obtain ⟨row, col, d, rfl, h1, h2, hl, hfit⟩ := valid_cases hvG hrG
  rw [scalarMultiply_mk row col d lr h1 h2 hl hfit]
  refine ⟨rfl, rfl, ?_⟩
  intro i j hi hj
  have hi2 : i < row := hi
  have hj2 : j < col := hj
  show entry (mk row col _) i j = _
  rw [entry_tab row col _ i j hi2 hj2, entry_mk row col d i j hi2 hj2]

/-- Witness of C37: the layer with the single weight 2, the gradient `[[6]]` and the
learning rate `1 / 100`: after the call the caller's gradient holds `6 / 100`, not 6. -/
theorem updateWeights_scales_gradient_witness :
    (LayerOps.isValid (layer1 (2 : ℚ) NeuralNetworkOps.identity
        NeuralNetworkOps.identityDerivative) = true ∧
      MatrixOps.isValid (mk 1 1 [(6 : ℚ)]) = true ∧ Rep (mk 1 1 [(6 : ℚ)])) ∧
    entry (LayerOps.updateWeights none (layer1 (2 : ℚ) NeuralNetworkOps.identity
      NeuralNetworkOps.identityDerivative) (mk 1 1 [6]) (1 / 100)).2.2 0 0 = 6 / 100 ∧
    entry (mk 1 1 [(6 : ℚ)]) 0 0 = 6 := by
  have hvL : LayerOps.isValid (layer1 (2 : ℚ) NeuralNetworkOps.identity
      NeuralNetworkOps.identityDerivative) = true :=
    layer_isValid_mk 1 1 _ _ [2] (by decide) (by decide)
  have hvG := isValid_mk 1 1 [(6 : ℚ)] (by decide) (by decide)
  have hrG := rep_mk 1 1 [(6 : ℚ)] rfl (by decide)
  have h := updateWeights_scales_gradient none (layer1 (2 : ℚ) NeuralNetworkOps.identity
    NeuralNetworkOps.identityDerivative) (mk 1 1 [6]) (1 / 100) hvL hvG hrG
  have he : entry (mk 1 1 [(6 : ℚ)]) 0 0 = 6 := by
    rw [entry_mk 1 1 _ 0 0 (by decide) (by decide)]
    simp [rd]
  refine ⟨⟨hvL, hvG, hrG⟩, ?_, he⟩
  rw [h.2.2 0 0 (by decide) (by decide), he]
  norm_num

/-- C32: for every matrix `M` whose storage holds `rows * cols` cells,
`copySubMatrix(M, rowStart, rowEnd, colStart, colEnd)` returns a matrix exactly when `M` is
valid, `rowStart <= rowEnd < rows(M)` and `colStart <= colEnd < cols(M)`; the result is then
valid, of shape `(rowEnd - rowStart + 1, colEnd - colStart + 1)`, with entry `[i, j]` equal
to `M[rowStart + i, colStart + j]`; and `copySubMatrix(M, 0, rows(M) - 1, 0, cols(M) - 1)`
is the matrix that `copy(M)` returns.  The function has no write to `M`. -/
theorem copySubMatrix_contract [Zero α] (junk junk2 : Nat → α) (M : Matrix α)
    (rs re cs ce : Nat) (hr : Rep M) :
    ((MatrixOps.copySubMatrix junk M rs re cs ce).isSome = true ↔
      (MatrixOps.isValid M = true ∧ rs ≤ re ∧ re < MatrixOps.getRow M ∧ cs ≤ ce ∧
        ce < MatrixOps.getCol M)) ∧
    (MatrixOps.isValid M = true → rs ≤ re → re < MatrixOps.getRow M → cs ≤ ce →
      ce < MatrixOps.getCol M →
        MatrixOps.isValid (MatrixOps.copySubMatrix junk M rs re cs ce) = true ∧
        MatrixOps.getRow (MatrixOps.copySubMatrix junk M rs re cs ce) = re - rs + 1 ∧
        MatrixOps.getCol (MatrixOps.copySubMatrix junk M rs re cs ce) = ce - cs + 1 ∧
        ∀ i j, i < re - rs + 1 → j < ce - cs + 1 →
          entry (MatrixOps.copySubMatrix junk M rs re cs ce) i j
            = entry M (rs + i) (cs + j)) ∧
    (MatrixOps.isValid M = true →
      MatrixOps.copySubMatrix junk M 0 (MatrixOps.getRow M - 1) 0 (MatrixOps.getCol M - 1)
        = MatrixOps.copy junk2 M) := by
  by_cases hv : MatrixOps.isValid M = true
  · obtain ⟨row, col, d, rfl, hrow, hcol, hl, hfit⟩ := valid_cases hv hr
    refine ⟨?_, ?_, ?_⟩
    · by_cases hc : rs ≤ re ∧ re < row ∧ cs ≤ ce ∧ ce < col
      · rw [copySubMatrix_mk junk row col d rs re cs ce hc.1 hc.2.1 hc.2.2.1 hc.2.2.2 hfit]
        exact ⟨fun _ => ⟨hv, hc⟩, fun _ => rfl⟩
      · rw [copySubMatrix_bad junk row col d rs re cs ce hc]
        exact ⟨fun h => (by cases h), fun h => absurd h.2 hc⟩
    · intro _ h1 h2 h3 h4
      have h2' : re < row := h2
      have h4' : ce < col := h4
      rw [copySubMatrix_mk junk row col d rs re cs ce h1 h2' h3 h4' hfit]
      refine ⟨isValid_mk _ _ _ (by omega) (by omega), rfl, rfl, ?_⟩
      intro i j hi hj
      have hdm := div_mod_index i j (ce - cs + 1) hj
      rw [entry_tab _ _ _ i j hi hj, hdm.1, hdm.2,
        entry_mk row col d (rs + i) (cs + j) (by omega) (by omega), Nat.add_assoc]
    · intro _
      have e1 : MatrixOps.getRow (mk row col d) - 1 = row - 1 := rfl
      have e2 : MatrixOps.getCol (mk row col d) - 1 = col - 1 := rfl
      rw [e1, e2, copySubMatrix_mk junk row col d 0 (row - 1) 0 (col - 1) (by omega)
        (by omega) (by omega) (by omega) hfit, copy_mk junk2 row col d hrow hcol hl hfit]
      have r1 : row - 1 - 0 + 1 = row := by omega
      have r2 : col - 1 - 0 + 1 = col := by omega
      rw [r1, r2]
      congr 1
      apply ext_rd
      · simp [hl]
      · intro k hk
        have hk2 : k < row * col := by simpa using hk
        have hsplit : k / col * col + k % col = k := by
          rw [Nat.mul_comm]
          exact Nat.div_add_mod k col
        rw [rd_tab, if_pos hk2, Nat.zero_add, Nat.add_zero, hsplit]
  · have hn : MatrixOps.copySubMatrix junk M rs re cs ce = none := by
      unfold MatrixOps.copySubMatrix
      simp [hv]
    rw [hn]
    refine ⟨⟨fun h => (by cases h), fun h => absurd h.1 hv⟩, fun h => absurd h hv,
      fun h => absurd h hv⟩

/-- Witness of C32: the sub-matrix of `[[1,2,3],[4,5,6]]` with rows 0..1 and columns 1..2 is
a `2 x 2` matrix whose entry `[1, 1]` is 6. -/
theorem copySubMatrix_contract_witness :
    Rep exA ∧
    (MatrixOps.copySubMatrix (fun _ => 0) exA 0 1 1 2).isSome = true ∧
    MatrixOps.getRow (MatrixOps.copySubMatrix (fun _ => 0) exA 0 1 1 2) = 2 ∧
    MatrixOps.getCol (MatrixOps.copySubMatrix (fun _ => 0) exA 0 1 1 2) = 2 ∧
    entry (MatrixOps.copySubMatrix (fun _ => 0) exA 0 1 1 2) 1 1 = 6 := by
  have hvA : MatrixOps.isValid exA = true := isValid_mk _ _ _ (by decide) (by decide)
  have hrA : Rep exA := rep_mk _ _ _ rfl (by decide)
  have h := copySubMatrix_contract (fun _ => (0 : ℚ)) (fun _ => 0) exA 0 1 1 2 hrA
  have hc := h.2.1 hvA (by decide) (by decide) (by decide) (by decide)
  refine ⟨hrA, h.1.2 ⟨hvA, by decide, by decide, by decide, by decide⟩, hc.2.1, hc.2.2.1, ?_⟩
  rw [hc.2.2.2 1 1 (by decide) (by decide)]
  show entry (mk 2 3 [1, 2, 3, 4, 5, 6]) 1 2 = 6
  rw [entry_mk 2 3 _ 1 2 (by decide) (by decide)]
  simp [rd]

/-- C33: for valid matrices `A` and `B` whose storage holds `rows * cols` cells of 8 bytes
inside the address space (`rows * cols * 8 < 2 ^ 64`): `appendRow(A, B)` returns a matrix
exactly when `cols(A) = cols(B)`, and it is then a valid `(rows(A) + rows(B)) x cols(A)`
matrix whose rows `0 .. rows(A) - 1` are the rows of `A` and whose row `rows(A) + i` is row
`i` of `B`; `appendCol(A, B)` returns a matrix exactly when `rows(A) = rows(B)`, and it is
then a valid `rows(A) x (cols(A) + cols(B))` matrix whose row `i` is row `i` of `A` followed
by row `i` of `B`.  Neither function has a write to `A` or `B`. -/
theorem append_contract [Zero α] (junk : Nat → α) (A B : Matrix α)
    (hvA : MatrixOps.isValid A = true) (hrA : Rep A)
    (hvB : MatrixOps.isValid B = true) (hrB : Rep B)
    (hA8 : MatrixOps.getRow A * MatrixOps.getCol A * 8 < SIZE_MOD)
    (hB8 : MatrixOps.getRow B * MatrixOps.getCol B * 8 < SIZE_MOD) :
    ((MatrixOps.appendRow junk A B).isSome = true ↔ MatrixOps.getCol A = MatrixOps.getCol B) ∧
    (MatrixOps.getCol A = MatrixOps.getCol B →
      MatrixOps.isValid (MatrixOps.appendRow junk A B) = true ∧
      MatrixOps.getRow (MatrixOps.appendRow junk A B)
        = MatrixOps.getRow A + MatrixOps.getRow B ∧
      MatrixOps.getCol (MatrixOps.appendRow junk A B) = MatrixOps.getCol A ∧
      (∀ i j, i < MatrixOps.getRow A → j < MatrixOps.getCol A →
        entry (MatrixOps.appendRow junk A B) i j = entry A i j) ∧
      (∀ i j, i < MatrixOps.getRow B → j < MatrixOps.getCol A →
        entry (MatrixOps.appendRow junk A B) (MatrixOps.getRow A + i) j = entry B i j)) ∧
    ((MatrixOps.appendCol junk A B).isSome = true ↔ MatrixOps.getRow A = MatrixOps.getRow B) ∧
    (MatrixOps.getRow A = MatrixOps.getRow B →
      MatrixOps.isValid (MatrixOps.appendCol junk A B) = true ∧
      MatrixOps.getRow (MatrixOps.appendCol junk A B) = MatrixOps.getRow A ∧
      MatrixOps.getCol (MatrixOps.appendCol junk A B)
        = MatrixOps.getCol A + MatrixOps.getCol B ∧
      (∀ i j, i < MatrixOps.getRow A → j < MatrixOps.getCol A →
        entry (MatrixOps.appendCol junk A B) i j = entry A i j) ∧
      (∀ i j, i < MatrixOps.getRow A → j < MatrixOps.getCol B →
        entry (MatrixOps.appendCol junk A B) i (MatrixOps.getCol A + j) = entry B i j)) := by
  obtain ⟨r1, c1, d1, rfl, hr1, hc1, hl1, -⟩ := valid_cases hvA hrA
  obtain ⟨r2, c2, d2, rfl, hr2, hc2, hl2, -⟩ := valid_cases hvB hrB
  have hS : SIZE_MOD = 18446744073709551616 := by decide
  have a8 : r1 * c1 * 8 < SIZE_MOD := hA8
  have b8 : r2 * c2 * 8 < SIZE_MOD := hB8
  have rowPart : ∀ (e : c1 = c2),
      MatrixOps.appendRow junk (mk r1 c1 d1) (mk r2 c2 d2) = mk (r1 + r2) c1 (d1 ++ d2) := by
    intro e
    subst e
    have hsum : (r1 + r2) * c1 = r1 * c1 + r2 * c1 := by ring
    exact appendRow_mk junk r1 r2 c1 d1 d2 hr1 hr2 hc1 hl1 hl2 (by omega)
  have colPart : ∀ (e : r1 = r2),
      MatrixOps.appendCol junk (mk r1 c1 d1) (mk r2 c2 d2)
        = mk r1 (c1 + c2) ((List.range (r1 * (c1 + c2))).map (fun k =>
            if k % (c1 + c2) < c1 then rd d1 (k / (c1 + c2) * c1 + k % (c1 + c2))
            else rd d2 (k / (c1 + c2) * c2 + (k % (c1 + c2) - c1)))) := by
    intro e
    subst e
    have hsum : r1 * (c1 + c2) = r1 * c1 + r1 * c2 := by ring
    exact appendCol_mk junk r1 c1 c2 d1 d2 hr1 hc1 hc2 (by omega)
  refine ⟨?_, ?_, ?_, ?_⟩
  · by_cases e : c1 = c2
    · rw [rowPart e]
      exact ⟨fun _ => e, fun _ => rfl⟩
    · rw [appendRow_mismatch junk r1 r2 c1 c2 d1 d2 e]
      exact ⟨fun h => (by cases h), fun h => absurd h e⟩
  · intro e
    have e' : c1 = c2 := e
    rw [rowPart e']
    refine ⟨isValid_mk _ _ _ (by omega) hc1, rfl, rfl, ?_, ?_⟩
    · intro i j hi hj
      have hi2 : i < r1 := hi
      have hj2 : j < c1 := hj
      have hidx := index_lt i j r1 c1 hi2 hj2
      rw [entry_mk (r1 + r2) c1 _ i j (by omega) hj2, entry_mk r1 c1 d1 i j hi2 hj2,
        rd_append, if_pos (by omega)]
    · intro i j hi hj
      have hi2 : i < r2 := hi
      have hj2 : j < c1 := hj
      have hexp : (r1 + i) * c1 + j = r1 * c1 + (i * c1 + j) := by ring
      show entry (mk (r1 + r2) c1 (d1 ++ d2)) (r1 + i) j = _
      rw [entry_mk (r1 + r2) c1 _ (r1 + i) j (by omega) hj2,
        entry_mk r2 c2 d2 i j hi2 (by omega), rd_append, if_neg (by omega), hl1, hexp,
        Nat.add_sub_cancel_left, e']
  · by_cases e : r1 = r2
    · rw [colPart e]
      exact ⟨fun _ => e, fun _ => rfl⟩
    · rw [appendCol_mismatch junk r1 r2 c1 c2 d1 d2 e]
      exact ⟨fun h => (by cases h), fun h => absurd h e⟩
  · intro e
    have e' : r1 = r2 := e
    rw [colPart e']
    refine ⟨isValid_mk _ _ _ hr1 (by omega), rfl, rfl, ?_, ?_⟩
    · intro i j hi hj
      have hi2 : i < r1 := hi
      have hj2 : j < c1 := hj
      have hdm := div_mod_index i j (c1 + c2) (by omega)
      rw [entry_tab r1 (c1 + c2) _ i j hi2 (by omega), hdm.1, hdm.2, if_pos hj2,
        entry_mk r1 c1 d1 i j hi2 hj2]
    · intro i j hi hj
      have hi2 : i < r1 := hi
      have hj2 : j < c2 := hj
      have hdm := div_mod_index i (c1 + j) (c1 + c2) (by omega)
      show entry (mk r1 (c1 + c2) _) i (c1 + j) = _
      rw [entry_tab r1 (c1 + c2) _ i (c1 + j) hi2 (by omega), hdm.1, hdm.2,
        if_neg (by omega), Nat.add_sub_cancel_left,
        entry_mk r2 c2 d2 i j (by omega) hj2]

/-- Witness of C33: `[[1,2,3],[4,5,6]]` with itself appended below is a `4 x 3` matrix whose
entry `[3, 2]` is 6, and with itself appended to the right a `2 x 6` matrix whose entry
`[1, 5]` is 6. -/
theorem append_contract_witness :
    (MatrixOps.isValid exA = true ∧ Rep exA ∧
      MatrixOps.getRow exA * MatrixOps.getCol exA * 8 < SIZE_MOD) ∧
    (MatrixOps.appendRow (fun _ => 0) exA exA).isSome = true ∧
    MatrixOps.getRow (MatrixOps.appendRow (fun _ => 0) exA exA) = 4 ∧
    entry (MatrixOps.appendRow (fun _ => 0) exA exA) 3 2 = 6 ∧
    MatrixOps.getCol (MatrixOps.appendCol (fun _ => 0) exA exA) = 6 ∧
    entry (MatrixOps.appendCol (fun _ => 0) exA exA) 1 5 = 6 := by
  have hvA : MatrixOps.isValid exA = true := isValid_mk _ _ _ (by decide) (by decide)
  have hrA : Rep exA := rep_mk _ _ _ rfl (by decide)
  have h8 : MatrixOps.getRow exA * MatrixOps.getCol exA * 8 < SIZE_MOD := by decide
  have h := append_contract (fun _ => (0 : ℚ)) exA exA hvA hrA hvA hrA h8 h8
  have he : entry exA 1 2 = 6 := by
    show entry (mk 2 3 [1, 2, 3, 4, 5, 6]) 1 2 = 6
    rw [entry_mk 2 3 _ 1 2 (by decide) (by decide)]
    simp [rd]
  have hrow := h.2.1 rfl
  have hcol := h.2.2.2 rfl
  refine ⟨⟨hvA, hrA, h8⟩, h.1.2 rfl, hrow.2.1, ?_, hcol.2.2.1, ?_⟩
  · have := hrow.2.2.2.2 1 2 (by decide) (by decide)
    rw [he] at this
    exact this
  · have := hcol.2.2.2.2 1 2 (by decide) (by decide)
    rw [he] at this
    exact this

/-- C31 fails for an absent function: for all arguments, each of the out-of-place `add`,
`subtract`, `elementWise`, `scalarMultiply`, `applyToAllBinary` and `applyToAllUnary` with a
function that is present returns a matrix exactly when `copy` does and the in-place form on
that copy returns 0, and the matrix is then the receiver the in-place form leaves; but with
a null function the out-of-place `applyToAllUnary` returns the copy of a matrix that can be
copied, where the in-place form on the copy returns -1. -/
theorem outOfPlace_agreement [Field α] (junk : Nat → α) (A B : Matrix α) (s v : α)
    (f : α → α) (g : α → α → α) :
    (((MatrixOps.addOutOfPlace junk A B).isSome = true ↔
        ((MatrixOps.copy junk A).isSome = true ∧ (MatrixOps.add (MatrixOps.copy junk A) B).1 = 0)) ∧
      ((MatrixOps.addOutOfPlace junk A B).isSome = true →
        MatrixOps.addOutOfPlace junk A B = (MatrixOps.add (MatrixOps.copy junk A) B).2)) ∧
    (((MatrixOps.subtractOutOfPlace junk A B).isSome = true ↔
        ((MatrixOps.copy junk A).isSome = true ∧ (MatrixOps.subtract (MatrixOps.copy junk A) B).1 = 0)) ∧
      ((MatrixOps.subtractOutOfPlace junk A B).isSome = true →
        MatrixOps.subtractOutOfPlace junk A B = (MatrixOps.subtract (MatrixOps.copy junk A) B).2)) ∧
    (((MatrixOps.elementWiseOutOfPlace junk A B g).isSome = true ↔
        ((MatrixOps.copy junk A).isSome = true ∧ (MatrixOps.elementWise (MatrixOps.copy junk A) B g).1 = 0)) ∧
      ((MatrixOps.elementWiseOutOfPlace junk A B g).isSome = true →
        MatrixOps.elementWiseOutOfPlace junk A B g = (MatrixOps.elementWise (MatrixOps.copy junk A) B g).2)) ∧
    (((MatrixOps.scalarMultiplyOutOfPlace junk A s).isSome = true ↔
        ((MatrixOps.copy junk A).isSome = true ∧ (MatrixOps.scalarMultiply (MatrixOps.copy junk A) s).1 = 0)) ∧
      ((MatrixOps.scalarMultiplyOutOfPlace junk A s).isSome = true →
        MatrixOps.scalarMultiplyOutOfPlace junk A s = (MatrixOps.scalarMultiply (MatrixOps.copy junk A) s).2)) ∧
    (((MatrixOps.applyToAllUnaryOutOfPlace junk A (some f)).isSome = true ↔
        ((MatrixOps.copy junk A).isSome = true ∧ (MatrixOps.applyToAllUnary (MatrixOps.copy junk A) (some f)).1 = 0)) ∧
      ((MatrixOps.applyToAllUnaryOutOfPlace junk A (some f)).isSome = true →
        MatrixOps.applyToAllUnaryOutOfPlace junk A (some f) = (MatrixOps.applyToAllUnary (MatrixOps.copy junk A) (some f)).2)) ∧
    (((MatrixOps.applyToAllBinaryOutOfPlace junk A g v).isSome = true ↔
        ((MatrixOps.copy junk A).isSome = true ∧ (MatrixOps.applyToAllBinary (MatrixOps.copy junk A) g v).1 = 0)) ∧
      ((MatrixOps.applyToAllBinaryOutOfPlace junk A g v).isSome = true →
        MatrixOps.applyToAllBinaryOutOfPlace junk A g v = (MatrixOps.applyToAllBinary (MatrixOps.copy junk A) g v).2)) ∧
    ((MatrixOps.copy junk A).isSome = true →
      (MatrixOps.applyToAllUnaryOutOfPlace junk A none).isSome = true ∧
      MatrixOps.applyToAllUnaryOutOfPlace junk A none = MatrixOps.copy junk A ∧
      (MatrixOps.applyToAllUnary (MatrixOps.copy junk A) none).1 = -1) := by
  refine ⟨?_, ?_, ?_, ?_, ?_, ?_, ?_⟩
  · exact agree_binary junk A B _ (fun m => MatrixOps.add m B) rfl
      (fun a b hb ha hb2 hr hc => by subst hb; exact add_ok a b ha hb2 hr hc)
      (fun m h => add_bad m B h)
  · exact agree_binary junk A B _ (fun m => MatrixOps.subtract m B) rfl
      (fun a b hb ha hb2 hr hc => by subst hb; exact subtract_ok a b ha hb2 hr hc)
      (fun m h => subtract_bad m B h)
  · exact agree_binary junk A B _ (fun m => MatrixOps.elementWise m B g) rfl
      (fun a b hb ha hb2 hr hc => by subst hb; exact elementWise_ok a b g ha hb2 hr hc)
      (fun m h => elementWise_bad m B g h)
  · exact agree_unary junk A _ (fun m => MatrixOps.scalarMultiply m s) rfl
      (fun m h => scalarMultiply_ok m s h)
  · exact agree_unary junk A _ (fun m => MatrixOps.applyToAllUnary m (some f)) rfl
      (fun m h => applyToAllUnary_ok m f h)
  · exact agree_unary junk A _ (fun m => MatrixOps.applyToAllBinary m g v) rfl
      (fun m h => applyToAllBinary_ok m g v h)
  · intro hc
    obtain ⟨c, hc2⟩ := Option.isSome_iff_exists.mp hc
    have hvA : MatrixOps.isValid A = true := by
      cases e : MatrixOps.isValid A with
      | true => rfl
      | false =>
        rw [copy_invalid junk A e] at hc2
        cases hc2
    have hout : MatrixOps.applyToAllUnaryOutOfPlace junk A none = MatrixOps.copy junk A := by
      unfold MatrixOps.applyToAllUnaryOutOfPlace
      simp only [hvA, Bool.not_true, Bool.false_eq_true, if_false, hc2,
        applyToAllUnary_absent]
    refine ⟨by rw [hout]; exact hc, hout, ?_⟩
    rw [applyToAllUnary_absent]

/-- Witness of C31: `applyToAllUnaryOutOfPlace([[1,2,3],[4,5,6]], NULL)` returns the copy
`[[1,2,3],[4,5,6]]`, and `applyToAllUnary(copy, NULL)` returns -1. -/
theorem outOfPlace_agreement_witness :
    MatrixOps.applyToAllUnaryOutOfPlace (fun _ => 0) exA none = exA ∧
    (MatrixOps.applyToAllUnary (MatrixOps.copy (fun _ => 0) exA) none).1 = -1 := by
  have hcp : MatrixOps.copy (fun _ => (0 : ℚ)) exA = exA :=
    copy_mk _ 2 3 _ (by decide) (by decide) rfl (by decide)
  have h := (outOfPlace_agreement (fun _ => (0 : ℚ)) exA exA 0 0 (fun x => x)
    (fun x _ => x)).2.2.2.2.2.2 (by rw [hcp]; rfl)
  exact ⟨h.2.1.trans hcp, h.2.2⟩

/-- C35 fails: in the body of the backward sweep for a layer `i` with one input, one output,
the weight `w` and the analytic derivative `d`, whose input is `[[x]]` and whose forward
output is `outputs[i] = [[y]]`, the activation-derivative matrix is
`calculateActivationDeriv(layer, outputs[i]) = [[d(w * y)]]` and not the matrix
`[[d(w * x)]]` at the layer input; `localDeriv` is the ordinary product `[[e * d(w * y)]]`
of the running error derivative `[[e]]` with it, so that the gradient written is
`[[e * d(w * y) * x]]`; the two matrices differ whenever `d(w * y)` and `d(w * x)` do. -/
theorem backward_sweep_derivative_point [Field α] (activationFunction : α → α)
    (junk : Nat → α) (layers : List (Layer α)) (datapoint_buf : Datapoint α)
    (outputs gradients : List (Matrix α)) (i : Nat) (w x y e : α) (f dfn : FnPtr α)
    (hlayer : layers.getD i none = layer1 w f dfn)
    (hout : outputs.getD i none = mk 1 1 [y])
    (hinp : (if i = 0 then DatapointOps.getInput datapoint_buf
      else outputs.getD (i - 1) none) = mk 1 1 [x])
    (hgrad : gradients.getD i none = none) :
    LayerOps.calculateActivationDeriv activationFunction junk (layers.getD i none)
        (outputs.getD i none) = mk 1 1 [dfn.call (w * y)] ∧
    LayerOps.calculateActivationDeriv activationFunction junk (layers.getD i none)
        (if i = 0 then DatapointOps.getInput datapoint_buf else outputs.getD (i - 1) none)
      = mk 1 1 [dfn.call (w * x)] ∧
    MatrixOps.multiply junk (mk 1 1 [e])
        (LayerOps.calculateActivationDeriv activationFunction junk (layers.getD i none)
          (outputs.getD i none)) = mk 1 1 [e * dfn.call (w * y)] ∧
    NeuralNetworkOps.backwardLayer activationFunction junk layers datapoint_buf outputs i
        (mk 1 1 [e], gradients)
      = some (mk 1 1 [e * (w * dfn.call (w * x))],
          gradients.set i (mk 1 1 [e * dfn.call (w * y) * x])) ∧
    (dfn.call (w * y) ≠ dfn.call (w * x) →
      LayerOps.calculateActivationDeriv activationFunction junk (layers.getD i none)
          (outputs.getD i none)
        ≠ LayerOps.calculateActivationDeriv activationFunction junk (layers.getD i none)
          (if i = 0 then DatapointOps.getInput datapoint_buf
            else outputs.getD (i - 1) none)) := by
  have h1 := layer1_activationDeriv activationFunction junk w y f dfn
  have h2 := layer1_activationDeriv activationFunction junk w x f dfn
  have h3 := backwardLayer_one activationFunction junk layers datapoint_buf outputs gradients
    i w x y e f dfn hlayer hout hinp hgrad
  rw [hlayer, hout, hinp, h1, h2, multiply_one junk e (dfn.call (w * y))]
  refine ⟨rfl, rfl, rfl, h3, ?_⟩
  intro hne heq
  apply hne
  simp only [mk, Option.some.injEq, MatrixStruct.mk.injEq, List.cons.injEq, and_true,
    true_and] at heq
  exact heq

/-- Witness of C35: the layer with weight 2, activation `z * z / 2` and derivative `z`, on
the input `[[3]]` with the forward output `[[18]]` and the running error derivative
`[[13]]`: the derivative matrix used is `[[36]]`, the one at the layer input is `[[6]]`,
and the gradient written is `13 * 36 * 3`. -/
theorem backward_sweep_derivative_point_witness :
    LayerOps.calculateActivationDeriv (fun z => z) (fun _ => 0)
        ([layer1 (2 : ℚ) ⟨false, fun z => z * z / 2⟩ ⟨false, fun z => z⟩].getD 0 none)
        ([mk 1 1 [(18 : ℚ)]].getD 0 none) = mk 1 1 [2 * 18] ∧
    LayerOps.calculateActivationDeriv (fun z => z) (fun _ => 0)
        ([layer1 (2 : ℚ) ⟨false, fun z => z * z / 2⟩ ⟨false, fun z => z⟩].getD 0 none)
        (if 0 = 0 then DatapointOps.getInput
            (some { input := mk 1 1 [(3 : ℚ)], output := mk 1 1 [5] })
          else [mk 1 1 [(18 : ℚ)]].getD (0 - 1) none) = mk 1 1 [2 * 3] ∧
    NeuralNetworkOps.backwardLayer (fun z => z) (fun _ => 0)
        [layer1 (2 : ℚ) ⟨false, fun z => z * z / 2⟩ ⟨false, fun z => z⟩]
        (some { input := mk 1 1 [(3 : ℚ)], output := mk 1 1 [5] }) [mk 1 1 [(18 : ℚ)]] 0
        (mk 1 1 [13], [none])
      = some (mk 1 1 [13 * (2 * (2 * 3))], [mk 1 1 [13 * (2 * 18) * 3]]) ∧
    (2 * 18 : ℚ) ≠ 2 * 3 := by
  have h := backward_sweep_derivative_point (fun z => z) (fun _ => (0 : ℚ))
    [layer1 (2 : ℚ) ⟨false, fun z => z * z / 2⟩ ⟨false, fun z => z⟩]
    (some { input := mk 1 1 [(3 : ℚ)], output := mk 1 1 [5] }) [mk 1 1 [(18 : ℚ)]] [none] 0
    2 3 18 13 ⟨false, fun z => z * z / 2⟩ ⟨false, fun z => z⟩ rfl rfl rfl rfl
  exact ⟨h.1, h.2.1, h.2.2.2.1, by norm_num⟩

/-- C36 fails: the network `exNet21` (no hidden layer, two inputs, one output, weights
`[[1, 2]]`, identity activation) is valid and the dataset `exData21` holds one datapoint
with a `2 x 1` input and a `1 x 1` target, yet for every learning rate above 0 and every
value of the indeterminate locals `gradientDescentStep` returns -1 and leaves the network
as it was: the backward sweep hands the `1 x 1` forward output of the layer to
`calculateActivationDeriv`, whose product with the `1 x 2` weights has mismatched
dimensions.  In general the body of the backward sweep sets `err` for every layer whose
input size differs from the number of rows of its forward output. -/
theorem training_step_fails_on_well_shaped (layerCountFF : Nat)
    (deltaWeights : Nat → Matrix ℚ) (activationFunction exp : ℚ → ℚ) (junk : Nat → ℚ)
    (learningRate : ℚ) (hlr : 0 < learningRate) :
    NeuralNetworkOps.isValid exNet21 = true ∧
    NeuralNetworkOps.gradientDescentStep layerCountFF deltaWeights activationFunction exp
        junk exNet21 exData21 learningRate = some (-1, exNet21) ∧
    (∀ (layers : List (Layer ℚ)) (datapoint_buf : Datapoint ℚ) (outputs : List (Matrix ℚ))
      (i inS outS : Nat) (f : FnPtr ℚ) (dv : Option (FnPtr ℚ)) (dW dO : List ℚ)
      (st : Matrix ℚ × List (Matrix ℚ)), inS ≠ outS →
      layers.getD i none = some ⟨inS, outS, some f, dv, mk outS inS dW⟩ →
      outputs.getD i none = mk outS 1 dO →
      NeuralNetworkOps.backwardLayer activationFunction junk layers datapoint_buf outputs i
        st = none) := by
  have hv : NeuralNetworkOps.isValid exNet21 = true := by decide
  have h1 : LayerOps.getOutputSize ([exLayer].getD 0 none) = 1 := rfl
  have h2 : NeuralNetworkOps.isSoftmaxPtr (some (NeuralNetworkOps.identity : FnPtr ℚ))
      = false := rfl
  have houts : (List.range (0 + 1)).map (fun i =>
        MatrixOps.create junk (LayerOps.getOutputSize ([exLayer].getD i none)) 1)
      ++ (if NeuralNetworkOps.isSoftmaxPtr (some (NeuralNetworkOps.identity : FnPtr ℚ))
          then [MatrixOps.create junk 1 1] else []) = [mk 1 1 [junk 0]] := by
    rw [h2]
    simp only [List.range_succ, List.range_zero, List.nil_append, List.map_cons,
      List.map_nil, h1, create_one, Bool.false_eq_true, if_false, List.append_nil]
  have hany : ((List.range (0 + 1)).map (fun i =>
        MatrixOps.create junk (LayerOps.getOutputSize ([exLayer].getD i none)) 1)
      ++ (if NeuralNetworkOps.isSoftmaxPtr (some (NeuralNetworkOps.identity : FnPtr ℚ))
          then [MatrixOps.create junk 1 1] else [])).any Option.isNone = false := by
    rw [houts]; rfl
  have hdp : NeuralNetworkOps.stepDatapoint layerCountFF activationFunction exp junk exNet21
      1 [exLayer] false (some { input := mk 2 1 [(3 : ℚ), 4], output := mk 1 1 [5] })
      ([mk 1 1 [junk 0]], [none]) = some none := by
    apply stepDatapoint_fails
    · intro p t
      exact calculateErrorDerivative_returns junk _ NeuralNetworkOps.defaultErrorDerivative
        rfl p t
    · intro s
      obtain ⟨d, hd⟩ := feedForwardMatrix_keeps_shape layerCountFF exp junk
        { inputSize := 2, outputSize := 1, hiddenLayerCount := 0,
          activationFunction := some NeuralNetworkOps.identity,
          activationDerivative := some NeuralNetworkOps.identityDerivative,
          errorFunction := some NeuralNetworkOps.defaultErrorFunction,
          errorDerivative := some NeuralNetworkOps.defaultErrorDerivative,
          layers := [exLayer] }
        (DatapointOps.getInput (some { input := mk 2 1 [(3 : ℚ), 4], output := mk 1 1 [5] }))
        [mk 1 1 [junk 0]] 0 1 1 rfl ⟨[junk 0], rfl⟩
      exact backwardLayer_mismatch activationFunction junk [exLayer] _ _ 0 2 1 1 1
        NeuralNetworkOps.identity (some NeuralNetworkOps.identityDerivative) [1, 2] d s
        (by decide) rfl hd
  have hloop : [some { input := mk 2 1 [(3 : ℚ), 4], output := mk 1 1 [5] }].foldl
      (NeuralNetworkOps.stepNode layerCountFF activationFunction exp junk exNet21 (0 + 1)
        [exLayer] (NeuralNetworkOps.isSoftmaxPtr (some (NeuralNetworkOps.identity : FnPtr ℚ))))
      (some (some ((List.range (0 + 1)).map (fun i =>
          MatrixOps.create junk (LayerOps.getOutputSize ([exLayer].getD i none)) 1)
        ++ (if NeuralNetworkOps.isSoftmaxPtr (some (NeuralNetworkOps.identity : FnPtr ℚ))
            then [MatrixOps.create junk 1 1] else []),
        List.replicate (0 + 1) none))) = some none := by
    rw [houts, h2, List.foldl_cons, List.foldl_nil]
    have hrep : List.replicate (0 + 1) (none : Matrix ℚ) = [none] := rfl
    rw [hrep, Nat.zero_add]
    unfold NeuralNetworkOps.stepNode
    exact hdp
  have hrun := gradientDescentStep_fails layerCountFF deltaWeights activationFunction exp
    junk
    { inputSize := 2, outputSize := 1, hiddenLayerCount := 0,
      activationFunction := some NeuralNetworkOps.identity,
      activationDerivative := some NeuralNetworkOps.identityDerivative,
      errorFunction := some NeuralNetworkOps.defaultErrorFunction,
      errorDerivative := some NeuralNetworkOps.defaultErrorDerivative,
      layers := [exLayer] }
    (some { input := mk 2 1 [3, 4], output := mk 1 1 [5] }) [] learningRate hv
    (not_le.mpr hlr) hany hloop
  refine ⟨hv, ?_, ?_⟩
  · unfold exNet21 exData21
    rw [hrun]
  · intro layers datapoint_buf outputs i inS outS f dv dW dO st hne hlayer hout
    exact backwardLayer_mismatch activationFunction junk layers datapoint_buf outputs i inS
      outS outS 1 f dv dW dO st hne hlayer hout

/-- Witness of C36: with the learning rate 1/100, the forward sweep over the one layer, a
`deltaWeights` that is null and the identity as `activationFunction`, the step on
`exNet21` and `exData21` returns -1. -/
theorem training_step_fails_on_well_shaped_witness :
    (0 : ℚ) < 1 / 100 ∧
    NeuralNetworkOps.gradientDescentStep 1 (fun _ => none) (fun z => z) (fun z => z)
        (fun _ => 0) exNet21 exData21 (1 / 100) = some (-1, exNet21) :=
  ⟨by norm_num, (training_step_fails_on_well_shaped 1 (fun _ => none) (fun z => z)
    (fun z => z) (fun _ => 0) (1 / 100) (by norm_num)).2.1⟩

/-- C40: for every list record that holds a sequence `xs` in the heap (a chain of distinct
nodes from `head` to `tail`, counted by `size`; `xs` is the only such sequence) and every
`x`: `push` returns 0, the list then holds `xs ++ [x]` and `size` has grown by 1, `peek`
then stores `x`, and `pop` then returns 0, stores `x` and leaves a list that holds `xs` with
the size from before; when `xs = ys ++ [y]`, `peek` stores `y`, and `pop` returns 0, stores
`y` and leaves a list that holds `ys` with `size` less by 1; when `xs` is empty `pop` and
`peek` return -1 and `pop` changes nothing; `create` returns a list that holds the empty
sequence. -/
theorem list_pop_takes_last {δ : Type} (heap : List (Node δ)) (l : ListStruct)
    (xs : List δ) (x : δ) (h : Holds heap l xs) :
    (∀ ys, Holds heap l ys → ys = xs) ∧
    (∃ heap1 l1, ListOps.push heap (some l) x = some (0, heap1, some l1) ∧
      Holds heap1 l1 (xs ++ [x]) ∧
      ListOps.size (some l1) = ListOps.size (some l) + 1 ∧
      ListOps.peek heap1 (some l1) = some (0, some x) ∧
      ∃ heap2 l2, ListOps.pop heap1 (some l1) = some (0, heap2, some l2, some x) ∧
        Holds heap2 l2 xs ∧ ListOps.size (some l2) = ListOps.size (some l)) ∧
    (∀ ys y, xs = ys ++ [y] →
      ListOps.peek heap (some l) = some (0, some y) ∧
      ∃ heap1 l1, ListOps.pop heap (some l) = some (0, heap1, some l1, some y) ∧
        Holds heap1 l1 ys ∧ ListOps.size (some l1) + 1 = ListOps.size (some l)) ∧
    (xs = [] → ListOps.pop heap (some l) = some (-1, heap, some l, none) ∧
      ListOps.peek heap (some l) = some (-1, none)) ∧
    (∀ heap0 : List (Node δ), ∃ l0, ListOps.create = some l0 ∧
      Holds heap0 l0 ([] : List δ)) := by
  refine ⟨?_, ?_, ?_, ?_, ?_⟩
  · intro ys hys
    obtain ⟨a1, _, s1, _, _⟩ := h
    obtain ⟨a2, _, s2, _, _⟩ := hys
    exact (seg_unique heap a1 l.head xs a2 ys s1 s2).2
  · obtain ⟨heap1, l1, hpush, hh1, hs1⟩ := push_holds heap l xs x h
    obtain ⟨heap2, l2, hpop, hh2, hs2⟩ := pop_holds heap1 l1 xs x hh1
    refine ⟨heap1, l1, hpush, hh1, hs1, peek_holds heap1 l1 xs x hh1, heap2, l2, hpop, hh2,
      ?_⟩
    simp only [ListOps.size] at hs1 hs2 ⊢
    omega
  · intro ys y hxs
    subst hxs
    obtain ⟨heap1, l1, hpop, hh1, hs1⟩ := pop_holds heap l ys y h
    exact ⟨peek_holds heap l ys y h, heap1, l1, hpop, hh1, hs1⟩
  · intro hxs
    subst hxs
    exact empty_holds heap l h
  · intro heap0
    exact ⟨_, rfl, [], List.nodup_nil, rfl, rfl, rfl⟩

/-- Witness of C40: the list `1, 2` in a heap of two nodes: `peek` stores 2, and `pop`
returns 0, stores 2 and leaves a list that holds `1`. -/
theorem list_pop_takes_last_witness :
    Holds [({ data := 1, next := some 1 } : Node Nat), { data := 2, next := none }]
      { head := some 0, tail := some 1, size := 2 } [1, 2] ∧
    ListOps.peek [({ data := 1, next := some 1 } : Node Nat), { data := 2, next := none }]
      (some { head := some 0, tail := some 1, size := 2 }) = some (0, some 2) ∧
    ∃ heap1 l1,
      ListOps.pop [({ data := 1, next := some 1 } : Node Nat), { data := 2, next := none }]
        (some { head := some 0, tail := some 1, size := 2 })
          = some (0, heap1, some l1, some 2) ∧
      Holds heap1 l1 [1] ∧
      ListOps.size (some l1) + 1
        = ListOps.size (some { head := some 0, tail := some 1, size := 2 }) := by
  have hh : Holds [({ data := 1, next := some 1 } : Node Nat), { data := 2, next := none }]
      { head := some 0, tail := some 1, size := 2 } [1, 2] :=
    ⟨[0, 1], by decide, ⟨rfl, some 1, rfl, rfl, none, rfl, rfl⟩, rfl, rfl⟩
  have h := list_pop_takes_last _ _ _ 3 hh
  exact ⟨hh, h.2.2.1 [1] 2 rfl⟩

/-- C10 fails for `n >= 1`: with no hidden layer, `create` with the lifetime of the
specifications returns what the value-level `create` returns, and a network it returns has
the single layer `(inputSize, outputSize)` with weights of that shape and satisfies Network
`isValid`.  With `n >= 1` hidden layers no call returns a network: once the first layer is
built, `create` releases `hiddenLayers[0]` and its next read is
`hiddenLayers[0]->outputSize`, a read of released storage. -/
theorem network_create_reads_released_spec [Field α] (junk : Nat → α)
    (inputSize outputSize : Nat) (hiddenLayers : Option (List (NeuralNetworkLayer α)))
    (n : Nat) (act dv : Option (FnPtr α)) (eF eD : Option (α → α → α)) :
    (n = 0 →
      Tracked.create junk inputSize outputSize hiddenLayers n act dv eF eD
        = Outcome.returned (NeuralNetworkOps.create junk inputSize outputSize hiddenLayers n act dv eF eD) ∧
      ∀ nn, NeuralNetworkOps.create junk inputSize outputSize hiddenLayers n act dv eF eD = some nn →
        nn.hiddenLayerCount = 0 ∧ nn.layers.length = 1 ∧
        (∃ l, nn.layers.getD 0 none = some l ∧ l.inputSize = inputSize ∧
          l.outputSize = outputSize ∧ MatrixOps.isValid l.weights = true ∧
          MatrixOps.getRow l.weights = l.outputSize ∧
          MatrixOps.getCol l.weights = l.inputSize) ∧
        NeuralNetworkOps.isValid (some nn) = true) ∧
    (n ≠ 0 →
      (∀ nn, Tracked.create junk inputSize outputSize hiddenLayers n act dv eF eD
        ≠ Outcome.returned (some nn)) ∧
      (∀ specs s layer0, hiddenLayers = some specs → inputSize ≠ 0 → outputSize ≠ 0 →
        act.isSome = true → specs.getD 0 none = some s →
        LayerOps.create junk inputSize s.outputSize act dv = some layer0 →
          Tracked.create junk inputSize outputSize hiddenLayers n act dv eF eD
            = Outcome.fault (Fault.useAfterFree 0))) := by
  constructor
  · intro hn
    subst hn
    refine ⟨tracked_create_zero junk inputSize outputSize hiddenLayers act dv eF eD, ?_⟩
    intro nn hnn
    obtain ⟨-, -, h3, h4, h5, h6⟩ := create_size_chain junk inputSize outputSize
      hiddenLayers 0 act dv eF eD nn hnn
    obtain ⟨l, hl, hin, hout, hv, hr, hc, -⟩ := h5 0 (Nat.le_refl 0)
    refine ⟨h3, h4, ⟨l, hl, ?_, ?_, hv, hr, hc⟩, h6⟩
    · simpa using hin
    · simpa using hout
  · intro hn
    constructor
    · intro nn h
      rcases tracked_create_cases junk inputSize outputSize hiddenLayers n act dv eF eD hn
        with h1 | ⟨step, h1⟩
      · rw [h1] at h
        cases h
      · rw [h1] at h
        cases h
    · intro specs s layer0 hspecs hi ho ha hs hl
      subst hspecs
      exact tracked_create_released junk inputSize outputSize specs n act dv eF eD s layer0
        hn hi ho ha hs hl

/-- Witness of C10: `create(2, 1, [layerOf(2, 3, ..), layerOf(3, 2, ..)], 2, identity, ..)`
reads `hiddenLayers[0]->outputSize` after `free(hiddenLayers[0])`. -/
theorem network_create_reads_released_spec_witness :
    Tracked.create (fun _ => (0 : ℚ)) 2 1 exSpecs 2 (some NeuralNetworkOps.identity) none
      none none = Outcome.fault (Fault.useAfterFree 0) := by
  obtain ⟨layer0, hl⟩ := Option.isSome_iff_exists.mp
    (by decide : (LayerOps.create (fun _ => (0 : ℚ)) 2 3
      (some NeuralNetworkOps.identity) none).isSome = true)
  exact (network_create_reads_released_spec (fun _ => (0 : ℚ)) 2 1 exSpecs 2
    (some NeuralNetworkOps.identity) none none none).2 (by decide) |>.2
    [NeuralNetworkOps.layerOf 2 3 none none, NeuralNetworkOps.layerOf 3 2 none none]
    ⟨2, 3, none, none⟩ layer0 rfl (by decide) (by decide) rfl rfl hl

/-- C12 fails: `create` never reads the input size that a hidden-layer specification
declares.  Two arrays of specifications with the same output sizes, slot by slot, give the
same outcome, with the lifetime of the specifications and without, whatever input sizes they
declare; and when the first layer can be built, the call does not return `NULL` at a
declared input size that does not chain: it goes on to release `hiddenLayers[0]` and to read
`hiddenLayers[0]->outputSize` from the released storage. -/
theorem create_never_reads_declared_input [Field α] (junk : Nat → α)
    (inputSize outputSize : Nat) (specs specs2 : List (NeuralNetworkLayer α))
    (n : Nat) (act dv : Option (FnPtr α)) (eF eD : Option (α → α → α))
    (h : ∀ k, (specs.getD k none).map (fun s => s.outputSize)
      = (specs2.getD k none).map (fun s => s.outputSize)) :
    Tracked.create junk inputSize outputSize (some specs) n act dv eF eD
      = Tracked.create junk inputSize outputSize (some specs2) n act dv eF eD ∧
    NeuralNetworkOps.create junk inputSize outputSize (some specs) n act dv eF eD
      = NeuralNetworkOps.create junk inputSize outputSize (some specs2) n act dv eF eD ∧
    (∀ s layer0, n ≠ 0 → inputSize ≠ 0 → outputSize ≠ 0 → act.isSome = true →
      specs.getD 0 none = some s →
      LayerOps.create junk inputSize s.outputSize act dv = some layer0 →
        Tracked.create junk inputSize outputSize (some specs) n act dv eF eD
          = Outcome.fault (Fault.useAfterFree 0)) := by
  refine ⟨tracked_create_agree junk inputSize outputSize specs specs2 n act dv eF eD h, ?_,
    ?_⟩
  · have hk := specOutputSize_agree specs specs2 h
    have hc : NeuralNetworkOps.createHidden junk (some specs) act dv
        = NeuralNetworkOps.createHidden junk (some specs2) act dv := by
      funext st k
      simp only [NeuralNetworkOps.createHidden, hk]
    unfold NeuralNetworkOps.create
    simp only [hk, hc, Option.isNone_some]
  · intro s layer0 hn hi ho ha hs hl
    exact tracked_create_released junk inputSize outputSize specs n act dv eF eD s layer0
      hn hi ho ha hs hl

/-- Witness of C12: `create(2, 1, [layerOf(7, 3, ..)], 1, identity, ..)`, whose specification
declares the input size 7 for the network input size 2, has the outcome of the call with
`layerOf(2, 3, ..)`: the read of `hiddenLayers[0]->outputSize` after `free(hiddenLayers[0])`,
not a return of `NULL`. -/
theorem create_never_reads_declared_input_witness :
    (7 : Nat) ≠ 2 ∧
    Tracked.create (fun _ => (0 : ℚ)) 2 1 (some [NeuralNetworkOps.layerOf 7 3 none none]) 1
        (some NeuralNetworkOps.identity) none none none
      = Tracked.create (fun _ => (0 : ℚ)) 2 1 (some [NeuralNetworkOps.layerOf 2 3 none none])
        1 (some NeuralNetworkOps.identity) none none none ∧
    Tracked.create (fun _ => (0 : ℚ)) 2 1 (some [NeuralNetworkOps.layerOf 7 3 none none]) 1
        (some NeuralNetworkOps.identity) none none none
      = Outcome.fault (Fault.useAfterFree 0) := by
  obtain ⟨layer0, hl⟩ := Option.isSome_iff_exists.mp
    (by decide : (LayerOps.create (fun _ => (0 : ℚ)) 2 3
      (some NeuralNetworkOps.identity) none).isSome = true)
  have h := create_never_reads_declared_input (fun _ => (0 : ℚ)) 2 1
    [NeuralNetworkOps.layerOf 7 3 none none] [NeuralNetworkOps.layerOf 2 3 none none] 1
    (some NeuralNetworkOps.identity) none none none
    (by
      intro k
      cases k with
      | zero => rfl
      | succ k => cases k <;> rfl)
  exact ⟨by decide, h.1, h.2.2 ⟨7, 3, none, none⟩ layer0 (by decide) (by decide) (by decide)
    rfl rfl hl⟩

/-- C18 fails at `updateWeights`: a layer handle that denotes a layer satisfying Layer
`isValid` has nonzero sizes, an activation, and valid weights with `outputSize` rows and
`inputSize` columns; every layer returned by Layer `create` satisfies `isValid`, `isValid`
still holds after every call of `setWeights`, and `setWeights` returns -1 and leaves the
layer as it was when the shape of the given matrix is not `(outputSize, inputSize)`.  But
`updateWeights` reads its local `deltaWeights`, which is never assigned, and calls `destroy`
on it: when the local holds the handle of the layer's own weights, the call with a valid
gradient returns 0 and has released the block of cells of the weights, to which the layer
still points; when it holds a null pointer, the call returns -1 and releases nothing. -/
theorem layer_invariant_update_releases [Field α] (junk : Nat → α) (blocks : Blocks α)
    (layer : LayerRef α) (G : MatrixRef) (lr : α)
    (hv : LayerOps.isValid (Addressed.loadLayer blocks (some layer)) = true)
    (hW : Rep (LayerOps.getWeights (Addressed.loadLayer blocks (some layer))))
    (hG : MatrixOps.isValid (Addressed.load blocks (some G)) = true)
    (hRG : Rep (Addressed.load blocks (some G))) :
    (layer.inputSize ≠ 0 ∧ layer.outputSize ≠ 0 ∧ layer.activationFunction.isSome = true ∧
      MatrixOps.isValid (Addressed.load blocks layer.weights) = true ∧
      MatrixOps.getRow (Addressed.load blocks layer.weights) = layer.outputSize ∧
      MatrixOps.getCol (Addressed.load blocks layer.weights) = layer.inputSize) ∧
    (∀ w, LayerOps.isValid (LayerOps.setWeights junk (Addressed.loadLayer blocks (some layer)) w).2 = true) ∧
    (∀ w, (MatrixOps.getRow w ≠ layer.outputSize ∨ MatrixOps.getCol w ≠ layer.inputSize) →
      LayerOps.setWeights junk (Addressed.loadLayer blocks (some layer)) w = (-1, (Addressed.loadLayer blocks (some layer)))) ∧
    (∀ a b act dv l, LayerOps.create junk a b act dv = some l →
      LayerOps.isValid (some l) = true) ∧
    ((Addressed.updateWeights layer.weights blocks (some layer) (some G) lr).1 = 0 ∧
      ∃ a, layer.weights.bind MatrixRef.data = some a ∧
        (Addressed.updateWeights layer.weights blocks (some layer) (some G) lr).2.2 = [a]) ∧
    ((Addressed.updateWeights none blocks (some layer) (some G) lr).1 = -1 ∧
      (Addressed.updateWeights none blocks (some layer) (some G) lr).2.2 = []) := by
  obtain ⟨inS, outS, f, dv, aW, dW, rfl, hdW, haW, hi, ho, hlW, hfitW⟩ :=
    addressed_layer_cases blocks layer hv hW
  obtain ⟨r, c, g, dG, rfl, hdG, hg, hr, hc, hlG, hfitG⟩ := addressed_cases blocks G hG hRG
  have hown := addressed_updateWeights_own blocks inS outS aW r c g f dv dW dG lr hdW hdG hi
    ho hr hc hlW hfitW hlG hfitG
  refine ⟨?_, ?_, ?_, ?_, ⟨hown.1, aW, rfl, hown.2⟩, ?_⟩
  · simp only [addressed_load_mk blocks outS inS aW dW hdW]
    exact ⟨by omega, by omega, rfl, isValid_mk outS inS dW ho hi, rfl, rfl⟩
  · intro w
    exact setWeights_keeps junk _ w hv
  · intro w h
    exact setWeights_rejects junk _ w h
  · intro a b act dv2 l h
    exact (layer_create_spec junk a b act dv2 l h).2.2.2.2.1
  · exact addressed_updateWeights_null blocks _ _ lr

/-- Witness of C18: the layer with the weight 2 in block 0 and the gradient `[[6]]` in
block 1, learning rate 1/100: with the handle of the weights in `deltaWeights` the call of
`updateWeights` returns 0 and block 0 is released. -/
theorem layer_invariant_update_releases_witness :
    (LayerOps.isValid (Addressed.loadLayer [[(2 : ℚ)], [6]] (some (⟨1, 1, some NeuralNetworkOps.identity, none, some ⟨1, 1, some 0⟩⟩ : LayerRef ℚ))) = true ∧
      MatrixOps.isValid (Addressed.load [[(2 : ℚ)], [6]] (some ⟨1, 1, some 1⟩)) = true) ∧
    (Addressed.updateWeights (some ⟨1, 1, some 0⟩) [[(2 : ℚ)], [6]] (some (⟨1, 1, some NeuralNetworkOps.identity, none, some ⟨1, 1, some 0⟩⟩ : LayerRef ℚ)) (some ⟨1, 1, some 1⟩) (1 / 100)).1
      = 0 ∧
    (Addressed.updateWeights (some ⟨1, 1, some 0⟩) [[(2 : ℚ)], [6]] (some (⟨1, 1, some NeuralNetworkOps.identity, none, some ⟨1, 1, some 0⟩⟩ : LayerRef ℚ)) (some ⟨1, 1, some 1⟩) (1 / 100)).2.2
      = [0] := by
  have hlW : Addressed.loadLayer [[(2 : ℚ)], [6]] (some (⟨1, 1, some NeuralNetworkOps.identity, none, some ⟨1, 1, some 0⟩⟩ : LayerRef ℚ))
      = some ⟨1, 1, some NeuralNetworkOps.identity, none, mk 1 1 [2]⟩ := rfl
  have hlG : Addressed.load [[(2 : ℚ)], [6]] (some ⟨1, 1, some 1⟩) = mk 1 1 [(6 : ℚ)] :=
    addressed_load_mk _ 1 1 1 _ rfl
  have hv : LayerOps.isValid (Addressed.loadLayer [[(2 : ℚ)], [6]] (some (⟨1, 1, some NeuralNetworkOps.identity, none, some ⟨1, 1, some 0⟩⟩ : LayerRef ℚ))) = true := by
    rw [hlW]
    exact layer_isValid_mk 1 1 _ _ _ (by decide) (by decide)
  have hW : Rep (LayerOps.getWeights (Addressed.loadLayer [[(2 : ℚ)], [6]] (some (⟨1, 1, some NeuralNetworkOps.identity, none, some ⟨1, 1, some 0⟩⟩ : LayerRef ℚ)))) := by
    rw [hlW]
    exact rep_mk 1 1 _ rfl (by decide)
  have hG : MatrixOps.isValid (Addressed.load [[(2 : ℚ)], [6]] (some ⟨1, 1, some 1⟩)) = true := by
    rw [hlG]
    exact isValid_mk 1 1 _ (by decide) (by decide)
  have hRG : Rep (Addressed.load [[(2 : ℚ)], [6]] (some ⟨1, 1, some 1⟩)) := by
    rw [hlG]
    exact rep_mk 1 1 _ rfl (by decide)
  have h := layer_invariant_update_releases (fun _ => (0 : ℚ)) [[(2 : ℚ)], [6]] (⟨1, 1, some NeuralNetworkOps.identity, none, some ⟨1, 1, some 0⟩⟩ : LayerRef ℚ) ⟨1, 1, some 1⟩ (1 / 100) hv hW
    hG hRG
  obtain ⟨h0, a, ha, hrel⟩ := h.2.2.2.2.1
  have ha0 : a = 0 := by
    have h2 : (some 0 : Option Nat) = some a := ha
    cases h2
    rfl
  subst ha0
  exact ⟨⟨hv, hG⟩, h0, hrel⟩

/-- C26 (amended): for all handles `A` and `B` that denote valid matrices of identical shape
whose storage holds `rows * cols` cells, `add(A, B)` returns 0, `A` stays valid with its
shape, and no storage but the cells of `A` is written.  When the cells of `B` are not the
cells of `A`, every entry `A[i, j]` becomes `(old A[i, j]) + B[i, j]` and `B` is unchanged;
when `B` has the cells of `A`, every entry of `A`, hence of `B`, becomes
`(old A[i, j]) + (old A[i, j])`. -/
theorem add_distinct_operands [Zero α] [Add α] (blocks : Blocks α) (A B : MatrixRef)
    (hvA : MatrixOps.isValid (Addressed.load blocks (some A)) = true)
    (hrA : Rep (Addressed.load blocks (some A)))
    (hvB : MatrixOps.isValid (Addressed.load blocks (some B)) = true)
    (hrB : Rep (Addressed.load blocks (some B)))
    (hrow : A.row = B.row) (hcol : A.col = B.col) :
    (Addressed.add blocks (some A) (some B)).1 = 0 ∧
    MatrixOps.isValid (Addressed.load (Addressed.add blocks (some A) (some B)).2 (some A)) = true ∧
    MatrixOps.getRow (Addressed.load (Addressed.add blocks (some A) (some B)).2 (some A)) = A.row ∧
    MatrixOps.getCol (Addressed.load (Addressed.add blocks (some A) (some B)).2 (some A)) = A.col ∧
    (∀ c, A.data ≠ some c → ((Addressed.add blocks (some A) (some B)).2)[c]? = blocks[c]?) ∧
    (A.data ≠ B.data →
      Addressed.load (Addressed.add blocks (some A) (some B)).2 (some A)
        = (MatrixOps.add (Addressed.load blocks (some A)) (Addressed.load blocks (some B))).2 ∧
      (∀ i j, i < A.row → j < A.col →
        entry (Addressed.load (Addressed.add blocks (some A) (some B)).2 (some A)) i j
          = entry (Addressed.load blocks (some A)) i j + entry (Addressed.load blocks (some B)) i j) ∧
      Addressed.load (Addressed.add blocks (some A) (some B)).2 (some B) = Addressed.load blocks (some B)) ∧
    (A.data = B.data →
      (∀ i j, i < A.row → j < A.col →
        entry (Addressed.load (Addressed.add blocks (some A) (some B)).2 (some A)) i j
          = entry (Addressed.load blocks (some A)) i j + entry (Addressed.load blocks (some A)) i j) ∧
      Addressed.load (Addressed.add blocks (some A) (some B)).2 (some B) = Addressed.load (Addressed.add blocks (some A) (some B)).2 (some A)) := by
  obtain ⟨row, col, a1, d1, rfl, h1, ha1, hr, hc, hl1, hfit⟩ :=
    addressed_cases blocks A hvA hrA
  obtain ⟨row2, col2, a2, d2, rfl, h2, ha2, -, -, hl2, -⟩ := addressed_cases blocks B hvB hrB
  have er : row = row2 := hrow
  have ec : col = col2 := hcol
  subst er
  subst ec
  rw [addressed_add_mk blocks row col a1 a2 d1 d2 h1 h2 hr hc hl1 hfit,
    addressed_load_mk blocks row col a1 d1 h1, addressed_load_mk blocks row col a2 d2 h2]
  simp only []
  have hA : ∀ D : List α, Addressed.load (blocks.set a1 D) (some ⟨row, col, some a1⟩)
      = mk row col D :=
    fun D => addressed_load_mk _ row col a1 D (List.getElem?_set_self ha1)
  rw [hA]
  refine ⟨trivial, isValid_mk row col _ hr hc, rfl, rfl, ?_, ?_, ?_⟩
  · intro c hne
    have hac : a1 ≠ c := fun e => hne (by rw [e])
    rw [List.getElem?_set_ne hac]
  · intro hne
    have he : ¬ a2 = a1 := fun e => hne (by rw [e])
    simp only [he, if_false]
    refine ⟨?_, ?_, ?_⟩
    · rw [add_mk row col d1 d2 hr hc hl1 hfit]
    · intro i j hi hj
      rw [entry_tab row col (fun k => rd d1 k + rd d2 k) i j hi hj,
        entry_mk row col d1 i j hi hj, entry_mk row col d2 i j hi hj]
    · apply addressed_load_mk
      rw [List.getElem?_set_ne (fun e => he e.symm)]
      exact h2
  · intro he
    have he2 : a2 = a1 := by
      have h3 : some a1 = some a2 := he
      cases h3
      rfl
    subst he2
    simp only [if_true]
    refine ⟨?_, hA _⟩
    intro i j hi hj
    rw [entry_tab row col (fun k => rd d1 k + rd d1 k) i j hi hj,
      entry_mk row col d1 i j hi hj]

/-- C29 (amended): for all handles `A` and `B` that denote valid matrices of identical shape
whose storage holds `rows * cols` cells and every binary function `f`,
`elementWise(A, B, f)` returns 0, `A` stays valid with its shape, and no storage but the
cells of `A` is written.  When the cells of `B` are not the cells of `A`, every entry
`A[i, j]` becomes `f(old A[i, j], B[i, j])`, receiver entry first, and `B` is unchanged; when
`B` has the cells of `A`, every entry of `A`, hence of `B`, becomes
`f(old A[i, j], old A[i, j])`. -/
theorem elementWise_distinct_operands [Zero α] (blocks : Blocks α) (A B : MatrixRef) (f : α → α → α)
    (hvA : MatrixOps.isValid (Addressed.load blocks (some A)) = true)
    (hrA : Rep (Addressed.load blocks (some A)))
    (hvB : MatrixOps.isValid (Addressed.load blocks (some B)) = true)
    (hrB : Rep (Addressed.load blocks (some B)))
    (hrow : A.row = B.row) (hcol : A.col = B.col) :
    (Addressed.elementWise blocks (some A) (some B) f).1 = 0 ∧
    MatrixOps.isValid (Addressed.load (Addressed.elementWise blocks (some A) (some B) f).2 (some A)) = true ∧
    MatrixOps.getRow (Addressed.load (Addressed.elementWise blocks (some A) (some B) f).2 (some A)) = A.row ∧
    MatrixOps.getCol (Addressed.load (Addressed.elementWise blocks (some A) (some B) f).2 (some A)) = A.col ∧
    (∀ c, A.data ≠ some c → ((Addressed.elementWise blocks (some A) (some B) f).2)[c]? = blocks[c]?) ∧
    (A.data ≠ B.data →
      Addressed.load (Addressed.elementWise blocks (some A) (some B) f).2 (some A)
        = (MatrixOps.elementWise (Addressed.load blocks (some A)) (Addressed.load blocks (some B)) f).2 ∧
      (∀ i j, i < A.row → j < A.col →
        entry (Addressed.load (Addressed.elementWise blocks (some A) (some B) f).2 (some A)) i j
          = f (entry (Addressed.load blocks (some A)) i j) (entry (Addressed.load blocks (some B)) i j)) ∧
      Addressed.load (Addressed.elementWise blocks (some A) (some B) f).2 (some B) = Addressed.load blocks (some B)) ∧
    (A.data = B.data →
      (∀ i j, i < A.row → j < A.col →
        entry (Addressed.load (Addressed.elementWise blocks (some A) (some B) f).2 (some A)) i j
          = f (entry (Addressed.load blocks (some A)) i j) (entry (Addressed.load blocks (some A)) i j)) ∧
      Addressed.load (Addressed.elementWise blocks (some A) (some B) f).2 (some B) = Addressed.load (Addressed.elementWise blocks (some A) (some B) f).2 (some A)) := by
  obtain ⟨row, col, a1, d1, rfl, h1, ha1, hr, hc, hl1, hfit⟩ :=
    addressed_cases blocks A hvA hrA
  obtain ⟨row2, col2, a2, d2, rfl, h2, ha2, -, -, hl2, -⟩ := addressed_cases blocks B hvB hrB
  have er : row = row2 := hrow
  have ec : col = col2 := hcol
  subst er
  subst ec
  rw [addressed_elementWise_mk blocks row col a1 a2 d1 d2 f h1 h2 hr hc hl1 hfit,
    addressed_load_mk blocks row col a1 d1 h1, addressed_load_mk blocks row col a2 d2 h2]
  simp only []
  have hA : ∀ D : List α, Addressed.load (blocks.set a1 D) (some ⟨row, col, some a1⟩)
      = mk row col D :=
    fun D => addressed_load_mk _ row col a1 D (List.getElem?_set_self ha1)
  rw [hA]
  refine ⟨trivial, isValid_mk row col _ hr hc, rfl, rfl, ?_, ?_, ?_⟩
  · intro c hne
    have hac : a1 ≠ c := fun e => hne (by rw [e])
    rw [List.getElem?_set_ne hac]
  · intro hne
    have he : ¬ a2 = a1 := fun e => hne (by rw [e])
    simp only [he, if_false]
    refine ⟨?_, ?_, ?_⟩
    · rw [elementWise_mk row col d1 d2 f hr hc hl1 hfit]
    · intro i j hi hj
      rw [entry_tab row col (fun k => f (rd d1 k) (rd d2 k)) i j hi hj,
        entry_mk row col d1 i j hi hj, entry_mk row col d2 i j hi hj]
    · apply addressed_load_mk
      rw [List.getElem?_set_ne (fun e => he e.symm)]
      exact h2
  · intro he
    have he2 : a2 = a1 := by
      have h3 : some a1 = some a2 := he
      cases h3
      rfl
    subst he2
    simp only [if_true]
    refine ⟨?_, hA _⟩
    intro i j hi hj
    rw [entry_tab row col (fun k => f (rd d1 k) (rd d1 k)) i j hi hj,
      entry_mk row col d1 i j hi hj]

/-- C27 (amended): for all handles `A` and `B` that denote valid matrices of identical
shape whose storage holds `rows * cols` cells, `subtract(A, B)` returns 0 and writes no
storage but the cells of `A`.  When the cells of `B` are not the cells of `A`, every entry
`A[i, j]` becomes `(old A[i, j]) - B[i, j]`, `B` is unchanged, and `subtract` after `add`,
with the same `B`, returns 0 and leaves `A` and `B` as they were before the two calls; when
`B` has the cells of `A`, `subtract` after `add` returns 0 and leaves every entry of `A`
equal to 0. -/
theorem subtract_undoes_add_distinct [AddGroup α] (blocks : Blocks α) (A B : MatrixRef)
    (hvA : MatrixOps.isValid (Addressed.load blocks (some A)) = true)
    (hrA : Rep (Addressed.load blocks (some A)))
    (hvB : MatrixOps.isValid (Addressed.load blocks (some B)) = true)
    (hrB : Rep (Addressed.load blocks (some B)))
    (hrow : A.row = B.row) (hcol : A.col = B.col) :
    (Addressed.subtract blocks (some A) (some B)).1 = 0 ∧
    (∀ c, A.data ≠ some c →
      ((Addressed.subtract blocks (some A) (some B)).2)[c]? = blocks[c]?) ∧
    (A.data ≠ B.data →
      (∀ i j, i < A.row → j < A.col →
        entry (Addressed.load (Addressed.subtract blocks (some A) (some B)).2 (some A)) i j
          = entry (Addressed.load blocks (some A)) i j
            - entry (Addressed.load blocks (some B)) i j) ∧
      Addressed.load (Addressed.subtract blocks (some A) (some B)).2 (some B)
        = Addressed.load blocks (some B) ∧
      (Addressed.subtract (Addressed.add blocks (some A) (some B)).2 (some A) (some B)).1 = 0 ∧
      Addressed.load (Addressed.subtract (Addressed.add blocks (some A) (some B)).2 (some A) (some B)).2 (some A) = Addressed.load blocks (some A) ∧
      Addressed.load (Addressed.subtract (Addressed.add blocks (some A) (some B)).2 (some A) (some B)).2 (some B) = Addressed.load blocks (some B)) ∧
    (A.data = B.data →
      (Addressed.subtract (Addressed.add blocks (some A) (some B)).2 (some A) (some B)).1 = 0 ∧
      ∀ i j, i < A.row → j < A.col →
        entry (Addressed.load (Addressed.subtract (Addressed.add blocks (some A) (some B)).2 (some A) (some B)).2 (some A)) i j = 0) := by
  obtain ⟨row, col, a1, d1, rfl, h1, ha1, hr, hc, hl1, hfit⟩ :=
    addressed_cases blocks A hvA hrA
  obtain ⟨row2, col2, a2, d2, rfl, h2, ha2, -, -, hl2, -⟩ := addressed_cases blocks B hvB hrB
  have er : row = row2 := hrow
  have ec : col = col2 := hcol
  subst er
  subst ec
  have hset : ∀ D : List α, (blocks.set a1 D)[a1]? = some D :=
    fun D => List.getElem?_set_self ha1
  have hA : ∀ D : List α, Addressed.load (blocks.set a1 D) (some ⟨row, col, some a1⟩)
      = mk row col D :=
    fun D => addressed_load_mk _ row col a1 D (hset D)
  rw [addressed_subtract_mk blocks row col a1 a2 d1 d2 h1 h2 hr hc hl1 hfit,
    addressed_add_mk blocks row col a1 a2 d1 d2 h1 h2 hr hc hl1 hfit,
    addressed_load_mk blocks row col a1 d1 h1, addressed_load_mk blocks row col a2 d2 h2]
  simp only []
  refine ⟨trivial, ?_, ?_, ?_⟩
  · intro c hne
    have hac : a1 ≠ c := fun e => hne (by rw [e])
    rw [List.getElem?_set_ne hac]
  · intro hne
    have he : ¬ a2 = a1 := fun e => hne (by rw [e])
    have h2s : ∀ D : List α, (blocks.set a1 D)[a2]? = some d2 := by
      intro D
      rw [List.getElem?_set_ne (fun e => he e.symm)]
      exact h2
    simp only [he, if_false]
    rw [addressed_subtract_mk (blocks.set a1 _) row col a1 a2 _ d2 (hset _) (h2s _) hr hc
      (by simp) hfit]
    simp only [he, if_false, List.set_set]
    rw [hA, hA, tab_tab (row * col) (fun k => rd d1 k + rd d2 k) (fun k x => x - rd d2 k)]
    simp only [add_sub_cancel_right]
    rw [tab_rd d1 (row * col) hl1]
    refine ⟨?_, ?_, trivial, rfl, ?_⟩
    · intro i j hi hj
      rw [entry_tab row col (fun k => rd d1 k - rd d2 k) i j hi hj,
        entry_mk row col d1 i j hi hj, entry_mk row col d2 i j hi hj]
    · exact addressed_load_mk _ row col a2 d2 (h2s _)
    · exact addressed_load_mk _ row col a2 d2 (h2s _)
  · intro he
    have he2 : a2 = a1 := by
      have h3 : some a1 = some a2 := he
      cases h3
      rfl
    subst he2
    simp only [if_true]
    rw [addressed_subtract_mk (blocks.set a2 _) row col a2 a2 _ _ (hset _) (hset _) hr hc
      (by simp) hfit]
    simp only [if_true, List.set_set]
    rw [hA]
    refine ⟨trivial, ?_⟩
    intro i j hi hj
    rw [entry_tab row col _ i j hi hj]
    exact sub_self _

/-- C26, as stated, fails: the handle to the valid `2 x 2` matrix `[[1,2],[3,4]]` given as
both operands, `add` returns 0 and the operand `B` then denotes `[[2,4],[6,8]]`. -/
theorem add_aliased_counterexample :
    MatrixOps.isValid (Addressed.load [[(1 : ℚ), 2, 3, 4]] (some ⟨2, 2, some 0⟩)) = true ∧
    Addressed.load [[(1 : ℚ), 2, 3, 4]] (some ⟨2, 2, some 0⟩) = mk 2 2 [1, 2, 3, 4] ∧
    (Addressed.add [[(1 : ℚ), 2, 3, 4]] (some ⟨2, 2, some 0⟩) (some ⟨2, 2, some 0⟩)).1 = 0 ∧
    Addressed.load (Addressed.add [[(1 : ℚ), 2, 3, 4]] (some ⟨2, 2, some 0⟩)
      (some ⟨2, 2, some 0⟩)).2 (some ⟨2, 2, some 0⟩) = mk 2 2 [2, 4, 6, 8] ∧
    Addressed.load (Addressed.add [[(1 : ℚ), 2, 3, 4]] (some ⟨2, 2, some 0⟩)
      (some ⟨2, 2, some 0⟩)).2 (some ⟨2, 2, some 0⟩)
      ≠ Addressed.load [[(1 : ℚ), 2, 3, 4]] (some ⟨2, 2, some 0⟩) := by
  have hl : Addressed.load [[(1 : ℚ), 2, 3, 4]] (some ⟨2, 2, some 0⟩)
      = mk 2 2 [(1 : ℚ), 2, 3, 4] := addressed_load_mk _ 2 2 0 _ rfl
  have hrun := addressed_add_mk [[(1 : ℚ), 2, 3, 4]] 2 2 0 0 [1, 2, 3, 4] [1, 2, 3, 4] rfl
    rfl (by decide) (by decide) rfl (by decide)
  have hafter : Addressed.load (Addressed.add [[(1 : ℚ), 2, 3, 4]] (some ⟨2, 2, some 0⟩)
      (some ⟨2, 2, some 0⟩)).2 (some ⟨2, 2, some 0⟩) = mk 2 2 [2, 4, 6, 8] := by
    rw [hrun]
    simp [Addressed.load, mk, List.range_succ, rd]
    norm_num
  refine ⟨?_, hl, ?_, hafter, ?_⟩
  · rw [hl]
    exact isValid_mk 2 2 _ (by decide) (by decide)
  · rw [hrun]
  · rw [hafter, hl]
    intro h
    simp [mk] at h

/-- C27, as stated, fails: the handle to the valid `2 x 2` matrix `[[1,2],[3,4]]` given as
both operands, `add` and then `subtract` return 0 and leave `[[0,0],[0,0]]`. -/
theorem subtract_aliased_counterexample :
    MatrixOps.isValid (Addressed.load [[(1 : ℚ), 2, 3, 4]] (some ⟨2, 2, some 0⟩)) = true ∧
    Addressed.load [[(1 : ℚ), 2, 3, 4]] (some ⟨2, 2, some 0⟩) = mk 2 2 [1, 2, 3, 4] ∧
    (Addressed.subtract (Addressed.add [[(1 : ℚ), 2, 3, 4]] (some ⟨2, 2, some 0⟩)
      (some ⟨2, 2, some 0⟩)).2 (some ⟨2, 2, some 0⟩) (some ⟨2, 2, some 0⟩)).1 = 0 ∧
    Addressed.load (Addressed.subtract (Addressed.add [[(1 : ℚ), 2, 3, 4]]
      (some ⟨2, 2, some 0⟩) (some ⟨2, 2, some 0⟩)).2 (some ⟨2, 2, some 0⟩)
      (some ⟨2, 2, some 0⟩)).2 (some ⟨2, 2, some 0⟩) = mk 2 2 [0, 0, 0, 0] ∧
    Addressed.load (Addressed.subtract (Addressed.add [[(1 : ℚ), 2, 3, 4]]
      (some ⟨2, 2, some 0⟩) (some ⟨2, 2, some 0⟩)).2 (some ⟨2, 2, some 0⟩)
      (some ⟨2, 2, some 0⟩)).2 (some ⟨2, 2, some 0⟩)
      ≠ Addressed.load [[(1 : ℚ), 2, 3, 4]] (some ⟨2, 2, some 0⟩) := by
  have hl : Addressed.load [[(1 : ℚ), 2, 3, 4]] (some ⟨2, 2, some 0⟩)
      = mk 2 2 [(1 : ℚ), 2, 3, 4] := addressed_load_mk _ 2 2 0 _ rfl
  have hadd := addressed_add_mk [[(1 : ℚ), 2, 3, 4]] 2 2 0 0 [1, 2, 3, 4] [1, 2, 3, 4] rfl
    rfl (by decide) (by decide) rfl (by decide)
  have hsub : ∀ D : List ℚ, D.length = 2 * 2 →
      Addressed.subtract [D] (some ⟨2, 2, some 0⟩) (some ⟨2, 2, some 0⟩)
        = (0, [(List.range (2 * 2)).map (fun k => rd D k - rd D k)]) := by
    intro D hD
    rw [addressed_subtract_mk [D] 2 2 0 0 D D rfl rfl (by decide) (by decide) hD
      (by decide)]
    simp
  have hrun : Addressed.subtract (Addressed.add [[(1 : ℚ), 2, 3, 4]] (some ⟨2, 2, some 0⟩)
      (some ⟨2, 2, some 0⟩)).2 (some ⟨2, 2, some 0⟩) (some ⟨2, 2, some 0⟩)
      = (0, [[0, 0, 0, 0]]) := by
    rw [hadd]
    simp only [List.set_cons_zero]
    rw [hsub _ (by simp)]
    simp [List.range_succ]
  rw [hrun, hl]
  refine ⟨isValid_mk 2 2 _ (by decide) (by decide), rfl, rfl, addressed_load_mk _ 2 2 0 _ rfl,
    ?_⟩
  rw [addressed_load_mk [[(0 : ℚ), 0, 0, 0]] 2 2 0 _ rfl]
  intro h
  simp [mk] at h

/-- C29, as stated, fails: the handle to the valid `2 x 2` matrix `[[1,2],[3,4]]` given as
both operands, `elementWise` with the product returns 0 and the operand `B` then denotes
`[[1,4],[9,16]]`. -/
theorem elementWise_aliased_counterexample :
    MatrixOps.isValid (Addressed.load [[(1 : ℚ), 2, 3, 4]] (some ⟨2, 2, some 0⟩)) = true ∧
    Addressed.load [[(1 : ℚ), 2, 3, 4]] (some ⟨2, 2, some 0⟩) = mk 2 2 [1, 2, 3, 4] ∧
    (Addressed.elementWise [[(1 : ℚ), 2, 3, 4]] (some ⟨2, 2, some 0⟩) (some ⟨2, 2, some 0⟩)
      (fun x y => x * y)).1 = 0 ∧
    Addressed.load (Addressed.elementWise [[(1 : ℚ), 2, 3, 4]] (some ⟨2, 2, some 0⟩)
      (some ⟨2, 2, some 0⟩) (fun x y => x * y)).2 (some ⟨2, 2, some 0⟩)
      = mk 2 2 [1, 4, 9, 16] ∧
    Addressed.load (Addressed.elementWise [[(1 : ℚ), 2, 3, 4]] (some ⟨2, 2, some 0⟩)
      (some ⟨2, 2, some 0⟩) (fun x y => x * y)).2 (some ⟨2, 2, some 0⟩)
      ≠ Addressed.load [[(1 : ℚ), 2, 3, 4]] (some ⟨2, 2, some 0⟩) := by
  have hl : Addressed.load [[(1 : ℚ), 2, 3, 4]] (some ⟨2, 2, some 0⟩)
      = mk 2 2 [(1 : ℚ), 2, 3, 4] := addressed_load_mk _ 2 2 0 _ rfl
  have hrun := addressed_elementWise_mk [[(1 : ℚ), 2, 3, 4]] 2 2 0 0 [1, 2, 3, 4]
    [1, 2, 3, 4] (fun x y => x * y) rfl rfl (by decide) (by decide) rfl (by decide)
  have hafter : Addressed.load (Addressed.elementWise [[(1 : ℚ), 2, 3, 4]]
      (some ⟨2, 2, some 0⟩) (some ⟨2, 2, some 0⟩) (fun x y => x * y)).2
      (some ⟨2, 2, some 0⟩) = mk 2 2 [1, 4, 9, 16] := by
    rw [hrun]
    simp [Addressed.load, mk, List.range_succ, rd]
    norm_num
  refine ⟨?_, hl, ?_, hafter, ?_⟩
  · rw [hl]
    exact isValid_mk 2 2 _ (by decide) (by decide)
  · rw [hrun]
  · rw [hafter, hl]
    intro h
    simp [mk] at h

/-- Witness of C26: with `[[1,2],[3,4]]` in block 0 and `[[5,6],[7,8]]` in block 1, `add`
returns 0 and the second operand denotes the same matrix after the call. -/
theorem add_distinct_operands_witness :
    (MatrixOps.isValid (Addressed.load [[(1 : ℚ), 2, 3, 4], [5, 6, 7, 8]] (some ⟨2, 2, some 0⟩)) = true ∧
      Rep (Addressed.load [[(1 : ℚ), 2, 3, 4], [5, 6, 7, 8]] (some ⟨2, 2, some 0⟩)) ∧
      MatrixOps.isValid (Addressed.load [[(1 : ℚ), 2, 3, 4], [5, 6, 7, 8]] (some ⟨2, 2, some 1⟩)) = true ∧
      Rep (Addressed.load [[(1 : ℚ), 2, 3, 4], [5, 6, 7, 8]] (some ⟨2, 2, some 1⟩))) ∧
    (Addressed.add [[(1 : ℚ), 2, 3, 4], [5, 6, 7, 8]] (some ⟨2, 2, some 0⟩) (some ⟨2, 2, some 1⟩)).1 = 0 ∧
    Addressed.load (Addressed.add [[(1 : ℚ), 2, 3, 4], [5, 6, 7, 8]] (some ⟨2, 2, some 0⟩) (some ⟨2, 2, some 1⟩)).2 (some ⟨2, 2, some 1⟩)
      = Addressed.load [[(1 : ℚ), 2, 3, 4], [5, 6, 7, 8]] (some ⟨2, 2, some 1⟩) := by
  have hlA : Addressed.load [[(1 : ℚ), 2, 3, 4], [5, 6, 7, 8]] (some ⟨2, 2, some 0⟩)
      = mk 2 2 [(1 : ℚ), 2, 3, 4] := addressed_load_mk _ 2 2 0 _ rfl
  have hlB : Addressed.load [[(1 : ℚ), 2, 3, 4], [5, 6, 7, 8]] (some ⟨2, 2, some 1⟩)
      = mk 2 2 [(5 : ℚ), 6, 7, 8] := addressed_load_mk _ 2 2 1 _ rfl
  have hvA : MatrixOps.isValid (Addressed.load [[(1 : ℚ), 2, 3, 4], [5, 6, 7, 8]] (some ⟨2, 2, some 0⟩)) = true := by
    rw [hlA]
    exact isValid_mk 2 2 _ (by decide) (by decide)
  have hrA : Rep (Addressed.load [[(1 : ℚ), 2, 3, 4], [5, 6, 7, 8]] (some ⟨2, 2, some 0⟩)) := by
    rw [hlA]
    exact rep_mk 2 2 _ rfl (by decide)
  have hvB : MatrixOps.isValid (Addressed.load [[(1 : ℚ), 2, 3, 4], [5, 6, 7, 8]] (some ⟨2, 2, some 1⟩)) = true := by
    rw [hlB]
    exact isValid_mk 2 2 _ (by decide) (by decide)
  have hrB : Rep (Addressed.load [[(1 : ℚ), 2, 3, 4], [5, 6, 7, 8]] (some ⟨2, 2, some 1⟩)) := by
    rw [hlB]
    exact rep_mk 2 2 _ rfl (by decide)
  have h := add_distinct_operands [[(1 : ℚ), 2, 3, 4], [5, 6, 7, 8]] ⟨2, 2, some 0⟩ ⟨2, 2, some 1⟩ hvA hrA hvB
    hrB rfl rfl
  exact ⟨⟨hvA, hrA, hvB, hrB⟩, h.1, (h.2.2.2.2.2.1 (by decide)).2.2⟩

/-- Witness of C27: with `[[1,2],[3,4]]` in block 0 and `[[5,6],[7,8]]` in block 1,
`subtract` returns 0 and the second operand denotes the same matrix after the call. -/
theorem subtract_undoes_add_distinct_witness :
    (MatrixOps.isValid (Addressed.load [[(1 : ℚ), 2, 3, 4], [5, 6, 7, 8]] (some ⟨2, 2, some 0⟩)) = true ∧
      Rep (Addressed.load [[(1 : ℚ), 2, 3, 4], [5, 6, 7, 8]] (some ⟨2, 2, some 0⟩)) ∧
      MatrixOps.isValid (Addressed.load [[(1 : ℚ), 2, 3, 4], [5, 6, 7, 8]] (some ⟨2, 2, some 1⟩)) = true ∧
      Rep (Addressed.load [[(1 : ℚ), 2, 3, 4], [5, 6, 7, 8]] (some ⟨2, 2, some 1⟩))) ∧
    (Addressed.subtract [[(1 : ℚ), 2, 3, 4], [5, 6, 7, 8]] (some ⟨2, 2, some 0⟩) (some ⟨2, 2, some 1⟩)).1 = 0 ∧
    Addressed.load (Addressed.subtract [[(1 : ℚ), 2, 3, 4], [5, 6, 7, 8]] (some ⟨2, 2, some 0⟩) (some ⟨2, 2, some 1⟩)).2 (some ⟨2, 2, some 1⟩)
      = Addressed.load [[(1 : ℚ), 2, 3, 4], [5, 6, 7, 8]] (some ⟨2, 2, some 1⟩) := by
  have hlA : Addressed.load [[(1 : ℚ), 2, 3, 4], [5, 6, 7, 8]] (some ⟨2, 2, some 0⟩)
      = mk 2 2 [(1 : ℚ), 2, 3, 4] := addressed_load_mk _ 2 2 0 _ rfl
  have hlB : Addressed.load [[(1 : ℚ), 2, 3, 4], [5, 6, 7, 8]] (some ⟨2, 2, some 1⟩)
      = mk 2 2 [(5 : ℚ), 6, 7, 8] := addressed_load_mk _ 2 2 1 _ rfl
  have hvA : MatrixOps.isValid (Addressed.load [[(1 : ℚ), 2, 3, 4], [5, 6, 7, 8]] (some ⟨2, 2, some 0⟩)) = true := by
    rw [hlA]
    exact isValid_mk 2 2 _ (by decide) (by decide)
  have hrA : Rep (Addressed.load [[(1 : ℚ), 2, 3, 4], [5, 6, 7, 8]] (some ⟨2, 2, some 0⟩)) := by
    rw [hlA]
    exact rep_mk 2 2 _ rfl (by decide)
  have hvB : MatrixOps.isValid (Addressed.load [[(1 : ℚ), 2, 3, 4], [5, 6, 7, 8]] (some ⟨2, 2, some 1⟩)) = true := by
    rw [hlB]
    exact isValid_mk 2 2 _ (by decide) (by decide)
  have hrB : Rep (Addressed.load [[(1 : ℚ), 2, 3, 4], [5, 6, 7, 8]] (some ⟨2, 2, some 1⟩)) := by
    rw [hlB]
    exact rep_mk 2 2 _ rfl (by decide)
  have h := subtract_undoes_add_distinct [[(1 : ℚ), 2, 3, 4], [5, 6, 7, 8]] ⟨2, 2, some 0⟩ ⟨2, 2, some 1⟩ hvA hrA hvB
    hrB rfl rfl
  exact ⟨⟨hvA, hrA, hvB, hrB⟩, h.1, (h.2.2.1 (by decide)).2.1⟩

/-- Witness of C29: with `[[1,2],[3,4]]` in block 0 and `[[5,6],[7,8]]` in block 1,
`elementWise` with the product returns 0 and the second operand denotes the same matrix
after the call. -/
theorem elementWise_distinct_operands_witness :
    (MatrixOps.isValid (Addressed.load [[(1 : ℚ), 2, 3, 4], [5, 6, 7, 8]] (some ⟨2, 2, some 0⟩)) = true ∧
      Rep (Addressed.load [[(1 : ℚ), 2, 3, 4], [5, 6, 7, 8]] (some ⟨2, 2, some 0⟩)) ∧
      MatrixOps.isValid (Addressed.load [[(1 : ℚ), 2, 3, 4], [5, 6, 7, 8]] (some ⟨2, 2, some 1⟩)) = true ∧
      Rep (Addressed.load [[(1 : ℚ), 2, 3, 4], [5, 6, 7, 8]] (some ⟨2, 2, some 1⟩))) ∧
    (Addressed.elementWise [[(1 : ℚ), 2, 3, 4], [5, 6, 7, 8]] (some ⟨2, 2, some 0⟩) (some ⟨2, 2, some 1⟩) (fun x y => x * y)).1 = 0 ∧
    Addressed.load (Addressed.elementWise [[(1 : ℚ), 2, 3, 4], [5, 6, 7, 8]] (some ⟨2, 2, some 0⟩) (some ⟨2, 2, some 1⟩) (fun x y => x * y)).2 (some ⟨2, 2, some 1⟩)
      = Addressed.load [[(1 : ℚ), 2, 3, 4], [5, 6, 7, 8]] (some ⟨2, 2, some 1⟩) := by
  have hlA : Addressed.load [[(1 : ℚ), 2, 3, 4], [5, 6, 7, 8]] (some ⟨2, 2, some 0⟩)
      = mk 2 2 [(1 : ℚ), 2, 3, 4] := addressed_load_mk _ 2 2 0 _ rfl
  have hlB : Addressed.load [[(1 : ℚ), 2, 3, 4], [5, 6, 7, 8]] (some ⟨2, 2, some 1⟩)
      = mk 2 2 [(5 : ℚ), 6, 7, 8] := addressed_load_mk _ 2 2 1 _ rfl
  have hvA : MatrixOps.isValid (Addressed.load [[(1 : ℚ), 2, 3, 4], [5, 6, 7, 8]] (some ⟨2, 2, some 0⟩)) = true := by
    rw [hlA]
    exact isValid_mk 2 2 _ (by decide) (by decide)
  have hrA : Rep (Addressed.load [[(1 : ℚ), 2, 3, 4], [5, 6, 7, 8]] (some ⟨2, 2, some 0⟩)) := by
    rw [hlA]
    exact rep_mk 2 2 _ rfl (by decide)
  have hvB : MatrixOps.isValid (Addressed.load [[(1 : ℚ), 2, 3, 4], [5, 6, 7, 8]] (some ⟨2, 2, some 1⟩)) = true := by
    rw [hlB]
    exact isValid_mk 2 2 _ (by decide) (by decide)
  have hrB : Rep (Addressed.load [[(1 : ℚ), 2, 3, 4], [5, 6, 7, 8]] (some ⟨2, 2, some 1⟩)) := by
    rw [hlB]
    exact rep_mk 2 2 _ rfl (by decide)
  have h := elementWise_distinct_operands [[(1 : ℚ), 2, 3, 4], [5, 6, 7, 8]] ⟨2, 2, some 0⟩ ⟨2, 2, some 1⟩ (fun x y => x * y) hvA hrA hvB
    hrB rfl rfl
  exact ⟨⟨hvA, hrA, hvB, hrB⟩, h.1, (h.2.2.2.2.2.1 (by decide)).2.2⟩

end Claims

end NeuralNet
